import Mathlib

/-! COMPAS grid-file ingestion and white dwarf shells: a shallow embedding of `main.cpp`
and `WhiteDwarfs.cpp`

The grid readers of `src/src/main.cpp` (`OpenSSEGridFile`, `ReadSSEGridRecord`,
`OpenBSEGridFile`, `ReadBSEGridRecord`) are embedded as Lean functions over an explicit
model of `std::ifstream`.

* A C++ `std::string` is a `List Char`.
* A `std::ifstream` is a record of the bytes of the attached file, the get position and the
  `is_open` / `eofbit` / `failbit` flags; every stream operation is a pure function on it.
* `while` loops over `std::getline` are recursive functions with a fuel argument; the
  entry points supply `content.length + 2`, which is more than the number of lines.
* `double` values are an arbitrary linearly ordered type `V` with a zero (stream extraction
  yields no NaN, and `-0.0` compares equal to `0.0`); the extraction `tokenSS >> value`,
  `std::to_string`, the option `OPTIONS->Metallicity()` and
  `utils::ConvertPeriodInDaysToSemiMajorAxisInAU` are fields of the environment `Env V`.
* Diagnostics written with `SAY` are not part of the state.
* A store through `operator[]` past the end of a `std::vector` is undefined behaviour in
  C++; the paired-object reader returns `none` in that case.
* `WhiteDwarfs::ResolveShellChange` of `src/src/WhiteDwarfs.cpp` is a function on a record of
  the data members it reads or writes, over an arbitrary number type with an addition.
* The accretion efficiencies and the radius of `WhiteDwarfs.cpp` are functions over an
  arbitrary ordered field; `utils::Compare`, `PPOW`, `std::cbrt`, `std::sqrt` and the
  constants of `constants.h` are fields of the environment `WDEnv`.
* `EvolveSingleStars` and `EvolveBinaryStars` are loops with a fuel argument over a record of
  their local variables; the options and the collaborators outside `main.cpp` (`Evolve`,
  the file close, the early-stop predicate) are fields of `RunEnv`, and the constructor and
  `Evolve` calls are recorded in order.
-/

set_option autoImplicit false

namespace COMPAS

/-- A C++ string: a list of characters. -/
abbrev Str := List Char

/-! ## Strings -/

/-- The effect of `record.find("#")` followed by `erase`: drop the first `#` and what follows. -/
def pruneComment (r : Str) : Str := r.takeWhile (fun c => c != '#')

/-- The loop `for pos ... if (record[pos] == '\t') record[pos] = ' '`. -/
def tabsToSpaces (r : Str) : Str := r.map (fun c => if c = '\t' then ' ' else c)

/-- The loop `while (s.size() > 0 && s[0] == ' ') s.erase(0, 1)`. -/
def stripLeading (r : Str) : Str := r.dropWhile (fun c => c == ' ')

/-- The loop erasing trailing `'\r'`, `'\n'` and `' '` characters. -/
def stripTrailing (r : Str) : Str :=
  r.rdropWhile (fun c => c == '\r' || c == '\n' || c == ' ')

/-- Leading and trailing strip applied to a token (and to a record). -/
def trimToken (t : Str) : Str := stripTrailing (stripLeading t)

/-- Line normalisation of the two header parsers: comment pruned, then trimmed.
Tabs are left alone. -/
def normHeader (r : Str) : Str := trimToken (pruneComment r)

/-- Line normalisation of the two record readers: comment pruned, tabs replaced by spaces,
then trimmed. -/
def normRecord (r : Str) : Str := trimToken (tabsToSpaces (pruneComment r))

/-- The token sequence produced by `while (std::getline(recordSS, token, ','))`:
the pieces between commas, where nothing is produced after a final comma. -/
def getTokens : Str → List Str
  | [] => []
  | c :: cs =>
    if c = ',' then [] :: getTokens cs
    else
      match getTokens cs with
      | [] => [[c]]
      | t :: ts => (c :: t) :: ts

/-- Modelled from the spec: `utils::ToUpper` (declared in `utils.h`, not under `src/`)
upper-cases the ASCII letters of a string. -/
def ToUpper (s : Str) : Str := s.map Char.toUpper

/-- Modelled from the spec: `utils::Equals` (declared in `utils.h`, not under `src/`)
compares two strings without regard to letter case. -/
def Equals (a b : Str) : Bool := ToUpper a == ToUpper b

/-! Column names. The string switch `switch (_(token.c_str()))` of the source uses the
helper `_` of `constants.h` (not under `src/`); it is taken to identify a string, so that a
`case _("NAME")` is selected exactly by the string `NAME`. -/

def sMASS : Str := "MASS".toList
def sMETALLICITY : Str := "METALLICITY".toList
def sMASS_1 : Str := "MASS_1".toList
def sMASS_2 : Str := "MASS_2".toList
def sMETALLICITY_1 : Str := "METALLICITY_1".toList
def sMETALLICITY_2 : Str := "METALLICITY_2".toList
def sSEPARATION : Str := "SEPARATION".toList
def sECCENTRICITY : Str := "ECCENTRICITY".toList
def sPERIOD : Str := "PERIOD".toList
def sKICK_VELOCITY_1 : Str := "KICK_VELOCITY_1".toList
def sKICK_THETA_1 : Str := "KICK_THETA_1".toList
def sKICK_PHI_1 : Str := "KICK_PHI_1".toList
def sKICK_MEAN_ANOMALY_1 : Str := "KICK_MEAN_ANOMALY_1".toList
def sKICK_VELOCITY_2 : Str := "KICK_VELOCITY_2".toList
def sKICK_THETA_2 : Str := "KICK_THETA_2".toList
def sKICK_PHI_2 : Str := "KICK_PHI_2".toList
def sKICK_MEAN_ANOMALY_2 : Str := "KICK_MEAN_ANOMALY_2".toList

/-! ## The input file stream -/

/-- State of a `std::ifstream`. -/
structure IfStream where
  /-- bytes of the file the stream is attached to -/
  content : Str
  /-- get position -/
  pos : Nat
  /-- result of `is_open()` -/
  isOpen : Bool
  eofbit : Bool
  failbit : Bool
  deriving DecidableEq, Repr

namespace IfStream

/-- A default-constructed stream. -/
def fresh : IfStream := ⟨[], 0, false, false, false⟩

/-- The member `fail()`. -/
def fail (g : IfStream) : Bool := g.failbit

/-- The member `open(name)`; `file` is the content of the named file, `none` when it cannot
be opened. Opening a stream that is already open fails. -/
def openFile (g : IfStream) (file : Option Str) : IfStream :=
  if g.isOpen then { g with failbit := true }
  else
    match file with
    | none => { g with failbit := true }
    | some c => { content := c, pos := 0, isOpen := true, eofbit := false, failbit := false }

/-- The member `close()`. -/
def close (g : IfStream) : IfStream := { g with isOpen := false }

/-- The member `tellg()`: `-1` when the stream is not good (the sentry then sets `failbit`)
or not open, the get position otherwise. -/
def tellg (g : IfStream) : Int × IfStream :=
  if g.eofbit || g.failbit then (-1, { g with failbit := true })
  else if !g.isOpen then (-1, g)
  else ((g.pos : Int), g)

/-- The member `seekg(p)` (C++11): clears `eofbit`, then repositions unless `fail()`. -/
def seekg (g : IfStream) (p : Int) : IfStream :=
  let g1 := { g with eofbit := false }
  if g1.failbit then g1
  else if !g1.isOpen || p < 0 then { g1 with failbit := true }
  else { g1 with pos := p.toNat }

/-- The call `std::getline(g, record)`: the extracted line (`none` when the call fails) and
the new stream state. The newline is consumed and not stored. -/
def getline (g : IfStream) : Option Str × IfStream :=
  if g.eofbit || g.failbit then (none, { g with failbit := true })
  else if !g.isOpen then (none, { g with eofbit := true, failbit := true })
  else
    let rest := g.content.drop g.pos
    let line := rest.takeWhile (fun c => c != '\n')
    if line.length < rest.length then
      (some line, { g with pos := g.pos + line.length + 1 })
    else if rest.isEmpty then
      (none, { g with eofbit := true, failbit := true })
    else
      (some line, { g with pos := g.pos + line.length, eofbit := true })

end IfStream

/-- Conversion of a stream position to the 32-bit `int` of `int currentPos = p_Grid.tellg()`. -/
def toInt32 (n : Int) : Int := (n + 2147483648) % 4294967296 - 2147483648

/-! ## Environment -/

/-- What the grid readers take from outside `main.cpp`. -/
structure Env (V : Type) where
  /-- `OPTIONS->GridFilename()` -/
  gridFilename : Str
  /-- content of the file of that name; `none` when it cannot be opened -/
  gridFile : Option Str
  /-- `OPTIONS->Metallicity()` -/
  metallicity : V
  /-- the extraction `tokenSS >> value`: `none` when `tokenSS.fail()` -/
  parse : Str → Option V
  /-- `std::to_string` on a `double` -/
  toStr : V → Str
  /-- `utils::ConvertPeriodInDaysToSemiMajorAxisInAU(mass1, mass2, period)` -/
  kepler : V → V → V → V

/-! ## OpenSSEGridFile -/

/-- Local variables of `OpenSSEGridFile`. -/
structure SSEHeader where
  gridHeaders : List Str
  mass : Nat
  metallicity : Nat
  unknown : Nat
  tokenCount : Nat
  currentPos : Int
  lineNo : Nat
  deriving DecidableEq, Repr

/-- One iteration of the token loop of `OpenSSEGridFile`. -/
def sseHeaderToken (st : SSEHeader) (tok : Str) : SSEHeader :=
  let st := { st with tokenCount := st.tokenCount + 1 }
  let token := trimToken tok
  if token.isEmpty then st
  else if token = sMASS then
    { st with mass := st.mass + 1, gridHeaders := st.gridHeaders ++ [token] }
  else if token = sMETALLICITY then
    { st with metallicity := st.metallicity + 1, gridHeaders := st.gridHeaders ++ [token] }
  else { st with unknown := st.unknown + 1 }

/-- The loop `while (emptyRecord && !readFailed)` of `OpenSSEGridFile`. -/
def sseHeaderLoop : Nat → IfStream → SSEHeader → IfStream × SSEHeader
  | 0, g, st => (g, st)
  | fuel + 1, g, st =>
    let (p, g1) := g.tellg
    let st := { st with currentPos := toInt32 p }
    match g1.getline with
    | (none, g2) => (g2, st)
    | (some record, g2) =>
      let record := normHeader record
      if record.isEmpty then sseHeaderLoop fuel g2 { st with lineNo := st.lineNo + 1 }
      else
        let st := (getTokens (ToUpper record)).foldl sseHeaderToken st
        (g2, { st with lineNo := st.lineNo + 1 })

/-- The function `OpenSSEGridFile`: the stream after the call, the line number of the next
line, and the header strings. -/
def OpenSSEGridFile {V : Type} (env : Env V) (p_Grid : IfStream) :
    IfStream × Nat × List Str :=
  let (p0, g0) := p_Grid.tellg
  let st0 : SSEHeader := ⟨[], 0, 0, 0, 0, toInt32 p0, 1⟩
  let (g, st) :=
    if !env.gridFilename.isEmpty then
      let g1 := g0.openFile env.gridFile
      if g1.fail then (g1, st0)
      else sseHeaderLoop (g1.content.length + 2) g1 st0
    else (g0, st0)
  if st.mass ≠ 1 ∨ st.metallicity > 1 then
    if st.tokenCount > 1 ∨ st.mass ≥ 1 ∨ st.metallicity ≥ 1 then
      ((if g.isOpen then g.close else g), st.lineNo, st.gridHeaders)
    else
      (g.seekg st.currentPos, st.lineNo, [sMASS])
  else (g, st.lineNo, st.gridHeaders)

section Readers

variable {V : Type} [LinearOrder V] [Zero V]

/-! ## ReadSSEGridRecord -/

/-- Local variables of `ReadSSEGridRecord` inside the token loop. -/
structure SSERow (V : Type) where
  error : Bool
  gridValues : List V
  column : Nat

/-- One iteration of the token loop of `ReadSSEGridRecord` (entered only when `!error`). -/
def sseRowToken (env : Env V) (hdr : List Str) (st : SSERow V) (tok : Str) : SSERow V :=
  let token := trimToken tok
  let st1 : SSERow V :=
    if st.column ≥ hdr.length then st
    else
      let token :=
        if token.isEmpty then
          (if Equals (hdr.getD st.column []) sMETALLICITY then env.toStr env.metallicity
           else "0.0".toList)
        else token
      match env.parse token with
      | none => { st with error := true }
      | some value =>
        if value < 0 then { st with error := true }
        else
          let columnName := hdr.getD st.column []
          if columnName = sMASS then { st with gridValues := st.gridValues.set 0 value }
          else if columnName = sMETALLICITY then
            { st with gridValues := st.gridValues.set 1 value }
          else st
  { st1 with column := st1.column + 1 }

/-- The loop `while (!error && std::getline(recordSS, token, ','))` of `ReadSSEGridRecord`. -/
def sseRowLoop (env : Env V) (hdr : List Str) : List Str → SSERow V → SSERow V
  | [], st => st
  | tok :: rest, st =>
    if st.error then st else sseRowLoop env hdr rest (sseRowToken env hdr st tok)

/-- Body of the record loop of `ReadSSEGridRecord` for one non-empty record: the error flag
and the grid values after it. -/
def sseRecord (env : Env V) (hdr : List Str) (record : Str) (gridValues : List V) : Bool × List V :=
  let st := sseRowLoop env hdr (getTokens record) ⟨false, gridValues, 0⟩
  if st.error then (true, st.gridValues)
  else
    let gv1 :=
      if st.column < hdr.length then
        (List.range' st.column (hdr.length - st.column)).foldl
          (fun gv _ =>
            if Equals (hdr.getD st.column []) sMETALLICITY then gv.set 1 env.metallicity
            else gv)
          st.gridValues
      else st.gridValues
    let gv2 :=
      if hdr.length = 1 ∧ Equals (hdr.getD 0 []) "Mass".toList then gv1.set 1 env.metallicity
      else gv1
    (false, gv2)

/-- The loop `while (!error && emptyRecord && std::getline(p_Grid, record))` of
`ReadSSEGridRecord`: stream, line number, error flag and grid values after it. -/
def sseRecordLoop (env : Env V) (hdr : List Str) :
    Nat → IfStream → Nat → List V → IfStream × Nat × Bool × List V
  | 0, g, lineNo, gv => (g, lineNo, false, gv)
  | fuel + 1, g, lineNo, gv =>
    match g.getline with
    | (none, g1) => (g1, lineNo, false, gv)
    | (some record, g1) =>
      let record := normRecord record
      if record.isEmpty then sseRecordLoop env hdr fuel g1 (lineNo + 1) gv
      else
        let (error, gv1) := sseRecord env hdr record gv
        (g1, lineNo + 1, error, gv1)

/-- The function `ReadSSEGridRecord`: the stream after the call, the line number of the next
line, and the grid values (empty after an error). -/
def ReadSSEGridRecord (env : Env V) (p_Grid : IfStream) (p_GridHeaders : List Str) (p_LineNo : Nat) :
    IfStream × Nat × List V :=
  let (g, lineNo, error, gridValues) :=
    sseRecordLoop env p_GridHeaders (p_Grid.content.length + 2) p_Grid p_LineNo [0, 0]
  (g, lineNo, if error then [] else gridValues)

/-! ## OpenBSEGridFile -/

/-- Local variables of `OpenBSEGridFile`. -/
structure BSEHeader where
  gridHeaders : List Str
  mass1 : Nat
  mass2 : Nat
  metallicity1 : Nat
  metallicity2 : Nat
  separation : Nat
  eccentricity : Nat
  period : Nat
  kickVelocity1 : Nat
  kickTheta1 : Nat
  kickPhi1 : Nat
  kickMeanAnomaly1 : Nat
  kickVelocity2 : Nat
  kickTheta2 : Nat
  kickPhi2 : Nat
  kickMeanAnomaly2 : Nat
  lineNo : Nat
  deriving DecidableEq, Repr

/-- One iteration of the token loop of `OpenBSEGridFile`. -/
def bseHeaderToken (st : BSEHeader) (tok : Str) : BSEHeader :=
  let token := trimToken tok
  if token.isEmpty then st
  else if token = sMASS_1 then
    { st with mass1 := st.mass1 + 1, gridHeaders := st.gridHeaders ++ [token] }
  else if token = sMASS_2 then
    { st with mass2 := st.mass2 + 1, gridHeaders := st.gridHeaders ++ [token] }
  else if token = sMETALLICITY_1 then
    { st with metallicity1 := st.metallicity1 + 1, gridHeaders := st.gridHeaders ++ [token] }
  else if token = sMETALLICITY_2 then
    { st with metallicity2 := st.metallicity2 + 1, gridHeaders := st.gridHeaders ++ [token] }
  else if token = sSEPARATION then
    { st with separation := st.separation + 1, gridHeaders := st.gridHeaders ++ [token] }
  else if token = sECCENTRICITY then
    { st with eccentricity := st.eccentricity + 1, gridHeaders := st.gridHeaders ++ [token] }
  else if token = sPERIOD then
    { st with period := st.period + 1, gridHeaders := st.gridHeaders ++ [token] }
  else if token = sKICK_VELOCITY_1 then
    { st with kickVelocity1 := st.kickVelocity1 + 1, gridHeaders := st.gridHeaders ++ [token] }
  else if token = sKICK_THETA_1 then
    { st with kickTheta1 := st.kickTheta1 + 1, gridHeaders := st.gridHeaders ++ [token] }
  else if token = sKICK_PHI_1 then
    { st with kickPhi1 := st.kickPhi1 + 1, gridHeaders := st.gridHeaders ++ [token] }
  else if token = sKICK_MEAN_ANOMALY_1 then
    { st with kickMeanAnomaly1 := st.kickMeanAnomaly1 + 1,
              gridHeaders := st.gridHeaders ++ [token] }
  else if token = sKICK_VELOCITY_2 then
    { st with kickVelocity2 := st.kickVelocity2 + 1, gridHeaders := st.gridHeaders ++ [token] }
  else if token = sKICK_THETA_2 then
    { st with kickTheta2 := st.kickTheta2 + 1, gridHeaders := st.gridHeaders ++ [token] }
  else if token = sKICK_PHI_2 then
    { st with kickPhi2 := st.kickPhi2 + 1, gridHeaders := st.gridHeaders ++ [token] }
  else if token = sKICK_MEAN_ANOMALY_2 then
    { st with kickMeanAnomaly2 := st.kickMeanAnomaly2 + 1,
              gridHeaders := st.gridHeaders ++ [token] }
  else st

/-- The loop `while (emptyRecord && std::getline(p_Grid, record))` of `OpenBSEGridFile`. -/
def bseHeaderLoop : Nat → IfStream → BSEHeader → IfStream × BSEHeader
  | 0, g, st => (g, st)
  | fuel + 1, g, st =>
    match g.getline with
    | (none, g1) => (g1, st)
    | (some record, g1) =>
      let record := normHeader record
      if record.isEmpty then bseHeaderLoop fuel g1 { st with lineNo := st.lineNo + 1 }
      else
        let st := (getTokens (ToUpper record)).foldl bseHeaderToken st
        (g1, { st with lineNo := st.lineNo + 1 })

/-- The sum of the eight kick-column counters. -/
def BSEHeader.kickSum (st : BSEHeader) : Nat :=
  st.kickVelocity1 + st.kickTheta1 + st.kickPhi1 + st.kickMeanAnomaly1 +
    st.kickVelocity2 + st.kickTheta2 + st.kickPhi2 + st.kickMeanAnomaly2

/-- The first parenthesised group of the final check of `OpenBSEGridFile` (the operand of
`!`): the counts of the mandatory columns. -/
def BSEHeader.requiredOk (st : BSEHeader) : Bool :=
  st.mass1 == 1 && st.mass2 == 1 && st.metallicity1 == 1 && st.metallicity2 == 1 &&
    decide (st.separation ≤ 1) && decide (st.period ≤ 1) &&
    decide (st.separation + st.period > 0) && st.eccentricity == 1

/-- The second parenthesised group of the final check of `OpenBSEGridFile`: no kick column,
or each of the eight exactly once. -/
def BSEHeader.kicksOk (st : BSEHeader) : Bool :=
  st.kickSum == 0 ||
    (st.kickVelocity1 == 1 && st.kickTheta1 == 1 && st.kickPhi1 == 1 &&
      st.kickMeanAnomaly1 == 1 && st.kickVelocity2 == 1 && st.kickTheta2 == 1 &&
      st.kickPhi2 == 1 && st.kickMeanAnomaly2 == 1)

/-- The function `OpenBSEGridFile`: the stream after the call, the line number of the next
line, and the header strings. The final test is `!(required) && (kicks)`, as written. -/
def OpenBSEGridFile (env : Env V) (p_Grid : IfStream) : IfStream × Nat × List Str :=
  let st0 : BSEHeader := ⟨[], 0, 0, 0, 0, 0, 0, 0, 0, 0, 0, 0, 0, 0, 0, 0, 1⟩
  let (g, st) :=
    if !env.gridFilename.isEmpty then
      let g1 := p_Grid.openFile env.gridFile
      if g1.fail then (g1, st0)
      else bseHeaderLoop (g1.content.length + 2) g1 st0
    else (p_Grid, st0)
  if !st.requiredOk && st.kicksOk then
    ((if g.isOpen then g.close else g), st.lineNo, st.gridHeaders)
  else (g, st.lineNo, st.gridHeaders)

/-! ## ReadBSEGridRecord -/

/-- Local variables of `ReadBSEGridRecord` inside the token loop. -/
structure BSERow (V : Type) where
  error : Bool
  gridValues : List V
  period : V
  column : Nat

/-- The assignment `gridValues[i] = value`; `none` when `i` is past the end of the vector. -/
def storeAt (gv : List V) (i : Nat) (value : V) : Option (List V) :=
  if i < gv.length then some (gv.set i value) else none

/-- A `case` of the column switch whose value must not be negative. -/
def storeChecked (st : BSERow V) (i : Nat) (value : V) : Option (BSERow V) :=
  if value < 0 then some { st with error := true }
  else (storeAt st.gridValues i value).map (fun gv => { st with gridValues := gv })

/-- A `case` of the column switch that stores the value as it is. -/
def storeKick (st : BSERow V) (i : Nat) (value : V) : Option (BSERow V) :=
  (storeAt st.gridValues i value).map (fun gv => { st with gridValues := gv })

/-- The statement `switch (_(columnName.c_str()))` of `ReadBSEGridRecord`. -/
def bseStore (st : BSERow V) (columnName : Str) (value : V) : Option (BSERow V) :=
  if columnName = sMASS_1 then storeChecked st 0 value
  else if columnName = sMASS_2 then storeChecked st 1 value
  else if columnName = sMETALLICITY_1 then storeChecked st 2 value
  else if columnName = sMETALLICITY_2 then storeChecked st 3 value
  else if columnName = sSEPARATION then storeChecked st 4 value
  else if columnName = sECCENTRICITY then storeChecked st 5 value
  else if columnName = sPERIOD then some { st with period := value }
  else if columnName = sKICK_VELOCITY_1 then storeKick st 6 value
  else if columnName = sKICK_THETA_1 then storeKick st 7 value
  else if columnName = sKICK_PHI_1 then storeKick st 8 value
  else if columnName = sKICK_MEAN_ANOMALY_1 then storeKick st 9 value
  else if columnName = sKICK_VELOCITY_2 then storeKick st 10 value
  else if columnName = sKICK_THETA_2 then storeKick st 11 value
  else if columnName = sKICK_PHI_2 then storeKick st 12 value
  else if columnName = sKICK_MEAN_ANOMALY_2 then storeKick st 13 value
  else some st

/-- One iteration of the token loop of `ReadBSEGridRecord` (entered only when `!error`). -/
def bseRowToken (env : Env V) (hdr : List Str) (st : BSERow V) (tok : Str) :
    Option (BSERow V) :=
  let token := trimToken tok
  let st1 : Option (BSERow V) :=
    if st.column ≥ hdr.length then some st
    else
      let token := if token.isEmpty then "0.0".toList else token
      match env.parse token with
      | none => some { st with error := true }
      | some value => bseStore st (hdr.getD st.column []) value
  st1.map (fun s => { s with column := s.column + 1 })

/-- The loop `while (!error && std::getline(recordSS, token, ','))` of `ReadBSEGridRecord`. -/
def bseRowLoop (env : Env V) (hdr : List Str) : List Str → BSERow V → Option (BSERow V)
  | [], st => some st
  | tok :: rest, st =>
    if st.error then some st
    else
      match bseRowToken env hdr st tok with
      | none => none
      | some st1 => bseRowLoop env hdr rest st1

/-- Body of the record loop of `ReadBSEGridRecord` for one non-empty record: the error flag
and the grid values after it. -/
def bseRecord (env : Env V) (hdr : List Str) (record : Str) (gridValues : List V) :
    Option (Bool × List V) :=
  match bseRowLoop env hdr (getTokens record) ⟨false, gridValues, 0, 0⟩ with
  | none => none
  | some st =>
    if st.error then some (true, st.gridValues)
    else if st.gridValues.getD 4 0 ≤ 0 ∧ st.period > 0 ∧ st.gridValues.getD 0 0 > 0 ∧
        st.gridValues.getD 1 0 > 0 then
      some (false, st.gridValues.set 4
        (env.kepler (st.gridValues.getD 0 0) (st.gridValues.getD 1 0) st.period))
    else some (false, st.gridValues)

/-- The loop `while (!error && emptyRecord && std::getline(p_Grid, record))` of
`ReadBSEGridRecord`: stream, line number, error flag and grid values after it. -/
def bseRecordLoop (env : Env V) (hdr : List Str) :
    Nat → IfStream → Nat → List V → Option (IfStream × Nat × Bool × List V)
  | 0, g, lineNo, gv => some (g, lineNo, false, gv)
  | fuel + 1, g, lineNo, gv =>
    match g.getline with
    | (none, g1) => some (g1, lineNo, false, gv)
    | (some record, g1) =>
      let record := normRecord record
      if record.isEmpty then bseRecordLoop env hdr fuel g1 (lineNo + 1) gv
      else
        (bseRecord env hdr record gv).map (fun r => (g1, lineNo + 1, r.1, r.2))

/-- The function `ReadBSEGridRecord`: the stream after the call, the line number of the next
line, and the grid values (empty after an error); `none` when a store ran past the end of
`gridValues`. -/
def ReadBSEGridRecord (env : Env V) (p_Grid : IfStream) (p_GridHeaders : List Str)
    (p_LineNo : Nat) : Option (IfStream × Nat × List V) :=
  let gridValues : List V :=
    if p_GridHeaders.length = 6 then List.replicate 6 0 else List.replicate 14 0
  (bseRecordLoop env p_GridHeaders (p_Grid.content.length + 2) p_Grid p_LineNo gridValues).map
    (fun r => (r.1, r.2.1, if r.2.2.1 then [] else r.2.2.2))

end Readers

/-! ## EvolveBinaryStars -/

section Binary

variable {V : Type} [Zero V]

/-- The arguments that `EvolveBinaryStars` passes to the `BinaryStar` constructor for a grid
row: the six orbital values and the two brace-enclosed lists of kick parameters. -/
structure BinaryArgs (V : Type) where
  mass1 : V
  mass2 : V
  metallicity1 : V
  metallicity2 : V
  separation : V
  eccentricity : V
  kickParameters1 : List V
  kickParameters2 : List V
  deriving DecidableEq

/-- The choice `if (gridHeaders.size() == 6) ... else ...` of `EvolveBinaryStars` between the
two constructor calls. An index past the end of `gV` reads as `0`; with the vector returned
by `ReadBSEGridRecord` for the same header list every index is inside. -/
def gridBinaryArgs (gridHeaders : List Str) (gV : List V) : BinaryArgs V :=
  if gridHeaders.length = 6 then
    ⟨gV.getD 0 0, gV.getD 1 0, gV.getD 2 0, gV.getD 3 0, gV.getD 4 0, gV.getD 5 0, [], []⟩
  else
    ⟨gV.getD 0 0, gV.getD 1 0, gV.getD 2 0, gV.getD 3 0, gV.getD 4 0, gV.getD 5 0,
      [gV.getD 6 0, gV.getD 7 0, gV.getD 8 0, gV.getD 9 0],
      [gV.getD 10 0, gV.getD 11 0, gV.getD 12 0, gV.getD 13 0]⟩

end Binary

/-! ## WhiteDwarfs::ResolveShellChange -/

/-- Modelled from the spec: the enumeration `ACCRETION_REGIME` (declared in `constants.h`, not
under `src/`): the eleven regimes named in the switch of `ResolveShellChange`, and `OTHER`
for every further enumerator, among them the value of a regime that has not been set. -/
inductive ACCRETION_REGIME where
  | HELIUM_ACCUMULATION
  | HELIUM_FLASHES
  | HELIUM_STABLE_BURNING
  | HELIUM_OPT_THICK_WINDS
  | HELIUM_WHITE_DWARF_HELIUM_SUB_CHANDRASEKHAR
  | HELIUM_WHITE_DWARF_HELIUM_IGNITION
  | HYDROGEN_FLASHES
  | HYDROGEN_STABLE_BURNING
  | HYDROGEN_OPT_THICK_WINDS
  | HELIUM_WHITE_DWARF_HYDROGEN_FLASHES
  | HELIUM_WHITE_DWARF_HYDROGEN_ACCUMULATION
  | OTHER (code : Nat)
  deriving DecidableEq

/-- The data members of a white dwarf that `ResolveShellChange` reads or writes, and the mass
`m_Mass` as one of the members it does not touch. -/
structure WhiteDwarf (R : Type) where
  m_Mass : R
  m_HShell : R
  m_HeShell : R
  m_AccretionRegime : ACCRETION_REGIME
  deriving DecidableEq

/-- The function `WhiteDwarfs::ResolveShellChange`. The `default` case only prints a warning
with `SHOW_WARN`, which is not part of the state. -/
def ResolveShellChange {R : Type} [Add R] (wd : WhiteDwarf R) (p_AccretedMass : R) :
    WhiteDwarf R :=
  match wd.m_AccretionRegime with
  | .HELIUM_ACCUMULATION
  | .HELIUM_FLASHES
  | .HELIUM_STABLE_BURNING
  | .HELIUM_OPT_THICK_WINDS
  | .HELIUM_WHITE_DWARF_HELIUM_SUB_CHANDRASEKHAR
  | .HELIUM_WHITE_DWARF_HELIUM_IGNITION =>
    { wd with m_HeShell := wd.m_HeShell + p_AccretedMass }
  | .HYDROGEN_FLASHES
  | .HYDROGEN_STABLE_BURNING
  | .HYDROGEN_OPT_THICK_WINDS
  | .HELIUM_WHITE_DWARF_HYDROGEN_FLASHES
  | .HELIUM_WHITE_DWARF_HYDROGEN_ACCUMULATION =>
    { wd with m_HShell := wd.m_HShell + p_AccretedMass }
  | .OTHER _ => wd

/-! ## WhiteDwarfs: accretion efficiencies and radius -/

/-- What the white dwarf formulae take from outside `WhiteDwarfs.cpp`: the helper
`utils::Compare`, the macro `PPOW`, the library functions `std::cbrt` and `std::sqrt`, and
the constants of `constants.h`. The result of `sqrt` is `none` where `std::sqrt` returns a
NaN. -/
structure WDEnv (R : Type) where
  /-- `utils::Compare(x, y)`: negative, zero or positive -/
  Compare : R → R → Int
  /-- `PPOW(base, exponent)` -/
  PPOW : R → R → R
  /-- `std::cbrt` -/
  cbrt : R → R
  /-- `std::sqrt` -/
  sqrt : R → Option R
  MT_LIMIT_CRIT_NOMOTO_0 : R
  MT_LIMIT_CRIT_NOMOTO_1 : R
  MT_LIMIT_CRIT_NOMOTO_2 : R
  MT_LIMIT_STABLE_NOMOTO_0 : R
  MT_LIMIT_STABLE_NOMOTO_1 : R
  MT_LIMIT_STABLE_NOMOTO_2 : R
  MT_LIMIT_CRIT_PIERSANTI_0 : R
  MT_LIMIT_CRIT_PIERSANTI_1 : R
  MT_LIMIT_STABLE_PIERSANTI_0 : R
  MT_LIMIT_STABLE_PIERSANTI_1 : R
  MT_LIMIT_DET_PIERSANTI_0 : R
  MT_LIMIT_DET_PIERSANTI_1 : R
  MCH : R
  NEUTRON_STAR_RADIUS : R

section WhiteDwarfFormulae

variable {R : Type} [LinearOrderedField R]

/-- The local `MdotCritH` of `CalculateetaH`. -/
def MdotCritH (env : WDEnv R) (m_Mass : R) : R :=
  env.MT_LIMIT_CRIT_NOMOTO_0 + env.MT_LIMIT_CRIT_NOMOTO_1 * m_Mass +
    env.MT_LIMIT_CRIT_NOMOTO_2 * m_Mass * m_Mass

/-- The local `MdotLowH` of `CalculateetaH`. -/
def MdotLowH (env : WDEnv R) (m_Mass : R) : R :=
  env.MT_LIMIT_STABLE_NOMOTO_0 + env.MT_LIMIT_STABLE_NOMOTO_1 * m_Mass +
    env.MT_LIMIT_STABLE_NOMOTO_2 * m_Mass * m_Mass

/-- The function `WhiteDwarfs::CalculateetaH`. -/
def CalculateetaH (env : WDEnv R) (wd : WhiteDwarf R) (p_LogMassRate : R) : R :=
  if env.Compare p_LogMassRate (MdotCritH env wd.m_Mass) ≥ 0 then
    env.PPOW 10 (MdotCritH env wd.m_Mass - p_LogMassRate)
  else if env.Compare p_LogMassRate (MdotCritH env wd.m_Mass) < 0 ∧
      env.Compare p_LogMassRate (MdotLowH env wd.m_Mass) ≥ 0 then 1
  else 0

/-- The function `WhiteDwarfs::CalculateetaPTY`. -/
def CalculateetaPTY (env : WDEnv R) (wd : WhiteDwarf R) (p_LogMassRate : R) : R :=
  let massRate := env.PPOW 10 p_LogMassRate
  if env.Compare wd.m_Mass 0.6 ≤ 0 then
    6e-3 + 5.1e-2 * massRate + 8.3e-3 * env.PPOW massRate 2 - 3.317e-4 * env.PPOW massRate 3
  else if wd.m_Mass ≤ 0.7 ∧ wd.m_Mass > 0.6 then
    -3.5e-2 + 7.5e-2 * massRate - 1.8e-3 * env.PPOW massRate 2 + 3.266e-5 * env.PPOW massRate 3
  else if env.Compare wd.m_Mass 0.81 ≤ 0 ∧ env.Compare wd.m_Mass 0.7 > 0 then
    9.3e-2 + 1.8e-2 * massRate + 1.6e-3 * env.PPOW massRate 2 - 4.111e-5 * env.PPOW massRate 3
  else if env.Compare wd.m_Mass 0.92 ≤ 0 ∧ env.Compare wd.m_Mass 0.81 > 0 then
    -7.59e-2 + 1.54e-2 * massRate + 4e-4 * env.PPOW massRate 2 -
      5.905e-6 * env.PPOW massRate 3
  else
    -0.323 + 4.1e-2 * massRate - 7e-4 * env.PPOW massRate 2 + 4.733e-6 * env.PPOW massRate 3

/-- The local `MdotCritHe` of `CalculateetaHe`. -/
def MdotCritHe (env : WDEnv R) (m_Mass : R) : R :=
  env.MT_LIMIT_CRIT_PIERSANTI_0 + env.MT_LIMIT_CRIT_PIERSANTI_1 * m_Mass

/-- The local `MdotLowHe` of `CalculateetaHe`. -/
def MdotLowHe (env : WDEnv R) (m_Mass : R) : R :=
  env.MT_LIMIT_STABLE_PIERSANTI_0 + env.MT_LIMIT_STABLE_PIERSANTI_1 * m_Mass

/-- The local `MdotAccumulation` of `CalculateetaHe`. -/
def MdotAccumulation (env : WDEnv R) (m_Mass : R) : R :=
  env.MT_LIMIT_DET_PIERSANTI_0 + env.MT_LIMIT_DET_PIERSANTI_1 * m_Mass

/-- The function `WhiteDwarfs::CalculateetaHe`. -/
def CalculateetaHe (env : WDEnv R) (wd : WhiteDwarf R) (p_LogMassRate : R) : R :=
  if env.Compare p_LogMassRate (MdotCritHe env wd.m_Mass) ≥ 0 then
    env.PPOW 10 (MdotCritHe env wd.m_Mass - p_LogMassRate)
  else if env.Compare p_LogMassRate (MdotCritHe env wd.m_Mass) < 0 ∧
      env.Compare p_LogMassRate (MdotLowHe env wd.m_Mass) ≥ 0 then 1
  else if env.Compare p_LogMassRate (MdotLowHe env wd.m_Mass) < 0 ∧
      env.Compare p_LogMassRate (MdotAccumulation env wd.m_Mass) ≥ 0 then
    CalculateetaPTY env wd p_LogMassRate
  else 1

/-- The call `std::max(a, b)` of two `double` values of which the second may be a NaN
(`none`): `(a < b) ? b : a`, and the comparison with a NaN is false. -/
def stdMax (a : R) (b : Option R) : R :=
  match b with
  | none => a
  | some b => if a < b then b else a

/-- The function `WhiteDwarfs::CalculateRadiusOnPhase_Static`. A product with a NaN is a
NaN. -/
def CalculateRadiusOnPhase_Static (env : WDEnv R) (p_Mass : R) : R :=
  let MCH_Mass_one_third := env.cbrt (env.MCH / p_Mass)
  let MCH_Mass_two_thirds := MCH_Mass_one_third * MCH_Mass_one_third
  stdMax env.NEUTRON_STAR_RADIUS
    ((env.sqrt (MCH_Mass_two_thirds - 1.0 / MCH_Mass_two_thirds)).map (fun s => 0.0115 * s))

end WhiteDwarfFormulae

/-! ## EvolveSingleStars and EvolveBinaryStars -/

/-- Modelled from the spec: the enumeration `EVOLUTION_STATUS` (declared in `constants.h`,
not under `src/`): the values named in `main.cpp`, and `OTHER` for every further
enumerator, which only `Evolve` can return. -/
inductive EVOLUTION_STATUS where
  | CONTINUE
  | DONE
  | ERROR
  | STOPPED
  | AIS_EXPLORATORY
  | OTHER (code : Nat)
  deriving DecidableEq

/-- The arguments of the constructor call `new Star(randomSeed, mass, metallicity)`. -/
structure StarArgs (V : Type) where
  randomSeed : Nat
  mass : V
  metallicity : V
  deriving DecidableEq

/-- The two constructor calls of `BinaryStar` in `EvolveBinaryStars`: with the orbital values
and kick parameters, or with the index alone (a random binary). -/
inductive BinaryCtor (V : Type) where
  | specified (args : BinaryArgs V) (index : Nat)
  | random (index : Nat)
  deriving DecidableEq

/-- What a population loop does with its objects: a constructor call, and a call of `Evolve`
through the object pointer (`none` for a null pointer) with the status it returned. -/
inductive Event (Obj : Type) where
  | construct (index : Nat) (obj : Obj)
  | evolve (index : Nat) (obj : Option Obj) (result : EVOLUTION_STATUS)
  deriving DecidableEq

/-- The program options read by the population loops, and the behaviour of their
collaborators outside `main.cpp`. The collaborators are indexed by the loop index, at which
each is called at most once. Modelled from the spec: `RAND->Seed(s)` sets the seed `s`
and returns it, so the seed of object `index` is the base seed plus `index`. -/
structure RunEnv (V : Type) (Obj : Type) where
  /-- `OPTIONS->SingleStarMassMin()` -/
  SingleStarMassMin : V
  /-- `OPTIONS->SingleStarMassMax()` -/
  SingleStarMassMax : V
  /-- `OPTIONS->SingleStarMassSteps()` -/
  SingleStarMassSteps : Int
  /-- `OPTIONS->FixedRandomSeed()` -/
  FixedRandomSeed : Bool
  /-- `OPTIONS->RandomSeed()` -/
  RandomSeed : Nat
  /-- `RAND->DefaultSeed()` -/
  DefaultSeed : Nat
  /-- `OPTIONS->NBinaries()` -/
  NBinaries : Int
  /-- `OPTIONS->IndividualSystem()` -/
  IndividualSystem : Bool
  /-- `OPTIONS->BinarySeparation()` -/
  BinarySeparation : V
  /-- `OPTIONS->BinaryOrbitalPeriod()` -/
  BinaryOrbitalPeriod : V
  /-- `OPTIONS->PrimaryMass()` -/
  PrimaryMass : V
  /-- `OPTIONS->SecondaryMass()` -/
  SecondaryMass : V
  /-- `OPTIONS->InitialPrimaryMetallicity()` -/
  InitialPrimaryMetallicity : V
  /-- `OPTIONS->InitialSecondaryMetallicity()` -/
  InitialSecondaryMetallicity : V
  /-- `OPTIONS->BinaryEccentricity()` -/
  BinaryEccentricity : V
  /-- the constant `DEFAULT_INITIAL_DOUBLE_VALUE` -/
  DEFAULT_INITIAL_DOUBLE_VALUE : V
  /-- `utils::Compare(x, y)`: negative, zero or positive -/
  Compare : V → V → Int
  /-- `OPTIONS->AIS_ExploratoryPhase()` -/
  AIS_ExploratoryPhase : Bool
  /-- `ais.ShouldStopExploratoryPhase(index)` -/
  ShouldStopExploratoryPhase : Nat → Bool
  /-- the status returned by `Evolve(index)` called through the object pointer -/
  Evolve : Option Obj → Nat → EVOLUTION_STATUS
  /-- the result of `LOGGING->CloseStandardFile(...)` in the iteration `index` -/
  CloseStandardFile : Nat → Bool

/-- How a modelled function ends: it returns, it runs into undefined behaviour of C++, or
the fuel of the model runs out. -/
inductive Outcome (α : Type) where
  | finished (a : α)
  | undefinedBehaviour
  | fuelExhausted
  deriving DecidableEq

section Population

variable {V : Type} [LinearOrderedField V]

/-- Local variables of `EvolveSingleStars`, and the calls made so far. -/
structure SSERun (V : Type) where
  evolutionStatus : EVOLUTION_STATUS
  index : Nat
  nStars : Int
  grid : IfStream
  lineNo : Nat
  star : Option (StarArgs V)
  events : List (Event (StarArgs V))
  deriving DecidableEq

/-- The seed of the object `index`: `RAND->Seed(OPTIONS->RandomSeed() + index)` with a fixed
seed, `RAND->Seed(RAND->DefaultSeed() + index)` without. -/
def randomSeedFor {Obj : Type} (opt : RunEnv V Obj) (index : Nat) : Nat :=
  if opt.FixedRandomSeed then opt.RandomSeed + index else opt.DefaultSeed + index

/-- The block "create the star" of the loop body of `EvolveSingleStars`. -/
def sseCreate (env : Env V) (opt : RunEnv V (StarArgs V)) (gridHeaders : List Str)
    (st : SSERun V) : SSERun V :=
  let massIncrement : V :=
    (opt.SingleStarMassMax - opt.SingleStarMassMin) / (opt.SingleStarMassSteps : V)
  let randomSeed : Nat := randomSeedFor opt st.index
  if !env.gridFilename.isEmpty then
    if st.grid.isOpen then
      let (g, lineNo, gV) := ReadSSEGridRecord env st.grid gridHeaders st.lineNo
      if g.fail || gV.isEmpty then
        { st with
          grid := g.close
          lineNo := lineNo
          evolutionStatus :=
            if gV.isEmpty then EVOLUTION_STATUS.STOPPED else EVOLUTION_STATUS.DONE }
      else
        let star : StarArgs V := ⟨randomSeed, gV.getD 0 0, gV.getD 1 0⟩
        { st with
          grid := g
          lineNo := lineNo
          nStars := st.nStars + 1
          star := some star
          events := st.events ++ [Event.construct st.index star] }
    else { st with evolutionStatus := EVOLUTION_STATUS.STOPPED }
  else
    let initialMass : V := opt.SingleStarMassMin + (st.index : V) * massIncrement
    let star : StarArgs V := ⟨randomSeed, initialMass, env.metallicity⟩
    { st with star := some star, events := st.events ++ [Event.construct st.index star] }

/-- The block `if (evolutionStatus == CONTINUE) star->Evolve(index)` of the loop body of
`EvolveSingleStars`. -/
def sseEvolve (opt : RunEnv V (StarArgs V)) (st : SSERun V) : SSERun V :=
  if st.evolutionStatus = EVOLUTION_STATUS.CONTINUE then
    { st with
      events := st.events ++ [Event.evolve st.index st.star (opt.Evolve st.star st.index)] }
  else st

/-- The block `if (!LOGGING->CloseStandardFile(...)) evolutionStatus = STOPPED` of the loop
body of `EvolveSingleStars`. -/
def sseClose (opt : RunEnv V (StarArgs V)) (st : SSERun V) : SSERun V :=
  if !opt.CloseStandardFile st.index then
    { st with evolutionStatus := EVOLUTION_STATUS.STOPPED }
  else st

/-- The body of the loop `while (evolutionStatus == CONTINUE && index < nStars)` of
`EvolveSingleStars`. -/
def sseIteration (env : Env V) (opt : RunEnv V (StarArgs V)) (gridHeaders : List Str)
    (st : SSERun V) : SSERun V :=
  let st3 := sseClose opt (sseEvolve opt (sseCreate env opt gridHeaders st))
  { st3 with index := st3.index + 1 }

/-- The loop `while (evolutionStatus == CONTINUE && index < nStars)` of
`EvolveSingleStars`; `none` when the fuel runs out. -/
def sseLoop (env : Env V) (opt : RunEnv V (StarArgs V)) (gridHeaders : List Str) :
    Nat → SSERun V → Option (SSERun V)
  | fuel, st =>
    if st.evolutionStatus = EVOLUTION_STATUS.CONTINUE ∧ (st.index : Int) < st.nStars then
      match fuel with
      | 0 => none
      | fuel + 1 => sseLoop env opt gridHeaders fuel (sseIteration env opt gridHeaders st)
    else some st

/-- The state of `EvolveSingleStars` when it reaches its loop. The status set after a failed
`OpenSSEGridFile` is overwritten by the assignment before the loop. -/
def sseStart (env : Env V) (opt : RunEnv V (StarArgs V)) : SSERun V × List Str :=
  if !env.gridFilename.isEmpty then
    let (g, lineNo, gridHeaders) := OpenSSEGridFile env IfStream.fresh
    (⟨EVOLUTION_STATUS.CONTINUE, 0, 1, g, lineNo, none, []⟩, gridHeaders)
  else
    (⟨EVOLUTION_STATUS.CONTINUE, 0, opt.SingleStarMassSteps, IfStream.fresh, 0, none, []⟩, [])

/-- The function `EvolveSingleStars`, up to the statement that sets the status `DONE` after
the loop: the local variables at that point and the calls made. The fuel given to the loop
is more than the number of iterations it can make. -/
def EvolveSingleStars (env : Env V) (opt : RunEnv V (StarArgs V)) : Outcome (SSERun V) :=
  let (st0, gridHeaders) := sseStart env opt
  match sseLoop env opt gridHeaders
      (st0.grid.content.length + opt.SingleStarMassSteps.toNat + 2) st0 with
  | none => Outcome.fuelExhausted
  | some st =>
    Outcome.finished
      (if st.evolutionStatus = EVOLUTION_STATUS.CONTINUE ∧ (st.index : Int) ≥ st.nStars then
        { st with evolutionStatus := EVOLUTION_STATUS.DONE }
      else st)

end Population

section PopulationBinary

variable {V : Type} [LinearOrderedField V]

/-- Local variables of `EvolveBinaryStars`, and the calls made so far. -/
structure BSERun (V : Type) where
  evolutionStatus : EVOLUTION_STATUS
  index : Nat
  nBinaries : Int
  grid : IfStream
  lineNo : Nat
  binary : Option (BinaryCtor V)
  events : List (Event (BinaryCtor V))
  deriving DecidableEq

/-- The constructor call for a binary with user-specified properties
(`OPTIONS->IndividualSystem()`). -/
def individualBinary (env : Env V) (opt : RunEnv V (BinaryCtor V)) (index : Nat) :
    BinaryCtor V :=
  let separation : V :=
    if opt.Compare opt.BinarySeparation 0 > 0 then opt.BinarySeparation
    else if opt.Compare opt.BinaryOrbitalPeriod 0 ≤ 0 then opt.DEFAULT_INITIAL_DOUBLE_VALUE
    else env.kepler opt.PrimaryMass opt.SecondaryMass opt.BinaryOrbitalPeriod
  BinaryCtor.specified
    ⟨opt.PrimaryMass, opt.SecondaryMass, opt.InitialPrimaryMetallicity,
      opt.InitialSecondaryMetallicity, separation, opt.BinaryEccentricity, [], []⟩ index

/-- The block that creates the binary in the loop body of `EvolveBinaryStars`; `none` when
`ReadBSEGridRecord` stores past the end of its vector. -/
def bseCreate (env : Env V) (opt : RunEnv V (BinaryCtor V)) (gridHeaders : List Str)
    (st : BSERun V) : Option (BSERun V) :=
  if !env.gridFilename.isEmpty then
    if st.grid.isOpen then
      match ReadBSEGridRecord env st.grid gridHeaders st.lineNo with
      | none => none
      | some (g, lineNo, gV) =>
        if g.fail || gV.isEmpty then
          some { st with
            grid := g.close
            lineNo := lineNo
            evolutionStatus :=
              if gV.isEmpty then EVOLUTION_STATUS.STOPPED else EVOLUTION_STATUS.DONE }
        else
          let binary : BinaryCtor V :=
            BinaryCtor.specified (gridBinaryArgs gridHeaders gV) st.index
          some { st with
            grid := g
            lineNo := lineNo
            nBinaries := st.nBinaries + 1
            binary := some binary
            events := st.events ++ [Event.construct st.index binary] }
    else some { st with evolutionStatus := EVOLUTION_STATUS.STOPPED }
  else
    let binary : BinaryCtor V :=
      if opt.IndividualSystem then individualBinary env opt st.index
      else BinaryCtor.random st.index
    some { st with
      binary := some binary, events := st.events ++ [Event.construct st.index binary] }

/-- The rest of the loop body of `EvolveBinaryStars` after the binary is created: the state
after it, and whether the loop was left by `break`. -/
def bseAfterCreate (opt : RunEnv V (BinaryCtor V)) (st1 : BSERun V) : BSERun V × Bool :=
  if st1.evolutionStatus = EVOLUTION_STATUS.CONTINUE then
    let st2 : BSERun V :=
      { st1 with
        events := st1.events ++
          [Event.evolve st1.index st1.binary (opt.Evolve st1.binary st1.index)] }
    if opt.AIS_ExploratoryPhase && opt.ShouldStopExploratoryPhase st2.index then
      (st2, true)
    else
      let st3 : BSERun V :=
        if !opt.CloseStandardFile st2.index then
          { st2 with evolutionStatus := EVOLUTION_STATUS.STOPPED }
        else st2
      ({ st3 with index := st3.index + 1 }, false)
  else ({ st1 with index := st1.index + 1 }, false)

/-- The body of the loop `while (evolutionStatus == CONTINUE && index < nBinaries)` of
`EvolveBinaryStars`. -/
def bseIteration (env : Env V) (opt : RunEnv V (BinaryCtor V)) (gridHeaders : List Str)
    (st : BSERun V) : Option (BSERun V × Bool) :=
  (bseCreate env opt gridHeaders st).map (bseAfterCreate opt)

/-- The loop `while (evolutionStatus == CONTINUE && index < nBinaries)` of
`EvolveBinaryStars`. -/
def bseLoop (env : Env V) (opt : RunEnv V (BinaryCtor V)) (gridHeaders : List Str) :
    Nat → BSERun V → Outcome (BSERun V)
  | fuel, st =>
    if st.evolutionStatus = EVOLUTION_STATUS.CONTINUE ∧ (st.index : Int) < st.nBinaries then
      match fuel with
      | 0 => Outcome.fuelExhausted
      | fuel + 1 =>
        match bseIteration env opt gridHeaders st with
        | none => Outcome.undefinedBehaviour
        | some (st1, true) => Outcome.finished st1
        | some (st1, false) => bseLoop env opt gridHeaders fuel st1
    else Outcome.finished st

/-- The state of `EvolveBinaryStars` when it reaches its loop. -/
def bseStart (env : Env V) (opt : RunEnv V (BinaryCtor V)) : BSERun V × List Str :=
  if !env.gridFilename.isEmpty then
    let (g, lineNo, gridHeaders) := OpenBSEGridFile env IfStream.fresh
    (⟨if !g.isOpen then EVOLUTION_STATUS.ERROR else EVOLUTION_STATUS.CONTINUE, 0,
      if g.isOpen then 1 else opt.NBinaries, g, lineNo, none, []⟩, gridHeaders)
  else
    (⟨EVOLUTION_STATUS.CONTINUE, 0, opt.NBinaries, IfStream.fresh, 0, none, []⟩, [])

/-- The function `EvolveBinaryStars`, up to the statement that sets the status `DONE` after
the loop: the local variables at that point and the calls made. The fuel given to the loop
is more than the number of iterations it can make. -/
def EvolveBinaryStars (env : Env V) (opt : RunEnv V (BinaryCtor V)) : Outcome (BSERun V) :=
  let (st0, gridHeaders) := bseStart env opt
  match bseLoop env opt gridHeaders
      (st0.grid.content.length + opt.NBinaries.toNat + 2) st0 with
  | Outcome.finished st =>
    Outcome.finished
      (if st.evolutionStatus = EVOLUTION_STATUS.CONTINUE ∧
          (st.index : Int) ≥ st.nBinaries then
        { st with evolutionStatus := EVOLUTION_STATUS.DONE }
      else st)
  | Outcome.undefinedBehaviour => Outcome.undefinedBehaviour
  | Outcome.fuelExhausted => Outcome.fuelExhausted

end PopulationBinary

/-! ## A concrete environment

Rational values with a decimal reader, used to run the embedding on concrete files. -/

/-- The leading decimal digits of a string: their value, their number, and the rest. -/
def takeDigits : Str → Nat → Nat → Nat × Nat × Str
  | [], acc, n => (acc, n, [])
  | c :: cs, acc, n =>
    if c.isDigit then takeDigits cs (acc * 10 + (c.toNat - 48)) (n + 1) else (acc, n, c :: cs)

/-- The optional sign of a numeral: whether it is `-`, and the rest. -/
def takeSign : Str → Bool × Str
  | '-' :: r => (true, r)
  | '+' :: r => (false, r)
  | s => (false, s)

/-- The optional fraction of a numeral, a decimal point and the digits after it: their
value, their number, and the rest. -/
def takeFraction : Str → Nat × Nat × Str
  | '.' :: r => takeDigits r 0 0
  | s => (0, 0, s)

/-- The exponent part of a decimal numeral after its `e` or `E`: `[+-]digits` scales the
mantissa `m` by the power of ten; without a digit the extraction fails (`none`). -/
def parseExponent (m : ℚ) (r : Str) : Option ℚ :=
  let (eneg, r1) := takeSign r
  let (e, n3, _) := takeDigits r1 0 0
  if n3 = 0 then none
  else some (if eneg then m / (10 : ℚ) ^ e else m * (10 : ℚ) ^ e)

/-- What follows the mantissa `m` of a decimal numeral: an exponent after `e` or `E`, or
nothing that belongs to the numeral. -/
def parseTail (m : ℚ) : Str → Option ℚ
  | 'e' :: r => parseExponent m r
  | 'E' :: r => parseExponent m r
  | _ => some m

/-- A reader for decimal numerals `[+-]digits[.digits][(e|E)[+-]digits]`, as the stream
extraction of a `double` reads them: the longest prefix of that shape is taken and what
follows is left in the stream. The extraction fails (`none`) when the mantissa has no digit,
and when an `e` or `E` after the mantissa is not followed by the digits of an exponent
(`1.5e`, `1.5ex`). -/
def parseDecimal (s : Str) : Option ℚ :=
  let (neg, s1) := takeSign s
  let (ip, n1, s2) := takeDigits s1 0 0
  let (fp, n2, s3) := takeFraction s2
  if n1 + n2 = 0 then none
  else
    let q : ℚ := (ip : ℚ) + (fp : ℚ) / (10 : ℚ) ^ n2
    parseTail (if neg then -q else q) s3

/-- The decimal digits of a number, lowest first, padded to a given width. -/
def digitsRev : Nat → Nat → Str
  | 0, _ => []
  | w + 1, n => Char.ofNat (48 + n % 10) :: digitsRev w (n / 10)

/-- The number of decimal digits of a number (at least one). -/
def numDigits : Nat → Nat → Nat
  | 0, _ => 1
  | fuel + 1, n => if n < 10 then 1 else 1 + numDigits fuel (n / 10)

/-- Fixed notation with six decimals, the format of `std::to_string` on a `double`. -/
def fixed6 (q : ℚ) : Str :=
  let n : Nat := (Int.floor (|q| * 1000000 + 1 / 2)).toNat
  let ip := n / 1000000
  let fp := n % 1000000
  (if q < 0 then ['-'] else []) ++ (digitsRev (numDigits ip ip) ip).reverse ++ ['.'] ++
    (digitsRev 6 fp).reverse

/-- The cube of the semi-major axis by Kepler's third law, `(m1 + m2) * P^2` with the period
converted from days to years: a rational stand-in for the cube root, zero exactly when the
semi-major axis is. -/
def keplerCubed (m1 m2 p : ℚ) : ℚ := (m1 + m2) * (p / (36525 / 100)) ^ 2

/-- An environment over the rationals with grid file `file` and default metallicity `z`. -/
def ratEnv (file : Option Str) (z : ℚ) : Env ℚ :=
  { gridFilename := "grid.csv".toList
    gridFile := file
    metallicity := z
    parse := parseDecimal
    toStr := fixed6
    kepler := keplerCubed }

/-- A stream opened on a file with the given content. -/
def streamOn (content : Str) : IfStream := IfStream.fresh.openFile (some content)

/-! ## Vocabulary of the statements -/

/-- Text of a grid file: the lines `blanks`, each ended by a newline, then `line`, then either
the end of the file (`none`) or a newline followed by the remaining text. -/
def fileText (blanks : List Str) (line : Str) (tail : Option Str) : Str :=
  match blanks with
  | [] => line ++ (match tail with | none => [] | some t => '\n' :: t)
  | b :: bs => b ++ '\n' :: fileText bs line tail

/-- Number of bytes taken by the lines `blanks` with their newlines. -/
def blanksLength (blanks : List Str) : Nat :=
  match blanks with
  | [] => 0
  | b :: bs => b.length + 1 + blanksLength bs

/-- A stream that is open with neither `eofbit` nor `failbit` set. -/
def IfStream.good (g : IfStream) : Prop :=
  g.isOpen = true ∧ g.eofbit = false ∧ g.failbit = false

/-- The part of the file that the stream has not read yet. -/
def IfStream.unread (g : IfStream) : Str := g.content.drop g.pos

/-- The stream after `getline` has read a line of the given length at `off` bytes from the
current position: past the newline when there is one (`atEnd = false`), at the end of the
file with `eofbit` set otherwise. -/
def IfStream.afterLine (g : IfStream) (off len : Nat) (atEnd : Bool) : IfStream :=
  if atEnd then { g with pos := g.pos + off + len, eofbit := true }
  else { g with pos := g.pos + off + len + 1 }

/-- The tokens of a header line as the header parsers see them: the line is normalised and
upper-cased, split at the commas, and every token is trimmed. -/
def headerTokens (line : Str) : List Str :=
  (getTokens (ToUpper (normHeader line))).map trimToken

/-- The column names of the single-object schema. -/
def sseVocabulary : List Str := [sMASS, sMETALLICITY]

/-- The column names of the paired-object schema. -/
def bseVocabulary : List Str :=
  [sMASS_1, sMASS_2, sMETALLICITY_1, sMETALLICITY_2, sSEPARATION, sECCENTRICITY, sPERIOD,
   sKICK_VELOCITY_1, sKICK_THETA_1, sKICK_PHI_1, sKICK_MEAN_ANOMALY_1,
   sKICK_VELOCITY_2, sKICK_THETA_2, sKICK_PHI_2, sKICK_MEAN_ANOMALY_2]

/-- The eight kick columns. -/
def kickNames : List Str :=
  [sKICK_VELOCITY_1, sKICK_THETA_1, sKICK_PHI_1, sKICK_MEAN_ANOMALY_1,
   sKICK_VELOCITY_2, sKICK_THETA_2, sKICK_PHI_2, sKICK_MEAN_ANOMALY_2]

/-- The counters of `OpenBSEGridFile` increased by the occurrences of each column name in a
list of trimmed tokens, the recognised tokens appended to the header list. -/
def BSEHeader.addTokens (st : BSEHeader) (T : List Str) : BSEHeader :=
  { gridHeaders := st.gridHeaders ++ T.filter (fun t => decide (t ∈ bseVocabulary))
    mass1 := st.mass1 + T.count sMASS_1
    mass2 := st.mass2 + T.count sMASS_2
    metallicity1 := st.metallicity1 + T.count sMETALLICITY_1
    metallicity2 := st.metallicity2 + T.count sMETALLICITY_2
    separation := st.separation + T.count sSEPARATION
    eccentricity := st.eccentricity + T.count sECCENTRICITY
    period := st.period + T.count sPERIOD
    kickVelocity1 := st.kickVelocity1 + T.count sKICK_VELOCITY_1
    kickTheta1 := st.kickTheta1 + T.count sKICK_THETA_1
    kickPhi1 := st.kickPhi1 + T.count sKICK_PHI_1
    kickMeanAnomaly1 := st.kickMeanAnomaly1 + T.count sKICK_MEAN_ANOMALY_1
    kickVelocity2 := st.kickVelocity2 + T.count sKICK_VELOCITY_2
    kickTheta2 := st.kickTheta2 + T.count sKICK_THETA_2
    kickPhi2 := st.kickPhi2 + T.count sKICK_PHI_2
    kickMeanAnomaly2 := st.kickMeanAnomaly2 + T.count sKICK_MEAN_ANOMALY_2
    lineNo := st.lineNo }

/-- The counters of `OpenBSEGridFile` after a header line with trimmed tokens `T`, with the
given line number. -/
def bseCounts (T : List Str) (lineNo : Nat) : BSEHeader :=
  { gridHeaders := T.filter (fun t => decide (t ∈ bseVocabulary))
    mass1 := T.count sMASS_1
    mass2 := T.count sMASS_2
    metallicity1 := T.count sMETALLICITY_1
    metallicity2 := T.count sMETALLICITY_2
    separation := T.count sSEPARATION
    eccentricity := T.count sECCENTRICITY
    period := T.count sPERIOD
    kickVelocity1 := T.count sKICK_VELOCITY_1
    kickTheta1 := T.count sKICK_THETA_1
    kickPhi1 := T.count sKICK_PHI_1
    kickMeanAnomaly1 := T.count sKICK_MEAN_ANOMALY_1
    kickVelocity2 := T.count sKICK_VELOCITY_2
    kickTheta2 := T.count sKICK_THETA_2
    kickPhi2 := T.count sKICK_PHI_2
    kickMeanAnomaly2 := T.count sKICK_MEAN_ANOMALY_2
    lineNo := lineNo }

/-- The mandatory columns of the paired-object schema occur as required in a list of header
tokens: the two masses, the two metallicities and the eccentricity exactly once, separation
and period at most once, at least one of these two. -/
def BSERequired (T : List Str) : Prop :=
  T.count sMASS_1 = 1 ∧ T.count sMASS_2 = 1 ∧ T.count sMETALLICITY_1 = 1 ∧
    T.count sMETALLICITY_2 = 1 ∧ T.count sECCENTRICITY = 1 ∧ T.count sSEPARATION ≤ 1 ∧
    T.count sPERIOD ≤ 1 ∧ 0 < T.count sSEPARATION + T.count sPERIOD

instance (T : List Str) : Decidable (BSERequired T) := by
  unfold BSERequired
  infer_instance

/-- The kick columns of a list of header tokens form a valid group: none occurs, or each of
the eight occurs exactly once. -/
def BSEKicks (T : List Str) : Prop :=
  (∀ k ∈ kickNames, T.count k = 0) ∨ (∀ k ∈ kickNames, T.count k = 1)

instance (T : List Str) : Decidable (BSEKicks T) := by
  unfold BSEKicks
  infer_instance

section RowVocabulary

variable {V : Type} [LinearOrder V] [Zero V]

/-- The columns of the paired-object schema whose value must not be negative. -/
def checkedNames : List Str :=
  [sMASS_1, sMASS_2, sMETALLICITY_1, sMETALLICITY_2, sSEPARATION, sECCENTRICITY]

/-- The index in `gridValues` at which `ReadBSEGridRecord` stores the value of a column; `none`
for PERIOD, which is kept in a local variable, and for any other string. -/
def slotOf (name : Str) : Option Nat :=
  if name = sMASS_1 then some 0
  else if name = sMASS_2 then some 1
  else if name = sMETALLICITY_1 then some 2
  else if name = sMETALLICITY_2 then some 3
  else if name = sSEPARATION then some 4
  else if name = sECCENTRICITY then some 5
  else if name = sKICK_VELOCITY_1 then some 6
  else if name = sKICK_THETA_1 then some 7
  else if name = sKICK_PHI_1 then some 8
  else if name = sKICK_MEAN_ANOMALY_1 then some 9
  else if name = sKICK_VELOCITY_2 then some 10
  else if name = sKICK_THETA_2 then some 11
  else if name = sKICK_PHI_2 then some 12
  else if name = sKICK_MEAN_ANOMALY_2 then some 13
  else none

/-- The column stored at an index of `gridValues`. -/
def slotName (s : Nat) : Str :=
  [sMASS_1, sMASS_2, sMETALLICITY_1, sMETALLICITY_2, sSEPARATION, sECCENTRICITY,
   sKICK_VELOCITY_1, sKICK_THETA_1, sKICK_PHI_1, sKICK_MEAN_ANOMALY_1,
   sKICK_VELOCITY_2, sKICK_THETA_2, sKICK_PHI_2, sKICK_MEAN_ANOMALY_2].getD s []

/-- The size of `gridValues` in `ReadBSEGridRecord`. -/
def bseSize (hdr : List Str) : Nat := if hdr.length = 6 then 6 else 14

/-- The header lists on which every store of `ReadBSEGridRecord` falls inside `gridValues`:
a list of six strings contains no kick column. -/
def BSEHeaderSafe (hdr : List Str) : Prop := hdr.length = 6 → ∀ h ∈ hdr, h ∉ kickNames

instance (hdr : List Str) : Decidable (BSEHeaderSafe hdr) := by
  unfold BSEHeaderSafe
  infer_instance

/-- The text from which `ReadBSEGridRecord` extracts the value of a field: the trimmed token,
`0.0` when that is empty. -/
def bseFieldText (tok : Str) : Str :=
  if (trimToken tok).isEmpty then "0.0".toList else trimToken tok

/-- A field of a paired-object row that does not abort the read: the extraction succeeds and,
in a column whose value is checked, the value is not negative. -/
def bseFieldOk (env : Env V) (name tok : Str) : Bool :=
  match env.parse (bseFieldText tok) with
  | none => false
  | some v => !(decide (name ∈ checkedNames) && decide (v < 0))

/-- A paired-object row none of whose fields within the header width aborts the read. -/
def BSERowValid (env : Env V) (hdr toks : List Str) : Prop :=
  ∀ p ∈ hdr.zip toks, bseFieldOk env p.1 p.2 = true

instance (env : Env V) (hdr toks : List Str) : Decidable (BSERowValid env hdr toks) := by
  unfold BSERowValid
  infer_instance

/-- The position of the first occurrence of `name` in a header list (its length when there is
none). -/
def columnOf (name : Str) : List Str → Nat
  | [] => 0
  | h :: t => if h = name then 0 else columnOf name t + 1

/-- The value of the column `name` read from the first `c` fields of a row: the value
extracted from the field at the position of `name` in the header, `0` (the initial value)
when the header has no such column or the position is not among the first `c` fields. -/
def bseValueUpTo (env : Env V) (hdr toks : List Str) (c : Nat) (name : Str) : V :=
  if name ∈ hdr ∧ columnOf name hdr < c then
    match toks[columnOf name hdr]? with
    | some tok => (env.parse (bseFieldText tok)).getD 0
    | none => 0
  else 0

/-- The value of the column `name` in a row: the value extracted from the field at the
position of `name` in the header, `0` when the header has no such column or the row is too
short. -/
def bseColumnValue (env : Env V) (hdr toks : List Str) (name : Str) : V :=
  bseValueUpTo env hdr toks toks.length name

/-- The fields of a data row as the record readers see them: the normalised line split at
the commas. -/
def rowTokens (line : Str) : List Str := getTokens (normRecord line)

end RowVocabulary

section RowInvariant

variable {V : Type} [LinearOrder V] [Zero V]

/-- The state of the token loop of `ReadBSEGridRecord` after `st.column` fields of a row that
does not abort: no error, `gridValues` of its initial size, and every entry (and `period`)
equal to the value of its column read from the fields processed so far. -/
def BSERowInv (env : Env V) (hdr toks : List Str) (st : BSERow V) : Prop :=
  st.error = false ∧ st.gridValues.length = bseSize hdr ∧
    (∀ name s, slotOf name = some s →
      st.gridValues.getD s 0 = bseValueUpTo env hdr toks st.column name) ∧
    st.period = bseValueUpTo env hdr toks st.column sPERIOD

end RowInvariant

section RowExpected

variable {V : Type} [LinearOrder V] [Zero V]

/-- The separation entry of a row that does not abort: the value of the SEPARATION column,
replaced by the Kepler value when it is not positive while the period and both masses
are. -/
def bseExpectedSeparation (env : Env V) (hdr toks : List Str) : V :=
  if bseColumnValue env hdr toks sSEPARATION ≤ 0 ∧ bseColumnValue env hdr toks sPERIOD > 0 ∧
      bseColumnValue env hdr toks sMASS_1 > 0 ∧ bseColumnValue env hdr toks sMASS_2 > 0 then
    env.kepler (bseColumnValue env hdr toks sMASS_1) (bseColumnValue env hdr toks sMASS_2)
      (bseColumnValue env hdr toks sPERIOD)
  else bseColumnValue env hdr toks sSEPARATION

/-- The value vector of a row that does not abort: at every index the value of the column
stored there, except that index 4 holds `bseExpectedSeparation`. -/
def bseExpectedRow (env : Env V) (hdr toks : List Str) : List V :=
  (List.range (bseSize hdr)).map (fun s =>
    if s = 4 then bseExpectedSeparation env hdr toks
    else bseColumnValue env hdr toks (slotName s))

end RowExpected

section SSERowVocabulary

variable {V : Type} [LinearOrder V] [Zero V]

/-- The header lists with which `OpenSSEGridFile` leaves the grid open: one MASS column,
alone or with one METALLICITY column on either side. -/
def SSEHeaderAccepted (hdr : List Str) : Prop :=
  hdr = [sMASS] ∨ hdr = [sMASS, sMETALLICITY] ∨ hdr = [sMETALLICITY, sMASS]

instance (hdr : List Str) : Decidable (SSEHeaderAccepted hdr) := by
  unfold SSEHeaderAccepted
  infer_instance

/-- The text from which `ReadSSEGridRecord` extracts the value of a field of the column
`name`: the trimmed token; when that is empty, the printed configured metallicity in the
METALLICITY column and `0.0` in any other column. -/
def sseFieldText (env : Env V) (name tok : Str) : Str :=
  if (trimToken tok).isEmpty then
    (if Equals name sMETALLICITY then env.toStr env.metallicity else "0.0".toList)
  else trimToken tok

/-- A field of a single-object row that does not abort the read: the extraction succeeds and
the value is not negative. -/
def sseFieldOk (env : Env V) (name tok : Str) : Bool :=
  match env.parse (sseFieldText env name tok) with
  | none => false
  | some v => !(decide (v < 0))

/-- A single-object row none of whose fields within the header width aborts the read. -/
def SSERowValid (env : Env V) (hdr toks : List Str) : Prop :=
  ∀ p ∈ hdr.zip toks, sseFieldOk env p.1 p.2 = true

instance (env : Env V) (hdr toks : List Str) : Decidable (SSERowValid env hdr toks) := by
  unfold SSERowValid
  infer_instance

/-- The value of the column `name` in a single-object row: the value extracted from the field
at the position of `name` in the header, `dflt` when the header has no such column or the row
is too short. -/
def sseColumnValue (env : Env V) (hdr toks : List Str) (name : Str) (dflt : V) : V :=
  if name ∈ hdr ∧ columnOf name hdr < toks.length then
    (env.parse (sseFieldText env name (toks.getD (columnOf name hdr) []))).getD 0
  else dflt

/-- The value vector of a single-object row that does not abort: the value of the MASS column
(`0` when missing) and the value of the METALLICITY column (the configured metallicity when
missing). -/
def sseExpectedRow (env : Env V) (hdr toks : List Str) : List V :=
  [sseColumnValue env hdr toks sMASS 0, sseColumnValue env hdr toks sMETALLICITY env.metallicity]

end SSERowVocabulary

/-- The five hydrogen-class accretion regimes. -/
def hydrogenRegimes : List ACCRETION_REGIME :=
  [.HYDROGEN_FLASHES, .HYDROGEN_STABLE_BURNING, .HYDROGEN_OPT_THICK_WINDS,
   .HELIUM_WHITE_DWARF_HYDROGEN_FLASHES, .HELIUM_WHITE_DWARF_HYDROGEN_ACCUMULATION]

/-- The six helium-class accretion regimes. -/
def heliumRegimes : List ACCRETION_REGIME :=
  [.HELIUM_ACCUMULATION, .HELIUM_FLASHES, .HELIUM_STABLE_BURNING, .HELIUM_OPT_THICK_WINDS,
   .HELIUM_WHITE_DWARF_HELIUM_SUB_CHANDRASEKHAR, .HELIUM_WHITE_DWARF_HELIUM_IGNITION]

/-- A sequence of calls of `ResolveShellChange`, the regime being set by the caller before
each call. -/
def resolveAll {R : Type} [Add R] (wd : WhiteDwarf R) (calls : List (ACCRETION_REGIME × R)) :
    WhiteDwarf R :=
  calls.foldl (fun s c => ResolveShellChange { s with m_AccretionRegime := c.1 } c.2) wd

/-- The three-way comparison of two numbers without tolerance. -/
def exactCompare {R : Type} [LinearOrder R] (x y : R) : Int :=
  if x = y then 0 else if x < y then -1 else 1

/-- The closed form of the white dwarf radius as the specification writes it:
`max(NEUTRON_STAR_RADIUS, 0.0115 * sqrt((MCH/M)^(2/3) - (M/MCH)^(2/3)))`. -/
def radiusClosedForm {R : Type} [LinearOrderedField R] (env : WDEnv R) (M : R) : R :=
  stdMax env.NEUTRON_STAR_RADIUS
    ((env.sqrt (env.PPOW (env.MCH / M) (2 / 3) - env.PPOW (M / env.MCH) (2 / 3))).map
      (fun s => 0.0115 * s))

section PopulationVocabulary

variable {V : Type} [LinearOrderedField V]

/-- The base seed: the user-fixed seed, or the default seed when none is fixed. -/
def baseSeed {Obj : Type} (opt : RunEnv V Obj) : Nat :=
  if opt.FixedRandomSeed then opt.RandomSeed else opt.DefaultSeed

/-- The star of index `i` in a sweep over the mass range: mass
`min + i * (max - min) / s`, the configured metallicity, seed `base + i`. -/
def sweepStar (env : Env V) (opt : RunEnv V (StarArgs V)) (i : Nat) : StarArgs V :=
  ⟨baseSeed opt + i,
    opt.SingleStarMassMin +
      (i : V) * (opt.SingleStarMassMax - opt.SingleStarMassMin) / (opt.SingleStarMassSteps : V),
    env.metallicity⟩

/-- The calls made for the stars `i, ..., i + k - 1` of a sweep: each is constructed and then
evolved. -/
def sweepEvents (env : Env V) (opt : RunEnv V (StarArgs V)) :
    Nat → Nat → List (Event (StarArgs V))
  | _, 0 => []
  | i, k + 1 =>
    Event.construct i (sweepStar env opt i) ::
      Event.evolve i (some (sweepStar env opt i)) (opt.Evolve (some (sweepStar env opt i)) i) ::
      sweepEvents env opt (i + 1) k

/-- The successive calls of `ReadSSEGridRecord` from a stream position on: the value vectors
returned before the first call that fails or returns the empty vector, and the status that
this call gives the run (`STOPPED` for the empty vector, `DONE` otherwise). -/
def sseRows (env : Env V) (hdr : List Str) :
    Nat → IfStream → Nat → List (List V) × EVOLUTION_STATUS
  | 0, _, _ => ([], EVOLUTION_STATUS.DONE)
  | fuel + 1, g, lineNo =>
    let r := ReadSSEGridRecord env g hdr lineNo
    if r.1.fail || r.2.2.isEmpty then
      ([], if r.2.2.isEmpty then EVOLUTION_STATUS.STOPPED else EVOLUTION_STATUS.DONE)
    else
      let rest := sseRows env hdr fuel r.1 r.2.1
      (r.2.2 :: rest.1, rest.2)

/-- The star made from the value vector of the row `k` of the grid: seed `base + k`, mass
and metallicity from the vector. -/
def gridStar (opt : RunEnv V (StarArgs V)) (k : Nat) (gV : List V) : StarArgs V :=
  ⟨baseSeed opt + k, gV.getD 0 0, gV.getD 1 0⟩

/-- The calls made for the rows of a grid, the first at index `k`: each star is constructed
and then evolved. -/
def gridEvents (opt : RunEnv V (StarArgs V)) : Nat → List (List V) → List (Event (StarArgs V))
  | _, [] => []
  | k, gV :: rest =>
    Event.construct k (gridStar opt k gV) ::
      Event.evolve k (some (gridStar opt k gV)) (opt.Evolve (some (gridStar opt k gV)) k) ::
      gridEvents opt (k + 1) rest

end PopulationVocabulary

section ResultErasure

variable {V : Type}

/-- A call with the status returned by `Evolve` left out (replaced by `CONTINUE`). -/
def eraseResult {Obj : Type} : Event Obj → Event Obj
  | Event.construct i o => Event.construct i o
  | Event.evolve i o _ => Event.evolve i o EVOLUTION_STATUS.CONTINUE

/-- The state of `EvolveSingleStars` with the statuses returned by `Evolve` left out. -/
def SSERun.eraseResults (st : SSERun V) : SSERun V :=
  { st with events := st.events.map eraseResult }

/-- The state of `EvolveBinaryStars` with the statuses returned by `Evolve` left out. -/
def BSERun.eraseResults (st : BSERun V) : BSERun V :=
  { st with events := st.events.map eraseResult }

/-- The outcome of a function with a function applied to the value it returns. -/
def Outcome.map {α β : Type} (f : α → β) : Outcome α → Outcome β
  | Outcome.finished a => Outcome.finished (f a)
  | Outcome.undefinedBehaviour => Outcome.undefinedBehaviour
  | Outcome.fuelExhausted => Outcome.fuelExhausted

end ResultErasure

/-- The loop index at which a call was made. -/
def Event.index {Obj : Type} : Event Obj → Nat
  | Event.construct i _ => i
  | Event.evolve i _ _ => i

/-- The two calls of an iteration that makes an object and evolves it: the constructor call,
then `Evolve` through the pointer to the object just made. -/
def iterationEvents {Obj : Type} (p : Nat × Obj × EVOLUTION_STATUS) : List (Event Obj) :=
  [Event.construct p.1 p.2.1, Event.evolve p.1 (some p.2.1) p.2.2]

/-- The calls are those of iterations of increasing index below `bound`, each of which
constructs an object and then calls `Evolve` on that object. -/
def EvolvedWhereConstructed {Obj : Type} (events : List (Event Obj)) (bound : Nat) : Prop :=
  ∃ pairs : List (Nat × Obj × EVOLUTION_STATUS),
    events = (pairs.map iterationEvents).flatten ∧
    (pairs.map Prod.fst).Pairwise (fun a b => a < b) ∧ ∀ p ∈ pairs, p.1 < bound

/-- The 1-based number of the physical line of a file in which the byte at position `pos`
lies: one more than the number of newlines before it. -/
def lineNumberAt (content : Str) (pos : Nat) : Nat := (content.take pos).count '\n' + 1

/-- A three-way comparison of two numbers with the absolute tolerance `t`: numbers that
differ by at most `t` compare equal. With `t = 0` it is the plain comparison. -/
def toleranceCompare {R : Type} [LinearOrderedField R] (t x y : R) : Int :=
  if |x - y| ≤ t then 0 else if x < y then -1 else 1

/-- Where a stream stands in its file: before the text `t` with no state bit set
(`some t`), or at the end of the file after a last line without newline (`none`). -/
def IfStream.standsAt (g : IfStream) (o : Option Str) : Prop :=
  match o with
  | some t => g.good ∧ g.unread = t
  | none => g.eofbit = true

/-- Text of the data part of a grid file: rows, each a data line preceded by lines that the
record readers skip; a row is followed by the end of the file or by a newline and the text
of the rows after it, and the last row by `rest`. -/
def rowsText : List (List Str × Str) → Option Str → Option Str
  | [], rest => rest
  | r :: rows, rest => some (fileText r.1 r.2 (rowsText rows rest))

/-- Text after the last row of a grid file: nothing (`none`), or a newline followed by lines
that the record readers skip, the last of them without newline. -/
def trailingText (t : Option (List Str × Str)) : Option Str :=
  t.map (fun p => fileText p.1 p.2 none)

/-- A line that the record readers skip: nothing is left of it after the normalisation. -/
def SkippedLine (b : Str) : Prop := '\n' ∉ b ∧ normRecord b = []

/-- A line that the record readers take for a data row. -/
def DataLine (l : Str) : Prop := '\n' ∉ l ∧ normRecord l ≠ []

/-- The rows and the trailing lines of the data part of a grid file are what
`rowsText` and `trailingText` take them for. -/
def GridBody (rows : List (List Str × Str)) (t : Option (List Str × Str)) : Prop :=
  (∀ r ∈ rows, (∀ b ∈ r.1, SkippedLine b) ∧ DataLine r.2) ∧
  (∀ p, t = some p → (∀ b ∈ p.1, SkippedLine b) ∧ SkippedLine p.2)

section RowSequences

variable {V : Type} [LinearOrder V] [Zero V]

/-- The value vectors that the successive calls of `ReadSSEGridRecord` return for a sequence
of normalised data lines, up to the first line that is rejected, and the status that the
end of the sequence gives the run. -/
def sseRowsOf (env : Env V) (hdr : List Str) : List Str → List (List V) × EVOLUTION_STATUS
  | [] => ([], EVOLUTION_STATUS.DONE)
  | record :: records =>
    let x := sseRecord env hdr record [0, 0]
    let gV : List V := if x.1 then [] else x.2
    if gV.isEmpty then ([], EVOLUTION_STATUS.STOPPED)
    else
      let rest := sseRowsOf env hdr records
      (gV :: rest.1, rest.2)

/-- The successive calls of `ReadBSEGridRecord` from a stream position on: the value vectors
returned before the first call that fails or returns the empty vector, and the status that
this call gives the run; `none` when a call stores past the end of its vector. -/
def bseRows (env : Env V) (hdr : List Str) :
    Nat → IfStream → Nat → Option (List (List V) × EVOLUTION_STATUS)
  | 0, _, _ => some ([], EVOLUTION_STATUS.DONE)
  | fuel + 1, g, lineNo =>
    match ReadBSEGridRecord env g hdr lineNo with
    | none => none
    | some r =>
      if r.1.fail || r.2.2.isEmpty then
        some ([], if r.2.2.isEmpty then EVOLUTION_STATUS.STOPPED else EVOLUTION_STATUS.DONE)
      else
        (bseRows env hdr fuel r.1 r.2.1).map (fun rest => (r.2.2 :: rest.1, rest.2))

/-- The value vectors that the successive calls of `ReadBSEGridRecord` return for a sequence
of normalised data lines, as `sseRowsOf`. -/
def bseRowsOf (env : Env V) (hdr : List Str) :
    List Str → Option (List (List V) × EVOLUTION_STATUS)
  | [] => some ([], EVOLUTION_STATUS.DONE)
  | record :: records =>
    match bseRecord env hdr record
        (if hdr.length = 6 then List.replicate 6 0 else List.replicate 14 0) with
    | none => none
    | some x =>
      let gV : List V := if x.1 then [] else x.2
      if gV.isEmpty then some ([], EVOLUTION_STATUS.STOPPED)
      else (bseRowsOf env hdr records).map (fun rest => (gV :: rest.1, rest.2))

end RowSequences

/-- The number of lines of the text after the last row of a grid file. -/
def trailingLines : Option (List Str × Str) → Nat
  | none => 0
  | some p => p.1.length + (if p.2 = [] then 0 else 1)

instance (b : Str) : Decidable (SkippedLine b) := by
  unfold SkippedLine
  infer_instance

instance (l : Str) : Decidable (DataLine l) := by
  unfold DataLine
  infer_instance

/-! ## Sample inputs -/

/-- Two lines that every reader skips: a comment and a line of spaces. -/
def demoBlanks : List Str := ["# population grid".toList, "   ".toList]

/-- A paired-object header line without kick columns, in mixed case and arbitrary order. -/
def demoBSEHeaderLine : Str :=
  "Mass_1, mass_2 ,Period,METALLICITY_1,Metallicity_2,Eccentricity,Separation # columns".toList

/-- The header strings `OpenBSEGridFile` returns for `demoBSEHeaderLine`. -/
def demoBSEHeaders : List Str :=
  [sMASS_1, sMASS_2, sPERIOD, sMETALLICITY_1, sMETALLICITY_2, sECCENTRICITY, sSEPARATION]

/-- A header list with both SEPARATION and PERIOD and no kick column. -/
def demoHeadersBoth : List Str :=
  [sMASS_1, sMASS_2, sMETALLICITY_1, sMETALLICITY_2, sSEPARATION, sECCENTRICITY, sPERIOD]

/-- A row for `demoHeadersBoth` whose SEPARATION field is `0` while the period and the masses
are positive. -/
def demoRowZeroSeparation : Str := "10,8,0.02,0.02,0,0.1,100".toList

/-- A row for `demoHeadersBoth` with a positive SEPARATION field. -/
def demoRowSeparation : Str := " 10, 8,0.02 ,0.02,\t3.5,0.1,100  # first binary".toList

/-- A header list with all eight kick columns and both SEPARATION and PERIOD. -/
def demoHeadersKicks : List Str :=
  [sMASS_1, sMASS_2, sMETALLICITY_1, sMETALLICITY_2, sSEPARATION, sECCENTRICITY, sPERIOD,
   sKICK_VELOCITY_1, sKICK_THETA_1, sKICK_PHI_1, sKICK_MEAN_ANOMALY_1,
   sKICK_VELOCITY_2, sKICK_THETA_2, sKICK_PHI_2, sKICK_MEAN_ANOMALY_2]

/-- A row for `demoHeadersKicks` with a negative period and negative kick values. -/
def demoRowNegativeKicks : Str :=
  "10,8,0.02,0.02,3.5,0.1,-100,-250,-0.5,1,2,300,-1.5,-2,0".toList

/-- A row for `demoHeadersBoth` whose third field is not a number. -/
def demoRowNonNumeric : Str := "10,8, solar ,0.02,3.5,0.1,100".toList

/-- A row for `demoHeadersBoth` whose SEPARATION field is negative. -/
def demoRowNegativeSeparation : Str := "10,8,0.02,0.02,-3.5,0.1,100".toList

/-- A header list with PERIOD and no SEPARATION, the period before the masses. -/
def demoHeadersPeriod : List Str :=
  [sPERIOD, sMASS_2, sMETALLICITY_1, sECCENTRICITY, sMASS_1, sMETALLICITY_2]

/-- A row for `demoHeadersPeriod`: period 100, masses 10 and 8, metallicities 0.02,
eccentricity 0.1. -/
def demoRowPeriod : Str := "100,8,0.02,0.1,10,0.02".toList

/-- A single-object row with one field more than a one-column header has. -/
def demoRowMassExtra : Str := "1.5, x".toList

/-- A row whose first, third and fourth fields are empty. -/
def demoRowEmptyFields : Str := " ,0.02,, ,0.5,0.1".toList

/-- A single-object row whose METALLICITY field (first column) is present and empty. -/
def demoRowEmptyMetallicity : Str := ",1".toList

/-- A single-object row with a mass and no further field. -/
def demoRowMassAlone : Str := "1".toList

/-- A row for `demoBSEHeaders` that stops before the last column, SEPARATION. -/
def demoRowShortSeparation : Str := "10,8,100,0.02,0.02,0.1".toList

/-- A row of one field. -/
def demoRowShort : Str := "10".toList

/-- A row with nine fields, the last two neither numeric nor non-negative. -/
def demoRowLong : Str := "10,8,100,0.02,0.02,0.1,50,abc,-3".toList

/-- The first two fields of `demoRowLong`. -/
def demoRowLongTwo : Str := "10,8".toList

/-- The first seven fields of `demoRowLong`. -/
def demoRowLongSeven : Str := "10,8,100,0.02,0.02,0.1,50".toList

/-- A grid file with a kick-free header line that lists both SEPARATION and PERIOD, and one
row. -/
def demoFileBoth : Str :=
  "MASS_1,MASS_2,METALLICITY_1,METALLICITY_2,SEPARATION,ECCENTRICITY,PERIOD\n10,8,0.02,0.02,3.5,0.1,100\n".toList

/-- A grid file with a kick-free header line that lists SEPARATION only, and one row. -/
def demoFileSeparation : Str :=
  "MASS_1,MASS_2,METALLICITY_1,METALLICITY_2,SEPARATION,ECCENTRICITY\n10,8,0.02,0.02,3.5,0.1\n".toList

/-- An environment for the white dwarf formulae over a field with a power operation: the
exact comparison, the power of the field for `PPOW`, the powers `1/3` and `1/2` for the cube
root and the square root (a NaN below zero), and sample values for the constants. -/
def sampleWD (R : Type) [LinearOrderedField R] [Pow R R] : WDEnv R :=
  { Compare := exactCompare
    PPOW := fun b e => b ^ e
    cbrt := fun x => x ^ ((1 : R) / 3)
    sqrt := fun x => if x < 0 then none else some (x ^ ((1 : R) / 2))
    MT_LIMIT_CRIT_NOMOTO_0 := -8.33017155
    MT_LIMIT_CRIT_NOMOTO_1 := 2.88247131
    MT_LIMIT_CRIT_NOMOTO_2 := -0.98023471
    MT_LIMIT_STABLE_NOMOTO_0 := -9.21757267
    MT_LIMIT_STABLE_NOMOTO_1 := 3.57319872
    MT_LIMIT_STABLE_NOMOTO_2 := -1.2137735
    MT_LIMIT_CRIT_PIERSANTI_0 := -6.84
    MT_LIMIT_CRIT_PIERSANTI_1 := 1.349
    MT_LIMIT_STABLE_PIERSANTI_0 := -8.115
    MT_LIMIT_STABLE_PIERSANTI_1 := 2.29
    MT_LIMIT_DET_PIERSANTI_0 := -8.313
    MT_LIMIT_DET_PIERSANTI_1 := 1.018
    MCH := 1.44
    NEUTRON_STAR_RADIUS := 1.4374e-5 }

/-- An environment over the rationals without a grid file, with default metallicity `z`. -/
def noGridEnv (z : ℚ) : Env ℚ := { ratEnv none z with gridFilename := [] }

/-- Options for a sweep of three stars over the mass range from 1 to 3 (and for two random
binaries) with the fixed seed 42; `Evolve` returns `ERROR` for the object of index 1 and
`DONE` for the others, and every close succeeds. -/
def demoOptions (Obj : Type) : RunEnv ℚ Obj :=
  { SingleStarMassMin := 1
    SingleStarMassMax := 3
    SingleStarMassSteps := 3
    FixedRandomSeed := true
    RandomSeed := 42
    DefaultSeed := 7
    NBinaries := 2
    IndividualSystem := false
    BinarySeparation := 0
    BinaryOrbitalPeriod := 0
    PrimaryMass := 0
    SecondaryMass := 0
    InitialPrimaryMetallicity := 0
    InitialSecondaryMetallicity := 0
    BinaryEccentricity := 0
    DEFAULT_INITIAL_DOUBLE_VALUE := 0
    Compare := exactCompare
    AIS_ExploratoryPhase := false
    ShouldStopExploratoryPhase := fun _ => false
    Evolve := fun _ i => if i = 1 then EVOLUTION_STATUS.ERROR else EVOLUTION_STATUS.DONE
    CloseStandardFile := fun _ => true }

/-- A single-object grid file: a header line, two rows around a comment line, then a row
with a field that is not a number and one more row. -/
def demoStarFile : Str :=
  "Mass,Metallicity\n1.5,0.02\n# second star\n2,0.01\n3,x\n4,0.02\n".toList

/-- A single-object grid file with a header line and two rows. -/
def demoStarFileShort : Str := "Mass,Metallicity\n1.5,0.02\n2,0.01\n".toList

/-- The options `demoOptions` with the exploratory phase of the adaptive importance sampling
switched on and an early stop after the binary of index 1. -/
def demoOptionsAIS : RunEnv ℚ (BinaryCtor ℚ) :=
  { demoOptions (BinaryCtor ℚ) with
    NBinaries := 5
    AIS_ExploratoryPhase := true
    ShouldStopExploratoryPhase := fun i => decide (i = 1) }

/-- The options `demoOptions` with a close that fails in the iteration of index 1. -/
def demoOptionsCloseFails (Obj : Type) : RunEnv ℚ Obj :=
  { demoOptions Obj with CloseStandardFile := fun i => !decide (i = 1) }

/-- A single-object grid file whose header line names METALLICITY without MASS. -/
def demoStarFileRejected : Str := "Metallicity\n0.02\n".toList

/-- A single-object grid file whose header line has a tab after the comma. -/
def demoStarFileTab : Str := "Mass,\tMetallicity\n1,0.02\n".toList

/-- The file `demoStarFileTab` with a space in the place of the tab. -/
def demoStarFileSpace : Str := "Mass, Metallicity\n1,0.02\n".toList

/-- A single-object grid file with a line that holds only a tab before the header line. -/
def demoStarFileTabLine : Str := "\t\nMass,Metallicity\n1,0.02\n".toList

/-- The file `demoStarFileTabLine` with a space in the place of the tab. -/
def demoStarFileSpaceLine : Str := " \nMass,Metallicity\n1,0.02\n".toList

/-- A paired-object grid file whose header line has a tab before the first comma. -/
def demoBinaryFileTab : Str :=
  "Mass_1\t,Mass_2,Metallicity_1,Metallicity_2,Separation,Eccentricity\n".toList

/-- The file `demoBinaryFileTab` with a space in the place of the tab. -/
def demoBinaryFileSpace : Str :=
  "Mass_1 ,Mass_2,Metallicity_1,Metallicity_2,Separation,Eccentricity\n".toList

/-- A single-object grid file without a header line: two rows with a mass each. -/
def demoStarFileHeaderless : Str := "1.5\n2.5\n".toList

/-- A single-object grid file with a header line and the rows of `demoStarFileHeaderless`. -/
def demoStarFileMass : Str := "Mass\n1.5\n2.5\n".toList

/-- A single-object grid file whose header line has an unrecognised token between MASS and
METALLICITY. -/
def demoStarFileUnknown : Str := "Mass,Foo,Metallicity\n1,2,0.02\n".toList

/-- A row whose first field is a number followed by letters. -/
def demoRowTrailing : Str := "1.5abc,8,100,0.02,0.02,0.1,50".toList

/-- The data part of a single-object grid file: two rows. -/
def demoBodyRows : List (List Str × Str) :=
  [([], "1.5,0.02".toList), ([], "2,0.01".toList)]

/-- The rows of `demoBodyRows` with an empty line and a comment line before the first row, a
comment appended to it, and a line of spaces before the second row. -/
def demoBodyRowsSpaced : List (List Str × Str) :=
  [(["".toList, "# stars".toList], "1.5,0.02 # first".toList),
   (["   ".toList], "2,0.01".toList)]

/-- A data row whose first field is a number followed by the letter `e` and a further
character: the extraction of a `double` fails on it. -/
def demoRowExponent : Str := "1.5ex,8,100,0.02,0.02,0.1,50".toList

/-! # Theorems: streams and header lines -/

theorem takeWhile_ne_append {c : Char} (l r : Str) (h : c ∉ l) :
    (l ++ c :: r).takeWhile (fun x => x != c) = l := by
  induction l with
  | nil => simp [List.takeWhile]
  | cons a l ih =>
    have ha : a ≠ c := fun e => h (by simp [e])
    have hl : c ∉ l := fun e => h (by simp [e])
    have hb : (a != c) = true := by simp [ha]
    simp [List.takeWhile_cons, hb, ih hl]

theorem takeWhile_ne_self {c : Char} (l : Str) (h : c ∉ l) :
    l.takeWhile (fun x => x != c) = l := by
  induction l with
  | nil => rfl
  | cons a l ih =>
    have ha : a ≠ c := fun e => h (by simp [e])
    have hl : c ∉ l := fun e => h (by simp [e])
    have hb : (a != c) = true := by simp [ha]
    simp [List.takeWhile_cons, hb, ih hl]

/-- `getline` on a good stream whose unread text starts with a line ended by a newline. -/
theorem getline_newline (g : IfStream) (hg : g.good) (line rest : Str)
    (hu : g.unread = line ++ '\n' :: rest) (hl : '\n' ∉ line) :
    g.getline = (some line, g.afterLine 0 line.length false) ∧
    (g.afterLine 0 line.length false).good ∧
    (g.afterLine 0 line.length false).unread = rest := by
  obtain ⟨h1, h2, h3⟩ := hg
  unfold IfStream.unread at hu
  refine ⟨?_, ⟨h1, h2, h3⟩, ?_⟩
  · unfold IfStream.getline IfStream.afterLine
    simp only [h1, h2, h3, hu, takeWhile_ne_append line rest hl]
    simp
  · show g.content.drop (g.pos + 0 + line.length + 1) = rest
    have e : g.pos + 0 + line.length + 1 = g.pos + (line.length + 1) := by omega
    rw [e, ← List.drop_drop, hu]
    simp

/-- `getline` on a good stream whose unread text is a last line without a newline. -/
theorem getline_last (g : IfStream) (hg : g.good) (line : Str)
    (hu : g.unread = line) (hl : '\n' ∉ line) (hne : line ≠ []) :
    g.getline = (some line, g.afterLine 0 line.length true) := by
  obtain ⟨h1, h2, h3⟩ := hg
  unfold IfStream.unread at hu
  unfold IfStream.getline IfStream.afterLine
  simp only [h1, h2, h3, hu, takeWhile_ne_self line hl]
  simp [hne]

/-- `getline` on the line that ends the blank prefix of `fileText`. -/
theorem getline_tail (g : IfStream) (hg : g.good) (line : Str) (tail : Option Str)
    (hu : g.unread = fileText [] line tail) (hl : '\n' ∉ line) (hne : line ≠ []) :
    g.getline = (some line, g.afterLine 0 line.length tail.isNone) := by
  cases tail with
  | none =>
    have : g.unread = line := by simpa [fileText] using hu
    simpa using getline_last g hg line this hl hne
  | some t =>
    have : g.unread = line ++ '\n' :: t := by simpa [fileText] using hu
    simpa using (getline_newline g hg line t this hl).1

theorem tellg_good (g : IfStream) (hg : g.good) : g.tellg = ((g.pos : Int), g) := by
  obtain ⟨h1, h2, h3⟩ := hg
  simp [IfStream.tellg, h1, h2, h3]

theorem normHeader_ne_nil {line : Str} (h : normHeader line ≠ []) : line ≠ [] := by
  rintro rfl
  exact h (by decide)

theorem normRecord_ne_nil {line : Str} (h : normRecord line ≠ []) : line ≠ [] := by
  rintro rfl
  exact h (by decide)

theorem afterLine_afterLine (g : IfStream) (a b len : Nat) (e : Bool) :
    (g.afterLine 0 a false).afterLine b len e = g.afterLine (a + 1 + b) len e := by
  unfold IfStream.afterLine
  cases e <;> simp <;> omega

theorem sseHeaderLoop_fileText (blanks : List Str) (line : Str) (tail : Option Str)
    (hb : ∀ b ∈ blanks, '\n' ∉ b ∧ normHeader b = [])
    (hl : '\n' ∉ line) (hne : normHeader line ≠ []) :
    ∀ (fuel : Nat) (g : IfStream) (st : SSEHeader), g.good →
      g.unread = fileText blanks line tail → blanks.length < fuel →
      sseHeaderLoop fuel g st =
        (g.afterLine (blanksLength blanks) line.length tail.isNone,
         let s := (getTokens (ToUpper (normHeader line))).foldl sseHeaderToken
           { st with currentPos := toInt32 ((g.pos + blanksLength blanks : Nat) : Int),
                     lineNo := st.lineNo + blanks.length }
         { s with lineNo := s.lineNo + 1 }) := by
  induction blanks with
  | nil =>
    intro fuel g st hg hu hf
    obtain ⟨fuel, rfl⟩ : ∃ k, fuel = k + 1 := ⟨fuel - 1, by simp at hf; omega⟩
    have h1 := getline_tail g hg line tail hu hl (normHeader_ne_nil hne)
    simp only [sseHeaderLoop, tellg_good g hg, h1, blanksLength, List.length_nil,
      Nat.add_zero]
    simp [hne]
  | cons b bs ih =>
    intro fuel g st hg hu hf
    obtain ⟨fuel, rfl⟩ : ∃ k, fuel = k + 1 := ⟨fuel - 1, by simp at hf; omega⟩
    have hb0 := hb b (by simp)
    have hu1 : g.unread = b ++ '\n' :: fileText bs line tail := by simpa [fileText] using hu
    obtain ⟨h1, h2, h3⟩ := getline_newline g hg b _ hu1 hb0.1
    have ih1 := ih (fun x hx => hb x (by simp [hx])) fuel (g.afterLine 0 b.length false)
      { st with currentPos := toInt32 (g.pos : Int), lineNo := st.lineNo + 1 } h2 h3
      (by simp at hf; omega)
    simp only [sseHeaderLoop, tellg_good g hg, h1, hb0.2, List.isEmpty_nil, if_true]
    rw [ih1, afterLine_afterLine]
    have e1 : (g.afterLine 0 b.length false).pos + blanksLength bs
        = g.pos + blanksLength (b :: bs) := by
      simp [IfStream.afterLine, blanksLength]; omega
    have e2 : st.lineNo + 1 + bs.length = st.lineNo + (b :: bs).length := by
      simp; omega
    simp only [e1, e2]
    simp [blanksLength]

theorem isEmpty_false_of_ne_nil {t : Str} (h : t ≠ []) : t.isEmpty = false := by
  cases t with
  | nil => exact absurd rfl h
  | cons a l => rfl

theorem count_cons_str (t n : Str) (l : List Str) :
    (t :: l).count n = (if t = n then 1 else 0) + l.count n := by
  rw [List.count_cons]
  by_cases h : t = n
  · simp [h]; omega
  · simp [h]

theorem filter_cons_mem (voc : List Str) (t : Str) (l : List Str) :
    (t :: l).filter (fun x => decide (x ∈ voc))
      = (if t ∈ voc then [t] else []) ++ l.filter (fun x => decide (x ∈ voc)) := by
  by_cases h : t ∈ voc <;> simp [List.filter_cons, h]

theorem sseHeaderToken_spec (st : SSEHeader) (tok : Str) :
    (sseHeaderToken st tok).mass = st.mass + (if trimToken tok = sMASS then 1 else 0) ∧
    (sseHeaderToken st tok).metallicity
      = st.metallicity + (if trimToken tok = sMETALLICITY then 1 else 0) ∧
    (sseHeaderToken st tok).tokenCount = st.tokenCount + 1 ∧
    (sseHeaderToken st tok).gridHeaders
      = st.gridHeaders ++ (if trimToken tok ∈ sseVocabulary then [trimToken tok] else []) ∧
    (sseHeaderToken st tok).currentPos = st.currentPos ∧
    (sseHeaderToken st tok).lineNo = st.lineNo := by
  unfold sseHeaderToken
  generalize trimToken tok = t
  by_cases h0 : t = []
  · subst h0
    exact ⟨rfl, rfl, rfl, (List.append_nil _).symm, rfl, rfl⟩
  by_cases h1 : t = sMASS
  · subst h1
    exact ⟨rfl, rfl, rfl, rfl, rfl, rfl⟩
  by_cases h2 : t = sMETALLICITY
  · subst h2
    exact ⟨rfl, rfl, rfl, rfl, rfl, rfl⟩
  have hE := isEmpty_false_of_ne_nil h0
  simp only [hE, h1, h2, if_false, Bool.false_eq_true, sseVocabulary, List.mem_cons,
    List.mem_nil_iff, or_false, or_self, Nat.add_zero, List.append_nil, and_self]

theorem sseHeaderFold_spec (toks : List Str) :
    ∀ st : SSEHeader,
    (toks.foldl sseHeaderToken st).mass = st.mass + (toks.map trimToken).count sMASS ∧
    (toks.foldl sseHeaderToken st).metallicity
      = st.metallicity + (toks.map trimToken).count sMETALLICITY ∧
    (toks.foldl sseHeaderToken st).tokenCount = st.tokenCount + toks.length ∧
    (toks.foldl sseHeaderToken st).gridHeaders
      = st.gridHeaders ++ (toks.map trimToken).filter (fun t => decide (t ∈ sseVocabulary)) ∧
    (toks.foldl sseHeaderToken st).currentPos = st.currentPos ∧
    (toks.foldl sseHeaderToken st).lineNo = st.lineNo := by
  induction toks with
  | nil => intro st; simp
  | cons tok rest ih =>
    intro st
    obtain ⟨a1, a2, a3, a4, a5, a6⟩ := ih (sseHeaderToken st tok)
    obtain ⟨b1, b2, b3, b4, b5, b6⟩ := sseHeaderToken_spec st tok
    simp only [List.foldl_cons, List.map_cons, List.length_cons, count_cons_str,
      filter_cons_mem]
    rw [a1, a2, a3, a4, a5, a6, b1, b2, b3, b4, b5, b6]
    refine ⟨by omega, by omega, by omega, by simp, rfl, rfl⟩

theorem blanks_le_fileText (blanks : List Str) (line : Str) (tail : Option Str) :
    blanks.length ≤ (fileText blanks line tail).length := by
  induction blanks with
  | nil => simp
  | cons b bs ih => simp [fileText]; omega

theorem streamOn_good (c : Str) : (streamOn c).good := ⟨rfl, rfl, rfl⟩

theorem streamOn_unread (c : Str) : (streamOn c).unread = c := rfl

theorem isEmpty_false_iff {name : Str} (h : name ≠ []) : name.isEmpty = false :=
  isEmpty_false_of_ne_nil h

/-- The result of `OpenSSEGridFile` on a file whose first non-empty line is `line`. -/
theorem OpenSSEGridFile_fileText {V : Type} (env : Env V) (blanks : List Str) (line : Str)
    (tail : Option Str) (hname : env.gridFilename ≠ [])
    (hfile : env.gridFile = some (fileText blanks line tail))
    (hb : ∀ b ∈ blanks, '\n' ∉ b ∧ normHeader b = [])
    (hl : '\n' ∉ line) (hne : normHeader line ≠ []) :
    OpenSSEGridFile env IfStream.fresh =
      if (headerTokens line).count sMASS ≠ 1 ∨ (headerTokens line).count sMETALLICITY > 1 then
        if (headerTokens line).length > 1 ∨ (headerTokens line).count sMASS ≥ 1 ∨
            (headerTokens line).count sMETALLICITY ≥ 1 then
          (((streamOn (fileText blanks line tail)).afterLine (blanksLength blanks)
              line.length tail.isNone).close,
            blanks.length + 2,
            (headerTokens line).filter (fun t => decide (t ∈ sseVocabulary)))
        else
          (((streamOn (fileText blanks line tail)).afterLine (blanksLength blanks)
              line.length tail.isNone).seekg (toInt32 (blanksLength blanks : Nat)),
            blanks.length + 2, [sMASS])
      else
        ((streamOn (fileText blanks line tail)).afterLine (blanksLength blanks)
            line.length tail.isNone,
          blanks.length + 2,
          (headerTokens line).filter (fun t => decide (t ∈ sseVocabulary))) := by
  have hloop := sseHeaderLoop_fileText blanks line tail hb hl hne
    ((fileText blanks line tail).length + 2) (streamOn (fileText blanks line tail))
    ⟨[], 0, 0, 0, 0, toInt32 (-1), 1⟩ (streamOn_good _) (streamOn_unread _)
    (by have := blanks_le_fileText blanks line tail; omega)
  have hpos : (streamOn (fileText blanks line tail)).pos + blanksLength blanks
      = blanksLength blanks := by
    show 0 + blanksLength blanks = blanksLength blanks
    omega
  rw [hpos] at hloop
  obtain ⟨a1, a2, a3, a4, -, a6⟩ := sseHeaderFold_spec (getTokens (ToUpper (normHeader line)))
    { gridHeaders := [], mass := 0, metallicity := 0, unknown := 0, tokenCount := 0,
      currentPos := toInt32 ((blanksLength blanks : Nat) : Int), lineNo := 1 + blanks.length }
  have a5 := (sseHeaderFold_spec (getTokens (ToUpper (normHeader line)))
    { gridHeaders := [], mass := 0, metallicity := 0, unknown := 0, tokenCount := 0,
      currentPos := toInt32 ((blanksLength blanks : Nat) : Int),
      lineNo := 1 + blanks.length }).2.2.2.2.1
  simp only [Nat.zero_add, List.nil_append] at a1 a2 a3 a4 a5 a6
  generalize List.foldl sseHeaderToken _ _ = s at hloop a1 a2 a3 a4 a5 a6
  have hopen : ((streamOn (fileText blanks line tail)).afterLine (blanksLength blanks)
      line.length tail.isNone).isOpen = true := by
    unfold IfStream.afterLine streamOn
    cases tail <;> rfl
  have htell : IfStream.fresh.tellg = (-1, IfStream.fresh) := rfl
  have hopenEq : IfStream.fresh.openFile (some (fileText blanks line tail))
      = streamOn (fileText blanks line tail) := rfl
  have hfail : (streamOn (fileText blanks line tail)).fail = false := rfl
  have hcont : (streamOn (fileText blanks line tail)).content = fileText blanks line tail := rfl
  have e : 1 + blanks.length + 1 = blanks.length + 2 := by omega
  simp only [OpenSSEGridFile, htell, isEmpty_false_iff hname, hfile, hopenEq, hfail, hcont,
    hloop, a1, a2, a3, a4, a5, a6, hopen, e, headerTokens, List.length_map, Bool.not_false,
    if_true, Bool.false_eq_true, if_false]

theorem count_singleton_str (t n : Str) : [t].count n = if t = n then 1 else 0 := by
  rw [count_cons_str]; simp

theorem bseHeaderToken_spec (st : BSEHeader) (tok : Str) :
    bseHeaderToken st tok = st.addTokens [trimToken tok] := by
  unfold bseHeaderToken
  generalize trimToken tok = t
  by_cases h0 : t = []
  · subst h0; cases st; simp [BSEHeader.addTokens]; decide
  by_cases h1 : t = sMASS_1
  · subst h1; cases st; rfl
  by_cases h2 : t = sMASS_2
  · subst h2; cases st; rfl
  by_cases h3 : t = sMETALLICITY_1
  · subst h3; cases st; rfl
  by_cases h4 : t = sMETALLICITY_2
  · subst h4; cases st; rfl
  by_cases h5 : t = sSEPARATION
  · subst h5; cases st; rfl
  by_cases h6 : t = sECCENTRICITY
  · subst h6; cases st; rfl
  by_cases h7 : t = sPERIOD
  · subst h7; cases st; rfl
  by_cases h8 : t = sKICK_VELOCITY_1
  · subst h8; cases st; rfl
  by_cases h9 : t = sKICK_THETA_1
  · subst h9; cases st; rfl
  by_cases h10 : t = sKICK_PHI_1
  · subst h10; cases st; rfl
  by_cases h11 : t = sKICK_MEAN_ANOMALY_1
  · subst h11; cases st; rfl
  by_cases h12 : t = sKICK_VELOCITY_2
  · subst h12; cases st; rfl
  by_cases h13 : t = sKICK_THETA_2
  · subst h13; cases st; rfl
  by_cases h14 : t = sKICK_PHI_2
  · subst h14; cases st; rfl
  by_cases h15 : t = sKICK_MEAN_ANOMALY_2
  · subst h15; cases st; rfl
  have hE := isEmpty_false_of_ne_nil h0
  cases st
  simp only [hE, h1, h2, h3, h4, h5, h6, h7, h8, h9, h10, h11, h12, h13, h14, h15, if_false, Bool.false_eq_true, BSEHeader.addTokens,
    count_singleton_str, bseVocabulary, List.mem_cons, List.mem_nil_iff, or_false, or_self,
    Nat.add_zero, List.filter_cons, List.filter_nil, decide_False, List.append_nil]

theorem addTokens_cons (st : BSEHeader) (t : Str) (T : List Str) :
    (st.addTokens [t]).addTokens T = st.addTokens (t :: T) := by
  cases st
  simp only [BSEHeader.addTokens, count_cons_str, filter_cons_mem, List.filter_nil,
    List.append_nil, List.append_assoc, List.count_nil, Nat.add_zero, Nat.add_assoc]

theorem bseHeaderFold_spec (toks : List Str) :
    ∀ st : BSEHeader, toks.foldl bseHeaderToken st = st.addTokens (toks.map trimToken) := by
  induction toks with
  | nil => intro st; cases st; simp [BSEHeader.addTokens]
  | cons tok rest ih =>
    intro st
    rw [List.foldl_cons, ih, bseHeaderToken_spec, List.map_cons, addTokens_cons]

theorem bseHeaderLoop_fileText (blanks : List Str) (line : Str) (tail : Option Str)
    (hb : ∀ b ∈ blanks, '\n' ∉ b ∧ normHeader b = [])
    (hl : '\n' ∉ line) (hne : normHeader line ≠ []) :
    ∀ (fuel : Nat) (g : IfStream) (st : BSEHeader), g.good →
      g.unread = fileText blanks line tail → blanks.length < fuel →
      bseHeaderLoop fuel g st =
        (g.afterLine (blanksLength blanks) line.length tail.isNone,
         { st with lineNo := st.lineNo + blanks.length + 1 }.addTokens (headerTokens line)) := by
  induction blanks with
  | nil =>
    intro fuel g st hg hu hf
    obtain ⟨fuel, rfl⟩ : ∃ k, fuel = k + 1 := ⟨fuel - 1, by simp at hf; omega⟩
    have h1 := getline_tail g hg line tail hu hl (normHeader_ne_nil hne)
    simp only [bseHeaderLoop, h1, blanksLength, List.length_nil, Nat.add_zero,
      isEmpty_false_of_ne_nil hne, Bool.false_eq_true, if_false, bseHeaderFold_spec,
      headerTokens]
    cases st
    rfl
  | cons b bs ih =>
    intro fuel g st hg hu hf
    obtain ⟨fuel, rfl⟩ : ∃ k, fuel = k + 1 := ⟨fuel - 1, by simp at hf; omega⟩
    have hb0 := hb b (by simp)
    have hu1 : g.unread = b ++ '\n' :: fileText bs line tail := by simpa [fileText] using hu
    obtain ⟨h1, h2, h3⟩ := getline_newline g hg b _ hu1 hb0.1
    have ih1 := ih (fun x hx => hb x (by simp [hx])) fuel (g.afterLine 0 b.length false)
      { st with lineNo := st.lineNo + 1 } h2 h3 (by simp at hf; omega)
    simp only [bseHeaderLoop, h1, hb0.2, List.isEmpty_nil, if_true]
    rw [ih1, afterLine_afterLine]
    have e2 : st.lineNo + 1 + bs.length + 1 = st.lineNo + (b :: bs).length + 1 := by
      simp; omega
    simp only [e2, blanksLength]

/-- The result of `OpenBSEGridFile` on a file whose first non-empty line is `line`. -/
theorem OpenBSEGridFile_fileText {V : Type} (env : Env V) (blanks : List Str) (line : Str)
    (tail : Option Str) (hname : env.gridFilename ≠ [])
    (hfile : env.gridFile = some (fileText blanks line tail))
    (hb : ∀ b ∈ blanks, '\n' ∉ b ∧ normHeader b = [])
    (hl : '\n' ∉ line) (hne : normHeader line ≠ []) :
    OpenBSEGridFile env IfStream.fresh =
      (if !(bseCounts (headerTokens line) (blanks.length + 2)).requiredOk &&
            (bseCounts (headerTokens line) (blanks.length + 2)).kicksOk then
          ((streamOn (fileText blanks line tail)).afterLine (blanksLength blanks)
            line.length tail.isNone).close
        else
          (streamOn (fileText blanks line tail)).afterLine (blanksLength blanks)
            line.length tail.isNone,
       blanks.length + 2,
       (headerTokens line).filter (fun t => decide (t ∈ bseVocabulary))) := by
  have hloop := bseHeaderLoop_fileText blanks line tail hb hl hne
    ((fileText blanks line tail).length + 2) (streamOn (fileText blanks line tail))
    ⟨[], 0, 0, 0, 0, 0, 0, 0, 0, 0, 0, 0, 0, 0, 0, 0, 1⟩ (streamOn_good _) (streamOn_unread _)
    (by have := blanks_le_fileText blanks line tail; omega)
  have hst : ({ (⟨[], 0, 0, 0, 0, 0, 0, 0, 0, 0, 0, 0, 0, 0, 0, 0, 1⟩ : BSEHeader) with
      lineNo := 1 + blanks.length + 1 } : BSEHeader).addTokens (headerTokens line)
      = bseCounts (headerTokens line) (blanks.length + 2) := by
    simp only [BSEHeader.addTokens, bseCounts, Nat.zero_add, List.nil_append]
    congr 1
    omega
  rw [hst] at hloop
  have hopen : ((streamOn (fileText blanks line tail)).afterLine (blanksLength blanks)
      line.length tail.isNone).isOpen = true := by
    unfold IfStream.afterLine streamOn
    cases tail <;> rfl
  have hopenEq : IfStream.fresh.openFile (some (fileText blanks line tail))
      = streamOn (fileText blanks line tail) := rfl
  have hfail : (streamOn (fileText blanks line tail)).fail = false := rfl
  have hcont : (streamOn (fileText blanks line tail)).content = fileText blanks line tail := rfl
  simp only [OpenBSEGridFile, isEmpty_false_iff hname, hfile, hopenEq, hfail, hcont,
    hloop, hopen, Bool.not_false, if_true, Bool.false_eq_true, if_false]
  by_cases hc : (!(bseCounts (headerTokens line) (blanks.length + 2)).requiredOk &&
      (bseCounts (headerTokens line) (blanks.length + 2)).kicksOk) = true
  · simp only [hc, if_true]; rfl
  · simp only [hc, if_false]; rfl

theorem requiredOk_iff (T : List Str) (n : Nat) :
    (bseCounts T n).requiredOk = true ↔ BSERequired T := by
  simp only [BSEHeader.requiredOk, bseCounts, BSERequired, Bool.and_eq_true, beq_iff_eq,
    decide_eq_true_eq]
  constructor
  · rintro ⟨⟨⟨⟨⟨⟨⟨h1, h2⟩, h3⟩, h4⟩, h5⟩, h6⟩, h7⟩, h8⟩
    exact ⟨h1, h2, h3, h4, h8, h5, h6, h7⟩
  · rintro ⟨h1, h2, h3, h4, h8, h5, h6, h7⟩
    exact ⟨⟨⟨⟨⟨⟨⟨h1, h2⟩, h3⟩, h4⟩, h5⟩, h6⟩, h7⟩, h8⟩

theorem kicksOk_iff (T : List Str) (n : Nat) :
    (bseCounts T n).kicksOk = true ↔ BSEKicks T := by
  simp only [BSEHeader.kicksOk, BSEHeader.kickSum, bseCounts, BSEKicks, kickNames,
    Bool.or_eq_true, Bool.and_eq_true, beq_iff_eq, List.mem_cons, List.mem_nil_iff, or_false,
    forall_eq_or_imp, forall_eq]
  constructor
  · rintro (h | h)
    · left; omega
    · right; tauto
  · rintro (h | h)
    · left; omega
    · right; tauto

theorem seekg_isOpen (g : IfStream) (p : Int) : (g.seekg p).isOpen = g.isOpen := by
  unfold IfStream.seekg
  simp only []
  split
  · rfl
  · split <;> rfl

theorem afterLine_isOpen (c : Str) (off len : Nat) (e : Bool) :
    ((streamOn c).afterLine off len e).isOpen = true := by
  unfold IfStream.afterLine streamOn
  cases e <;> rfl

/-! ## Header claims -/

/-- C2 (code defect): for the header line
`MASS_1,MASS_2,METALLICITY_1,METALLICITY_2,SEPARATION,ECCENTRICITY,KICK_VELOCITY_1`, whose
kick group is partial (one of the eight kick columns), `OpenBSEGridFile` returns with the
grid file still open and the seven header strings: the final test `!(required) && (kicks)`
is false as soon as the kick group is malformed. -/
theorem C2_partial_kick_group_left_open :
    (OpenBSEGridFile (ratEnv (some
        "MASS_1,MASS_2,METALLICITY_1,METALLICITY_2,SEPARATION,ECCENTRICITY,KICK_VELOCITY_1\n10,8,0.02,0.02,1,0,100\n".toList)
        0) IfStream.fresh).1.isOpen = true ∧
    (OpenBSEGridFile (ratEnv (some
        "MASS_1,MASS_2,METALLICITY_1,METALLICITY_2,SEPARATION,ECCENTRICITY,KICK_VELOCITY_1\n10,8,0.02,0.02,1,0,100\n".toList)
        0) IfStream.fresh).2.2 =
      [sMASS_1, sMASS_2, sMETALLICITY_1, sMETALLICITY_2, sSEPARATION, sECCENTRICITY,
        sKICK_VELOCITY_1] := by
  decide

/-- C3 (code defect): for the header line
`MASS_1,MASS_2,METALLICITY_1,METALLICITY_2,SEPARATION,KICK_VELOCITY_1`, in which ECCENTRICITY
does not occur and the kick group is partial, `OpenBSEGridFile` returns with the grid file
still open; the same line without the kick column closes it. -/
theorem C3_missing_required_left_open :
    (OpenBSEGridFile (ratEnv (some
        "MASS_1,MASS_2,METALLICITY_1,METALLICITY_2,SEPARATION,KICK_VELOCITY_1\n".toList)
        0) IfStream.fresh).1.isOpen = true ∧
    (OpenBSEGridFile (ratEnv (some
        "MASS_1,MASS_2,METALLICITY_1,METALLICITY_2,SEPARATION\n".toList)
        0) IfStream.fresh).1.isOpen = false := by
  decide

/-- C7: a paired-object header line on which the two masses, the two metallicities and the
eccentricity occur exactly once, separation and period at most once with at least one of
them, and the kick columns not at all or all eight exactly once, is accepted whatever the
order and letter case of the columns: `OpenBSEGridFile` leaves the grid open and returns
the upper-cased, trimmed column names in the order of the line. -/
theorem C7_valid_header_accepted {V : Type} (env : Env V) (blanks : List Str) (line : Str)
    (tail : Option Str) (hname : env.gridFilename ≠ [])
    (hfile : env.gridFile = some (fileText blanks line tail))
    (hb : ∀ b ∈ blanks, '\n' ∉ b ∧ normHeader b = [])
    (hl : '\n' ∉ line) (hne : normHeader line ≠ [])
    (hreq : BSERequired (headerTokens line)) (_hkick : BSEKicks (headerTokens line)) :
    (OpenBSEGridFile env IfStream.fresh).1.isOpen = true ∧
    (OpenBSEGridFile env IfStream.fresh).2.2
      = (headerTokens line).filter (fun t => decide (t ∈ bseVocabulary)) := by
  rw [OpenBSEGridFile_fileText env blanks line tail hname hfile hb hl hne]
  have h1 := (requiredOk_iff (headerTokens line) (blanks.length + 2)).2 hreq
  simp only [h1, Bool.not_true, Bool.false_and, Bool.false_eq_true, if_false,
    afterLine_isOpen, and_self]

theorem C7_valid_header_accepted_witness :
    (∀ b ∈ demoBlanks, '\n' ∉ b ∧ normHeader b = []) ∧ '\n' ∉ demoBSEHeaderLine ∧
    normHeader demoBSEHeaderLine ≠ [] ∧ BSERequired (headerTokens demoBSEHeaderLine) ∧
    BSEKicks (headerTokens demoBSEHeaderLine) ∧
    (OpenBSEGridFile (ratEnv (some (fileText demoBlanks demoBSEHeaderLine none)) 0)
      IfStream.fresh).1.isOpen = true ∧
    (OpenBSEGridFile (ratEnv (some (fileText demoBlanks demoBSEHeaderLine none)) 0)
      IfStream.fresh).2.2 = demoBSEHeaders :=
  ⟨by decide, by decide, by decide, by decide, by decide,
    (C7_valid_header_accepted (ratEnv (some (fileText demoBlanks demoBSEHeaderLine none)) 0)
      demoBlanks demoBSEHeaderLine none (by decide) rfl (by decide) (by decide) (by decide)
      (by decide) (by decide)).1,
    (C7_valid_header_accepted (ratEnv (some (fileText demoBlanks demoBSEHeaderLine none)) 0)
      demoBlanks demoBSEHeaderLine none (by decide) rfl (by decide) (by decide) (by decide)
      (by decide) (by decide)).2.trans (by decide)⟩

/-- C4: the single-object header line `MASS,FOO` and the paired-object header line
`MASS_1,MASS_2,METALLICITY_1,METALLICITY_2,SEPARATION,ECCENTRICITY,FOO` both have more than
one token and the unknown token `FOO`, yet both parsers leave the grid open; the unknown
token is only dropped from the header list. -/
theorem C4_unknown_token_accepted :
    (OpenSSEGridFile (ratEnv (some "MASS,FOO\n1\n".toList) 0) IfStream.fresh).1.isOpen = true ∧
    (OpenSSEGridFile (ratEnv (some "MASS,FOO\n1\n".toList) 0) IfStream.fresh).2.2 = [sMASS] ∧
    (OpenBSEGridFile (ratEnv (some
        "MASS_1,MASS_2,METALLICITY_1,METALLICITY_2,SEPARATION,ECCENTRICITY,FOO\n".toList) 0)
      IfStream.fresh).1.isOpen = true ∧
    (OpenBSEGridFile (ratEnv (some
        "MASS_1,MASS_2,METALLICITY_1,METALLICITY_2,SEPARATION,ECCENTRICITY,FOO\n".toList) 0)
      IfStream.fresh).2.2 =
      [sMASS_1, sMASS_2, sMETALLICITY_1, sMETALLICITY_2, sSEPARATION, sECCENTRICITY] := by
  decide

/-- C5: when the first non-empty line of a single-object grid file has at least two tokens,
`OpenSSEGridFile` leaves the grid open exactly when, after upper-casing and trimming, one
token is MASS and at most one is METALLICITY; when the line is a single token, the grid is
closed exactly when that token is METALLICITY. -/
theorem C5_sse_header_validation {V : Type} (env : Env V) (blanks : List Str) (line : Str)
    (tail : Option Str) (hname : env.gridFilename ≠ [])
    (hfile : env.gridFile = some (fileText blanks line tail))
    (hb : ∀ b ∈ blanks, '\n' ∉ b ∧ normHeader b = [])
    (hl : '\n' ∉ line) (hne : normHeader line ≠ []) :
    (2 ≤ (headerTokens line).length →
      ((OpenSSEGridFile env IfStream.fresh).1.isOpen = true ↔
        ((headerTokens line).count sMASS = 1 ∧ (headerTokens line).count sMETALLICITY ≤ 1))) ∧
    ((headerTokens line).length = 1 →
      ((OpenSSEGridFile env IfStream.fresh).1.isOpen = false ↔
        headerTokens line = [sMETALLICITY])) := by
  rw [OpenSSEGridFile_fileText env blanks line tail hname hfile hb hl hne]
  constructor
  · intro h2
    have hlen : (headerTokens line).length > 1 := h2
    by_cases hc : (headerTokens line).count sMASS ≠ 1 ∨
        (headerTokens line).count sMETALLICITY > 1
    · simp only [hc, hlen, true_or, if_true, IfStream.close, Bool.false_eq_true, false_iff]
      omega
    · simp only [hc, if_false, afterLine_isOpen, true_iff]
      omega
  · intro h1
    obtain ⟨t, ht⟩ := List.length_eq_one.1 h1
    rw [ht]
    simp only [count_singleton_str, List.length_singleton, gt_iff_lt, Nat.lt_irrefl,
      false_or, ge_iff_le, List.cons.injEq, and_true]
    by_cases hm : t = sMASS
    · subst hm
      simp only [if_true, ne_eq, not_true_eq_false, false_or,
        show ¬ sMASS = sMETALLICITY by decide, if_false, Nat.not_lt_zero, afterLine_isOpen,
        Bool.true_eq_false]
    · by_cases hz : t = sMETALLICITY
      · subst hz
        simp only [show ¬ sMETALLICITY = sMASS by decide, if_false, if_true, ne_eq,
          Nat.zero_ne_one, not_false_eq_true, true_or, Nat.le_refl, or_true,
          IfStream.close]
      · simp only [hm, hz, if_false, ne_eq, Nat.zero_ne_one, not_false_eq_true, true_or,
          if_true, Nat.le_zero_eq, Nat.one_ne_zero, or_self, seekg_isOpen, afterLine_isOpen,
          Bool.true_eq_false]

theorem C5_sse_header_validation_witness :
    (∀ b ∈ demoBlanks, '\n' ∉ b ∧ normHeader b = []) ∧
    '\n' ∉ " metallicity , Mass # header".toList ∧
    normHeader " metallicity , Mass # header".toList ≠ [] ∧
    2 ≤ (headerTokens " metallicity , Mass # header".toList).length ∧
    (OpenSSEGridFile (ratEnv (some (fileText demoBlanks " metallicity , Mass # header".toList
      (some "0.02,1".toList))) 0) IfStream.fresh).1.isOpen = true :=
  ⟨by decide, by decide, by decide, by decide,
    ((C5_sse_header_validation (ratEnv (some (fileText demoBlanks
      " metallicity , Mass # header".toList (some "0.02,1".toList))) 0) demoBlanks
      " metallicity , Mass # header".toList (some "0.02,1".toList)
      (by decide) rfl (by decide) (by decide) (by decide)).1 (by decide)).2 (by decide)⟩

/-! ## Record readers -/

section Rows

variable {V : Type} [LinearOrder V] [Zero V]

theorem sseRecordLoop_fileText (env : Env V) (hdr : List Str) (blanks : List Str) (line : Str)
    (tail : Option Str) (hb : ∀ b ∈ blanks, '\n' ∉ b ∧ normRecord b = [])
    (hl : '\n' ∉ line) (hne : normRecord line ≠ []) :
    ∀ (fuel : Nat) (g : IfStream) (lineNo : Nat) (gv : List V), g.good →
      g.unread = fileText blanks line tail → blanks.length < fuel →
      sseRecordLoop env hdr fuel g lineNo gv =
        (g.afterLine (blanksLength blanks) line.length tail.isNone,
         lineNo + blanks.length + 1, sseRecord env hdr (normRecord line) gv) := by
  induction blanks with
  | nil =>
    intro fuel g lineNo gv hg hu hf
    obtain ⟨fuel, rfl⟩ : ∃ k, fuel = k + 1 := ⟨fuel - 1, by simp at hf; omega⟩
    have h1 := getline_tail g hg line tail hu hl (normRecord_ne_nil hne)
    simp only [sseRecordLoop, h1, blanksLength, List.length_nil, Nat.add_zero,
      isEmpty_false_of_ne_nil hne, Bool.false_eq_true, if_false]
  | cons b bs ih =>
    intro fuel g lineNo gv hg hu hf
    obtain ⟨fuel, rfl⟩ : ∃ k, fuel = k + 1 := ⟨fuel - 1, by simp at hf; omega⟩
    have hb0 := hb b (by simp)
    have hu1 : g.unread = b ++ '\n' :: fileText bs line tail := by simpa [fileText] using hu
    obtain ⟨h1, h2, h3⟩ := getline_newline g hg b _ hu1 hb0.1
    have ih1 := ih (fun x hx => hb x (by simp [hx])) fuel (g.afterLine 0 b.length false)
      (lineNo + 1) gv h2 h3 (by simp at hf; omega)
    simp only [sseRecordLoop, h1, hb0.2, List.isEmpty_nil, if_true]
    rw [ih1, afterLine_afterLine]
    have e2 : lineNo + 1 + bs.length + 1 = lineNo + (b :: bs).length + 1 := by
      simp; omega
    simp only [e2, blanksLength]

theorem unread_length_le (g : IfStream) : g.unread.length ≤ g.content.length := by
  unfold IfStream.unread
  simp

/-- The result of `ReadSSEGridRecord` on a good stream whose next non-empty line is `line`. -/
theorem ReadSSEGridRecord_fileText (env : Env V) (hdr : List Str) (blanks : List Str)
    (line : Str) (tail : Option Str) (g : IfStream) (lineNo : Nat)
    (hg : g.good) (hu : g.unread = fileText blanks line tail)
    (hb : ∀ b ∈ blanks, '\n' ∉ b ∧ normRecord b = [])
    (hl : '\n' ∉ line) (hne : normRecord line ≠ []) :
    ReadSSEGridRecord env g hdr lineNo =
      (g.afterLine (blanksLength blanks) line.length tail.isNone,
       lineNo + blanks.length + 1,
       if (sseRecord env hdr (normRecord line) [0, 0]).1 then []
       else (sseRecord env hdr (normRecord line) [0, 0]).2) := by
  have hf : blanks.length < g.content.length + 2 := by
    have h1 := blanks_le_fileText blanks line tail
    have h2 := unread_length_le g
    rw [hu] at h2
    omega
  unfold ReadSSEGridRecord
  rw [sseRecordLoop_fileText env hdr blanks line tail hb hl hne _ g lineNo _ hg hu hf]

theorem bseRecordLoop_fileText (env : Env V) (hdr : List Str) (blanks : List Str) (line : Str)
    (tail : Option Str) (hb : ∀ b ∈ blanks, '\n' ∉ b ∧ normRecord b = [])
    (hl : '\n' ∉ line) (hne : normRecord line ≠ []) :
    ∀ (fuel : Nat) (g : IfStream) (lineNo : Nat) (gv : List V), g.good →
      g.unread = fileText blanks line tail → blanks.length < fuel →
      bseRecordLoop env hdr fuel g lineNo gv =
        (bseRecord env hdr (normRecord line) gv).map (fun r =>
          (g.afterLine (blanksLength blanks) line.length tail.isNone,
           lineNo + blanks.length + 1, r.1, r.2)) := by
  induction blanks with
  | nil =>
    intro fuel g lineNo gv hg hu hf
    obtain ⟨fuel, rfl⟩ : ∃ k, fuel = k + 1 := ⟨fuel - 1, by simp at hf; omega⟩
    have h1 := getline_tail g hg line tail hu hl (normRecord_ne_nil hne)
    simp only [bseRecordLoop, h1, blanksLength, List.length_nil, Nat.add_zero,
      isEmpty_false_of_ne_nil hne, Bool.false_eq_true, if_false]
  | cons b bs ih =>
    intro fuel g lineNo gv hg hu hf
    obtain ⟨fuel, rfl⟩ : ∃ k, fuel = k + 1 := ⟨fuel - 1, by simp at hf; omega⟩
    have hb0 := hb b (by simp)
    have hu1 : g.unread = b ++ '\n' :: fileText bs line tail := by simpa [fileText] using hu
    obtain ⟨h1, h2, h3⟩ := getline_newline g hg b _ hu1 hb0.1
    have ih1 := ih (fun x hx => hb x (by simp [hx])) fuel (g.afterLine 0 b.length false)
      (lineNo + 1) gv h2 h3 (by simp at hf; omega)
    simp only [bseRecordLoop, h1, hb0.2, List.isEmpty_nil, if_true]
    rw [ih1, afterLine_afterLine]
    have e2 : lineNo + 1 + bs.length + 1 = lineNo + (b :: bs).length + 1 := by
      simp; omega
    simp only [e2, blanksLength]

/-- The result of `ReadBSEGridRecord` on a good stream whose next non-empty line is `line`. -/
theorem ReadBSEGridRecord_fileText (env : Env V) (hdr : List Str) (blanks : List Str)
    (line : Str) (tail : Option Str) (g : IfStream) (lineNo : Nat)
    (hg : g.good) (hu : g.unread = fileText blanks line tail)
    (hb : ∀ b ∈ blanks, '\n' ∉ b ∧ normRecord b = [])
    (hl : '\n' ∉ line) (hne : normRecord line ≠ []) :
    ReadBSEGridRecord env g hdr lineNo =
      (bseRecord env hdr (normRecord line)
          (if hdr.length = 6 then List.replicate 6 0 else List.replicate 14 0)).map (fun r =>
        (g.afterLine (blanksLength blanks) line.length tail.isNone,
         lineNo + blanks.length + 1, if r.1 then [] else r.2)) := by
  have hf : blanks.length < g.content.length + 2 := by
    have h1 := blanks_le_fileText blanks line tail
    have h2 := unread_length_le g
    rw [hu] at h2
    omega
  unfold ReadBSEGridRecord
  simp only []
  rw [bseRecordLoop_fileText env hdr blanks line tail hb hl hne _ g lineNo _ hg hu hf]
  simp only [Option.map_map]
  rfl

theorem sseRowToken_column (env : Env V) (hdr : List Str) (st : SSERow V) (tok : Str) :
    (sseRowToken env hdr st tok).column = st.column + 1 := by
  unfold sseRowToken
  simp only []
  split
  · rfl
  · split
    · rfl
    · split
      · rfl
      · split
        · rfl
        · split <;> rfl

theorem sseRowToken_error (env : Env V) (hdr : List Str) (st : SSERow V) (tok : Str)
    (hc : st.column < hdr.length) (hne : trimToken tok ≠ [])
    (hbad : env.parse (trimToken tok) = none ∨
      ∃ v, env.parse (trimToken tok) = some v ∧ v < 0) :
    (sseRowToken env hdr st tok).error = true := by
  unfold sseRowToken
  have h1 : ¬ st.column ≥ hdr.length := by omega
  simp only [h1, if_false, isEmpty_false_of_ne_nil hne, Bool.false_eq_true]
  rcases hbad with h | ⟨v, h, hv⟩
  · simp only [h]
  · simp only [h, hv, if_true]

theorem sseRowLoop_error (env : Env V) (hdr : List Str) :
    ∀ (toks : List Str) (st : SSERow V),
      (st.error = true ∨ ∃ j tok, toks[j]? = some tok ∧ st.column + j < hdr.length ∧
        trimToken tok ≠ [] ∧ (env.parse (trimToken tok) = none ∨
          ∃ v, env.parse (trimToken tok) = some v ∧ v < 0)) →
      (sseRowLoop env hdr toks st).error = true := by
  intro toks
  induction toks with
  | nil =>
    intro st h
    rcases h with h | ⟨j, tok, hj, -⟩
    · simpa [sseRowLoop] using h
    · simp at hj
  | cons t rest ih =>
    intro st h
    unfold sseRowLoop
    by_cases he : st.error = true
    · simp only [he, if_true]
    · simp only [he, if_false, Bool.false_eq_true]
      apply ih
      rcases h with h | ⟨j, tok, hj, hw, hne, hbad⟩
      · exact absurd h he
      · cases j with
        | zero =>
          left
          simp only [List.getElem?_cons_zero, Option.some.injEq] at hj
          subst hj
          exact sseRowToken_error env hdr st t (by omega) hne hbad
        | succ j =>
          right
          refine ⟨j, tok, by simpa using hj, ?_, hne, hbad⟩
          rw [sseRowToken_column]
          omega

theorem sseRecord_error (env : Env V) (hdr : List Str) (record : Str) (gv : List V)
    (i : Nat) (tok : Str) (hi : (getTokens record)[i]? = some tok) (hw : i < hdr.length)
    (hne : trimToken tok ≠ [])
    (hbad : env.parse (trimToken tok) = none ∨
      ∃ v, env.parse (trimToken tok) = some v ∧ v < 0) :
    (sseRecord env hdr record gv).1 = true := by
  have h := sseRowLoop_error env hdr (getTokens record) ⟨false, gv, 0⟩
    (Or.inr ⟨i, tok, hi, by simpa using hw, hne, hbad⟩)
  unfold sseRecord
  simp only [h, if_true]

theorem bseStore_eq (st : BSERow V) (name : Str) (v : V) :
    bseStore st name v =
      match slotOf name with
      | some s => if s < 6 then storeChecked st s v else storeKick st s v
      | none => if name = sPERIOD then some { st with period := v } else some st := by
  by_cases h1 : name = sMASS_1
  · subst h1; rfl
  by_cases h2 : name = sMASS_2
  · subst h2; rfl
  by_cases h3 : name = sMETALLICITY_1
  · subst h3; rfl
  by_cases h4 : name = sMETALLICITY_2
  · subst h4; rfl
  by_cases h5 : name = sSEPARATION
  · subst h5; rfl
  by_cases h6 : name = sECCENTRICITY
  · subst h6; rfl
  by_cases h7 : name = sPERIOD
  · subst h7; rfl
  by_cases h8 : name = sKICK_VELOCITY_1
  · subst h8; rfl
  by_cases h9 : name = sKICK_THETA_1
  · subst h9; rfl
  by_cases h10 : name = sKICK_PHI_1
  · subst h10; rfl
  by_cases h11 : name = sKICK_MEAN_ANOMALY_1
  · subst h11; rfl
  by_cases h12 : name = sKICK_VELOCITY_2
  · subst h12; rfl
  by_cases h13 : name = sKICK_THETA_2
  · subst h13; rfl
  by_cases h14 : name = sKICK_PHI_2
  · subst h14; rfl
  by_cases h15 : name = sKICK_MEAN_ANOMALY_2
  · subst h15; rfl
  simp only [bseStore, slotOf, h1, h2, h3, h4, h5, h6, h7, h8, h9, h10, h11, h12, h13, h14, h15, if_false]

omit [LinearOrder V] [Zero V] in
theorem slotOf_spec (name : Str) (s : Nat) (h : slotOf name = some s) :
    s < 14 ∧ name = slotName s ∧ name ≠ sPERIOD ∧ (name ∈ checkedNames ↔ s < 6) ∧
      (name ∈ kickNames ↔ 6 ≤ s) := by
  by_cases h1 : name = sMASS_1
  · subst h1
    have e : s = 0 := by
      have h' : some 0 = some s := h
      exact (Option.some.inj h').symm
    subst e
    decide
  by_cases h2 : name = sMASS_2
  · subst h2
    have e : s = 1 := by
      have h' : some 1 = some s := h
      exact (Option.some.inj h').symm
    subst e
    decide
  by_cases h3 : name = sMETALLICITY_1
  · subst h3
    have e : s = 2 := by
      have h' : some 2 = some s := h
      exact (Option.some.inj h').symm
    subst e
    decide
  by_cases h4 : name = sMETALLICITY_2
  · subst h4
    have e : s = 3 := by
      have h' : some 3 = some s := h
      exact (Option.some.inj h').symm
    subst e
    decide
  by_cases h5 : name = sSEPARATION
  · subst h5
    have e : s = 4 := by
      have h' : some 4 = some s := h
      exact (Option.some.inj h').symm
    subst e
    decide
  by_cases h6 : name = sECCENTRICITY
  · subst h6
    have e : s = 5 := by
      have h' : some 5 = some s := h
      exact (Option.some.inj h').symm
    subst e
    decide
  by_cases h7 : name = sKICK_VELOCITY_1
  · subst h7
    have e : s = 6 := by
      have h' : some 6 = some s := h
      exact (Option.some.inj h').symm
    subst e
    decide
  by_cases h8 : name = sKICK_THETA_1
  · subst h8
    have e : s = 7 := by
      have h' : some 7 = some s := h
      exact (Option.some.inj h').symm
    subst e
    decide
  by_cases h9 : name = sKICK_PHI_1
  · subst h9
    have e : s = 8 := by
      have h' : some 8 = some s := h
      exact (Option.some.inj h').symm
    subst e
    decide
  by_cases h10 : name = sKICK_MEAN_ANOMALY_1
  · subst h10
    have e : s = 9 := by
      have h' : some 9 = some s := h
      exact (Option.some.inj h').symm
    subst e
    decide
  by_cases h11 : name = sKICK_VELOCITY_2
  · subst h11
    have e : s = 10 := by
      have h' : some 10 = some s := h
      exact (Option.some.inj h').symm
    subst e
    decide
  by_cases h12 : name = sKICK_THETA_2
  · subst h12
    have e : s = 11 := by
      have h' : some 11 = some s := h
      exact (Option.some.inj h').symm
    subst e
    decide
  by_cases h13 : name = sKICK_PHI_2
  · subst h13
    have e : s = 12 := by
      have h' : some 12 = some s := h
      exact (Option.some.inj h').symm
    subst e
    decide
  by_cases h14 : name = sKICK_MEAN_ANOMALY_2
  · subst h14
    have e : s = 13 := by
      have h' : some 13 = some s := h
      exact (Option.some.inj h').symm
    subst e
    decide
  simp only [slotOf, h1, h2, h3, h4, h5, h6, h7, h8, h9, h10, h11, h12, h13, h14, if_false] at h
  exact absurd h (by simp)

omit [LinearOrder V] [Zero V] in
theorem slotOf_inj (a b : Str) (s : Nat) (ha : slotOf a = some s) (hb : slotOf b = some s) :
    a = b := by
  rw [(slotOf_spec a s ha).2.1, (slotOf_spec b s hb).2.1]

omit [LinearOrder V] [Zero V] in
theorem slot_lt_size (hdr : List Str) (hs : BSEHeaderSafe hdr) (name : Str) (s : Nat)
    (hm : name ∈ hdr) (h : slotOf name = some s) : s < bseSize hdr := by
  obtain ⟨h14, -, -, -, hk⟩ := slotOf_spec name s h
  unfold bseSize
  by_cases h6 : hdr.length = 6
  · simp only [h6, if_true]
    have := hs h6 name hm
    by_contra hc
    exact this (hk.2 (by omega))
  · simp only [h6, if_false]
    exact h14

omit [LinearOrder V] [Zero V] in
theorem columnOf_lt_length (name : Str) (hdr : List Str) (h : name ∈ hdr) :
    columnOf name hdr < hdr.length := by
  induction hdr with
  | nil => simp at h
  | cons a l ih =>
    unfold columnOf
    by_cases e : a = name
    · simp [e]
    · have : name ∈ l := by
        rcases List.mem_cons.1 h with h1 | h1
        · exact absurd h1.symm e
        · exact h1
      simp only [e, if_false, List.length_cons]
      have := ih this
      omega

omit [LinearOrder V] [Zero V] in
theorem getD_columnOf (name : Str) (hdr : List Str) (h : name ∈ hdr) :
    hdr.getD (columnOf name hdr) [] = name := by
  induction hdr with
  | nil => simp at h
  | cons a l ih =>
    unfold columnOf
    by_cases e : a = name
    · simp [e]
    · have : name ∈ l := by
        rcases List.mem_cons.1 h with h1 | h1
        · exact absurd h1.symm e
        · exact h1
      simp only [e, if_false]
      simpa using ih this

omit [LinearOrder V] [Zero V] in
theorem getD_mem (hdr : List Str) (c : Nat) (hc : c < hdr.length) : hdr.getD c [] ∈ hdr := by
  rw [List.getD_eq_getElem?_getD, List.getElem?_eq_getElem hc, Option.getD_some]
  exact List.getElem_mem hc

omit [LinearOrder V] [Zero V] in
theorem columnOf_getD (hdr : List Str) (hn : hdr.Nodup) :
    ∀ c, c < hdr.length → columnOf (hdr.getD c []) hdr = c := by
  induction hdr with
  | nil => intro c hc; simp at hc
  | cons a l ih =>
    intro c hc
    have hn' := List.nodup_cons.1 hn
    cases c with
    | zero => simp [columnOf]
    | succ c =>
      have hc' : c < l.length := by simpa using hc
      have hm : l.getD c [] ∈ l := getD_mem l c hc'
      have e : ¬ a = l.getD c [] := by
        intro e
        exact hn'.1 (e ▸ hm)
      have e2 : (a :: l).getD (c + 1) [] = l.getD c [] := by simp
      rw [e2]
      unfold columnOf
      simp only [e, if_false]
      rw [ih hn'.2 c hc']

omit [LinearOrder V] in
theorem bseValueUpTo_succ_ne (env : Env V) (hdr toks : List Str) (c : Nat) (name : Str)
    (hne : name ≠ hdr.getD c []) :
    bseValueUpTo env hdr toks (c + 1) name = bseValueUpTo env hdr toks c name := by
  unfold bseValueUpTo
  by_cases hm : name ∈ hdr
  · have hx : columnOf name hdr ≠ c := by
      intro e
      apply hne
      rw [← e, getD_columnOf name hdr hm]
    have e1 : (columnOf name hdr < c + 1) = (columnOf name hdr < c) := by
      apply propext; omega
    simp only [hm, true_and, e1]
  · simp only [hm, false_and, if_false]

omit [LinearOrder V] in
theorem bseValueUpTo_succ_ge (env : Env V) (hdr toks : List Str) (c : Nat) (name : Str)
    (hc : hdr.length ≤ c) :
    bseValueUpTo env hdr toks (c + 1) name = bseValueUpTo env hdr toks c name := by
  unfold bseValueUpTo
  by_cases hm : name ∈ hdr
  · have hlt := columnOf_lt_length name hdr hm
    have e1 : (columnOf name hdr < c + 1) = (columnOf name hdr < c) := by
      apply propext; omega
    simp only [hm, true_and, e1]
  · simp only [hm, false_and, if_false]

omit [LinearOrder V] in
theorem bseValueUpTo_succ_eq (env : Env V) (hdr toks : List Str) (c : Nat) (tok : Str)
    (hn : hdr.Nodup) (hc : c < hdr.length) (ht : toks[c]? = some tok) :
    bseValueUpTo env hdr toks (c + 1) (hdr.getD c [])
      = (env.parse (bseFieldText tok)).getD 0 := by
  unfold bseValueUpTo
  have hm : hdr.getD c [] ∈ hdr := getD_mem hdr c hc
  have hi : columnOf (hdr.getD c []) hdr = c := columnOf_getD hdr hn c hc
  simp only [hm, hi, true_and, Nat.lt_succ_self, if_true, ht]

omit [LinearOrder V] in
theorem bseValueUpTo_zero (env : Env V) (hdr toks : List Str) (name : Str) :
    bseValueUpTo env hdr toks 0 name = 0 := by
  unfold bseValueUpTo
  simp

omit [LinearOrder V] in
theorem getD_set_self (gv : List V) (s : Nat) (v : V) (h : s < gv.length) :
    (gv.set s v).getD s 0 = v := by
  simp [List.getD_eq_getElem?_getD, h]

omit [LinearOrder V] in
theorem getD_set_other (gv : List V) (s t : Nat) (v : V) (h : s ≠ t) :
    (gv.set s v).getD t 0 = gv.getD t 0 := by
  simp [List.getD_eq_getElem?_getD, List.getElem?_set_ne h]

omit [LinearOrder V] [Zero V] in
theorem zip_mem_of_getElem? (hdr toks : List Str) (c : Nat) (tok : Str) (hc : c < hdr.length)
    (ht : toks[c]? = some tok) : (hdr.getD c [], tok) ∈ hdr.zip toks := by
  have hct : c < toks.length := by
    by_contra h
    rw [List.getElem?_eq_none (by omega)] at ht
    exact absurd ht (by simp)
  have hz : c < (hdr.zip toks).length := by simp; omega
  have e : (hdr.zip toks)[c] = (hdr.getD c [], tok) := by
    rw [List.getElem_zip]
    have h1 : toks[c] = tok := by
      rw [List.getElem?_eq_getElem hct] at ht
      exact Option.some.inj ht
    rw [h1, List.getD_eq_getElem?_getD, List.getElem?_eq_getElem hc, Option.getD_some]
  rw [← e]
  exact List.getElem_mem hz

theorem bseRowToken_past (env : Env V) (hdr : List Str) (st : BSERow V) (tok : Str)
    (hc : hdr.length ≤ st.column) :
    bseRowToken env hdr st tok = some { st with column := st.column + 1 } := by
  unfold bseRowToken
  have h : st.column ≥ hdr.length := hc
  simp only [h, if_true, Option.map_some']

theorem bseRowToken_within (env : Env V) (hdr : List Str) (st : BSERow V) (tok : Str)
    (hc : st.column < hdr.length) :
    bseRowToken env hdr st tok =
      (match env.parse (bseFieldText tok) with
        | none => some { st with error := true }
        | some value => bseStore st (hdr.getD st.column []) value).map
        (fun s : BSERow V => { s with column := s.column + 1 }) := by
  unfold bseRowToken bseFieldText
  have h : ¬ st.column ≥ hdr.length := by omega
  simp only [h, if_false]

omit [LinearOrder V] [Zero V] in
theorem storeAt_some (gv : List V) (s : Nat) (v : V) (h : s < gv.length) :
    storeAt gv s v = some (gv.set s v) := by
  unfold storeAt
  simp only [h, if_true]

theorem checked_slot (name : Str) (h : name ∈ checkedNames) :
    ∃ s, slotOf name = some s ∧ s < 6 := by
  simp only [checkedNames, List.mem_cons, List.mem_nil_iff, or_false] at h
  rcases h with rfl | rfl | rfl | rfl | rfl | rfl
  · exact ⟨0, rfl, by decide⟩
  · exact ⟨1, rfl, by decide⟩
  · exact ⟨2, rfl, by decide⟩
  · exact ⟨3, rfl, by decide⟩
  · exact ⟨4, rfl, by decide⟩
  · exact ⟨5, rfl, by decide⟩

/-- One token of a valid row keeps the invariant of the token loop. -/
theorem bseRowToken_inv (env : Env V) (hdr toks : List Str) (hs : BSEHeaderSafe hdr)
    (hn : hdr.Nodup) (hv : BSERowValid env hdr toks) (st : BSERow V) (tok : Str)
    (ht : toks[st.column]? = some tok) (hinv : BSERowInv env hdr toks st) :
    ∃ st1, bseRowToken env hdr st tok = some st1 ∧ BSERowInv env hdr toks st1 ∧
      st1.column = st.column + 1 := by
  obtain ⟨i1, i2, i3, i4⟩ := hinv
  by_cases hc : st.column < hdr.length
  · rw [bseRowToken_within env hdr st tok hc]
    have hmem := zip_mem_of_getElem? hdr toks st.column tok hc ht
    have hok := hv _ hmem
    unfold bseFieldOk at hok
    have hname : hdr.getD st.column [] ∈ hdr := getD_mem hdr st.column hc
    cases hp : env.parse (bseFieldText tok) with
    | none => simp [hp] at hok
    | some v =>
      simp only [hp] at hok
      have hval := bseValueUpTo_succ_eq env hdr toks st.column tok hn hc ht
      rw [hp, Option.getD_some] at hval
      simp only []
      rw [bseStore_eq]
      cases hslot : slotOf (hdr.getD st.column []) with
      | some s0 =>
        obtain ⟨-, -, hnp, hchk, -⟩ := slotOf_spec _ s0 hslot
        have hlt : s0 < st.gridValues.length := by
          rw [i2]; exact slot_lt_size hdr hs _ s0 hname hslot
        have hstore : (if s0 < 6 then storeChecked st s0 v else storeKick st s0 v)
            = some { st with gridValues := st.gridValues.set s0 v } := by
          by_cases h6 : s0 < 6
          · have hmemc : hdr.getD st.column [] ∈ checkedNames := hchk.2 h6
            have hnn : ¬ v < 0 := by
              intro hneg
              simp only [hmemc, hneg, decide_True, Bool.and_true, Bool.and_self, Bool.not_true,
                Bool.false_eq_true] at hok
            simp only [h6, if_true, storeChecked, hnn, if_false, storeAt_some _ _ _ hlt,
              Option.map_some']
          · simp only [h6, if_false, storeKick, storeAt_some _ _ _ hlt, Option.map_some']
        simp only [hstore, Option.map_some']
        refine ⟨_, rfl, ⟨i1, by simpa using i2, ?_, ?_⟩, rfl⟩
        · intro name s hsl
          show (st.gridValues.set s0 v).getD s 0
            = bseValueUpTo env hdr toks (st.column + 1) name
          by_cases e : s = s0
          · subst e
            have : name = hdr.getD st.column [] := slotOf_inj _ _ s hsl hslot
            rw [this, hval, getD_set_self _ _ _ hlt]
          · have hne : name ≠ hdr.getD st.column [] := by
              intro e2
              rw [e2, hslot] at hsl
              exact e (Option.some.inj hsl).symm
            rw [getD_set_other _ _ _ _ (Ne.symm e), i3 name s hsl,
              bseValueUpTo_succ_ne env hdr toks st.column name hne]
        · show st.period = bseValueUpTo env hdr toks (st.column + 1) sPERIOD
          rw [i4, bseValueUpTo_succ_ne env hdr toks st.column sPERIOD (Ne.symm hnp)]
      | none =>
        by_cases hper : hdr.getD st.column [] = sPERIOD
        · simp only [hper, if_true, Option.map_some']
          refine ⟨_, rfl, ⟨i1, i2, ?_, ?_⟩, rfl⟩
          · intro name s hsl
            show st.gridValues.getD s 0 = bseValueUpTo env hdr toks (st.column + 1) name
            have hne : name ≠ hdr.getD st.column [] := by
              rw [hper]; exact (slotOf_spec name s hsl).2.2.1
            rw [i3 name s hsl, bseValueUpTo_succ_ne env hdr toks st.column name hne]
          · show v = bseValueUpTo env hdr toks (st.column + 1) sPERIOD
            rw [← hper, hval]
        · simp only [hper, if_false, Option.map_some']
          refine ⟨_, rfl, ⟨i1, i2, ?_, ?_⟩, rfl⟩
          · intro name s hsl
            show st.gridValues.getD s 0 = bseValueUpTo env hdr toks (st.column + 1) name
            have hne : name ≠ hdr.getD st.column [] := by
              intro e2
              rw [e2, hslot] at hsl
              exact absurd hsl (by simp)
            rw [i3 name s hsl, bseValueUpTo_succ_ne env hdr toks st.column name hne]
          · show st.period = bseValueUpTo env hdr toks (st.column + 1) sPERIOD
            rw [i4, bseValueUpTo_succ_ne env hdr toks st.column sPERIOD (Ne.symm hper)]
  · have hc' : hdr.length ≤ st.column := by omega
    rw [bseRowToken_past env hdr st tok hc']
    refine ⟨_, rfl, ⟨i1, i2, ?_, ?_⟩, rfl⟩
    · intro name s hsl
      show st.gridValues.getD s 0 = bseValueUpTo env hdr toks (st.column + 1) name
      rw [i3 name s hsl, bseValueUpTo_succ_ge env hdr toks st.column name hc']
    · show st.period = bseValueUpTo env hdr toks (st.column + 1) sPERIOD
      rw [i4, bseValueUpTo_succ_ge env hdr toks st.column sPERIOD hc']

/-- The token loop on the remaining fields of a valid row ends without error, with every
entry equal to the value of its column. -/
theorem bseRowLoop_inv (env : Env V) (hdr toks : List Str) (hs : BSEHeaderSafe hdr)
    (hn : hdr.Nodup) (hv : BSERowValid env hdr toks) :
    ∀ (rest : List Str) (st : BSERow V), toks.drop st.column = rest →
      BSERowInv env hdr toks st →
      ∃ st1, bseRowLoop env hdr rest st = some st1 ∧ BSERowInv env hdr toks st1 ∧
        st1.column = st.column + rest.length := by
  intro rest
  induction rest with
  | nil =>
    intro st _ hinv
    exact ⟨st, rfl, hinv, rfl⟩
  | cons t rest ih =>
    intro st hd hinv
    have ht : toks[st.column]? = some t := by
      rw [← List.head?_drop, hd]; rfl
    obtain ⟨st1, h1, h2, h3⟩ := bseRowToken_inv env hdr toks hs hn hv st t ht hinv
    have hd1 : toks.drop st1.column = rest := by
      rw [h3, ← List.drop_drop, hd]; rfl
    obtain ⟨st2, k1, k2, k3⟩ := ih st1 hd1 h2
    refine ⟨st2, ?_, k2, ?_⟩
    · unfold bseRowLoop
      simp only [hinv.1, Bool.false_eq_true, if_false, h1, k1]
    · rw [k3, h3, List.length_cons]; omega

omit [LinearOrder V] [Zero V] in
theorem slotOf_slotName (s : Nat) (h : s < 14) : slotOf (slotName s) = some s := by
  interval_cases s <;> rfl

omit [LinearOrder V] in
theorem getD_replicate_zero (n s : Nat) : (List.replicate n (0 : V)).getD s 0 = 0 := by
  rw [List.getD_eq_getElem?_getD]
  by_cases h : s < n
  · simp [List.getElem?_replicate, h]
  · simp [List.getElem?_replicate, h]

omit [LinearOrder V] in
theorem initial_gridValues (hdr : List Str) :
    (if hdr.length = 6 then List.replicate 6 (0 : V) else List.replicate 14 0)
      = List.replicate (bseSize hdr) 0 := by
  unfold bseSize
  split <;> rfl

omit [LinearOrder V] [Zero V] in
theorem bseSize_le (hdr : List Str) : 6 ≤ bseSize hdr ∧ bseSize hdr ≤ 14 := by
  unfold bseSize
  split <;> omega

/-- The body of the record loop of `ReadBSEGridRecord` on a row that does not abort. -/
theorem bseRecord_valid (env : Env V) (hdr : List Str) (record : Str)
    (hs : BSEHeaderSafe hdr) (hn : hdr.Nodup)
    (hv : BSERowValid env hdr (getTokens record)) :
    bseRecord env hdr record (List.replicate (bseSize hdr) 0)
      = some (false, bseExpectedRow env hdr (getTokens record)) := by
  have hinv0 : BSERowInv env hdr (getTokens record)
      ⟨false, List.replicate (bseSize hdr) 0, 0, 0⟩ := by
    refine ⟨rfl, by simp, ?_, ?_⟩
    · intro name s _
      show (List.replicate (bseSize hdr) (0 : V)).getD s 0 = _
      rw [getD_replicate_zero, bseValueUpTo_zero]
    · show (0 : V) = _
      rw [bseValueUpTo_zero]
  obtain ⟨st1, h1, ⟨i1, i2, i3, i4⟩, h3⟩ := bseRowLoop_inv env hdr (getTokens record) hs hn hv
    (getTokens record) ⟨false, List.replicate (bseSize hdr) 0, 0, 0⟩ (by simp) hinv0
  have hcol : st1.column = (getTokens record).length := by simpa using h3
  rw [hcol] at i3 i4
  have e4 := i3 sSEPARATION 4 rfl
  have e0 := i3 sMASS_1 0 rfl
  have e1 := i3 sMASS_2 1 rfl
  have hsz := bseSize_le hdr
  unfold bseRecord
  simp only [h1, i1, Bool.false_eq_true, if_false, e4, e0, e1, i4]
  have hrow : ∀ k : V,
      st1.gridValues.set 4 k = (List.range (bseSize hdr)).map (fun s =>
        if s = 4 then k else bseColumnValue env hdr (getTokens record) (slotName s)) := by
    intro k
    apply List.ext_getElem?
    intro i
    by_cases hi : i < bseSize hdr
    · have hi' : i < st1.gridValues.length := by rw [i2]; exact hi
      have hv' : st1.gridValues[i]? = some (bseColumnValue env hdr (getTokens record)
          (slotName i)) := by
        have := i3 (slotName i) i (slotOf_slotName i (by omega))
        rw [List.getD_eq_getElem?_getD, List.getElem?_eq_getElem hi', Option.getD_some] at this
        rw [List.getElem?_eq_getElem hi', this]
        rfl
      by_cases e : i = 4
      · subst e
        simp [hi, hi']
      · rw [List.getElem?_set_ne (Ne.symm e), hv']
        simp [hi, e]
    · have hi' : st1.gridValues.length ≤ i := by rw [i2]; omega
      rw [List.getElem?_eq_none (by simpa using hi'), List.getElem?_eq_none (by simp; omega)]
  have hsame : st1.gridValues = (List.range (bseSize hdr)).map (fun s =>
        if s = 4 then bseColumnValue env hdr (getTokens record) sSEPARATION
        else bseColumnValue env hdr (getTokens record) (slotName s)) := by
    have e4' : st1.gridValues.getD 4 0
        = bseColumnValue env hdr (getTokens record) sSEPARATION := e4
    rw [← hrow, ← e4']
    apply List.ext_getElem?
    intro i
    by_cases e : i = 4
    · subst e
      have h4 : 4 < st1.gridValues.length := by rw [i2]; omega
      simp [List.getD_eq_getElem?_getD, h4]
    · rw [List.getElem?_set_ne (Ne.symm e)]
  unfold bseExpectedRow bseExpectedSeparation bseColumnValue
  by_cases hcnd : bseValueUpTo env hdr (getTokens record) (getTokens record).length sSEPARATION ≤ 0 ∧
      bseValueUpTo env hdr (getTokens record) (getTokens record).length sPERIOD > 0 ∧
      bseValueUpTo env hdr (getTokens record) (getTokens record).length sMASS_1 > 0 ∧
      bseValueUpTo env hdr (getTokens record) (getTokens record).length sMASS_2 > 0
  · simp only [hcnd, and_self, if_true]
    rw [hrow]
    rfl
  · simp only [hcnd, if_false]
    rw [hsame]
    rfl

/-- The result of `ReadBSEGridRecord` when the next non-empty line is a row that does not
abort: the value vector is `bseExpectedRow`. -/
theorem ReadBSEGridRecord_valid (env : Env V) (hdr : List Str) (blanks : List Str)
    (line : Str) (tail : Option Str) (g : IfStream) (lineNo : Nat)
    (hg : g.good) (hu : g.unread = fileText blanks line tail)
    (hb : ∀ b ∈ blanks, '\n' ∉ b ∧ normRecord b = [])
    (hl : '\n' ∉ line) (hne : normRecord line ≠ [])
    (hs : BSEHeaderSafe hdr) (hn : hdr.Nodup) (hv : BSERowValid env hdr (rowTokens line)) :
    ReadBSEGridRecord env g hdr lineNo =
      some (g.afterLine (blanksLength blanks) line.length tail.isNone,
        lineNo + blanks.length + 1, bseExpectedRow env hdr (rowTokens line)) := by
  rw [ReadBSEGridRecord_fileText env hdr blanks line tail g lineNo hg hu hb hl hne,
    initial_gridValues, bseRecord_valid env hdr (normRecord line) hs hn hv]
  rfl

/-! ## Row claims -/

theorem bseExpectedRow_length (env : Env V) (hdr toks : List Str) :
    (bseExpectedRow env hdr toks).length = bseSize hdr := by
  simp [bseExpectedRow]

theorem bseExpectedRow_getD (env : Env V) (hdr toks : List Str) (s : Nat)
    (h : s < bseSize hdr) :
    (bseExpectedRow env hdr toks).getD s 0 =
      if s = 4 then bseExpectedSeparation env hdr toks
      else bseColumnValue env hdr toks (slotName s) := by
  simp [bseExpectedRow, List.getD_eq_getElem?_getD, h]

/-- C1 (as stated, refuted): under the header
`MASS_1,MASS_2,METALLICITY_1,METALLICITY_2,SEPARATION,ECCENTRICITY,PERIOD` the row
`10,8,0.02,0.02,0,0.1,100` has SEPARATION field `0`, yet the separation returned at index 4
is the value of the period conversion for masses 10 and 8 and period 100, which is not
zero: the period replaces an explicit separation of `0.0`. -/
theorem C1_zero_separation_counterexample :
    bseColumnValue (ratEnv none 0) demoHeadersBoth (rowTokens demoRowZeroSeparation)
      sSEPARATION = 0 ∧
    (ReadBSEGridRecord (ratEnv none 0) (streamOn demoRowZeroSeparation) demoHeadersBoth 2).map
      (fun r => r.2.2.getD 4 0) = some ((ratEnv none 0).kepler 10 8 100) ∧
    (ratEnv none 0).kepler 10 8 100 ≠ 0 := by
  decide!

/-- C1 (amended): for a row that does not abort, read under a header with both SEPARATION
and PERIOD, the separation returned at index 4 is the value of the SEPARATION field when
that value is positive, or the period or a mass is not positive; when the SEPARATION value
is not positive while the period and both masses are, it is the value of the period
conversion. -/
theorem C1_separation_amended (env : Env V) (hdr : List Str) (blanks : List Str)
    (line : Str) (tail : Option Str) (g : IfStream) (lineNo : Nat)
    (hg : g.good) (hu : g.unread = fileText blanks line tail)
    (hb : ∀ b ∈ blanks, '\n' ∉ b ∧ normRecord b = [])
    (hl : '\n' ∉ line) (hne : normRecord line ≠ [])
    (hs : BSEHeaderSafe hdr) (hn : hdr.Nodup)
    (_hsep : sSEPARATION ∈ hdr) (_hper : sPERIOD ∈ hdr)
    (hv : BSERowValid env hdr (rowTokens line)) :
    ReadBSEGridRecord env g hdr lineNo =
      some (g.afterLine (blanksLength blanks) line.length tail.isNone,
        lineNo + blanks.length + 1, bseExpectedRow env hdr (rowTokens line)) ∧
    (bseExpectedRow env hdr (rowTokens line)).getD 4 0 =
      (if bseColumnValue env hdr (rowTokens line) sSEPARATION ≤ 0 ∧
          bseColumnValue env hdr (rowTokens line) sPERIOD > 0 ∧
          bseColumnValue env hdr (rowTokens line) sMASS_1 > 0 ∧
          bseColumnValue env hdr (rowTokens line) sMASS_2 > 0 then
        env.kepler (bseColumnValue env hdr (rowTokens line) sMASS_1)
          (bseColumnValue env hdr (rowTokens line) sMASS_2)
          (bseColumnValue env hdr (rowTokens line) sPERIOD)
      else bseColumnValue env hdr (rowTokens line) sSEPARATION) ∧
    ((0 < bseColumnValue env hdr (rowTokens line) sSEPARATION ∨
        bseColumnValue env hdr (rowTokens line) sPERIOD ≤ 0 ∨
        bseColumnValue env hdr (rowTokens line) sMASS_1 ≤ 0 ∨
        bseColumnValue env hdr (rowTokens line) sMASS_2 ≤ 0) →
      (bseExpectedRow env hdr (rowTokens line)).getD 4 0
        = bseColumnValue env hdr (rowTokens line) sSEPARATION) := by
  have h4 : 4 < bseSize hdr := by have := bseSize_le hdr; omega
  have e := bseExpectedRow_getD env hdr (rowTokens line) 4 h4
  simp only [if_true] at e
  refine ⟨ReadBSEGridRecord_valid env hdr blanks line tail g lineNo hg hu hb hl hne hs hn hv,
    e, ?_⟩
  intro h
  rw [e]
  unfold bseExpectedSeparation
  have hc : ¬ (bseColumnValue env hdr (rowTokens line) sSEPARATION ≤ 0 ∧
      bseColumnValue env hdr (rowTokens line) sPERIOD > 0 ∧
      bseColumnValue env hdr (rowTokens line) sMASS_1 > 0 ∧
      bseColumnValue env hdr (rowTokens line) sMASS_2 > 0) := by
    rintro ⟨h1, h2, h3, h4⟩
    rcases h with h | h | h | h
    · exact absurd h (not_lt.2 h1)
    · exact absurd h2 (not_lt.2 h)
    · exact absurd h3 (not_lt.2 h)
    · exact absurd h4 (not_lt.2 h)
  simp only [hc, if_false]

theorem C1_separation_amended_witness :
    (streamOn (fileText demoBlanks demoRowSeparation none)).good ∧
    (∀ b ∈ demoBlanks, '\n' ∉ b ∧ normRecord b = []) ∧ '\n' ∉ demoRowSeparation ∧
    normRecord demoRowSeparation ≠ [] ∧ BSEHeaderSafe demoHeadersBoth ∧
    demoHeadersBoth.Nodup ∧ sSEPARATION ∈ demoHeadersBoth ∧ sPERIOD ∈ demoHeadersBoth ∧
    BSERowValid (ratEnv none 0) demoHeadersBoth (rowTokens demoRowSeparation) ∧
    (bseExpectedRow (ratEnv none 0) demoHeadersBoth (rowTokens demoRowSeparation)).getD 4 0
      = 7 / 2 :=
  ⟨streamOn_good _, by decide, by decide, by decide, by decide, by decide, by decide,
    by decide, by decide!,
    ((C1_separation_amended (ratEnv none 0) demoHeadersBoth demoBlanks demoRowSeparation none
      (streamOn (fileText demoBlanks demoRowSeparation none)) 2 (streamOn_good _)
      (streamOn_unread _) (by decide) (by decide) (by decide) (by decide) (by decide)
      (by decide) (by decide) (by decide!)).2.2 (Or.inl (by decide!))).trans (by decide!)⟩

/-- C10: in a paired-object row whose fields all convert and whose mass, metallicity,
separation and eccentricity values are not negative, no sign test is applied to the kick
and PERIOD columns: the read returns a non-empty vector, every kick column holds the value
of its field, negative or not, and when the period is not positive the separation entry is
the value of the SEPARATION field. -/
theorem C10_negative_kick_period (env : Env V) (hdr : List Str) (blanks : List Str)
    (line : Str) (tail : Option Str) (g : IfStream) (lineNo : Nat)
    (hg : g.good) (hu : g.unread = fileText blanks line tail)
    (hb : ∀ b ∈ blanks, '\n' ∉ b ∧ normRecord b = [])
    (hl : '\n' ∉ line) (hne : normRecord line ≠ [])
    (hs : BSEHeaderSafe hdr) (hn : hdr.Nodup)
    (hv : BSERowValid env hdr (rowTokens line)) :
    (∀ (name tok : Str) (v : V), name ∉ checkedNames →
      env.parse (bseFieldText tok) = some v → bseFieldOk env name tok = true) ∧
    ReadBSEGridRecord env g hdr lineNo =
      some (g.afterLine (blanksLength blanks) line.length tail.isNone,
        lineNo + blanks.length + 1, bseExpectedRow env hdr (rowTokens line)) ∧
    bseExpectedRow env hdr (rowTokens line) ≠ [] ∧
    (∀ (name : Str) (s : Nat), name ∈ kickNames → name ∈ hdr → slotOf name = some s →
      (bseExpectedRow env hdr (rowTokens line)).getD s 0
        = bseColumnValue env hdr (rowTokens line) name) ∧
    (bseColumnValue env hdr (rowTokens line) sPERIOD ≤ 0 →
      (bseExpectedRow env hdr (rowTokens line)).getD 4 0
        = bseColumnValue env hdr (rowTokens line) sSEPARATION) := by
  have h4 : 4 < bseSize hdr := by have := bseSize_le hdr; omega
  refine ⟨?_, ReadBSEGridRecord_valid env hdr blanks line tail g lineNo hg hu hb hl hne hs hn hv,
    ?_, ?_, ?_⟩
  · intro name tok v hnc hp
    unfold bseFieldOk
    simp only [hp, hnc, decide_False, Bool.false_and, Bool.not_false]
  · intro h
    have := bseExpectedRow_length env hdr (rowTokens line)
    rw [h] at this
    simp at this
    omega
  · intro name s hk hm hsl
    obtain ⟨-, hnm, -, -, hks⟩ := slotOf_spec name s hsl
    have h6 : 6 ≤ s := hks.1 hk
    rw [bseExpectedRow_getD env hdr (rowTokens line) s (slot_lt_size hdr hs name s hm hsl)]
    have e : ¬ s = 4 := by omega
    simp only [e, if_false, ← hnm]
  · intro hp
    rw [bseExpectedRow_getD env hdr (rowTokens line) 4 h4]
    unfold bseExpectedSeparation
    have hc : ¬ (bseColumnValue env hdr (rowTokens line) sSEPARATION ≤ 0 ∧
        bseColumnValue env hdr (rowTokens line) sPERIOD > 0 ∧
        bseColumnValue env hdr (rowTokens line) sMASS_1 > 0 ∧
        bseColumnValue env hdr (rowTokens line) sMASS_2 > 0) := by
      rintro ⟨-, h2, -, -⟩
      exact absurd h2 (not_lt.2 hp)
    simp only [hc, if_true, if_false]

theorem C10_negative_kick_period_witness :
    (streamOn (fileText demoBlanks demoRowNegativeKicks none)).good ∧
    (∀ b ∈ demoBlanks, '\n' ∉ b ∧ normRecord b = []) ∧ '\n' ∉ demoRowNegativeKicks ∧
    normRecord demoRowNegativeKicks ≠ [] ∧ BSEHeaderSafe demoHeadersKicks ∧
    demoHeadersKicks.Nodup ∧
    BSERowValid (ratEnv none 0) demoHeadersKicks (rowTokens demoRowNegativeKicks) ∧
    ReadBSEGridRecord (ratEnv none 0) (streamOn (fileText demoBlanks demoRowNegativeKicks none))
        demoHeadersKicks 2 =
      some ((streamOn (fileText demoBlanks demoRowNegativeKicks none)).afterLine
          (blanksLength demoBlanks) demoRowNegativeKicks.length true, 5,
        [10, 8, 1 / 50, 1 / 50, 7 / 2, 1 / 10, -250, -1 / 2, 1, 2, 300, -3 / 2, -2, 0]) :=
  ⟨streamOn_good _, by decide, by decide, by decide, by decide, by decide, by decide!,
    (C10_negative_kick_period (ratEnv none 0) demoHeadersKicks demoBlanks demoRowNegativeKicks
      none (streamOn (fileText demoBlanks demoRowNegativeKicks none)) 2 (streamOn_good _)
      (streamOn_unread _) (by decide) (by decide) (by decide) (by decide) (by decide)
      (by decide!)).2.1.trans (by decide!)⟩

theorem bseStore_column (st st1 : BSERow V) (name : Str) (v : V)
    (h : bseStore st name v = some st1) :
    st1.column = st.column ∧ st1.period = (if name = sPERIOD then v else st.period) ∧
      (st1.gridValues = st.gridValues ∨
        ∃ s, slotOf name = some s ∧ ¬ (s < 6 ∧ v < 0) ∧ s < st.gridValues.length ∧
          st1.error = st.error ∧ st1.gridValues = st.gridValues.set s v) := by
  rw [bseStore_eq] at h
  cases hslot : slotOf name with
  | none =>
    simp only [hslot] at h
    by_cases hp : name = sPERIOD
    · simp only [hp, if_true, Option.some.injEq] at h
      subst h
      exact ⟨rfl, by simp [hp], Or.inl rfl⟩
    · simp only [hp, if_false, Option.some.injEq] at h
      subst h
      exact ⟨rfl, by simp [hp], Or.inl rfl⟩
  | some s =>
    have hnp : ¬ name = sPERIOD := (slotOf_spec name s hslot).2.2.1
    simp only [hslot] at h
    have key : ∀ (hneg : ¬ (s < 6 ∧ v < 0)),
        (storeAt st.gridValues s v).map (fun gv => { st with gridValues := gv }) = some st1 →
        st1.column = st.column ∧ st1.period = (if name = sPERIOD then v else st.period) ∧
          (st1.gridValues = st.gridValues ∨
            ∃ s', some s = some s' ∧ ¬ (s' < 6 ∧ v < 0) ∧ s' < st.gridValues.length ∧
              st1.error = st.error ∧ st1.gridValues = st.gridValues.set s' v) := by
      intro hneg h
      unfold storeAt at h
      by_cases hl : s < st.gridValues.length
      · simp only [hl, if_true, Option.map_some', Option.some.injEq] at h
        subst h
        exact ⟨rfl, by simp [hnp], Or.inr ⟨s, rfl, hneg, hl, rfl, rfl⟩⟩
      · simp only [hl, if_false, Option.map_none'] at h
        exact absurd h (by simp)
    by_cases h6 : s < 6
    · simp only [h6, if_true, storeChecked] at h
      by_cases hv : v < 0
      · simp only [hv, if_true, Option.some.injEq] at h
        subst h
        exact ⟨rfl, by simp [hnp], Or.inl rfl⟩
      · simp only [hv, if_false] at h
        exact key (fun hh => hv hh.2) h
    · simp only [h6, if_false, storeKick] at h
      exact key (fun hh => h6 hh.1) h

theorem bseRowToken_column (env : Env V) (hdr : List Str) (st st1 : BSERow V) (tok : Str)
    (h : bseRowToken env hdr st tok = some st1) : st1.column = st.column + 1 := by
  by_cases hc : st.column < hdr.length
  · rw [bseRowToken_within env hdr st tok hc] at h
    cases hp : env.parse (bseFieldText tok) with
    | none =>
      simp only [hp, Option.map_some', Option.some.injEq] at h
      subst h
      rfl
    | some v =>
      simp only [hp] at h
      cases hst : bseStore st (hdr.getD st.column []) v with
      | none =>
        rw [hst] at h
        exact absurd h (by simp)
      | some s =>
        simp only [hst, Option.map_some', Option.some.injEq] at h
        subst h
        show s.column + 1 = st.column + 1
        rw [(bseStore_column st s _ v hst).1]
  · rw [bseRowToken_past env hdr st tok (by omega)] at h
    simp only [Option.some.injEq] at h
    subst h
    rfl

/-- A field that aborts the read: the extraction fails, or the column is one whose value
is checked and the value is negative. -/
theorem bseRowToken_bad (env : Env V) (hdr : List Str) (st : BSERow V) (tok : Str)
    (hc : st.column < hdr.length)
    (hbad : env.parse (bseFieldText tok) = none ∨
      (hdr.getD st.column [] ∈ checkedNames ∧
        ∃ v, env.parse (bseFieldText tok) = some v ∧ v < 0)) :
    bseRowToken env hdr st tok = some { st with error := true, column := st.column + 1 } := by
  rw [bseRowToken_within env hdr st tok hc]
  rcases hbad with h | ⟨hm, v, h, hv⟩
  · simp only [h, Option.map_some']
  · obtain ⟨s, hs, h6⟩ := checked_slot _ hm
    simp only [h, bseStore_eq, hs, h6, if_true, storeChecked, hv, Option.map_some']

theorem bseRowLoop_error (env : Env V) (hdr : List Str) :
    ∀ (toks : List Str) (st st1 : BSERow V), bseRowLoop env hdr toks st = some st1 →
      (st.error = true ∨ ∃ j tok, toks[j]? = some tok ∧ st.column + j < hdr.length ∧
        (env.parse (bseFieldText tok) = none ∨
          (hdr.getD (st.column + j) [] ∈ checkedNames ∧
            ∃ v, env.parse (bseFieldText tok) = some v ∧ v < 0))) →
      st1.error = true := by
  intro toks
  induction toks with
  | nil =>
    intro st st1 h hb
    rcases hb with hb | ⟨j, tok, hj, -⟩
    · simp only [bseRowLoop, Option.some.injEq] at h
      subst h
      exact hb
    · simp at hj
  | cons t rest ih =>
    intro st st1 h hb
    unfold bseRowLoop at h
    by_cases he : st.error = true
    · simp only [he, if_true, Option.some.injEq] at h
      subst h
      exact he
    · simp only [he, if_false, Bool.false_eq_true] at h
      cases hst : bseRowToken env hdr st t with
      | none => simp [hst] at h
      | some s =>
        simp only [hst] at h
        apply ih s st1 h
        rcases hb with hb | ⟨j, tok, hj, hw, hbad⟩
        · exact absurd hb he
        · cases j with
          | zero =>
            left
            simp only [List.getElem?_cons_zero, Option.some.injEq] at hj
            subst hj
            rw [bseRowToken_bad env hdr st t (by omega) (by simpa using hbad)] at hst
            simp only [Option.some.injEq] at hst
            subst hst
            rfl
          | succ j =>
            right
            have hcol := bseRowToken_column env hdr st s t hst
            refine ⟨j, tok, by simpa using hj, by omega, ?_⟩
            have e : s.column + j = st.column + (j + 1) := by omega
            rw [e]
            exact hbad

theorem bseRowToken_safe (env : Env V) (hdr : List Str) (hs : BSEHeaderSafe hdr)
    (st : BSERow V) (tok : Str) (hlen : st.gridValues.length = bseSize hdr) :
    ∃ st1, bseRowToken env hdr st tok = some st1 ∧ st1.gridValues.length = bseSize hdr := by
  by_cases hc : st.column < hdr.length
  · rw [bseRowToken_within env hdr st tok hc]
    cases hp : env.parse (bseFieldText tok) with
    | none => exact ⟨_, rfl, hlen⟩
    | some v =>
      simp only []
      rw [bseStore_eq]
      cases hslot : slotOf (hdr.getD st.column []) with
      | none =>
        by_cases hper : hdr.getD st.column [] = sPERIOD
        · simp only [hper, if_true, Option.map_some']
          exact ⟨_, rfl, hlen⟩
        · simp only [hper, if_false, Option.map_some']
          exact ⟨_, rfl, hlen⟩
      | some s =>
        have hlt : s < st.gridValues.length := by
          rw [hlen]
          exact slot_lt_size hdr hs _ s (getD_mem hdr st.column hc) hslot
        by_cases h6 : s < 6
        · by_cases hv : v < 0
          · simp only [h6, if_true, storeChecked, hv, Option.map_some']
            exact ⟨_, rfl, hlen⟩
          · simp only [h6, if_true, storeChecked, hv, if_false, storeAt_some _ _ _ hlt,
              Option.map_some']
            exact ⟨_, rfl, by simpa using hlen⟩
        · simp only [h6, if_false, storeKick, storeAt_some _ _ _ hlt, Option.map_some']
          exact ⟨_, rfl, by simpa using hlen⟩
  · rw [bseRowToken_past env hdr st tok (by omega)]
    exact ⟨_, rfl, hlen⟩

theorem bseRowLoop_safe (env : Env V) (hdr : List Str) (hs : BSEHeaderSafe hdr) :
    ∀ (toks : List Str) (st : BSERow V), st.gridValues.length = bseSize hdr →
      ∃ st1, bseRowLoop env hdr toks st = some st1 ∧
        st1.gridValues.length = bseSize hdr := by
  intro toks
  induction toks with
  | nil => intro st h; exact ⟨st, rfl, h⟩
  | cons t rest ih =>
    intro st h
    unfold bseRowLoop
    by_cases he : st.error = true
    · simp only [he, if_true]
      exact ⟨st, rfl, h⟩
    · simp only [he, if_false, Bool.false_eq_true]
      obtain ⟨s, h1, h2⟩ := bseRowToken_safe env hdr hs st t h
      simp only [h1]
      exact ih s h2

/-- A row with a field that aborts the read: whenever the body of the record loop is
defined it reports the error, and it is defined when the header is safe. -/
theorem bseRecord_error (env : Env V) (hdr : List Str) (record : Str)
    (i : Nat) (tok : Str) (hi : (getTokens record)[i]? = some tok) (hw : i < hdr.length)
    (hbad : env.parse (bseFieldText tok) = none ∨
      (hdr.getD i [] ∈ checkedNames ∧
        ∃ v, env.parse (bseFieldText tok) = some v ∧ v < 0)) :
    (∀ r, bseRecord env hdr record (List.replicate (bseSize hdr) 0) = some r → r.1 = true) ∧
    (BSEHeaderSafe hdr →
      ∃ gv, bseRecord env hdr record (List.replicate (bseSize hdr) 0) = some (true, gv)) := by
  have herr : ∀ st1, bseRowLoop env hdr (getTokens record)
      ⟨false, List.replicate (bseSize hdr) 0, 0, 0⟩ = some st1 → st1.error = true := by
    intro st1 h
    apply bseRowLoop_error env hdr (getTokens record) _ st1 h
    right
    refine ⟨i, tok, hi, by simpa using hw, ?_⟩
    simpa using hbad
  constructor
  · intro r hr
    unfold bseRecord at hr
    cases hl : bseRowLoop env hdr (getTokens record)
        ⟨false, List.replicate (bseSize hdr) 0, 0, 0⟩ with
    | none => simp [hl] at hr
    | some st1 =>
      simp only [hl, herr st1 hl, if_true, Option.some.injEq] at hr
      subst hr
      rfl
  · intro hs
    obtain ⟨st1, h1, -⟩ := bseRowLoop_safe env hdr hs (getTokens record)
      ⟨false, List.replicate (bseSize hdr) 0, 0, 0⟩ (by simp)
    refine ⟨st1.gridValues, ?_⟩
    unfold bseRecord
    simp only [h1, herr st1 h1, if_true]

/-- The result of `ReadBSEGridRecord` on a row with a field that aborts the read. -/
theorem ReadBSEGridRecord_error (env : Env V) (hdr : List Str) (blanks : List Str)
    (line : Str) (tail : Option Str) (g : IfStream) (lineNo : Nat)
    (hg : g.good) (hu : g.unread = fileText blanks line tail)
    (hb : ∀ b ∈ blanks, '\n' ∉ b ∧ normRecord b = [])
    (hl : '\n' ∉ line) (hne : normRecord line ≠ [])
    (i : Nat) (tok : Str) (hi : (rowTokens line)[i]? = some tok) (hw : i < hdr.length)
    (hbad : env.parse (bseFieldText tok) = none ∨
      (hdr.getD i [] ∈ checkedNames ∧
        ∃ v, env.parse (bseFieldText tok) = some v ∧ v < 0)) :
    (∀ r, ReadBSEGridRecord env g hdr lineNo = some r →
      r = (g.afterLine (blanksLength blanks) line.length tail.isNone,
        lineNo + blanks.length + 1, [])) ∧
    (BSEHeaderSafe hdr → ReadBSEGridRecord env g hdr lineNo =
      some (g.afterLine (blanksLength blanks) line.length tail.isNone,
        lineNo + blanks.length + 1, [])) := by
  obtain ⟨h1, h2⟩ := bseRecord_error env hdr (normRecord line) i tok hi hw hbad
  rw [ReadBSEGridRecord_fileText env hdr blanks line tail g lineNo hg hu hb hl hne,
    initial_gridValues]
  constructor
  · intro r hr
    cases hrec : bseRecord env hdr (normRecord line) (List.replicate (bseSize hdr) 0) with
    | none => simp [hrec] at hr
    | some q =>
      have := h1 q hrec
      simp only [hrec, Option.map_some', this, if_true, Option.some.injEq] at hr
      exact hr.symm
  · intro hs
    obtain ⟨gv, hgv⟩ := h2 hs
    simp only [hgv, Option.map_some', if_true]

omit [LinearOrder V] [Zero V] in
theorem bseFieldText_of_ne_nil (tok : Str) (h : trimToken tok ≠ []) :
    bseFieldText tok = trimToken tok := by
  unfold bseFieldText
  simp only [isEmpty_false_of_ne_nil h, Bool.false_eq_true, if_false]

/-- C8: when a field of the next data row, at a position within the header width, is a
non-empty token from which no number can be extracted, both record readers abort:
`ReadSSEGridRecord` returns the empty vector, and so does `ReadBSEGridRecord` whenever its
stores stay inside `gridValues`, which is the case for every safe header. -/
theorem C8_non_numeric_aborts (env : Env V) (hdr : List Str) (blanks : List Str)
    (line : Str) (tail : Option Str) (g : IfStream) (lineNo : Nat)
    (hg : g.good) (hu : g.unread = fileText blanks line tail)
    (hb : ∀ b ∈ blanks, '\n' ∉ b ∧ normRecord b = [])
    (hl : '\n' ∉ line) (hne : normRecord line ≠ [])
    (i : Nat) (tok : Str) (hi : (rowTokens line)[i]? = some tok) (hw : i < hdr.length)
    (hnt : trimToken tok ≠ []) (hbad : env.parse (trimToken tok) = none) :
    ReadSSEGridRecord env g hdr lineNo =
      (g.afterLine (blanksLength blanks) line.length tail.isNone,
        lineNo + blanks.length + 1, []) ∧
    (∀ r, ReadBSEGridRecord env g hdr lineNo = some r →
      r = (g.afterLine (blanksLength blanks) line.length tail.isNone,
        lineNo + blanks.length + 1, [])) ∧
    (BSEHeaderSafe hdr → ReadBSEGridRecord env g hdr lineNo =
      some (g.afterLine (blanksLength blanks) line.length tail.isNone,
        lineNo + blanks.length + 1, [])) := by
  refine ⟨?_, ReadBSEGridRecord_error env hdr blanks line tail g lineNo hg hu hb hl hne i tok
    hi hw (Or.inl (by rw [bseFieldText_of_ne_nil tok hnt]; exact hbad))⟩
  rw [ReadSSEGridRecord_fileText env hdr blanks line tail g lineNo hg hu hb hl hne,
    sseRecord_error env hdr (normRecord line) [0, 0] i tok hi hw hnt (Or.inl hbad)]
  rfl

theorem C8_non_numeric_aborts_witness :
    (streamOn (fileText demoBlanks demoRowNonNumeric (some demoRowSeparation))).good ∧
    (∀ b ∈ demoBlanks, '\n' ∉ b ∧ normRecord b = []) ∧ '\n' ∉ demoRowNonNumeric ∧
    normRecord demoRowNonNumeric ≠ [] ∧
    (rowTokens demoRowNonNumeric)[2]? = some " solar ".toList ∧ 2 < demoHeadersBoth.length ∧
    trimToken " solar ".toList ≠ [] ∧
    (ratEnv none 0).parse (trimToken " solar ".toList) = none ∧
    BSEHeaderSafe demoHeadersBoth ∧
    ReadBSEGridRecord (ratEnv none 0)
        (streamOn (fileText demoBlanks demoRowNonNumeric (some demoRowSeparation)))
        demoHeadersBoth 2 =
      some ((streamOn (fileText demoBlanks demoRowNonNumeric
          (some demoRowSeparation))).afterLine (blanksLength demoBlanks)
          demoRowNonNumeric.length false, 5, []) :=
  ⟨streamOn_good _, by decide, by decide, by decide, by decide, by decide, by decide,
    by decide, by decide,
    (C8_non_numeric_aborts (ratEnv none 0) demoHeadersBoth demoBlanks demoRowNonNumeric
      (some demoRowSeparation)
      (streamOn (fileText demoBlanks demoRowNonNumeric (some demoRowSeparation))) 2
      (streamOn_good _) (streamOn_unread _) (by decide) (by decide) (by decide) 2
      " solar ".toList (by decide) (by decide) (by decide) (by decide)).2.2 (by decide)⟩

theorem sseRowToken_nonneg (env : Env V) (hdr : List Str) (st : SSERow V) (tok : Str)
    (h : ∀ x ∈ st.gridValues, 0 ≤ x) :
    ∀ x ∈ (sseRowToken env hdr st tok).gridValues, 0 ≤ x := by
  unfold sseRowToken
  simp only []
  split
  · exact h
  · split
    · exact h
    · rename_i value hp
      split
      · exact h
      · rename_i hv
        have hv' : 0 ≤ value := not_lt.1 hv
        split
        · intro x hx
          rcases List.mem_or_eq_of_mem_set hx with h1 | h1
          · exact h x h1
          · rw [h1]; exact hv'
        · split
          · intro x hx
            rcases List.mem_or_eq_of_mem_set hx with h1 | h1
            · exact h x h1
            · rw [h1]; exact hv'
          · exact h

theorem sseRowLoop_nonneg (env : Env V) (hdr : List Str) :
    ∀ (toks : List Str) (st : SSERow V), (∀ x ∈ st.gridValues, 0 ≤ x) →
      ∀ x ∈ (sseRowLoop env hdr toks st).gridValues, 0 ≤ x := by
  intro toks
  induction toks with
  | nil => intro st h; exact h
  | cons t rest ih =>
    intro st h
    unfold sseRowLoop
    split
    · exact h
    · exact ih _ (sseRowToken_nonneg env hdr st t h)

theorem foldl_set_nonneg (z : V) (hz : 0 ≤ z) (c : Bool) :
    ∀ (l : List Nat) (gv : List V), (∀ x ∈ gv, 0 ≤ x) →
      ∀ x ∈ l.foldl (fun gv _ => if c = true then gv.set 1 z else gv) gv, 0 ≤ x := by
  intro l
  induction l with
  | nil => intro gv h; exact h
  | cons a l ih =>
    intro gv h
    simp only [List.foldl_cons]
    apply ih
    split
    · intro x hx
      rcases List.mem_or_eq_of_mem_set hx with h1 | h1
      · exact h x h1
      · rw [h1]; exact hz
    · exact h

theorem sseRecord_nonneg (env : Env V) (hdr : List Str) (record : Str) (gv : List V)
    (hz : 0 ≤ env.metallicity) (h : ∀ x ∈ gv, 0 ≤ x) :
    ∀ x ∈ (sseRecord env hdr record gv).2, 0 ≤ x := by
  have h1 := sseRowLoop_nonneg env hdr (getTokens record) ⟨false, gv, 0⟩ h
  unfold sseRecord
  generalize sseRowLoop env hdr (getTokens record) ⟨false, gv, 0⟩ = st at h1
  simp only []
  split
  · exact h1
  · have h2 : ∀ x ∈ (if st.column < hdr.length then
        (List.range' st.column (hdr.length - st.column)).foldl
          (fun acc _ =>
            if Equals (hdr.getD st.column []) sMETALLICITY = true then
              acc.set 1 env.metallicity
            else acc)
          st.gridValues
        else st.gridValues), 0 ≤ x := by
      split
      · exact foldl_set_nonneg env.metallicity hz _ _ _ h1
      · exact h1
    split
    · intro x hx
      rcases List.mem_or_eq_of_mem_set hx with h3 | h3
      · exact h2 x h3
      · rw [h3]; exact hz
    · exact h2

theorem bseRowToken_nonneg (env : Env V) (hdr : List Str) (st st1 : BSERow V) (tok : Str)
    (h : bseRowToken env hdr st tok = some st1)
    (hp : ∀ i, i < 6 → 0 ≤ st.gridValues.getD i 0) :
    ∀ i, i < 6 → 0 ≤ st1.gridValues.getD i 0 := by
  by_cases hc : st.column < hdr.length
  · rw [bseRowToken_within env hdr st tok hc] at h
    cases hpar : env.parse (bseFieldText tok) with
    | none =>
      simp only [hpar, Option.map_some', Option.some.injEq] at h
      subst h
      exact hp
    | some v =>
      simp only [hpar] at h
      cases hst : bseStore st (hdr.getD st.column []) v with
      | none =>
        rw [hst] at h
        exact absurd h (by simp)
      | some s =>
        simp only [hst, Option.map_some', Option.some.injEq] at h
        subst h
        show ∀ i, i < 6 → 0 ≤ s.gridValues.getD i 0
        rcases (bseStore_column st s _ v hst).2.2 with e | ⟨k, -, hneg, hlt, -, e⟩
        · rw [e]; exact hp
        · rw [e]
          intro i hi
          by_cases hik : k = i
          · subst hik
            rw [getD_set_self _ _ _ hlt]
            exact not_lt.1 (fun hv => hneg ⟨hi, hv⟩)
          · rw [getD_set_other _ _ _ _ hik]
            exact hp i hi
  · rw [bseRowToken_past env hdr st tok (by omega)] at h
    simp only [Option.some.injEq] at h
    subst h
    exact hp

theorem bseRowLoop_nonneg (env : Env V) (hdr : List Str) :
    ∀ (toks : List Str) (st st1 : BSERow V), bseRowLoop env hdr toks st = some st1 →
      (∀ i, i < 6 → 0 ≤ st.gridValues.getD i 0) →
      ∀ i, i < 6 → 0 ≤ st1.gridValues.getD i 0 := by
  intro toks
  induction toks with
  | nil =>
    intro st st1 h hp
    simp only [bseRowLoop, Option.some.injEq] at h
    subst h
    exact hp
  | cons t rest ih =>
    intro st st1 h hp
    unfold bseRowLoop at h
    by_cases he : st.error = true
    · simp only [he, if_true, Option.some.injEq] at h
      subst h
      exact hp
    · simp only [he, if_false, Bool.false_eq_true] at h
      cases hst : bseRowToken env hdr st t with
      | none => simp [hst] at h
      | some s =>
        simp only [hst] at h
        exact ih s st1 h (bseRowToken_nonneg env hdr st s t hst hp)

theorem getD_set_nonneg (gv : List V) (k : V) (hk : 0 ≤ k)
    (hp : ∀ i, i < 6 → 0 ≤ gv.getD i 0) : ∀ i, i < 6 → 0 ≤ (gv.set 4 k).getD i 0 := by
  intro i hi
  by_cases e : 4 = i
  · subst e
    by_cases hl : 4 < gv.length
    · rw [getD_set_self _ _ _ hl]; exact hk
    · have : (gv.set 4 k).getD 4 0 = 0 := by
        simp [List.getD_eq_getElem?_getD, List.getElem?_eq_none (l := gv.set 4 k)
          (by simpa using not_lt.1 hl)]
      rw [this]
  · rw [getD_set_other _ _ _ _ e]
    exact hp i hi

theorem bseRecord_nonneg (env : Env V) (hdr : List Str) (record : Str) (r : Bool × List V)
    (hk : ∀ m1 m2 p : V, 0 < m1 → 0 < m2 → 0 < p → 0 ≤ env.kepler m1 m2 p)
    (h : bseRecord env hdr record (List.replicate (bseSize hdr) 0) = some r) :
    ∀ i, i < 6 → 0 ≤ r.2.getD i 0 := by
  unfold bseRecord at h
  cases hl : bseRowLoop env hdr (getTokens record)
      ⟨false, List.replicate (bseSize hdr) 0, 0, 0⟩ with
  | none => simp [hl] at h
  | some st1 =>
    have hp := bseRowLoop_nonneg env hdr (getTokens record) _ st1 hl
      (by intro i _; show (0 : V) ≤ (List.replicate (bseSize hdr) (0 : V)).getD i 0
          rw [getD_replicate_zero])
    simp only [hl] at h
    by_cases he : st1.error = true
    · simp only [he, if_true, Option.some.injEq] at h
      subst h
      exact hp
    · simp only [he, if_false, Bool.false_eq_true] at h
      by_cases hc : st1.gridValues.getD 4 0 ≤ 0 ∧ st1.period > 0 ∧
          st1.gridValues.getD 0 0 > 0 ∧ st1.gridValues.getD 1 0 > 0
      · simp only [hc, and_self, if_true, Option.some.injEq] at h
        subst h
        exact getD_set_nonneg _ _ (hk _ _ _ hc.2.2.1 hc.2.2.2 hc.2.1) hp
      · simp only [hc, if_false, Option.some.injEq] at h
        subst h
        exact hp

/-- C9 (as stated, refuted): with a configured default metallicity of `-0.02` and the header
list `MASS`, the row `1` is returned as the non-empty vector `[1, -0.02]`: the metallicity
entry of a returned row is negative, because the default is stored without a sign test. -/
theorem C9_negative_default_counterexample :
    (ReadSSEGridRecord (ratEnv none (-2 / 100)) (streamOn "1\n".toList) [sMASS] 1).2.2
      = [1, -1 / 50] := by
  decide!

/-- C9 (amended): a negative value in a field within the header width aborts the read with
an empty vector, in any column for `ReadSSEGridRecord` and in the mass, metallicity,
separation and eccentricity columns for `ReadBSEGridRecord`. Consequently the entries of
every returned row are non-negative, provided the configured default metallicity is not
negative (single-object reader) and the period conversion does not return a negative value
for positive arguments (paired-object reader, entries 0 to 5). -/
theorem C9_negative_values_amended (env : Env V) (hdr : List Str) (blanks : List Str)
    (line : Str) (tail : Option Str) (g : IfStream) (lineNo : Nat)
    (hg : g.good) (hu : g.unread = fileText blanks line tail)
    (hb : ∀ b ∈ blanks, '\n' ∉ b ∧ normRecord b = [])
    (hl : '\n' ∉ line) (hne : normRecord line ≠ []) :
    (∀ (i : Nat) (tok : Str) (v : V), (rowTokens line)[i]? = some tok → i < hdr.length →
      trimToken tok ≠ [] → env.parse (trimToken tok) = some v → v < 0 →
      ReadSSEGridRecord env g hdr lineNo =
        (g.afterLine (blanksLength blanks) line.length tail.isNone,
          lineNo + blanks.length + 1, [])) ∧
    (∀ (i : Nat) (tok : Str) (v : V), (rowTokens line)[i]? = some tok → i < hdr.length →
      hdr.getD i [] ∈ checkedNames →
      trimToken tok ≠ [] → env.parse (trimToken tok) = some v → v < 0 →
      (∀ r, ReadBSEGridRecord env g hdr lineNo = some r →
        r = (g.afterLine (blanksLength blanks) line.length tail.isNone,
          lineNo + blanks.length + 1, [])) ∧
      (BSEHeaderSafe hdr → ReadBSEGridRecord env g hdr lineNo =
        some (g.afterLine (blanksLength blanks) line.length tail.isNone,
          lineNo + blanks.length + 1, []))) ∧
    (0 ≤ env.metallicity → ∀ x ∈ (ReadSSEGridRecord env g hdr lineNo).2.2, 0 ≤ x) ∧
    ((∀ m1 m2 p : V, 0 < m1 → 0 < m2 → 0 < p → 0 ≤ env.kepler m1 m2 p) →
      ∀ r, ReadBSEGridRecord env g hdr lineNo = some r →
        ∀ i, i < 6 → 0 ≤ r.2.2.getD i 0) := by
  refine ⟨?_, ?_, ?_, ?_⟩
  · intro i tok v hi hw hnt hp hv
    rw [ReadSSEGridRecord_fileText env hdr blanks line tail g lineNo hg hu hb hl hne,
      sseRecord_error env hdr (normRecord line) [0, 0] i tok hi hw hnt
        (Or.inr ⟨v, hp, hv⟩)]
    rfl
  · intro i tok v hi hw hchk hnt hp hv
    exact ReadBSEGridRecord_error env hdr blanks line tail g lineNo hg hu hb hl hne i tok
      hi hw (Or.inr ⟨hchk, v, by rw [bseFieldText_of_ne_nil tok hnt]; exact hp, hv⟩)
  · intro hz
    rw [ReadSSEGridRecord_fileText env hdr blanks line tail g lineNo hg hu hb hl hne]
    show ∀ x ∈ (if (sseRecord env hdr (normRecord line) [0, 0]).1 = true then []
      else (sseRecord env hdr (normRecord line) [0, 0]).2), 0 ≤ x
    split
    · intro x hx
      simp at hx
    · apply sseRecord_nonneg env hdr (normRecord line) [0, 0] hz
      intro x hx
      simp only [List.mem_cons, List.mem_nil_iff, or_false, or_self] at hx
      rw [hx]
  · intro hk r hr
    rw [ReadBSEGridRecord_fileText env hdr blanks line tail g lineNo hg hu hb hl hne,
      initial_gridValues] at hr
    cases hrec : bseRecord env hdr (normRecord line) (List.replicate (bseSize hdr) 0) with
    | none => simp [hrec] at hr
    | some q =>
      simp only [hrec, Option.map_some', Option.some.injEq] at hr
      subst hr
      show ∀ i, i < 6 → 0 ≤ (if q.1 = true then [] else q.2).getD i 0
      split
      · intro i _
        simp
      · exact bseRecord_nonneg env hdr (normRecord line) q hk hrec

theorem C9_negative_values_amended_witness :
    (streamOn (fileText demoBlanks demoRowNegativeSeparation none)).good ∧
    (∀ b ∈ demoBlanks, '\n' ∉ b ∧ normRecord b = []) ∧ '\n' ∉ demoRowNegativeSeparation ∧
    normRecord demoRowNegativeSeparation ≠ [] ∧
    (rowTokens demoRowNegativeSeparation)[4]? = some "-3.5".toList ∧
    4 < demoHeadersBoth.length ∧ demoHeadersBoth.getD 4 [] ∈ checkedNames ∧
    trimToken "-3.5".toList ≠ [] ∧
    (ratEnv none 0).parse (trimToken "-3.5".toList) = some (-7 / 2) ∧ (-7 / 2 : ℚ) < 0 ∧
    BSEHeaderSafe demoHeadersBoth ∧
    ReadBSEGridRecord (ratEnv none 0)
        (streamOn (fileText demoBlanks demoRowNegativeSeparation none)) demoHeadersBoth 2 =
      some ((streamOn (fileText demoBlanks demoRowNegativeSeparation none)).afterLine
          (blanksLength demoBlanks) demoRowNegativeSeparation.length true, 5, []) :=
  ⟨streamOn_good _, by decide, by decide, by decide, by decide, by decide, by decide,
    by decide, by decide!, by decide!, by decide,
    ((C9_negative_values_amended (ratEnv none 0) demoHeadersBoth demoBlanks
      demoRowNegativeSeparation none
      (streamOn (fileText demoBlanks demoRowNegativeSeparation none)) 2
      (streamOn_good _) (streamOn_unread _) (by decide) (by decide) (by decide)).2.1 4
      "-3.5".toList (-7 / 2) (by decide) (by decide) (by decide) (by decide) (by decide!)
      (by decide!)).2 (by decide)⟩

omit [LinearOrder V] [Zero V] in
theorem toUpper_ne_comma (c : Char) (h : c ≠ ',') : c.toUpper ≠ ',' := by
  intro heq
  unfold Char.toUpper at heq
  by_cases hr : c.toNat ≥ 97 ∧ c.toNat ≤ 122
  · simp only [hr, and_self, if_true] at heq
    obtain ⟨h1, h2⟩ := hr
    generalize c.toNat = n at h1 h2 heq
    interval_cases n <;> exact absurd heq (by decide)
  · simp only [hr, if_false] at heq
    exact h heq

omit [LinearOrder V] [Zero V] in
theorem getTokens_no_comma (r : Str) (hne : r ≠ []) (hc : ',' ∉ r) : getTokens r = [r] := by
  induction r with
  | nil => exact absurd rfl hne
  | cons a l ih =>
    have ha : ¬ a = ',' := fun e => hc (by simp [e])
    have hl : ',' ∉ l := fun e => hc (by simp [e])
    unfold getTokens
    simp only [ha, if_false]
    cases l with
    | nil => rfl
    | cons b l' =>
      rw [ih (by simp) hl]

omit [LinearOrder V] [Zero V] in
theorem trimToken_sublist (t : Str) : (trimToken t).Sublist t := by
  unfold trimToken stripTrailing stripLeading
  exact (List.rdropWhile_prefix _ _).sublist.trans (List.dropWhile_sublist _)

omit [LinearOrder V] [Zero V] in
theorem normHeader_no_comma (line : Str) (hc : ',' ∉ line) : ',' ∉ normHeader line := by
  intro h
  apply hc
  have h1 := (trimToken_sublist (pruneComment line)).subset h
  exact (List.takeWhile_sublist _).subset h1

omit [LinearOrder V] [Zero V] in
theorem normRecord_no_comma (line : Str) (hc : ',' ∉ line) : ',' ∉ normRecord line := by
  intro h
  apply hc
  have h1 := (trimToken_sublist (tabsToSpaces (pruneComment line))).subset h
  unfold tabsToSpaces at h1
  obtain ⟨c, hc1, hc2⟩ := List.mem_map.1 h1
  have : c = ',' := by
    by_cases e : c = '\t'
    · simp only [e, if_true] at hc2
      exact absurd hc2 (by decide)
    · simpa [e] using hc2
  rw [← this]
  exact (List.takeWhile_sublist _).subset hc1

omit [LinearOrder V] [Zero V] in
theorem ToUpper_no_comma (r : Str) (hc : ',' ∉ r) : ',' ∉ ToUpper r := by
  intro h
  unfold ToUpper at h
  obtain ⟨c, hc1, hc2⟩ := List.mem_map.1 h
  exact toUpper_ne_comma c (fun e => hc (e ▸ hc1)) hc2

omit [LinearOrder V] [Zero V] in
theorem ToUpper_ne_nil (r : Str) (h : r ≠ []) : ToUpper r ≠ [] := by
  unfold ToUpper
  simpa using h

omit [LinearOrder V] [Zero V] in
theorem trimToken_idem (t : Str) : trimToken (trimToken t) = trimToken t := by
  unfold trimToken stripTrailing stripLeading
  have h1 : List.dropWhile (fun c => c == ' ')
      (List.rdropWhile (fun c => c == '\r' || c == '\n' || c == ' ')
        (List.dropWhile (fun c => c == ' ') t))
      = List.rdropWhile (fun c => c == '\r' || c == '\n' || c == ' ')
        (List.dropWhile (fun c => c == ' ') t) := by
    rw [List.dropWhile_eq_self_iff]
    intro hl
    obtain ⟨s, hs⟩ := List.rdropWhile_prefix (fun c => c == '\r' || c == '\n' || c == ' ')
      (List.dropWhile (fun c => c == ' ') t)
    generalize hz : List.rdropWhile (fun c => c == '\r' || c == '\n' || c == ' ')
      (List.dropWhile (fun c => c == ' ') t) = z at hl hs
    cases z with
    | nil => simp at hl
    | cons a z' =>
      have hd : List.dropWhile (fun c => c == ' ') (a :: (z' ++ s)) = a :: (z' ++ s) := by
        have : a :: (z' ++ s) = List.dropWhile (fun c => c == ' ') t := by
          rw [← hs]; rfl
        rw [this, List.dropWhile_idempotent]
      have := (List.dropWhile_eq_self_iff.1 hd) (by simp)
      simpa using this
  rw [h1, List.rdropWhile_idempotent]

omit [LinearOrder V] [Zero V] in
theorem fileText_drop (blanks : List Str) (line : Str) (tail : Option Str) :
    (fileText blanks line tail).drop (blanksLength blanks) = fileText [] line tail := by
  induction blanks with
  | nil => rfl
  | cons b bs ih =>
    have e : blanksLength (b :: bs) = (b ++ ['\n']).length + blanksLength bs := by
      simp [blanksLength]
    have e2 : fileText (b :: bs) line tail = (b ++ ['\n']) ++ fileText bs line tail := by
      simp [fileText]
    rw [e, e2, ← List.drop_drop, List.drop_left, ih]

omit [LinearOrder V] [Zero V] in
theorem toInt32_small (n : Nat) (h : n < 2147483648) : toInt32 (n : Int) = (n : Int) := by
  unfold toInt32
  omega

omit [LinearOrder V] [Zero V] in
theorem seekg_afterLine (c : Str) (off len n : Nat) (e : Bool) :
    ((streamOn c).afterLine off len e).seekg (n : Int) = ⟨c, n, true, false, false⟩ := by
  unfold IfStream.seekg IfStream.afterLine streamOn IfStream.openFile IfStream.fresh
  have hn : ¬ ((n : Int) < 0) := by omega
  cases e <;> simp [hn]

/-- The body of the record loop of `ReadSSEGridRecord` under the header list `MASS` for a
row that is a single non-negative number. -/
theorem sseRecord_single (env : Env V) (r : Str) (v : V) (hne : r ≠ []) (hc : ',' ∉ r)
    (ht : trimToken r = r) (hp : env.parse r = some v) (hv : 0 ≤ v) :
    sseRecord env [sMASS] r [0, 0] = (false, [v, env.metallicity]) := by
  have hnv : ¬ v < 0 := not_lt.2 hv
  have hE : Equals sMASS "Mass".toList = true := by decide
  have hM : Equals sMASS sMETALLICITY = false := by decide
  unfold sseRecord
  rw [getTokens_no_comma r hne hc]
  simp only [sseRowLoop, sseRowToken, ht, isEmpty_false_of_ne_nil hne, hp, hnv,
    List.length_singleton, List.getD_cons_zero, hE, Bool.false_eq_true, if_false, if_true,
    ge_iff_le, Nat.le_zero_eq, Nat.one_ne_zero, Nat.lt_irrefl, Nat.zero_add, and_self,
    List.set_cons_zero, List.set_cons_succ]

/-- C6 (as stated, refuted): the file whose only line is `-1` is taken as headerless (header
list `MASS`, grid open, stream back at the start of the line), and the line is the number
`-1`; but the next `ReadSSEGridRecord` call returns the empty vector, not a row with mass
`-1`. -/
theorem C6_negative_line_counterexample :
    (OpenSSEGridFile (ratEnv (some "-1".toList) 0) IfStream.fresh).2.2 = [sMASS] ∧
    (OpenSSEGridFile (ratEnv (some "-1".toList) 0) IfStream.fresh).1.isOpen = true ∧
    (ratEnv (some "-1".toList) 0).parse (normRecord "-1".toList) = some (-1) ∧
    (ReadSSEGridRecord (ratEnv (some "-1".toList) 0)
      (OpenSSEGridFile (ratEnv (some "-1".toList) 0) IfStream.fresh).1
      (OpenSSEGridFile (ratEnv (some "-1".toList) 0) IfStream.fresh).2.2
      (OpenSSEGridFile (ratEnv (some "-1".toList) 0) IfStream.fresh).2.1).2.2 = [] := by
  decide!

/-- C6 (amended): when the first non-empty line of a single-object grid file has no comma
and its token is neither MASS nor METALLICITY, and the line starts below byte offset 2^31,
`OpenSSEGridFile` returns the header list `MASS`, leaves the grid open and puts the stream
back at the start of that line; if the line is a non-negative number `v`, the next
`ReadSSEGridRecord` call returns the row `[v, default metallicity]`, and if it is a negative
number the call returns the empty vector. -/
theorem C6_headerless_amended (env : Env V) (blanks : List Str) (line : Str)
    (tail : Option Str) (hname : env.gridFilename ≠ [])
    (hfile : env.gridFile = some (fileText blanks line tail))
    (hb : ∀ b ∈ blanks, '\n' ∉ b ∧ normHeader b = [])
    (hl : '\n' ∉ line) (hne : normHeader line ≠ [])
    (hcomma : ',' ∉ line)
    (ht : ∀ t ∈ headerTokens line, t ≠ sMASS ∧ t ≠ sMETALLICITY)
    (hoff : blanksLength blanks < 2147483648) :
    (OpenSSEGridFile env IfStream.fresh).2.2 = [sMASS] ∧
    (OpenSSEGridFile env IfStream.fresh).1
      = ⟨fileText blanks line tail, blanksLength blanks, true, false, false⟩ ∧
    (OpenSSEGridFile env IfStream.fresh).1.unread = fileText [] line tail ∧
    (∀ v : V, normRecord line ≠ [] → env.parse (normRecord line) = some v → 0 ≤ v →
      (ReadSSEGridRecord env (OpenSSEGridFile env IfStream.fresh).1
        (OpenSSEGridFile env IfStream.fresh).2.2
        (OpenSSEGridFile env IfStream.fresh).2.1).2.2 = [v, env.metallicity]) ∧
    (∀ v : V, normRecord line ≠ [] → env.parse (normRecord line) = some v → v < 0 →
      (ReadSSEGridRecord env (OpenSSEGridFile env IfStream.fresh).1
        (OpenSSEGridFile env IfStream.fresh).2.2
        (OpenSSEGridFile env IfStream.fresh).2.1).2.2 = []) := by
  have hT : headerTokens line = [trimToken (ToUpper (normHeader line))] := by
    unfold headerTokens
    rw [getTokens_no_comma _ (ToUpper_ne_nil _ hne)
      (ToUpper_no_comma _ (normHeader_no_comma line hcomma))]
    rfl
  have ht' := ht (trimToken (ToUpper (normHeader line))) (by rw [hT]; simp)
  have hopen := OpenSSEGridFile_fileText env blanks line tail hname hfile hb hl hne
  rw [hT] at hopen
  simp only [count_singleton_str, ht'.1, ht'.2, if_false, ne_eq, Nat.zero_ne_one,
    not_false_eq_true, true_or, if_true, List.length_singleton, gt_iff_lt, Nat.lt_irrefl,
    ge_iff_le, Nat.le_zero_eq, Nat.one_ne_zero, or_self, toInt32_small _ hoff,
    seekg_afterLine] at hopen
  rw [hopen]
  have hu : (⟨fileText blanks line tail, blanksLength blanks, true, false, false⟩ :
      IfStream).unread = fileText [] line tail := fileText_drop blanks line tail
  refine ⟨rfl, rfl, hu, ?_, ?_⟩
  · intro v hnr hp hv
    show (ReadSSEGridRecord env ⟨fileText blanks line tail, blanksLength blanks, true, false,
      false⟩ [sMASS] (blanks.length + 2)).2.2 = [v, env.metallicity]
    rw [ReadSSEGridRecord_fileText env [sMASS] [] line tail _ _ ⟨rfl, rfl, rfl⟩ hu
      (by simp) hl hnr,
      sseRecord_single env (normRecord line) v hnr (normRecord_no_comma line hcomma)
        (trimToken_idem _) hp hv]
    rfl
  · intro v hnr hp hv
    have hidem : trimToken (normRecord line) = normRecord line := trimToken_idem _
    have herr := sseRecord_error env [sMASS] (normRecord line) [0, 0] 0 (normRecord line)
      (by rw [getTokens_no_comma _ hnr (normRecord_no_comma line hcomma)]; rfl)
      (by simp) (by rw [hidem]; exact hnr) (Or.inr ⟨v, by rw [hidem]; exact hp, hv⟩)
    show (ReadSSEGridRecord env ⟨fileText blanks line tail, blanksLength blanks, true, false,
      false⟩ [sMASS] (blanks.length + 2)).2.2 = []
    rw [ReadSSEGridRecord_fileText env [sMASS] [] line tail _ _ ⟨rfl, rfl, rfl⟩ hu
      (by simp) hl hnr]
    simp only [herr, if_true]

theorem C6_headerless_amended_witness :
    (∀ b ∈ demoBlanks, '\n' ∉ b ∧ normHeader b = []) ∧ '\n' ∉ " 1.5  # msun".toList ∧
    normHeader " 1.5  # msun".toList ≠ [] ∧ ',' ∉ " 1.5  # msun".toList ∧
    (∀ t ∈ headerTokens " 1.5  # msun".toList, t ≠ sMASS ∧ t ≠ sMETALLICITY) ∧
    blanksLength demoBlanks < 2147483648 ∧
    (ratEnv (some (fileText demoBlanks " 1.5  # msun".toList (some "2".toList)))
      (1 / 50)).parse (normRecord " 1.5  # msun".toList) = some (3 / 2) ∧
    (ReadSSEGridRecord
      (ratEnv (some (fileText demoBlanks " 1.5  # msun".toList (some "2".toList))) (1 / 50))
      (OpenSSEGridFile (ratEnv (some (fileText demoBlanks " 1.5  # msun".toList
        (some "2".toList))) (1 / 50)) IfStream.fresh).1
      (OpenSSEGridFile (ratEnv (some (fileText demoBlanks " 1.5  # msun".toList
        (some "2".toList))) (1 / 50)) IfStream.fresh).2.2
      (OpenSSEGridFile (ratEnv (some (fileText demoBlanks " 1.5  # msun".toList
        (some "2".toList))) (1 / 50)) IfStream.fresh).2.1).2.2 = [3 / 2, 1 / 50] :=
  ⟨by decide, by decide, by decide, by decide, by decide, by decide, by decide!,
    (C6_headerless_amended
      (ratEnv (some (fileText demoBlanks " 1.5  # msun".toList (some "2".toList))) (1 / 50))
      demoBlanks " 1.5  # msun".toList (some "2".toList) (by decide) rfl (by decide)
      (by decide) (by decide) (by decide) (by decide) (by decide)).2.2.2.1 (3 / 2)
      (by decide) (by decide!) (by decide!)⟩

omit [LinearOrder V] in
theorem bseColumnValue_absent (env : Env V) (hdr toks : List Str) (name : Str)
    (h : name ∉ hdr) : bseColumnValue env hdr toks name = 0 := by
  unfold bseColumnValue bseValueUpTo
  simp only [h, false_and, if_false]

/-- C11: for a row that does not abort, read under a header without duplicates that has a
PERIOD column and no SEPARATION column, with positive period and masses, the separation
entry (index 4) is the value of the period conversion for the two masses and the period,
wherever the columns stand in the header. -/
theorem C11_period_derived_separation (env : Env V) (hdr : List Str) (blanks : List Str)
    (line : Str) (tail : Option Str) (g : IfStream) (lineNo : Nat)
    (hg : g.good) (hu : g.unread = fileText blanks line tail)
    (hb : ∀ b ∈ blanks, '\n' ∉ b ∧ normRecord b = [])
    (hl : '\n' ∉ line) (hne : normRecord line ≠ [])
    (hs : BSEHeaderSafe hdr) (hn : hdr.Nodup)
    (hnosep : sSEPARATION ∉ hdr) (_hper : sPERIOD ∈ hdr)
    (hv : BSERowValid env hdr (rowTokens line))
    (hp : 0 < bseColumnValue env hdr (rowTokens line) sPERIOD)
    (hm1 : 0 < bseColumnValue env hdr (rowTokens line) sMASS_1)
    (hm2 : 0 < bseColumnValue env hdr (rowTokens line) sMASS_2) :
    ReadBSEGridRecord env g hdr lineNo =
      some (g.afterLine (blanksLength blanks) line.length tail.isNone,
        lineNo + blanks.length + 1, bseExpectedRow env hdr (rowTokens line)) ∧
    (bseExpectedRow env hdr (rowTokens line)).getD 4 0 =
      env.kepler (bseColumnValue env hdr (rowTokens line) sMASS_1)
        (bseColumnValue env hdr (rowTokens line) sMASS_2)
        (bseColumnValue env hdr (rowTokens line) sPERIOD) := by
  have h4 : 4 < bseSize hdr := by have := bseSize_le hdr; omega
  refine ⟨ReadBSEGridRecord_valid env hdr blanks line tail g lineNo hg hu hb hl hne hs hn hv,
    ?_⟩
  rw [bseExpectedRow_getD env hdr (rowTokens line) 4 h4]
  unfold bseExpectedSeparation
  have h0 := bseColumnValue_absent env hdr (rowTokens line) sSEPARATION hnosep
  have hc : bseColumnValue env hdr (rowTokens line) sSEPARATION ≤ 0 ∧
      bseColumnValue env hdr (rowTokens line) sPERIOD > 0 ∧
      bseColumnValue env hdr (rowTokens line) sMASS_1 > 0 ∧
      bseColumnValue env hdr (rowTokens line) sMASS_2 > 0 :=
    ⟨by rw [h0], hp, hm1, hm2⟩
  simp only [hc, and_self, if_true]

theorem C11_period_derived_separation_witness :
    (streamOn (fileText demoBlanks demoRowPeriod none)).good ∧
    (∀ b ∈ demoBlanks, '\n' ∉ b ∧ normRecord b = []) ∧ '\n' ∉ demoRowPeriod ∧
    normRecord demoRowPeriod ≠ [] ∧ BSEHeaderSafe demoHeadersPeriod ∧
    demoHeadersPeriod.Nodup ∧ sSEPARATION ∉ demoHeadersPeriod ∧
    sPERIOD ∈ demoHeadersPeriod ∧
    BSERowValid (ratEnv none 0) demoHeadersPeriod (rowTokens demoRowPeriod) ∧
    bseColumnValue (ratEnv none 0) demoHeadersPeriod (rowTokens demoRowPeriod) sPERIOD = 100 ∧
    bseColumnValue (ratEnv none 0) demoHeadersPeriod (rowTokens demoRowPeriod) sMASS_1 = 10 ∧
    bseColumnValue (ratEnv none 0) demoHeadersPeriod (rowTokens demoRowPeriod) sMASS_2 = 8 ∧
    ReadBSEGridRecord (ratEnv none 0) (streamOn (fileText demoBlanks demoRowPeriod none))
        demoHeadersPeriod 2 =
      some ((streamOn (fileText demoBlanks demoRowPeriod none)).afterLine
          (blanksLength demoBlanks) demoRowPeriod.length true, 5,
        [10, 8, 1 / 50, 1 / 50, (ratEnv none 0).kepler 10 8 100, 1 / 10]) :=
  ⟨streamOn_good _, by decide, by decide, by decide, by decide, by decide, by decide,
    by decide, by decide!, by decide!, by decide!, by decide!,
    (C11_period_derived_separation (ratEnv none 0) demoHeadersPeriod demoBlanks demoRowPeriod
      none (streamOn (fileText demoBlanks demoRowPeriod none)) 2 (streamOn_good _)
      (streamOn_unread _) (by decide) (by decide) (by decide) (by decide) (by decide)
      (by decide) (by decide) (by decide!) (by decide!) (by decide!) (by decide!)).1.trans
      (by decide!)⟩

omit [LinearOrder V] [Zero V] in
theorem getTokens_ne_nil {r : Str} (h : r ≠ []) : getTokens r ≠ [] := by
  cases r with
  | nil => exact absurd rfl h
  | cons c cs =>
    unfold getTokens
    split
    · simp
    · split <;> simp

theorem sseRowToken_past (env : Env V) (hdr : List Str) (st : SSERow V) (tok : Str)
    (hc : st.column ≥ hdr.length) :
    sseRowToken env hdr st tok = { st with column := st.column + 1 } := by
  unfold sseRowToken
  simp only [hc, if_true]

theorem sseRowLoop_past (env : Env V) (hdr : List Str) :
    ∀ (toks : List Str) (st : SSERow V), st.column ≥ hdr.length → st.error = false →
      sseRowLoop env hdr toks st = { st with column := st.column + toks.length } := by
  intro toks
  induction toks with
  | nil => intro st _ _; rfl
  | cons t rest ih =>
    intro st hc he
    unfold sseRowLoop
    simp only [he, Bool.false_eq_true, if_false]
    rw [sseRowToken_past env hdr st t hc, ih _ (by simp only []; omega) (by simpa using he)]
    simp only [List.length_cons, SSERow.mk.injEq, true_and]
    exact ⟨he, by omega⟩

theorem sseRowToken_valid (env : Env V) (hdr : List Str) (st : SSERow V) (tok : Str)
    (hc : st.column < hdr.length)
    (hok : sseFieldOk env (hdr.getD st.column []) tok = true) :
    sseRowToken env hdr st tok =
      { st with
        gridValues :=
          if hdr.getD st.column [] = sMASS then
            st.gridValues.set 0
              ((env.parse (sseFieldText env (hdr.getD st.column []) tok)).getD 0)
          else if hdr.getD st.column [] = sMETALLICITY then
            st.gridValues.set 1
              ((env.parse (sseFieldText env (hdr.getD st.column []) tok)).getD 0)
          else st.gridValues
        column := st.column + 1 } := by
  have h1 : ¬ st.column ≥ hdr.length := by omega
  unfold sseFieldOk at hok
  unfold sseRowToken
  simp only [h1, if_false]
  have e : (if (trimToken tok).isEmpty = true then
        if Equals (hdr.getD st.column []) sMETALLICITY = true then env.toStr env.metallicity
        else "0.0".toList
      else trimToken tok) = sseFieldText env (hdr.getD st.column []) tok := rfl
  rw [e]
  cases hp : env.parse (sseFieldText env (hdr.getD st.column []) tok) with
  | none => rw [hp] at hok; exact absurd hok (by simp)
  | some v =>
    rw [hp] at hok
    have hv : ¬ v < 0 := by simpa using hok
    simp only [hv, if_false, Option.getD_some]
    split
    · rfl
    · split <;> rfl

theorem sseRecord_mass (env : Env V) (record : Str) (t0 : Str) (rest : List Str)
    (ht : getTokens record = t0 :: rest) (hv : SSERowValid env [sMASS] (t0 :: rest)) :
    sseRecord env [sMASS] record [0, 0] = (false, sseExpectedRow env [sMASS] (t0 :: rest)) := by
  have h0 : sseFieldOk env sMASS t0 = true := hv (sMASS, t0) (by simp)
  have hE : Equals sMASS "Mass".toList = true := by decide
  have hin : sMASS ∈ [sMASS] := by decide
  have hni : sMETALLICITY ∉ [sMASS] := by decide
  have hc : columnOf sMASS [sMASS] = 0 := by decide
  have hstep := sseRowToken_valid env [sMASS] ⟨false, [0, 0], 0⟩ t0 (by simp) h0
  simp only [List.getD_cons_zero, if_true, List.set_cons_zero] at hstep
  unfold sseRecord
  rw [ht]
  unfold sseRowLoop
  simp only [Bool.false_eq_true, if_false]
  rw [hstep, sseRowLoop_past env [sMASS] rest _ (by simp) rfl]
  simp only [List.length_singleton, Bool.false_eq_true, if_false, List.getD_cons_zero, hE,
    and_self, if_true, List.set_cons_succ, List.set_cons_zero, sseExpectedRow, sseColumnValue,
    hin, hni, hc, List.length_cons, Nat.zero_lt_succ, false_and, Prod.mk.injEq, true_and]
  have hz : ¬ (0 + 1 + rest.length < 1) := by omega
  simp [hz]

theorem sseRecord_mass_metallicity (env : Env V) (record : Str) (t0 : Str) (rest : List Str)
    (ht : getTokens record = t0 :: rest)
    (hv : SSERowValid env [sMASS, sMETALLICITY] (t0 :: rest)) :
    sseRecord env [sMASS, sMETALLICITY] record [0, 0] =
      (false, sseExpectedRow env [sMASS, sMETALLICITY] (t0 :: rest)) := by
  have hMM : Equals sMETALLICITY sMETALLICITY = true := by decide
  have hin : sMASS ∈ [sMASS, sMETALLICITY] := by decide
  have hin2 : sMETALLICITY ∈ [sMASS, sMETALLICITY] := by decide
  have hc : columnOf sMASS [sMASS, sMETALLICITY] = 0 := by decide
  have hc2 : columnOf sMETALLICITY [sMASS, sMETALLICITY] = 1 := by decide
  have hne : sMETALLICITY ≠ sMASS := by decide
  have hstep := sseRowToken_valid env [sMASS, sMETALLICITY] ⟨false, [0, 0], 0⟩ t0 (by simp)
    (hv (sMASS, t0) (by cases rest <;> simp))
  simp only [List.getD_cons_zero, if_true, List.set_cons_zero] at hstep
  unfold sseRecord
  rw [ht]
  unfold sseRowLoop
  simp only [Bool.false_eq_true, if_false]
  rw [hstep]
  cases rest with
  | nil =>
    simp [sseRowLoop, hMM, sseExpectedRow, sseColumnValue, hin, hin2, hc, hc2, List.range']
  | cons t1 rest =>
    have hstep2 := sseRowToken_valid env [sMASS, sMETALLICITY]
      ⟨false, [(env.parse (sseFieldText env sMASS t0)).getD 0, 0], 0 + 1⟩ t1 (by simp)
      (hv (sMETALLICITY, t1) (by simp))
    simp only [Nat.zero_add, List.getD_cons_succ, List.getD_cons_zero, hne, if_false, if_true,
      List.set_cons_succ, List.set_cons_zero] at hstep2
    unfold sseRowLoop
    simp only [Bool.false_eq_true, if_false, Nat.zero_add]
    rw [hstep2, sseRowLoop_past env [sMASS, sMETALLICITY] rest _ (by simp) rfl]
    have hz : ¬ (1 + 1 + rest.length < 2) := by omega
    simp [hz, sseExpectedRow, sseColumnValue, hin, hin2, hc, hc2]

theorem sseRecord_metallicity_mass (env : Env V) (record : Str) (t0 : Str) (rest : List Str)
    (ht : getTokens record = t0 :: rest)
    (hv : SSERowValid env [sMETALLICITY, sMASS] (t0 :: rest)) :
    sseRecord env [sMETALLICITY, sMASS] record [0, 0] =
      (false, sseExpectedRow env [sMETALLICITY, sMASS] (t0 :: rest)) := by
  have hMM : Equals sMASS sMETALLICITY = false := by decide
  have hin : sMASS ∈ [sMETALLICITY, sMASS] := by decide
  have hin2 : sMETALLICITY ∈ [sMETALLICITY, sMASS] := by decide
  have hc : columnOf sMASS [sMETALLICITY, sMASS] = 1 := by decide
  have hc2 : columnOf sMETALLICITY [sMETALLICITY, sMASS] = 0 := by decide
  have hne : sMETALLICITY ≠ sMASS := by decide
  have hstep := sseRowToken_valid env [sMETALLICITY, sMASS] ⟨false, [0, 0], 0⟩ t0 (by simp)
    (hv (sMETALLICITY, t0) (by cases rest <;> simp))
  simp only [List.getD_cons_zero, hne, if_false, if_true, List.set_cons_zero,
    List.set_cons_succ] at hstep
  unfold sseRecord
  rw [ht]
  unfold sseRowLoop
  simp only [Bool.false_eq_true, if_false]
  rw [hstep]
  cases rest with
  | nil =>
    simp [sseRowLoop, hMM, sseExpectedRow, sseColumnValue, hin, hin2, hc, hc2, List.range']
  | cons t1 rest =>
    have hstep2 := sseRowToken_valid env [sMETALLICITY, sMASS]
      ⟨false, [0, (env.parse (sseFieldText env sMETALLICITY t0)).getD 0], 0 + 1⟩ t1 (by simp)
      (hv (sMASS, t1) (by simp))
    simp only [Nat.zero_add, List.getD_cons_succ, List.getD_cons_zero, if_true,
      List.set_cons_zero] at hstep2
    unfold sseRowLoop
    simp only [Bool.false_eq_true, if_false, Nat.zero_add]
    rw [hstep2, sseRowLoop_past env [sMETALLICITY, sMASS] rest _ (by simp) rfl]
    have hz : ¬ (1 + 1 + rest.length < 2) := by omega
    simp [hz, sseExpectedRow, sseColumnValue, hin, hin2, hc, hc2]

/-- A single-object row none of whose fields aborts the read, under an accepted header. -/
theorem sseRecord_accepted (env : Env V) (hdr : List Str) (record : Str)
    (hacc : SSEHeaderAccepted hdr) (hne : record ≠ [])
    (hv : SSERowValid env hdr (getTokens record)) :
    sseRecord env hdr record [0, 0] = (false, sseExpectedRow env hdr (getTokens record)) := by
  have hnt := getTokens_ne_nil hne
  cases ht : getTokens record with
  | nil => exact absurd ht hnt
  | cons t0 rest =>
    rw [ht] at hv
    rcases hacc with h | h | h <;> subst h
    · exact sseRecord_mass env record t0 rest ht hv
    · exact sseRecord_mass_metallicity env record t0 rest ht hv
    · exact sseRecord_metallicity_mass env record t0 rest ht hv

/-- The result of `ReadSSEGridRecord` for a row that does not abort, under an accepted
header. -/
theorem ReadSSEGridRecord_valid (env : Env V) (hdr : List Str) (blanks : List Str)
    (line : Str) (tail : Option Str) (g : IfStream) (lineNo : Nat)
    (hg : g.good) (hu : g.unread = fileText blanks line tail)
    (hb : ∀ b ∈ blanks, '\n' ∉ b ∧ normRecord b = [])
    (hl : '\n' ∉ line) (hne : normRecord line ≠ [])
    (hacc : SSEHeaderAccepted hdr) (hv : SSERowValid env hdr (rowTokens line)) :
    ReadSSEGridRecord env g hdr lineNo =
      (g.afterLine (blanksLength blanks) line.length tail.isNone,
       lineNo + blanks.length + 1, sseExpectedRow env hdr (rowTokens line)) := by
  rw [ReadSSEGridRecord_fileText env hdr blanks line tail g lineNo hg hu hb hl hne,
    sseRecord_accepted env hdr (normRecord line) hacc hne hv]
  rfl

theorem sseRowToken_bad (env : Env V) (hdr : List Str) (st : SSERow V) (tok : Str)
    (hc : st.column < hdr.length)
    (hbad : sseFieldOk env (hdr.getD st.column []) tok = false) :
    (sseRowToken env hdr st tok).error = true := by
  have h1 : ¬ st.column ≥ hdr.length := by omega
  unfold sseFieldOk at hbad
  unfold sseRowToken
  simp only [h1, if_false]
  have e : (if (trimToken tok).isEmpty = true then
        if Equals (hdr.getD st.column []) sMETALLICITY = true then env.toStr env.metallicity
        else "0.0".toList
      else trimToken tok) = sseFieldText env (hdr.getD st.column []) tok := rfl
  rw [e]
  cases hp : env.parse (sseFieldText env (hdr.getD st.column []) tok) with
  | none => rfl
  | some v =>
    rw [hp] at hbad
    have hv : v < 0 := by simpa using hbad
    simp only [hv, if_true]

theorem sseRowLoop_keeps_error (env : Env V) (hdr : List Str) (toks : List Str)
    (st : SSERow V) (he : st.error = true) : (sseRowLoop env hdr toks st).error = true := by
  cases toks with
  | nil => simpa [sseRowLoop] using he
  | cons t rest =>
    unfold sseRowLoop
    simp only [he, if_true]

theorem sseRecord_bad_first (env : Env V) (hdr : List Str) (record : Str) (gv : List V)
    (t0 : Str) (rest : List Str) (ht : getTokens record = t0 :: rest) (hw : 0 < hdr.length)
    (hbad : sseFieldOk env (hdr.getD 0 []) t0 = false) :
    (sseRecord env hdr record gv).1 = true := by
  have h1 := sseRowToken_bad env hdr ⟨false, gv, 0⟩ t0 hw hbad
  have h2 := sseRowLoop_keeps_error env hdr rest _ h1
  unfold sseRecord
  rw [ht]
  unfold sseRowLoop
  simp only [Bool.false_eq_true, if_false, h2, if_true]

/-- C12: under the header list `MASS` (read from a header line or synthesized for a
headerless file), reading a non-empty row returns the empty vector when the first field does
not convert to a non-negative number, and otherwise the row whose mass entry is the value of
the first field and whose metallicity entry is the configured default metallicity; fields
after the first have no effect. -/
theorem C12_mass_only_row (env : Env V) (blanks : List Str)
    (line : Str) (tail : Option Str) (g : IfStream) (lineNo : Nat)
    (hg : g.good) (hu : g.unread = fileText blanks line tail)
    (hb : ∀ b ∈ blanks, '\n' ∉ b ∧ normRecord b = [])
    (hl : '\n' ∉ line) (hne : normRecord line ≠ []) :
    ReadSSEGridRecord env g [sMASS] lineNo =
      (g.afterLine (blanksLength blanks) line.length tail.isNone,
       lineNo + blanks.length + 1,
       match env.parse (sseFieldText env sMASS ((rowTokens line).headD [])) with
       | some v => if v < 0 then [] else [v, env.metallicity]
       | none => []) := by
  rw [ReadSSEGridRecord_fileText env [sMASS] blanks line tail g lineNo hg hu hb hl hne]
  have hnt := getTokens_ne_nil hne
  cases ht : getTokens (normRecord line) with
  | nil => exact absurd ht hnt
  | cons t0 rest =>
    have hr : rowTokens line = t0 :: rest := ht
    rw [hr]
    simp only [List.headD_cons]
    by_cases hok : sseFieldOk env sMASS t0 = true
    · have hv : SSERowValid env [sMASS] (t0 :: rest) := by
        intro p hp
        have : p = (sMASS, t0) := by simpa using hp
        subst this
        exact hok
      rw [sseRecord_mass env (normRecord line) t0 rest ht hv]
      unfold sseFieldOk at hok
      cases hp : env.parse (sseFieldText env sMASS t0) with
      | none => rw [hp] at hok; exact absurd hok (by simp)
      | some v =>
        rw [hp] at hok
        have hv : ¬ v < 0 := by simpa using hok
        have hc : columnOf sMASS [sMASS] = 0 := by decide
        have hmm : sMETALLICITY ≠ sMASS := by decide
        simp [hv, sseExpectedRow, sseColumnValue, hc, hp, hmm]
    · have hbad : sseFieldOk env sMASS t0 = false := by simpa using hok
      have he := sseRecord_bad_first env [sMASS] (normRecord line) [0, 0] t0 rest ht
        (by simp) hbad
      simp only [he, if_true]
      unfold sseFieldOk at hbad
      cases hp : env.parse (sseFieldText env sMASS t0) with
      | none => rfl
      | some v =>
        rw [hp] at hbad
        have hv : v < 0 := by simpa using hbad
        simp only [hv, if_true]

theorem C12_mass_only_row_witness :
    (streamOn (fileText demoBlanks demoRowMassExtra none)).good ∧
    (∀ b ∈ demoBlanks, '\n' ∉ b ∧ normRecord b = []) ∧ '\n' ∉ demoRowMassExtra ∧
    normRecord demoRowMassExtra ≠ [] ∧
    ReadSSEGridRecord (ratEnv none (71 / 5000))
        (streamOn (fileText demoBlanks demoRowMassExtra none)) [sMASS] 2 =
      ((streamOn (fileText demoBlanks demoRowMassExtra none)).afterLine
          (blanksLength demoBlanks) demoRowMassExtra.length true, 5, [3 / 2, 71 / 5000]) :=
  ⟨streamOn_good _, by decide, by decide, by decide,
    (C12_mass_only_row (ratEnv none (71 / 5000)) demoBlanks demoRowMassExtra none
      (streamOn (fileText demoBlanks demoRowMassExtra none)) 2 (streamOn_good _)
      (streamOn_unread _) (by decide) (by decide) (by decide)).trans (by decide!)⟩

omit [LinearOrder V] [Zero V] in
theorem columnOf_of_getElem? (hdr : List Str) (hn : hdr.Nodup) (i : Nat) (name : Str)
    (h : hdr[i]? = some name) : columnOf name hdr = i := by
  have hi : i < hdr.length := by
    by_contra hc
    rw [List.getElem?_eq_none (by omega)] at h
    exact absurd h (by simp)
  have e : hdr.getD i [] = name := by
    rw [List.getD_eq_getElem?_getD, h]
    rfl
  rw [← e]
  exact columnOf_getD hdr hn i hi

omit [LinearOrder V] [Zero V] in
theorem mem_of_getElem? (hdr : List Str) (i : Nat) (name : Str)
    (h : hdr[i]? = some name) : name ∈ hdr := List.getElem?_mem h

omit [LinearOrder V] [Zero V] in
theorem accepted_nodup (hdr : List Str) (h : SSEHeaderAccepted hdr) : hdr.Nodup := by
  rcases h with h | h | h <;> subst h <;> decide

theorem bseFieldOk_empty (env : Env V) (h0 : env.parse "0.0".toList = some 0) (name tok : Str)
    (ht : trimToken tok = []) : bseFieldOk env name tok = true := by
  have h1 : env.parse ['0', '.', '0'] = some 0 := h0
  unfold bseFieldOk bseFieldText
  simp [ht, h1]

theorem sseFieldOk_empty_mass (env : Env V) (h0 : env.parse "0.0".toList = some 0) (tok : Str)
    (ht : trimToken tok = []) : sseFieldOk env sMASS tok = true := by
  have hMM : Equals sMASS sMETALLICITY = false := by decide
  have h1 : env.parse ['0', '.', '0'] = some 0 := h0
  unfold sseFieldOk sseFieldText
  simp [ht, h1, hMM]

/-- C14 (defect): with the configured metallicity 0.0001234, the header
`METALLICITY,MASS` and the row `,1`, whose METALLICITY field is present and empty,
`ReadSSEGridRecord` returns the metallicity 0.000123: the value is printed with six decimals
by `std::to_string` and read back. The row `1` under the header `MASS,METALLICITY`, whose
METALLICITY column is missing, returns 0.0001234 itself. -/
theorem C14_empty_metallicity_rounded :
    ReadSSEGridRecord (ratEnv none (1234 / 10000000)) (streamOn demoRowEmptyMetallicity)
        [sMETALLICITY, sMASS] 1 =
      ((streamOn demoRowEmptyMetallicity).afterLine 0 demoRowEmptyMetallicity.length true, 2,
        [1, 123 / 1000000]) ∧
    ReadSSEGridRecord (ratEnv none (1234 / 10000000)) (streamOn demoRowMassAlone)
        [sMASS, sMETALLICITY] 1 =
      ((streamOn demoRowMassAlone).afterLine 0 demoRowMassAlone.length true, 2,
        [1, 1234 / 10000000]) ∧
    (123 / 1000000 : ℚ) ≠ 1234 / 10000000 ∧
    fixed6 (1234 / 10000000) = "0.000123".toList := by
  refine ⟨by decide!, by decide!, by decide!, by decide!⟩

omit [LinearOrder V] in
theorem bseColumnValue_missing (env : Env V) (hdr toks : List Str) (name : Str)
    (h : toks.length ≤ columnOf name hdr) : bseColumnValue env hdr toks name = 0 := by
  have h1 : ¬ columnOf name hdr < toks.length := by omega
  unfold bseColumnValue bseValueUpTo
  simp only [h1, and_false, if_false]

theorem sseRowLoop_of_error (env : Env V) (hdr toks : List Str) (st : SSERow V)
    (he : st.error = true) : sseRowLoop env hdr toks st = st := by
  cases toks with
  | nil => rfl
  | cons t rest =>
    unfold sseRowLoop
    simp only [he, if_true]

theorem sseRowLoop_append (env : Env V) (hdr : List Str) :
    ∀ (a b : List Str) (st : SSERow V),
      sseRowLoop env hdr (a ++ b) st = sseRowLoop env hdr b (sseRowLoop env hdr a st) := by
  intro a
  induction a with
  | nil => intro b st; rfl
  | cons t rest ih =>
    intro b st
    by_cases he : st.error = true
    · rw [sseRowLoop_of_error env hdr _ st he, sseRowLoop_of_error env hdr _ st he,
        sseRowLoop_of_error env hdr _ st he]
    · simp only [List.cons_append, sseRowLoop, he, if_false, Bool.false_eq_true]
      exact ih b _

theorem sseRowLoop_column (env : Env V) (hdr : List Str) :
    ∀ (toks : List Str) (st : SSERow V), (sseRowLoop env hdr toks st).error = false →
      (sseRowLoop env hdr toks st).column = st.column + toks.length := by
  intro toks
  induction toks with
  | nil => intro st _; rfl
  | cons t rest ih =>
    intro st h
    by_cases he : st.error = true
    · rw [sseRowLoop_of_error env hdr _ st he] at h
      rw [he] at h
      exact absurd h (by simp)
    · simp only [sseRowLoop, he, if_false, Bool.false_eq_true] at h ⊢
      rw [ih _ h, sseRowToken_column, List.length_cons]
      omega

/-- The body of the record loop of `ReadSSEGridRecord` sees only the fields within the header
width. -/
theorem sseRecord_take (env : Env V) (hdr : List Str) (record record' : Str) (gv : List V)
    (h : getTokens record' = (getTokens record).take hdr.length) :
    sseRecord env hdr record' gv = sseRecord env hdr record gv := by
  have hsplit : getTokens record =
      (getTokens record).take hdr.length ++ (getTokens record).drop hdr.length :=
    (List.take_append_drop _ _).symm
  unfold sseRecord
  rw [h]
  generalize (getTokens record).take hdr.length = a at hsplit
  generalize hb : (getTokens record).drop hdr.length = b at hsplit
  rw [hsplit, sseRowLoop_append]
  generalize hs1 : sseRowLoop env hdr a ⟨false, gv, 0⟩ = s1
  by_cases he : s1.error = true
  · rw [sseRowLoop_of_error env hdr b s1 he]
  · have he' : s1.error = false := by simpa using he
    cases b with
    | nil => rfl
    | cons t rest =>
      have hlen : hdr.length < (getTokens record).length := by
        by_contra hc
        rw [List.drop_eq_nil_of_le (by omega)] at hb
        exact absurd hb (by simp)
      have hcol : s1.column = a.length := by
        have := sseRowLoop_column env hdr a ⟨false, gv, 0⟩ (by rw [hs1]; exact he')
        rw [hs1] at this
        simpa using this
      have hal : a.length = hdr.length := by
        have := congrArg List.length hsplit
        have h2 := congrArg List.length hb
        simp only [List.length_append, List.length_drop] at this h2
        omega
      rw [sseRowLoop_past env hdr (t :: rest) s1 (by omega) he']
      have h1 : ¬ s1.column < hdr.length := by omega
      have h2 : ¬ s1.column + (t :: rest).length < hdr.length := by omega
      simp only [he', Bool.false_eq_true, if_false, h1, h2]

theorem bseRowLoop_of_error (env : Env V) (hdr toks : List Str) (st : BSERow V)
    (he : st.error = true) : bseRowLoop env hdr toks st = some st := by
  cases toks with
  | nil => rfl
  | cons t rest =>
    unfold bseRowLoop
    simp only [he, if_true]

theorem bseRowLoop_append (env : Env V) (hdr : List Str) :
    ∀ (a b : List Str) (st : BSERow V),
      bseRowLoop env hdr (a ++ b) st =
        (bseRowLoop env hdr a st).bind (bseRowLoop env hdr b) := by
  intro a
  induction a with
  | nil => intro b st; rfl
  | cons t rest ih =>
    intro b st
    by_cases he : st.error = true
    · rw [bseRowLoop_of_error env hdr _ st he, bseRowLoop_of_error env hdr _ st he,
        Option.some_bind, bseRowLoop_of_error env hdr _ st he]
    · simp only [List.cons_append, bseRowLoop, he, if_false, Bool.false_eq_true]
      cases bseRowToken env hdr st t with
      | none => rfl
      | some st1 => exact ih b st1

theorem bseRowToken_column_eq (env : Env V) (hdr : List Str) (st st1 : BSERow V) (tok : Str)
    (h : bseRowToken env hdr st tok = some st1) : st1.column = st.column + 1 := by
  unfold bseRowToken at h
  simp only [] at h
  split at h
  · simp only [Option.map_some', Option.some.injEq] at h
    rw [← h]
  · split at h
    · simp only [Option.map_some', Option.some.injEq] at h
      rw [← h]
    · rename_i value _
      cases hst : bseStore st (hdr.getD st.column []) value with
      | none => rw [hst] at h; exact absurd h (by simp)
      | some s =>
        rw [hst] at h
        simp only [Option.map_some', Option.some.injEq] at h
        rw [← h]
        exact congrArg (· + 1) (bseStore_column st s _ value hst).1

theorem bseRowLoop_column (env : Env V) (hdr : List Str) :
    ∀ (toks : List Str) (st s1 : BSERow V), bseRowLoop env hdr toks st = some s1 →
      s1.error = false → s1.column = st.column + toks.length := by
  intro toks
  induction toks with
  | nil =>
    intro st s1 h _
    simp only [bseRowLoop, Option.some.injEq] at h
    rw [← h]
    rfl
  | cons t rest ih =>
    intro st s1 h he1
    by_cases he : st.error = true
    · rw [bseRowLoop_of_error env hdr _ st he, Option.some.injEq] at h
      rw [← h, he] at he1
      exact absurd he1 (by simp)
    · simp only [bseRowLoop, he, if_false, Bool.false_eq_true] at h
      cases hst : bseRowToken env hdr st t with
      | none => rw [hst] at h; exact absurd h (by simp)
      | some st1 =>
        rw [hst] at h
        rw [ih st1 s1 h he1, bseRowToken_column_eq env hdr st st1 t hst, List.length_cons]
        omega

theorem bseRowLoop_past (env : Env V) (hdr : List Str) :
    ∀ (toks : List Str) (st : BSERow V), hdr.length ≤ st.column → st.error = false →
      bseRowLoop env hdr toks st = some { st with column := st.column + toks.length } := by
  intro toks
  induction toks with
  | nil => intro st _ _; rfl
  | cons t rest ih =>
    intro st hc he
    unfold bseRowLoop
    simp only [he, Bool.false_eq_true, if_false]
    rw [bseRowToken_past env hdr st t hc]
    simp only []
    rw [ih _ (by simp only []; omega) (by simpa using he)]
    simp only [List.length_cons, Option.some.injEq, BSERow.mk.injEq, true_and]
    exact ⟨he, by omega⟩

/-- The body of the record loop of `ReadBSEGridRecord` sees only the fields within the header
width. -/
theorem bseRecord_take (env : Env V) (hdr : List Str) (record record' : Str) (gv : List V)
    (h : getTokens record' = (getTokens record).take hdr.length) :
    bseRecord env hdr record' gv = bseRecord env hdr record gv := by
  have hsplit : getTokens record =
      (getTokens record).take hdr.length ++ (getTokens record).drop hdr.length :=
    (List.take_append_drop _ _).symm
  unfold bseRecord
  rw [h]
  generalize (getTokens record).take hdr.length = a at hsplit
  generalize hb : (getTokens record).drop hdr.length = b at hsplit
  rw [hsplit, bseRowLoop_append]
  cases hs1 : bseRowLoop env hdr a ⟨false, gv, 0, 0⟩ with
  | none => rfl
  | some s1 =>
    rw [Option.some_bind]
    by_cases he : s1.error = true
    · rw [bseRowLoop_of_error env hdr b s1 he]
    · have he' : s1.error = false := by simpa using he
      cases b with
      | nil => rfl
      | cons t rest =>
        have hlen : hdr.length < (getTokens record).length := by
          by_contra hc
          rw [List.drop_eq_nil_of_le (by omega)] at hb
          exact absurd hb (by simp)
        have hcol : s1.column = a.length := by
          have := bseRowLoop_column env hdr a ⟨false, gv, 0, 0⟩ s1 hs1 he'
          simpa using this
        have hal : a.length = hdr.length := by
          have := congrArg List.length hsplit
          have h2 := congrArg List.length hb
          simp only [List.length_append, List.length_drop] at this h2
          omega
        rw [bseRowLoop_past env hdr (t :: rest) s1 (by omega) he']

/-- C16: a row with more fields than the header has columns gives the same line number and
the same values as the row cut down to the header width, in `ReadSSEGridRecord` and in
`ReadBSEGridRecord`: the fields beyond the header width have no effect, whatever they
contain. -/
theorem C16_extra_fields_ignored (env : Env V) (hdrS hdrB : List Str) (blanks : List Str)
    (line lineS lineB : Str) (tail : Option Str) (g gS gB : IfStream) (lineNo : Nat)
    (hg : g.good) (hu : g.unread = fileText blanks line tail)
    (hgS : gS.good) (huS : gS.unread = fileText blanks lineS tail)
    (hgB : gB.good) (huB : gB.unread = fileText blanks lineB tail)
    (hb : ∀ b ∈ blanks, '\n' ∉ b ∧ normRecord b = [])
    (hl : '\n' ∉ line) (hne : normRecord line ≠ [])
    (hlS : '\n' ∉ lineS) (hneS : normRecord lineS ≠ [])
    (hlB : '\n' ∉ lineB) (hneB : normRecord lineB ≠ [])
    (_hmoreS : hdrS.length < (rowTokens line).length)
    (_hmoreB : hdrB.length < (rowTokens line).length)
    (htrS : rowTokens lineS = (rowTokens line).take hdrS.length)
    (htrB : rowTokens lineB = (rowTokens line).take hdrB.length) :
    (ReadSSEGridRecord env g hdrS lineNo).2 = (ReadSSEGridRecord env gS hdrS lineNo).2 ∧
    (ReadBSEGridRecord env g hdrB lineNo).map (fun r => r.2) =
      (ReadBSEGridRecord env gB hdrB lineNo).map (fun r => r.2) := by
  constructor
  · rw [ReadSSEGridRecord_fileText env hdrS blanks line tail g lineNo hg hu hb hl hne,
      ReadSSEGridRecord_fileText env hdrS blanks lineS tail gS lineNo hgS huS hb hlS hneS,
      sseRecord_take env hdrS (normRecord line) (normRecord lineS) [0, 0] htrS]
  · rw [ReadBSEGridRecord_fileText env hdrB blanks line tail g lineNo hg hu hb hl hne,
      ReadBSEGridRecord_fileText env hdrB blanks lineB tail gB lineNo hgB huB hb hlB hneB,
      bseRecord_take env hdrB (normRecord line) (normRecord lineB) _ htrB]
    simp only [Option.map_map]
    rfl

theorem C16_extra_fields_ignored_witness :
    (∀ b ∈ demoBlanks, '\n' ∉ b ∧ normRecord b = []) ∧
    '\n' ∉ demoRowLong ∧ normRecord demoRowLong ≠ [] ∧
    '\n' ∉ demoRowLongTwo ∧ normRecord demoRowLongTwo ≠ [] ∧
    '\n' ∉ demoRowLongSeven ∧ normRecord demoRowLongSeven ≠ [] ∧
    [sMASS, sMETALLICITY].length < (rowTokens demoRowLong).length ∧
    demoBSEHeaders.length < (rowTokens demoRowLong).length ∧
    rowTokens demoRowLongTwo = (rowTokens demoRowLong).take [sMASS, sMETALLICITY].length ∧
    rowTokens demoRowLongSeven = (rowTokens demoRowLong).take demoBSEHeaders.length ∧
    (ReadSSEGridRecord (ratEnv none 0) (streamOn (fileText demoBlanks demoRowLong none))
        [sMASS, sMETALLICITY] 2).2 = (5, [10, 8]) ∧
    (ReadSSEGridRecord (ratEnv none 0) (streamOn (fileText demoBlanks demoRowLongTwo none))
        [sMASS, sMETALLICITY] 2).2 = (5, [10, 8]) ∧
    (ReadBSEGridRecord (ratEnv none 0) (streamOn (fileText demoBlanks demoRowLong none))
        demoBSEHeaders 2).map (fun r => r.2) =
      (ReadBSEGridRecord (ratEnv none 0)
        (streamOn (fileText demoBlanks demoRowLongSeven none)) demoBSEHeaders 2).map
        (fun r => r.2) ∧
    (ReadBSEGridRecord (ratEnv none 0)
        (streamOn (fileText demoBlanks demoRowLongSeven none)) demoBSEHeaders 2).map
        (fun r => r.2) = some (5, [10, 8, 1 / 50, 1 / 50, 50, 1 / 10, 0, 0, 0, 0, 0, 0, 0, 0]) :=
  ⟨by decide, by decide, by decide, by decide, by decide, by decide, by decide, by decide,
    by decide, by decide, by decide, by decide!, by decide!,
    (C16_extra_fields_ignored (ratEnv none 0) [sMASS, sMETALLICITY] demoBSEHeaders demoBlanks
      demoRowLong demoRowLongTwo demoRowLongSeven none
      (streamOn (fileText demoBlanks demoRowLong none))
      (streamOn (fileText demoBlanks demoRowLongTwo none))
      (streamOn (fileText demoBlanks demoRowLongSeven none)) 2
      (streamOn_good _) (streamOn_unread _) (streamOn_good _) (streamOn_unread _)
      (streamOn_good _) (streamOn_unread _) (by decide) (by decide) (by decide) (by decide)
      (by decide) (by decide) (by decide) (by decide) (by decide) (by decide) (by decide)).2,
    by decide!⟩

/-- C17 (defect): the header line
`MASS_1,MASS_2,METALLICITY_1,METALLICITY_2,SEPARATION,ECCENTRICITY,PERIOD` is accepted and
contains no kick column, yet the row read under it has fourteen values and the constructor
receives two lists of four zero kick parameters: both functions take a header list of
exactly six strings as the sign of a kick-free grid. The same file without the PERIOD column
gives six values and empty kick-parameter lists. -/
theorem C17_kick_free_seven_columns :
    (OpenBSEGridFile (ratEnv (some demoFileBoth) 0) IfStream.fresh).1.isOpen = true ∧
    (OpenBSEGridFile (ratEnv (some demoFileBoth) 0) IfStream.fresh).2.2 = demoHeadersBoth ∧
    (∀ h ∈ demoHeadersBoth, h ∉ kickNames) ∧
    (ReadBSEGridRecord (ratEnv (some demoFileBoth) 0)
        (OpenBSEGridFile (ratEnv (some demoFileBoth) 0) IfStream.fresh).1 demoHeadersBoth
        2).map (fun r => r.2.2) =
      some [10, 8, 1 / 50, 1 / 50, 7 / 2, 1 / 10, 0, 0, 0, 0, 0, 0, 0, 0] ∧
    gridBinaryArgs demoHeadersBoth
        ([10, 8, 1 / 50, 1 / 50, 7 / 2, 1 / 10, 0, 0, 0, 0, 0, 0, 0, 0] : List ℚ) =
      ⟨10, 8, 1 / 50, 1 / 50, 7 / 2, 1 / 10, [0, 0, 0, 0], [0, 0, 0, 0]⟩ ∧
    (OpenBSEGridFile (ratEnv (some demoFileSeparation) 0) IfStream.fresh).1.isOpen = true ∧
    (ReadBSEGridRecord (ratEnv (some demoFileSeparation) 0)
        (OpenBSEGridFile (ratEnv (some demoFileSeparation) 0) IfStream.fresh).1
        (OpenBSEGridFile (ratEnv (some demoFileSeparation) 0) IfStream.fresh).2.2
        2).map (fun r => r.2.2) =
      some [10, 8, 1 / 50, 1 / 50, 7 / 2, 1 / 10] ∧
    gridBinaryArgs (OpenBSEGridFile (ratEnv (some demoFileSeparation) 0) IfStream.fresh).2.2
        ([10, 8, 1 / 50, 1 / 50, 7 / 2, 1 / 10] : List ℚ) =
      ⟨10, 8, 1 / 50, 1 / 50, 7 / 2, 1 / 10, [], []⟩ := by
  refine ⟨by decide, by decide, by decide, by decide!, by decide!, by decide, by decide!,
    by decide!⟩

end Rows

/-! ## White dwarf shells -/

/-- C18: with a hydrogen-class regime `ResolveShellChange` adds the accreted mass to `HShell`
and changes nothing else; with a helium-class regime it adds the accreted mass to `HeShell`
and changes nothing else. -/
theorem C18_shell_by_regime {R : Type} [Add R] (wd : WhiteDwarf R) (m : R) :
    (wd.m_AccretionRegime ∈ hydrogenRegimes →
      ResolveShellChange wd m = { wd with m_HShell := wd.m_HShell + m }) ∧
    (wd.m_AccretionRegime ∈ heliumRegimes →
      ResolveShellChange wd m = { wd with m_HeShell := wd.m_HeShell + m }) := by
  obtain ⟨mass, h, he, r⟩ := wd
  constructor
  · intro hr
    cases r <;> first | rfl | exact absurd hr (by simp [hydrogenRegimes])
  · intro hr
    cases r <;> first | rfl | exact absurd hr (by simp [heliumRegimes])

theorem C18_shell_by_regime_witness :
    ResolveShellChange (⟨3 / 5, 1 / 100, 1 / 50, .HYDROGEN_STABLE_BURNING⟩ : WhiteDwarf ℚ)
        (1 / 1000) = ⟨3 / 5, 11 / 1000, 1 / 50, .HYDROGEN_STABLE_BURNING⟩ ∧
    ResolveShellChange
        (⟨3 / 5, 1 / 100, 1 / 50, .HELIUM_WHITE_DWARF_HELIUM_IGNITION⟩ : WhiteDwarf ℚ)
        (1 / 1000) = ⟨3 / 5, 1 / 100, 21 / 1000, .HELIUM_WHITE_DWARF_HELIUM_IGNITION⟩ :=
  ⟨((C18_shell_by_regime
      (⟨3 / 5, 1 / 100, 1 / 50, .HYDROGEN_STABLE_BURNING⟩ : WhiteDwarf ℚ) (1 / 1000)).1
      (by decide)).trans (by decide!),
    ((C18_shell_by_regime
      (⟨3 / 5, 1 / 100, 1 / 50, .HELIUM_WHITE_DWARF_HELIUM_IGNITION⟩ : WhiteDwarf ℚ)
      (1 / 1000)).2 (by decide)).trans (by decide!)⟩

/-- C19: whatever accreted masses are passed, repeated calls of `ResolveShellChange` on a
white dwarf whose regime is none of the eleven recognized ones return the state
unchanged. -/
theorem C19_unset_regime_no_change {R : Type} [Add R] (wd : WhiteDwarf R) (ms : List R)
    (hh : wd.m_AccretionRegime ∉ hydrogenRegimes)
    (hhe : wd.m_AccretionRegime ∉ heliumRegimes) :
    ms.foldl ResolveShellChange wd = wd := by
  have h1 : ∀ m, ResolveShellChange wd m = wd := by
    intro m
    obtain ⟨mass, h, he, r⟩ := wd
    cases r <;>
      first
      | rfl
      | simp [hydrogenRegimes, heliumRegimes] at hh hhe
  induction ms with
  | nil => rfl
  | cons m rest ih => rw [List.foldl_cons, h1 m, ih]

theorem C19_unset_regime_no_change_witness :
    (ACCRETION_REGIME.OTHER 0) ∉ hydrogenRegimes ∧
    (ACCRETION_REGIME.OTHER 0) ∉ heliumRegimes ∧
    [1 / 1000, -2, 0, 5].foldl ResolveShellChange
        (⟨3 / 5, 1 / 100, 1 / 50, .OTHER 0⟩ : WhiteDwarf ℚ) =
      ⟨3 / 5, 1 / 100, 1 / 50, .OTHER 0⟩ :=
  ⟨by decide, by decide,
    C19_unset_regime_no_change (⟨3 / 5, 1 / 100, 1 / 50, .OTHER 0⟩ : WhiteDwarf ℚ)
      [1 / 1000, -2, 0, 5] (by decide) (by decide)⟩

/-- C20 (as stated, refuted): from `HShell = 0` and `HeShell = 0`, one call with a
hydrogen-class regime and the accreted mass `-1` leaves `HShell = -1`, which is negative and
smaller than before. -/
theorem C20_negative_accretion_counterexample :
    (0 : ℚ) ≤ (⟨1, 0, 0, .OTHER 0⟩ : WhiteDwarf ℚ).m_HShell ∧
    (0 : ℚ) ≤ (⟨1, 0, 0, .OTHER 0⟩ : WhiteDwarf ℚ).m_HeShell ∧
    (resolveAll (⟨1, 0, 0, .OTHER 0⟩ : WhiteDwarf ℚ) [(.HYDROGEN_FLASHES, -1)]).m_HShell
      = -1 ∧
    ¬ (0 : ℚ) ≤
      (resolveAll (⟨1, 0, 0, .OTHER 0⟩ : WhiteDwarf ℚ) [(.HYDROGEN_FLASHES, -1)]).m_HShell := by
  refine ⟨by decide!, by decide!, by decide!, by decide!⟩

theorem resolveAll_append {R : Type} [Add R] (wd : WhiteDwarf R)
    (pre post : List (ACCRETION_REGIME × R)) :
    resolveAll wd (pre ++ post) = resolveAll (resolveAll wd pre) post := by
  unfold resolveAll
  rw [List.foldl_append]

theorem ResolveShellChange_mono {R : Type} [OrderedAddCommMonoid R] (wd : WhiteDwarf R)
    (m : R) (hm : 0 ≤ m) :
    wd.m_HShell ≤ (ResolveShellChange wd m).m_HShell ∧
    wd.m_HeShell ≤ (ResolveShellChange wd m).m_HeShell := by
  obtain ⟨mass, h, he, r⟩ := wd
  cases r <;>
    first
    | exact ⟨le_refl _, le_add_of_nonneg_right hm⟩
    | exact ⟨le_add_of_nonneg_right hm, le_refl _⟩
    | exact ⟨le_refl _, le_refl _⟩

theorem resolveAll_mono {R : Type} [OrderedAddCommMonoid R] :
    ∀ (calls : List (ACCRETION_REGIME × R)) (wd : WhiteDwarf R), (∀ c ∈ calls, 0 ≤ c.2) →
      wd.m_HShell ≤ (resolveAll wd calls).m_HShell ∧
      wd.m_HeShell ≤ (resolveAll wd calls).m_HeShell := by
  intro calls
  induction calls with
  | nil => intro wd _; exact ⟨le_refl _, le_refl _⟩
  | cons c rest ih =>
    intro wd h
    have h1 := ResolveShellChange_mono { wd with m_AccretionRegime := c.1 } c.2
      (h c (by simp))
    have h2 := ih (ResolveShellChange { wd with m_AccretionRegime := c.1 } c.2)
      (fun d hd => h d (by simp [hd]))
    exact ⟨le_trans h1.1 h2.1, le_trans h1.2 h2.2⟩

/-- C20 (amended): starting from non-negative shell masses, along every sequence of
`ResolveShellChange` calls with any regimes and non-negative accreted masses, both shell
masses stay non-negative and neither ever decreases: after any further calls each is at
least what it was after the calls before. -/
theorem C20_shells_monotone_amended {R : Type} [OrderedAddCommMonoid R] (wd : WhiteDwarf R)
    (pre post : List (ACCRETION_REGIME × R))
    (hH : 0 ≤ wd.m_HShell) (hHe : 0 ≤ wd.m_HeShell)
    (hm : ∀ c ∈ pre ++ post, 0 ≤ c.2) :
    0 ≤ (resolveAll wd pre).m_HShell ∧
    (resolveAll wd pre).m_HShell ≤ (resolveAll wd (pre ++ post)).m_HShell ∧
    0 ≤ (resolveAll wd pre).m_HeShell ∧
    (resolveAll wd pre).m_HeShell ≤ (resolveAll wd (pre ++ post)).m_HeShell := by
  have h1 := resolveAll_mono pre wd (fun c hc => hm c (by simp [hc]))
  have h2 := resolveAll_mono post (resolveAll wd pre) (fun c hc => hm c (by simp [hc]))
  rw [resolveAll_append]
  exact ⟨le_trans hH h1.1, h2.1, le_trans hHe h1.2, h2.2⟩

theorem C20_shells_monotone_amended_witness :
    (0 : ℚ) ≤ (⟨3 / 5, 1 / 100, 0, .OTHER 0⟩ : WhiteDwarf ℚ).m_HShell ∧
    (0 : ℚ) ≤ (⟨3 / 5, 1 / 100, 0, .OTHER 0⟩ : WhiteDwarf ℚ).m_HeShell ∧
    (∀ c ∈ [(ACCRETION_REGIME.HYDROGEN_FLASHES, (1 / 1000 : ℚ)), (.HELIUM_FLASHES, 1 / 500)] ++
        [(.OTHER 0, 1), (.HYDROGEN_OPT_THICK_WINDS, 0)], 0 ≤ c.2) ∧
    resolveAll (⟨3 / 5, 1 / 100, 0, .OTHER 0⟩ : WhiteDwarf ℚ)
        [(.HYDROGEN_FLASHES, 1 / 1000), (.HELIUM_FLASHES, 1 / 500)] =
      ⟨3 / 5, 11 / 1000, 1 / 500, .HELIUM_FLASHES⟩ ∧
    (11 / 1000 : ℚ) ≤ (resolveAll (⟨3 / 5, 1 / 100, 0, .OTHER 0⟩ : WhiteDwarf ℚ)
        ([(.HYDROGEN_FLASHES, 1 / 1000), (.HELIUM_FLASHES, 1 / 500)] ++
          [(.OTHER 0, 1), (.HYDROGEN_OPT_THICK_WINDS, 0)])).m_HShell :=
  ⟨by decide!, by decide!, by decide!, by decide!,
    le_of_eq_of_le (by decide!)
      (C20_shells_monotone_amended (⟨3 / 5, 1 / 100, 0, .OTHER 0⟩ : WhiteDwarf ℚ)
        [(.HYDROGEN_FLASHES, 1 / 1000), (.HELIUM_FLASHES, 1 / 500)]
        [(.OTHER 0, 1), (.HYDROGEN_OPT_THICK_WINDS, 0)] (by decide!) (by decide!)
        (by decide!)).2.1⟩

/-! ## White dwarf accretion efficiencies -/

theorem exactCompare_nonneg {R : Type} [LinearOrder R] (x y : R) :
    0 ≤ exactCompare x y ↔ y ≤ x := by
  unfold exactCompare
  by_cases h : x = y
  · simp [h]
  · by_cases h1 : x < y
    · simp [h, h1]
    · simp only [h, h1, if_false]
      exact ⟨fun _ => le_of_not_lt h1, fun _ => by decide⟩

theorem rpow_ten_unit (x : ℝ) (h : x ≤ 0) : 0 ≤ (10 : ℝ) ^ x ∧ (10 : ℝ) ^ x ≤ 1 :=
  ⟨Real.rpow_nonneg (by norm_num) x, Real.rpow_le_one_of_one_le_of_nonpos (by norm_num) h⟩

theorem toleranceCompare_le {R : Type} [LinearOrderedField R] (t x y : R) (ht : 0 ≤ t) :
    toleranceCompare t x y ≤ 0 ↔ x ≤ y + t := by
  unfold toleranceCompare
  by_cases h1 : |x - y| ≤ t
  · simp only [h1, if_true, le_refl, true_iff]
    have := (abs_le.1 h1).2
    linarith
  · simp only [h1, if_false]
    by_cases h2 : x < y
    · simp only [h2, if_true]
      constructor
      · intro _
        linarith
      · intro _
        decide
    · simp only [h2, if_false]
      constructor
      · intro h
        exact absurd h (by decide)
      · intro h
        exfalso
        apply h1
        rw [abs_le]
        constructor <;> linarith

theorem exactCompare_le {R : Type} [LinearOrder R] (x y : R) :
    exactCompare x y ≤ 0 ↔ x ≤ y := by
  unfold exactCompare
  by_cases h1 : x = y
  · simp [h1]
  · by_cases h2 : x < y
    · simp [h1, h2, le_of_lt h2]
    · simp only [h1, h2, if_false]
      constructor
      · intro h
        exact absurd h (by decide)
      · intro h
        exact absurd (lt_of_le_of_ne h h1) h2

theorem toleranceCompare_nonneg {R : Type} [LinearOrderedField R] (t x y : R) (ht : 0 ≤ t) :
    0 ≤ toleranceCompare t x y ↔ y ≤ x + t := by
  unfold toleranceCompare
  by_cases h1 : |x - y| ≤ t
  · simp only [h1, if_true, le_refl, true_iff]
    have := (abs_le.1 h1).1
    linarith
  · simp only [h1, if_false]
    by_cases h2 : x < y
    · simp only [h2, if_true]
      constructor
      · intro h
        exact absurd h (by decide)
      · intro h
        exfalso
        apply h1
        rw [abs_le]
        constructor <;> linarith
    · simp only [h2, if_false]
      constructor
      · intro _
        linarith [not_lt.1 h2]
      · intro _
        decide

theorem compare_neg_within {R : Type} [LinearOrderedField R] (cmp : R → R → Int) (t : R)
    (hcmp : ∀ x y, 0 ≤ cmp x y ↔ y ≤ x + t) (x y : R) : cmp x y < 0 ↔ x + t < y := by
  rw [← not_le, ← not_le, hcmp]

theorem rpow_ten_mono (t x : ℝ) (h : x ≤ t) :
    0 ≤ (10 : ℝ) ^ x ∧ (10 : ℝ) ^ x ≤ (10 : ℝ) ^ t :=
  ⟨Real.rpow_nonneg (by norm_num) x, Real.rpow_le_rpow_of_exponent_le (by norm_num) h⟩

/-- C22 (as stated, refuted): with a comparison `utils::Compare` of tolerance `5e-7` (and the
sample constants), for the mass 1 the rate -6.4279351 lies `1.5e-7` below the critical
threshold -6.42793495 and compares equal to it, so `CalculateetaH` returns
`10^(1.5e-7)`, which is above 1. -/
theorem C22_tolerance_above_one_counterexample :
    MdotCritH (sampleWD ℝ) 1 = -6.42793495 ∧
    CalculateetaH { sampleWD ℝ with Compare := toleranceCompare 5e-7 }
      ⟨1, 0, 0, .HYDROGEN_FLASHES⟩ (-6.4279351) = 10 ^ (1.5e-7 : ℝ) ∧
    ¬ (CalculateetaH { sampleWD ℝ with Compare := toleranceCompare 5e-7 }
      ⟨1, 0, 0, .HYDROGEN_FLASHES⟩ (-6.4279351) ≤ 1) := by
  have h : CalculateetaH { sampleWD ℝ with Compare := toleranceCompare 5e-7 }
      ⟨1, 0, 0, .HYDROGEN_FLASHES⟩ (-6.4279351) = 10 ^ (1.5e-7 : ℝ) := by
    simp only [CalculateetaH, sampleWD, MdotCritH, toleranceCompare, abs_le]
    norm_num
  refine ⟨?_, h, ?_⟩
  · simp only [MdotCritH, sampleWD]
    norm_num
  · rw [h, not_le]
    exact Real.one_lt_rpow (by norm_num) (by norm_num)

/-- C22 (amended): when `utils::Compare(x, y) >= 0` holds only for `x ≥ y - t`, with `t` the
tolerance of the comparison, and `PPOW(10, x)` is not negative and grows with `x` up to
`x = t`, where it is at least 1, `CalculateetaH` returns a value between 0 and
`PPOW(10, t)` for every mass and every rate; without tolerance (`t = 0`, `PPOW(10, 0) = 1`)
the value lies between 0 and 1. -/
theorem C22_etaH_bounded_amended {R : Type} [LinearOrderedField R] (env : WDEnv R)
    (wd : WhiteDwarf R) (r t : R)
    (hcmp : ∀ x y, 0 ≤ env.Compare x y → y ≤ x + t)
    (hpow : ∀ x, x ≤ t → 0 ≤ env.PPOW 10 x ∧ env.PPOW 10 x ≤ env.PPOW 10 t)
    (hone : 1 ≤ env.PPOW 10 t) :
    0 ≤ CalculateetaH env wd r ∧ CalculateetaH env wd r ≤ env.PPOW 10 t ∧
    (t = 0 → env.PPOW 10 0 = 1 → CalculateetaH env wd r ≤ 1) := by
  have key : 0 ≤ CalculateetaH env wd r ∧ CalculateetaH env wd r ≤ env.PPOW 10 t := by
    unfold CalculateetaH
    split
    · rename_i h
      exact hpow _ (by linarith [hcmp _ _ h])
    · split
      · exact ⟨zero_le_one, hone⟩
      · exact ⟨le_refl _, le_trans zero_le_one hone⟩
  refine ⟨key.1, key.2, fun h0 h1 => ?_⟩
  have := key.2
  rw [h0, h1] at this
  exact this

theorem C22_etaH_bounded_amended_witness :
    (0 ≤ CalculateetaH { sampleWD ℝ with Compare := toleranceCompare 5e-7 }
        ⟨1, 0, 0, .HYDROGEN_FLASHES⟩ (-6.4279351) ∧
      CalculateetaH { sampleWD ℝ with Compare := toleranceCompare 5e-7 }
        ⟨1, 0, 0, .HYDROGEN_FLASHES⟩ (-6.4279351) ≤ 10 ^ (5e-7 : ℝ)) ∧
    CalculateetaH (sampleWD ℝ) ⟨1, 0, 0, .HYDROGEN_FLASHES⟩ (-5) ≤ 1 :=
  ⟨⟨(C22_etaH_bounded_amended { sampleWD ℝ with Compare := toleranceCompare 5e-7 }
        ⟨1, 0, 0, .HYDROGEN_FLASHES⟩ (-6.4279351) 5e-7
        (fun x y h => (toleranceCompare_nonneg 5e-7 x y (by norm_num)).1 h)
        (rpow_ten_mono 5e-7) (Real.one_le_rpow (by norm_num) (by norm_num))).1,
      (C22_etaH_bounded_amended { sampleWD ℝ with Compare := toleranceCompare 5e-7 }
        ⟨1, 0, 0, .HYDROGEN_FLASHES⟩ (-6.4279351) 5e-7
        (fun x y h => (toleranceCompare_nonneg 5e-7 x y (by norm_num)).1 h)
        (rpow_ten_mono 5e-7) (Real.one_le_rpow (by norm_num) (by norm_num))).2.1⟩,
    (C22_etaH_bounded_amended (sampleWD ℝ) ⟨1, 0, 0, .HYDROGEN_FLASHES⟩ (-5) 0
      (fun x y h => by rw [add_zero]; exact (exactCompare_nonneg x y).1 h)
      (rpow_ten_mono 0) (le_of_eq (Real.rpow_zero 10).symm)).2.2 rfl (Real.rpow_zero 10)⟩

/-- C23 (as stated, refuted): with a comparison `utils::Compare` of tolerance `5e-7` (and the
sample constants), for the mass 0.8 the rate -6.6515449164 lies between the stable threshold
and the critical threshold -6.6515447164, `2e-7` below the latter, yet `CalculateetaH`
returns `10^(2e-7)`, not 1: the decaying branch reaches below the critical threshold by
the tolerance and meets the stable band with a jump. -/
theorem C23_tolerance_band_counterexample :
    MdotLowH (sampleWD ℝ) 0.8 ≤ -6.6515449164 ∧
    (-6.6515449164 : ℝ) < MdotCritH (sampleWD ℝ) 0.8 ∧
    CalculateetaH { sampleWD ℝ with Compare := toleranceCompare 5e-7 }
      ⟨0.8, 0, 0, .HYDROGEN_FLASHES⟩ (-6.6515449164) = 10 ^ (2e-7 : ℝ) ∧
    CalculateetaH { sampleWD ℝ with Compare := toleranceCompare 5e-7 }
      ⟨0.8, 0, 0, .HYDROGEN_FLASHES⟩ (-6.6515449164) ≠ 1 := by
  have h : CalculateetaH { sampleWD ℝ with Compare := toleranceCompare 5e-7 }
      ⟨0.8, 0, 0, .HYDROGEN_FLASHES⟩ (-6.6515449164) = 10 ^ (2e-7 : ℝ) := by
    simp only [CalculateetaH, sampleWD, MdotCritH, toleranceCompare, abs_le]
    norm_num
  refine ⟨?_, ?_, h, ?_⟩
  · simp only [MdotLowH, sampleWD]
    norm_num
  · simp only [MdotCritH, sampleWD]
    norm_num
  · rw [h]
    exact ne_of_gt (Real.one_lt_rpow (by norm_num) (by norm_num))

/-- C23 (amended): when `utils::Compare(x, y) >= 0` holds exactly for `x ≥ y - t`, with a
tolerance `t ≥ 0`, `CalculateetaH(r)` is `PPOW(10, crit - r)` for `r ≥ crit - t`, exactly 1
for `stable - t ≤ r < crit - t`, and exactly 0 for `r` below both `stable - t` and
`crit - t`, hence for every `r < stable - t` at a mass whose stable threshold is not above
its critical threshold. With `PPOW(10, 0) = 1` the value at `r = crit` is 1; the value at
the lower end `r = crit - t` of the decaying branch is `PPOW(10, t)`. For `t = 0` these are
the regimes `r ≥ crit`, `stable ≤ r < crit` and `r < stable`. -/
theorem C23_etaH_three_regimes_amended {R : Type} [LinearOrderedField R] (env : WDEnv R)
    (wd : WhiteDwarf R) (r t : R) (ht : 0 ≤ t)
    (hcmp : ∀ x y, 0 ≤ env.Compare x y ↔ y ≤ x + t)
    (hpow : env.PPOW 10 0 = 1) :
    (MdotCritH env wd.m_Mass ≤ r + t →
      CalculateetaH env wd r = env.PPOW 10 (MdotCritH env wd.m_Mass - r)) ∧
    (MdotLowH env wd.m_Mass ≤ r + t → r + t < MdotCritH env wd.m_Mass →
      CalculateetaH env wd r = 1) ∧
    (r + t < MdotLowH env wd.m_Mass → r + t < MdotCritH env wd.m_Mass →
      CalculateetaH env wd r = 0) ∧
    (MdotLowH env wd.m_Mass ≤ MdotCritH env wd.m_Mass → r + t < MdotLowH env wd.m_Mass →
      CalculateetaH env wd r = 0) ∧
    CalculateetaH env wd (MdotCritH env wd.m_Mass) = 1 ∧
    CalculateetaH env wd (MdotCritH env wd.m_Mass - t) = env.PPOW 10 t := by
  have hpos : ∀ x y, env.Compare x y ≥ 0 ↔ y ≤ x + t := hcmp
  have hneg := compare_neg_within env.Compare t hcmp
  have h0 : ∀ r, r + t < MdotLowH env wd.m_Mass → r + t < MdotCritH env wd.m_Mass →
      CalculateetaH env wd r = 0 := by
    intro r h1 h2
    unfold CalculateetaH
    simp only [hpos, hneg, not_le.2 h2, not_le.2 h1, and_false, if_false]
  refine ⟨?_, ?_, h0 r, fun hord h => h0 r h (lt_of_lt_of_le h hord), ?_, ?_⟩
  · intro h
    unfold CalculateetaH
    simp only [hpos, h, if_true]
  · intro h1 h2
    unfold CalculateetaH
    simp only [hpos, hneg, not_le.2 h2, h1, h2, and_self, if_true, if_false]
  · unfold CalculateetaH
    have : MdotCritH env wd.m_Mass ≤ MdotCritH env wd.m_Mass + t := by linarith
    simp only [hpos, this, if_true, sub_self, hpow]
  · unfold CalculateetaH
    have : MdotCritH env wd.m_Mass ≤ MdotCritH env wd.m_Mass - t + t := by linarith
    simp only [hpos, this, if_true, sub_sub_cancel]

theorem C23_etaH_three_regimes_amended_witness :
    CalculateetaH { sampleWD ℝ with Compare := toleranceCompare 5e-7 }
      ⟨0.8, 0, 0, .HYDROGEN_FLASHES⟩ (-6.7) = 1 ∧
    CalculateetaH (sampleWD ℝ) ⟨1, 0, 0, .HYDROGEN_FLASHES⟩ (-7) = 0 :=
  ⟨(C23_etaH_three_regimes_amended { sampleWD ℝ with Compare := toleranceCompare 5e-7 }
      ⟨0.8, 0, 0, .HYDROGEN_FLASHES⟩ (-6.7) 5e-7 (by norm_num)
      (fun x y => toleranceCompare_nonneg 5e-7 x y (by norm_num)) (Real.rpow_zero 10)).2.1
      (by simp only [MdotLowH, sampleWD]; norm_num)
      (by simp only [MdotCritH, sampleWD]; norm_num),
    (C23_etaH_three_regimes_amended (sampleWD ℝ) ⟨1, 0, 0, .HYDROGEN_FLASHES⟩ (-7) 0
      (le_refl 0) (fun x y => by rw [add_zero]; exact exactCompare_nonneg x y)
      (Real.rpow_zero 10)).2.2.1
      (by simp only [MdotLowH, sampleWD]; norm_num)
      (by simp only [MdotCritH, sampleWD]; norm_num)⟩

/-- C24 (as stated, refuted): with the sample thresholds, the mass 1.362 has its critical
threshold (about -5.0027) below its stable threshold (about -4.9960). At the rate -5 the
rate is at least the accumulation threshold and below the stable one, the case for which the
claim gives `CalculateetaPTY`; `CalculateetaHe` returns `PPOW(10, crit - r)`, which is
positive, while `CalculateetaPTY` is negative there. And with a comparison `utils::Compare`
of tolerance `5e-7`, for the mass 1 the rate -5.4910002 lies between the stable threshold
-5.825 and the critical threshold -5.491, the case for which the claim gives exactly 1;
`CalculateetaHe` returns `10^(2e-7)`, which is not 1. -/
theorem C24_threshold_order_counterexample :
    (MdotAccumulation (sampleWD ℝ) 1.362 ≤ -5 ∧ (-5 : ℝ) < MdotLowHe (sampleWD ℝ) 1.362 ∧
      MdotCritHe (sampleWD ℝ) 1.362 ≤ -5 ∧
      CalculateetaHe (sampleWD ℝ) ⟨1.362, 0, 0, .HELIUM_FLASHES⟩ (-5) = 10 ^ (-0.002662 : ℝ) ∧
      CalculateetaPTY (sampleWD ℝ) ⟨1.362, 0, 0, .HELIUM_FLASHES⟩ (-5) < 0 ∧
      CalculateetaHe (sampleWD ℝ) ⟨1.362, 0, 0, .HELIUM_FLASHES⟩ (-5) ≠
        CalculateetaPTY (sampleWD ℝ) ⟨1.362, 0, 0, .HELIUM_FLASHES⟩ (-5)) ∧
    (MdotLowHe (sampleWD ℝ) 1 ≤ -5.4910002 ∧ (-5.4910002 : ℝ) < MdotCritHe (sampleWD ℝ) 1 ∧
      CalculateetaHe { sampleWD ℝ with Compare := toleranceCompare 5e-7 }
        ⟨1, 0, 0, .HELIUM_FLASHES⟩ (-5.4910002) = 10 ^ (2e-7 : ℝ) ∧
      CalculateetaHe { sampleWD ℝ with Compare := toleranceCompare 5e-7 }
        ⟨1, 0, 0, .HELIUM_FLASHES⟩ (-5.4910002) ≠ 1) := by
  have h1 : CalculateetaHe (sampleWD ℝ) ⟨1.362, 0, 0, .HELIUM_FLASHES⟩ (-5) =
      10 ^ (-0.002662 : ℝ) := by
    simp only [CalculateetaHe, sampleWD, MdotCritHe, exactCompare]
    norm_num
  have h2 : CalculateetaPTY (sampleWD ℝ) ⟨1.362, 0, 0, .HELIUM_FLASHES⟩ (-5) < 0 := by
    simp only [CalculateetaPTY, sampleWD, exactCompare]
    norm_num
  have h3 : (0 : ℝ) < 10 ^ (-0.002662 : ℝ) := Real.rpow_pos_of_pos (by norm_num) _
  have h4 : CalculateetaHe { sampleWD ℝ with Compare := toleranceCompare 5e-7 }
      ⟨1, 0, 0, .HELIUM_FLASHES⟩ (-5.4910002) = 10 ^ (2e-7 : ℝ) := by
    simp only [CalculateetaHe, sampleWD, MdotCritHe, toleranceCompare, abs_le]
    norm_num
  refine ⟨⟨?_, ?_, ?_, h1, h2, ?_⟩, ⟨?_, ?_, h4, ?_⟩⟩
  · simp only [MdotAccumulation, sampleWD]
    norm_num
  · simp only [MdotLowHe, sampleWD]
    norm_num
  · simp only [MdotCritHe, sampleWD]
    norm_num
  · rw [h1]
    exact ne_of_gt (lt_trans h2 h3)
  · simp only [MdotLowHe, sampleWD]
    norm_num
  · simp only [MdotCritHe, sampleWD]
    norm_num
  · rw [h4]
    exact ne_of_gt (Real.one_lt_rpow (by norm_num) (by norm_num))

/-- C24 (amended): when `utils::Compare(x, y) >= 0` holds exactly for `x ≥ y - t`, with a
tolerance `t ≥ 0`, `CalculateetaHe(r)` is `PPOW(10, crit - r)` for `r ≥ crit - t`, exactly 1
for `stable - t ≤ r < crit - t`, `CalculateetaPTY(r)` for `accum - t ≤ r < stable - t` with
`r < crit - t`, and exactly 1 for `r` below `crit - t`, `stable - t` and `accum - t`; these
four cases cover every rate, whatever the order of the thresholds. For `t = 0` the cases
are `r ≥ crit`, `stable ≤ r < crit`, `accum ≤ r < stable` with `r < crit`, and `r` below
all three thresholds. -/
theorem C24_etaHe_four_cases_amended {R : Type} [LinearOrderedField R] (env : WDEnv R)
    (wd : WhiteDwarf R) (r t : R)
    (hcmp : ∀ x y, 0 ≤ env.Compare x y ↔ y ≤ x + t) :
    (MdotCritHe env wd.m_Mass ≤ r + t →
      CalculateetaHe env wd r = env.PPOW 10 (MdotCritHe env wd.m_Mass - r)) ∧
    (MdotLowHe env wd.m_Mass ≤ r + t → r + t < MdotCritHe env wd.m_Mass →
      CalculateetaHe env wd r = 1) ∧
    (MdotAccumulation env wd.m_Mass ≤ r + t → r + t < MdotLowHe env wd.m_Mass →
      r + t < MdotCritHe env wd.m_Mass →
      CalculateetaHe env wd r = CalculateetaPTY env wd r) ∧
    (r + t < MdotAccumulation env wd.m_Mass → r + t < MdotLowHe env wd.m_Mass →
      r + t < MdotCritHe env wd.m_Mass → CalculateetaHe env wd r = 1) ∧
    (MdotCritHe env wd.m_Mass ≤ r + t ∨
      (MdotLowHe env wd.m_Mass ≤ r + t ∧ r + t < MdotCritHe env wd.m_Mass) ∨
      (MdotAccumulation env wd.m_Mass ≤ r + t ∧ r + t < MdotLowHe env wd.m_Mass ∧
        r + t < MdotCritHe env wd.m_Mass) ∨
      (r + t < MdotAccumulation env wd.m_Mass ∧ r + t < MdotLowHe env wd.m_Mass ∧
        r + t < MdotCritHe env wd.m_Mass)) := by
  have hpos : ∀ x y, env.Compare x y ≥ 0 ↔ y ≤ x + t := hcmp
  have hneg := compare_neg_within env.Compare t hcmp
  refine ⟨?_, ?_, ?_, ?_, ?_⟩
  · intro h
    unfold CalculateetaHe
    simp only [hpos, h, if_true]
  · intro h1 h2
    unfold CalculateetaHe
    simp only [hpos, hneg, not_le.2 h2, h1, h2, and_self, if_true, if_false]
  · intro h1 h2 h3
    unfold CalculateetaHe
    simp only [hpos, hneg, not_le.2 h3, not_le.2 h2, h1, h2, and_self, and_false, if_true,
      if_false]
  · intro h1 h2 h3
    unfold CalculateetaHe
    simp only [hpos, hneg, not_le.2 h3, not_le.2 h2, not_le.2 h1, and_false, if_false]
  · by_cases h1 : MdotCritHe env wd.m_Mass ≤ r + t
    · exact Or.inl h1
    · by_cases h2 : MdotLowHe env wd.m_Mass ≤ r + t
      · exact Or.inr (Or.inl ⟨h2, not_le.1 h1⟩)
      · by_cases h3 : MdotAccumulation env wd.m_Mass ≤ r + t
        · exact Or.inr (Or.inr (Or.inl ⟨h3, not_le.1 h2, not_le.1 h1⟩))
        · exact Or.inr (Or.inr (Or.inr ⟨not_le.1 h3, not_le.1 h2, not_le.1 h1⟩))

theorem C24_etaHe_four_cases_amended_witness :
    MdotCritHe (sampleWD ℝ) 1 = -5.491 ∧ MdotLowHe (sampleWD ℝ) 1 = -5.825 ∧
    MdotAccumulation (sampleWD ℝ) 1 = -7.295 ∧
    CalculateetaHe { sampleWD ℝ with Compare := toleranceCompare 5e-7 }
      ⟨1, 0, 0, .HELIUM_FLASHES⟩ (-5.6) = 1 ∧
    CalculateetaHe { sampleWD ℝ with Compare := toleranceCompare 5e-7 }
        ⟨1, 0, 0, .HELIUM_FLASHES⟩ (-6) =
      CalculateetaPTY { sampleWD ℝ with Compare := toleranceCompare 5e-7 }
        ⟨1, 0, 0, .HELIUM_FLASHES⟩ (-6) ∧
    CalculateetaHe (sampleWD ℝ) ⟨1, 0, 0, .HELIUM_FLASHES⟩ (-6) =
      CalculateetaPTY (sampleWD ℝ) ⟨1, 0, 0, .HELIUM_FLASHES⟩ (-6) ∧
    CalculateetaHe (sampleWD ℝ) ⟨1, 0, 0, .HELIUM_FLASHES⟩ (-8) = 1 :=
  have hc : ∀ x y : ℝ, 0 ≤ (sampleWD ℝ).Compare x y ↔ y ≤ x + 0 := fun x y => by
    rw [add_zero]
    exact exactCompare_nonneg x y
  have ht : ∀ x y : ℝ, 0 ≤ toleranceCompare 5e-7 x y ↔ y ≤ x + 5e-7 :=
    fun x y => toleranceCompare_nonneg 5e-7 x y (by norm_num)
  have e1 : MdotCritHe (sampleWD ℝ) 1 = -5.491 := by
    simp only [MdotCritHe, sampleWD]
    norm_num
  have e2 : MdotLowHe (sampleWD ℝ) 1 = -5.825 := by
    simp only [MdotLowHe, sampleWD]
    norm_num
  have e3 : MdotAccumulation (sampleWD ℝ) 1 = -7.295 := by
    simp only [MdotAccumulation, sampleWD]
    norm_num
  ⟨e1, e2, e3,
    (C24_etaHe_four_cases_amended { sampleWD ℝ with Compare := toleranceCompare 5e-7 }
      ⟨1, 0, 0, .HELIUM_FLASHES⟩ (-5.6) 5e-7 ht).2.1
      (by simp only [MdotLowHe, sampleWD]; norm_num)
      (by simp only [MdotCritHe, sampleWD]; norm_num),
    (C24_etaHe_four_cases_amended { sampleWD ℝ with Compare := toleranceCompare 5e-7 }
      ⟨1, 0, 0, .HELIUM_FLASHES⟩ (-6) 5e-7 ht).2.2.1
      (by simp only [MdotAccumulation, sampleWD]; norm_num)
      (by simp only [MdotLowHe, sampleWD]; norm_num)
      (by simp only [MdotCritHe, sampleWD]; norm_num),
    (C24_etaHe_four_cases_amended (sampleWD ℝ) ⟨1, 0, 0, .HELIUM_FLASHES⟩ (-6) 0 hc).2.2.1
      (by rw [e3]; norm_num) (by rw [e2]; norm_num) (by rw [e1]; norm_num),
    (C24_etaHe_four_cases_amended (sampleWD ℝ) ⟨1, 0, 0, .HELIUM_FLASHES⟩ (-8) 0 hc).2.2.2.1
      (by rw [e3]; norm_num) (by rw [e2]; norm_num) (by rw [e1]; norm_num)⟩

theorem etaPTY_first_bracket {R : Type} [LinearOrderedField R] (env : WDEnv R)
    (wd : WhiteDwarf R) (r t : R)
    (hle : ∀ x y, env.Compare x y ≤ 0 ↔ x ≤ y + t) (h : wd.m_Mass ≤ 0.6 + t) :
    CalculateetaPTY env wd r =
      6e-3 + 5.1e-2 * env.PPOW 10 r + 8.3e-3 * env.PPOW (env.PPOW 10 r) 2 -
        3.317e-4 * env.PPOW (env.PPOW 10 r) 3 := by
  unfold CalculateetaPTY
  simp only [hle, h, if_true]

theorem etaPTY_third_bracket {R : Type} [LinearOrderedField R] (env : WDEnv R)
    (wd : WhiteDwarf R) (r t : R) (ht : 0 ≤ t)
    (hle : ∀ x y, env.Compare x y ≤ 0 ↔ x ≤ y + t)
    (h1 : 0.7 + t < wd.m_Mass) (h2 : wd.m_Mass ≤ 0.81 + t) :
    CalculateetaPTY env wd r =
      9.3e-2 + 1.8e-2 * env.PPOW 10 r + 1.6e-3 * env.PPOW (env.PPOW 10 r) 2 -
        4.111e-5 * env.PPOW (env.PPOW 10 r) 3 := by
  have hgt : ∀ x y, env.Compare x y > 0 ↔ y + t < x := by
    intro x y
    rw [gt_iff_lt, ← not_le, hle, not_le]
  unfold CalculateetaPTY
  have a1 : ¬ wd.m_Mass ≤ 0.6 + t := by
    rw [not_le]
    linarith
  have a2 : ¬ wd.m_Mass ≤ 0.7 := by
    rw [not_le]
    linarith
  simp only [hle, hgt, a1, if_false, a2, false_and, h2, h1, and_self, if_true]

theorem rpow_square (x : ℝ) : x ^ (2 : ℝ) = x * x := by
  rw [Real.rpow_two, pow_two]

theorem rpow_cube (x : ℝ) : x ^ (3 : ℝ) = x * x * x := by
  have h := Real.rpow_natCast x 3
  rw [show ((3 : ℕ) : ℝ) = 3 by norm_num] at h
  rw [h]
  ring

theorem stdMax_ge {R : Type} [LinearOrderedField R] (a : R) (b : Option R) :
    a ≤ stdMax a b := by
  cases b with
  | none => exact le_refl a
  | some b =>
    unfold stdMax
    simp only []
    split
    · rename_i h
      exact le_of_lt h
    · exact le_refl a

/-- C25: `CalculateRadiusOnPhase_Static(M)` is at least `NEUTRON_STAR_RADIUS` for every
mass. When the square of the cube root is the power `2/3` and that power of a reciprocal is
the reciprocal of the power, it is the closed form of the specification for `0 < M < MCH`.
When `MCH` is positive, `NEUTRON_STAR_RADIUS` is not negative, the cube root of 1 is 1 and
that of a number strictly between 0 and 1 lies strictly between 0 and 1, the square root of
0 is 0 and that of a negative number is a NaN, it is exactly `NEUTRON_STAR_RADIUS` for
every `M ≥ MCH`. -/
theorem C25_radius_floor {R : Type} [LinearOrderedField R] (env : WDEnv R) (M : R)
    (hM : 0 < M) (hMCH : 0 < env.MCH) (hNS : 0 ≤ env.NEUTRON_STAR_RADIUS)
    (hsq : ∀ x, 0 < x → env.cbrt x * env.cbrt x = env.PPOW x (2 / 3))
    (hinv : ∀ x, 0 < x → 1 / env.PPOW x (2 / 3) = env.PPOW (1 / x) (2 / 3))
    (hone : env.cbrt 1 = 1)
    (hlt : ∀ x, 0 < x → x < 1 → 0 < env.cbrt x ∧ env.cbrt x < 1)
    (hzero : env.sqrt 0 = some 0)
    (hnan : ∀ x, x < 0 → env.sqrt x = none) :
    env.NEUTRON_STAR_RADIUS ≤ CalculateRadiusOnPhase_Static env M ∧
    (M < env.MCH → CalculateRadiusOnPhase_Static env M = radiusClosedForm env M) ∧
    (env.MCH ≤ M → CalculateRadiusOnPhase_Static env M = env.NEUTRON_STAR_RADIUS) := by
  refine ⟨stdMax_ge _ _, ?_, ?_⟩
  · intro _
    have hx : 0 < env.MCH / M := div_pos hMCH hM
    unfold CalculateRadiusOnPhase_Static radiusClosedForm
    simp only []
    have e : (1.0 : R) = 1 := by norm_num
    rw [hsq _ hx, e, hinv _ hx, one_div_div]
  · intro h
    unfold CalculateRadiusOnPhase_Static
    simp only []
    have e : (1.0 : R) = 1 := by norm_num
    rw [e]
    rcases eq_or_lt_of_le h with h1 | h1
    · rw [← h1, div_self (ne_of_gt hMCH), hone]
      have e0 : (1 : R) * 1 - 1 / (1 * 1) = 0 := by norm_num
      rw [e0, hzero]
      simp only [Option.map_some', stdMax, mul_zero]
      rw [if_neg (not_lt.2 hNS)]
    · have hx : 0 < env.MCH / M := div_pos hMCH hM
      have hx1 : env.MCH / M < 1 := (div_lt_one hM).2 h1
      obtain ⟨hc0, hc1⟩ := hlt _ hx hx1
      have hcc : env.cbrt (env.MCH / M) * env.cbrt (env.MCH / M) < 1 := by nlinarith
      have hcp : 0 < env.cbrt (env.MCH / M) * env.cbrt (env.MCH / M) := mul_pos hc0 hc0
      have hneg : env.cbrt (env.MCH / M) * env.cbrt (env.MCH / M) -
          1 / (env.cbrt (env.MCH / M) * env.cbrt (env.MCH / M)) < 0 := by
        have : 1 < 1 / (env.cbrt (env.MCH / M) * env.cbrt (env.MCH / M)) := by
          rw [lt_div_iff₀ hcp]
          simpa using hcc
        linarith
      rw [hnan _ hneg]
      rfl

theorem sampleWD_cbrt_sq (x : ℝ) (hx : 0 < x) :
    (sampleWD ℝ).cbrt x * (sampleWD ℝ).cbrt x = (sampleWD ℝ).PPOW x (2 / 3) := by
  show x ^ ((1 : ℝ) / 3) * x ^ ((1 : ℝ) / 3) = x ^ ((2 : ℝ) / 3)
  rw [← Real.rpow_add hx]
  norm_num

theorem sampleWD_pow_inv (x : ℝ) (hx : 0 < x) :
    1 / (sampleWD ℝ).PPOW x (2 / 3) = (sampleWD ℝ).PPOW (1 / x) (2 / 3) := by
  show 1 / x ^ ((2 : ℝ) / 3) = (1 / x) ^ ((2 : ℝ) / 3)
  rw [one_div, one_div, Real.inv_rpow (le_of_lt hx)]

theorem sampleWD_cbrt_lt (x : ℝ) (hx : 0 < x) (h1 : x < 1) :
    0 < (sampleWD ℝ).cbrt x ∧ (sampleWD ℝ).cbrt x < 1 :=
  ⟨Real.rpow_pos_of_pos hx _, Real.rpow_lt_one (le_of_lt hx) h1 (by norm_num)⟩

theorem sampleWD_sqrt_zero : (sampleWD ℝ).sqrt 0 = some 0 := by
  show (if (0 : ℝ) < 0 then none else some ((0 : ℝ) ^ ((1 : ℝ) / 2))) = some 0
  rw [if_neg (lt_irrefl _), Real.zero_rpow (by norm_num)]

theorem sampleWD_sqrt_nan (x : ℝ) (hx : x < 0) : (sampleWD ℝ).sqrt x = none := by
  show (if x < 0 then none else some (x ^ ((1 : ℝ) / 2))) = none
  rw [if_pos hx]

theorem C25_radius_floor_witness :
    (0 : ℝ) < (sampleWD ℝ).MCH ∧ (0 : ℝ) ≤ (sampleWD ℝ).NEUTRON_STAR_RADIUS ∧
    (∀ x : ℝ, 0 < x → (sampleWD ℝ).cbrt x * (sampleWD ℝ).cbrt x =
      (sampleWD ℝ).PPOW x (2 / 3)) ∧
    (∀ x : ℝ, 0 < x → 1 / (sampleWD ℝ).PPOW x (2 / 3) = (sampleWD ℝ).PPOW (1 / x) (2 / 3)) ∧
    (sampleWD ℝ).cbrt 1 = 1 ∧
    (∀ x : ℝ, 0 < x → x < 1 → 0 < (sampleWD ℝ).cbrt x ∧ (sampleWD ℝ).cbrt x < 1) ∧
    (sampleWD ℝ).sqrt 0 = some 0 ∧ (∀ x : ℝ, x < 0 → (sampleWD ℝ).sqrt x = none) ∧
    CalculateRadiusOnPhase_Static (sampleWD ℝ) 0.6 = radiusClosedForm (sampleWD ℝ) 0.6 ∧
    CalculateRadiusOnPhase_Static (sampleWD ℝ) 1.44 = 1.4374e-5 ∧
    CalculateRadiusOnPhase_Static (sampleWD ℝ) 2 = 1.4374e-5 :=
  have h1 : (0 : ℝ) < (sampleWD ℝ).MCH := by
    show (0 : ℝ) < 1.44
    norm_num
  have h2 : (0 : ℝ) ≤ (sampleWD ℝ).NEUTRON_STAR_RADIUS := by
    show (0 : ℝ) ≤ 1.4374e-5
    norm_num
  have h3 : (sampleWD ℝ).cbrt 1 = 1 := Real.one_rpow _
  ⟨h1, h2, sampleWD_cbrt_sq, sampleWD_pow_inv, h3, sampleWD_cbrt_lt, sampleWD_sqrt_zero,
    sampleWD_sqrt_nan,
    (C25_radius_floor (sampleWD ℝ) 0.6 (by norm_num) h1 h2 sampleWD_cbrt_sq sampleWD_pow_inv
      h3 sampleWD_cbrt_lt sampleWD_sqrt_zero sampleWD_sqrt_nan).2.1
      (by show (0.6 : ℝ) < 1.44; norm_num),
    (C25_radius_floor (sampleWD ℝ) 1.44 (by norm_num) h1 h2 sampleWD_cbrt_sq
      sampleWD_pow_inv h3 sampleWD_cbrt_lt sampleWD_sqrt_zero sampleWD_sqrt_nan).2.2
      (by show (1.44 : ℝ) ≤ 1.44; norm_num),
    (C25_radius_floor (sampleWD ℝ) 2 (by norm_num) h1 h2 sampleWD_cbrt_sq sampleWD_pow_inv
      h3 sampleWD_cbrt_lt sampleWD_sqrt_zero sampleWD_sqrt_nan).2.2
      (by show (1.44 : ℝ) ≤ 2; norm_num)⟩

/-! ## Population loops: progress of the record readers -/

theorem getline_some (g g1 : IfStream) (l : Str) (h : g.getline = (some l, g1)) :
    g1.content = g.content ∧ g1.isOpen = g.isOpen ∧ g1.failbit = false ∧ g.pos < g1.pos ∧
      g1.pos ≤ g.content.length := by
  unfold IfStream.getline at h
  split at h
  · simp at h
  · split at h
    · simp at h
    · rename_i h1 h2
      simp only [] at h
      have hf : g.failbit = false := by
        cases hfb : g.failbit
        · rfl
        · simp [hfb] at h1
      have hlen : (g.content.drop g.pos).length = g.content.length - g.pos := by simp
      split at h
      · rename_i h3
        simp only [Prod.mk.injEq, Option.some.injEq] at h
        obtain ⟨_, rfl⟩ := h
        refine ⟨rfl, rfl, hf, ?_, ?_⟩
        · show g.pos < g.pos + _ + 1
          omega
        · show g.pos + _ + 1 ≤ g.content.length
          omega
      · split at h
        · simp at h
        · rename_i h3 h4
          simp only [Prod.mk.injEq, Option.some.injEq] at h
          obtain ⟨_, rfl⟩ := h
          have hle := (List.takeWhile_prefix (fun c => c != '\n')
            (l := g.content.drop g.pos)).length_le
          have hne : (g.content.drop g.pos).length ≠ 0 := by
            intro h0
            exact h4 (by simpa using List.length_eq_zero.1 h0)
          refine ⟨rfl, rfl, hf, ?_, ?_⟩
          · show g.pos < g.pos + _
            omega
          · show g.pos + _ ≤ g.content.length
            omega

theorem getline_none (g g1 : IfStream) (h : g.getline = (none, g1)) :
    g1.content = g.content ∧ g1.isOpen = g.isOpen ∧ g1.failbit = true := by
  unfold IfStream.getline at h
  split at h
  · simp only [Prod.mk.injEq, true_and] at h
    subst h
    exact ⟨rfl, rfl, rfl⟩
  · split at h
    · simp only [Prod.mk.injEq, true_and] at h
      subst h
      exact ⟨rfl, rfl, rfl⟩
    · simp only [] at h
      split at h
      · simp at h
      · split at h
        · simp only [Prod.mk.injEq, true_and] at h
          subst h
          exact ⟨rfl, rfl, rfl⟩
        · simp at h

theorem sseRecordLoop_progress {V : Type} [LinearOrder V] [Zero V] (env : Env V)
    (hdr : List Str) :
    ∀ (fuel : Nat) (g : IfStream) (lineNo : Nat) (gv : List V),
      g.content.length - g.pos < fuel →
      (sseRecordLoop env hdr fuel g lineNo gv).1.content = g.content ∧
      (sseRecordLoop env hdr fuel g lineNo gv).1.isOpen = g.isOpen ∧
      ((sseRecordLoop env hdr fuel g lineNo gv).1.failbit = true ∨
        (g.pos < (sseRecordLoop env hdr fuel g lineNo gv).1.pos ∧
          (sseRecordLoop env hdr fuel g lineNo gv).1.pos ≤ g.content.length)) := by
  intro fuel
  induction fuel with
  | zero => intro g lineNo gv h; omega
  | succ fuel ih =>
    intro g lineNo gv h
    unfold sseRecordLoop
    cases hgl : g.getline with
    | mk o g1 =>
      cases o with
      | none =>
        obtain ⟨h1, h2, h3⟩ := getline_none g g1 hgl
        exact ⟨h1, h2, Or.inl h3⟩
      | some record =>
        obtain ⟨h1, h2, h3, h4, h5⟩ := getline_some g g1 record hgl
        simp only []
        split
        · have hf : g1.content.length - g1.pos < fuel := by rw [h1]; omega
          obtain ⟨i1, i2, i3⟩ := ih g1 (lineNo + 1) gv hf
          refine ⟨i1.trans h1, i2.trans h2, ?_⟩
          rcases i3 with i3 | ⟨i3, i4⟩
          · exact Or.inl i3
          · exact Or.inr ⟨lt_trans h4 i3, by rw [h1] at i4; exact i4⟩
        · exact ⟨h1, h2, Or.inr ⟨h4, h5⟩⟩

theorem ReadSSEGridRecord_progress {V : Type} [LinearOrder V] [Zero V] (env : Env V)
    (hdr : List Str) (g : IfStream) (lineNo : Nat) :
    (ReadSSEGridRecord env g hdr lineNo).1.content = g.content ∧
    (ReadSSEGridRecord env g hdr lineNo).1.isOpen = g.isOpen ∧
    ((ReadSSEGridRecord env g hdr lineNo).1.failbit = true ∨
      (g.pos < (ReadSSEGridRecord env g hdr lineNo).1.pos ∧
        (ReadSSEGridRecord env g hdr lineNo).1.pos ≤ g.content.length)) :=
  sseRecordLoop_progress env hdr (g.content.length + 2) g lineNo [0, 0] (by omega)

theorem bseRecordLoop_progress {V : Type} [LinearOrder V] [Zero V] (env : Env V)
    (hdr : List Str) :
    ∀ (fuel : Nat) (g : IfStream) (lineNo : Nat) (gv : List V)
      (r : IfStream × Nat × Bool × List V),
      g.content.length - g.pos < fuel → bseRecordLoop env hdr fuel g lineNo gv = some r →
      r.1.content = g.content ∧ r.1.isOpen = g.isOpen ∧
      (r.1.failbit = true ∨ (g.pos < r.1.pos ∧ r.1.pos ≤ g.content.length)) := by
  intro fuel
  induction fuel with
  | zero => intro g lineNo gv r h; omega
  | succ fuel ih =>
    intro g lineNo gv r h hr
    unfold bseRecordLoop at hr
    cases hgl : g.getline with
    | mk o g1 =>
      rw [hgl] at hr
      cases o with
      | none =>
        obtain ⟨h1, h2, h3⟩ := getline_none g g1 hgl
        simp only [Option.some.injEq] at hr
        subst hr
        exact ⟨h1, h2, Or.inl h3⟩
      | some record =>
        obtain ⟨h1, h2, h3, h4, h5⟩ := getline_some g g1 record hgl
        simp only [] at hr
        split at hr
        · have hf : g1.content.length - g1.pos < fuel := by rw [h1]; omega
          obtain ⟨i1, i2, i3⟩ := ih g1 (lineNo + 1) gv r hf hr
          refine ⟨i1.trans h1, i2.trans h2, ?_⟩
          rcases i3 with i3 | ⟨i3, i4⟩
          · exact Or.inl i3
          · exact Or.inr ⟨lt_trans h4 i3, by rw [h1] at i4; exact i4⟩
        · cases hb : bseRecord env hdr (normRecord record) gv with
          | none => rw [hb] at hr; exact absurd hr (by simp)
          | some x =>
            rw [hb] at hr
            simp only [Option.map_some', Option.some.injEq] at hr
            subst hr
            exact ⟨h1, h2, Or.inr ⟨h4, h5⟩⟩

theorem ReadBSEGridRecord_progress {V : Type} [LinearOrder V] [Zero V] (env : Env V)
    (hdr : List Str) (g : IfStream) (lineNo : Nat) (r : IfStream × Nat × List V)
    (h : ReadBSEGridRecord env g hdr lineNo = some r) :
    r.1.content = g.content ∧ r.1.isOpen = g.isOpen ∧
    (r.1.failbit = true ∨ (g.pos < r.1.pos ∧ r.1.pos ≤ g.content.length)) := by
  unfold ReadBSEGridRecord at h
  simp only [] at h
  generalize hgv : (if hdr.length = 6 then List.replicate 6 (0 : V)
    else List.replicate 14 (0 : V)) = gv at h
  cases hl : bseRecordLoop env hdr (g.content.length + 2) g lineNo gv with
  | none => rw [hl] at h; exact absurd h (by simp)
  | some x =>
    rw [hl] at h
    simp only [Option.map_some', Option.some.injEq] at h
    subst h
    exact bseRecordLoop_progress env hdr _ g lineNo gv x (by omega) hl

/-! ## EvolveSingleStars -/

section SingleStars

variable {V : Type} [LinearOrderedField V]

omit [LinearOrderedField V] in
theorem randomSeedFor_eq {Obj : Type} (opt : RunEnv V Obj) (i : Nat) :
    randomSeedFor opt i = baseSeed opt + i := by
  unfold randomSeedFor baseSeed
  split <;> rfl

omit [LinearOrderedField V] in
theorem sseEvolve_frame (opt : RunEnv V (StarArgs V)) (st : SSERun V) :
    (sseEvolve opt st).evolutionStatus = st.evolutionStatus ∧
    (sseEvolve opt st).index = st.index ∧ (sseEvolve opt st).nStars = st.nStars ∧
    (sseEvolve opt st).grid = st.grid ∧ (sseEvolve opt st).lineNo = st.lineNo ∧
    (sseEvolve opt st).star = st.star := by
  unfold sseEvolve
  split <;> exact ⟨rfl, rfl, rfl, rfl, rfl, rfl⟩

omit [LinearOrderedField V] in
theorem sseClose_frame (opt : RunEnv V (StarArgs V)) (st : SSERun V) :
    (sseClose opt st).index = st.index ∧ (sseClose opt st).nStars = st.nStars ∧
    (sseClose opt st).grid = st.grid ∧ (sseClose opt st).lineNo = st.lineNo ∧
    (sseClose opt st).star = st.star ∧ (sseClose opt st).events = st.events ∧
    (sseClose opt st).evolutionStatus =
      (if opt.CloseStandardFile st.index then st.evolutionStatus
       else EVOLUTION_STATUS.STOPPED) := by
  unfold sseClose
  cases opt.CloseStandardFile st.index <;> exact ⟨rfl, rfl, rfl, rfl, rfl, rfl, rfl⟩

theorem sseCreate_index (env : Env V) (opt : RunEnv V (StarArgs V)) (hdr : List Str)
    (st : SSERun V) : (sseCreate env opt hdr st).index = st.index := by
  unfold sseCreate
  simp only []
  split
  · split
    · split <;> rfl
    · rfl
  · rfl

theorem sseIteration_index (env : Env V) (opt : RunEnv V (StarArgs V)) (hdr : List Str)
    (st : SSERun V) : (sseIteration env opt hdr st).index = st.index + 1 := by
  show (sseClose opt (sseEvolve opt (sseCreate env opt hdr st))).index + 1 = st.index + 1
  rw [(sseClose_frame opt _).1, (sseEvolve_frame opt _).2.1, sseCreate_index]

/-- The status after one iteration: that after the block that creates the star, unless the
close fails. -/
theorem sseIteration_status (env : Env V) (opt : RunEnv V (StarArgs V)) (hdr : List Str)
    (st : SSERun V) :
    (sseIteration env opt hdr st).evolutionStatus =
      (if opt.CloseStandardFile st.index then (sseCreate env opt hdr st).evolutionStatus
       else EVOLUTION_STATUS.STOPPED) := by
  show (sseClose opt (sseEvolve opt (sseCreate env opt hdr st))).evolutionStatus = _
  rw [(sseClose_frame opt _).2.2.2.2.2.2, (sseEvolve_frame opt _).2.1, sseCreate_index,
    (sseEvolve_frame opt _).1]

theorem sseIteration_nStars (env : Env V) (opt : RunEnv V (StarArgs V)) (hdr : List Str)
    (st : SSERun V) :
    (sseIteration env opt hdr st).nStars = (sseCreate env opt hdr st).nStars ∧
    (sseIteration env opt hdr st).grid = (sseCreate env opt hdr st).grid ∧
    (sseIteration env opt hdr st).lineNo = (sseCreate env opt hdr st).lineNo := by
  refine ⟨?_, ?_, ?_⟩
  · show (sseClose opt (sseEvolve opt (sseCreate env opt hdr st))).nStars = _
    rw [(sseClose_frame opt _).2.1, (sseEvolve_frame opt _).2.2.1]
  · show (sseClose opt (sseEvolve opt (sseCreate env opt hdr st))).grid = _
    rw [(sseClose_frame opt _).2.2.1, (sseEvolve_frame opt _).2.2.2.1]
  · show (sseClose opt (sseEvolve opt (sseCreate env opt hdr st))).lineNo = _
    rw [(sseClose_frame opt _).2.2.2.1, (sseEvolve_frame opt _).2.2.2.2.1]

theorem sseIteration_events (env : Env V) (opt : RunEnv V (StarArgs V)) (hdr : List Str)
    (st : SSERun V) :
    (sseIteration env opt hdr st).events = (sseEvolve opt (sseCreate env opt hdr st)).events := by
  show (sseClose opt (sseEvolve opt (sseCreate env opt hdr st))).events = _
  rw [(sseClose_frame opt _).2.2.2.2.2.1]

theorem sseCreate_nogrid (env : Env V) (opt : RunEnv V (StarArgs V)) (hdr : List Str)
    (st : SSERun V) (hg : env.gridFilename = []) :
    sseCreate env opt hdr st =
      { st with
        star := some (sweepStar env opt st.index)
        events := st.events ++ [Event.construct st.index (sweepStar env opt st.index)] } := by
  have e : (⟨randomSeedFor opt st.index,
      opt.SingleStarMassMin + (st.index : V) *
        ((opt.SingleStarMassMax - opt.SingleStarMassMin) / (opt.SingleStarMassSteps : V)),
      env.metallicity⟩ : StarArgs V) = sweepStar env opt st.index := by
    unfold sweepStar
    rw [randomSeedFor_eq, mul_div_assoc]
  unfold sseCreate
  simp only [hg, List.isEmpty_nil, Bool.not_true, Bool.false_eq_true, if_false, e]

theorem sseCreate_closed (env : Env V) (opt : RunEnv V (StarArgs V)) (hdr : List Str)
    (st : SSERun V) (hg : env.gridFilename ≠ []) (ho : st.grid.isOpen = false) :
    sseCreate env opt hdr st = { st with evolutionStatus := EVOLUTION_STATUS.STOPPED } := by
  unfold sseCreate
  simp only [isEmpty_false_of_ne_nil hg, Bool.not_false, if_true, ho, Bool.false_eq_true,
    if_false]

theorem sseCreate_open (env : Env V) (opt : RunEnv V (StarArgs V)) (hdr : List Str)
    (st : SSERun V) (hg : env.gridFilename ≠ []) (ho : st.grid.isOpen = true) :
    sseCreate env opt hdr st =
      if (ReadSSEGridRecord env st.grid hdr st.lineNo).1.fail ||
          (ReadSSEGridRecord env st.grid hdr st.lineNo).2.2.isEmpty then
        { st with
          grid := (ReadSSEGridRecord env st.grid hdr st.lineNo).1.close
          lineNo := (ReadSSEGridRecord env st.grid hdr st.lineNo).2.1
          evolutionStatus :=
            if (ReadSSEGridRecord env st.grid hdr st.lineNo).2.2.isEmpty then
              EVOLUTION_STATUS.STOPPED
            else EVOLUTION_STATUS.DONE }
      else
        { st with
          grid := (ReadSSEGridRecord env st.grid hdr st.lineNo).1
          lineNo := (ReadSSEGridRecord env st.grid hdr st.lineNo).2.1
          nStars := st.nStars + 1
          star := some (gridStar opt st.index (ReadSSEGridRecord env st.grid hdr st.lineNo).2.2)
          events := st.events ++ [Event.construct st.index
            (gridStar opt st.index (ReadSSEGridRecord env st.grid hdr st.lineNo).2.2)] } := by
  unfold sseCreate gridStar
  simp only [isEmpty_false_of_ne_nil hg, Bool.not_false, if_true, ho, randomSeedFor_eq]

/-- The statuses that the loop of `EvolveSingleStars` can hold. -/
theorem sseIteration_status_mem (env : Env V) (opt : RunEnv V (StarArgs V)) (hdr : List Str)
    (st : SSERun V) (hc : st.evolutionStatus = .CONTINUE) :
    (sseIteration env opt hdr st).evolutionStatus = .CONTINUE ∨
    (sseIteration env opt hdr st).evolutionStatus = .DONE ∨
    (sseIteration env opt hdr st).evolutionStatus = .STOPPED := by
  rw [sseIteration_status]
  cases opt.CloseStandardFile st.index
  · exact Or.inr (Or.inr rfl)
  · simp only [if_true]
    by_cases hg : env.gridFilename = []
    · rw [sseCreate_nogrid env opt hdr st hg]
      exact Or.inl hc
    · cases ho : st.grid.isOpen
      · rw [sseCreate_closed env opt hdr st hg ho]
        exact Or.inr (Or.inr rfl)
      · rw [sseCreate_open env opt hdr st hg ho]
        split
        · simp only []
          split
          · exact Or.inr (Or.inr rfl)
          · exact Or.inr (Or.inl rfl)
        · exact Or.inl hc

/-- In grid mode an iteration that leaves the status at `CONTINUE` has read a record: the
grid is still open on the same file and the get position has advanced. -/
theorem sseIteration_grid_continue (env : Env V) (opt : RunEnv V (StarArgs V))
    (hdr : List Str) (st : SSERun V) (hg : env.gridFilename ≠ [])
    (h : (sseIteration env opt hdr st).evolutionStatus = .CONTINUE) :
    st.grid.isOpen = true ∧
    (sseIteration env opt hdr st).grid = (ReadSSEGridRecord env st.grid hdr st.lineNo).1 ∧
    (sseIteration env opt hdr st).lineNo = (ReadSSEGridRecord env st.grid hdr st.lineNo).2.1 ∧
    (sseIteration env opt hdr st).nStars = st.nStars + 1 ∧
    ((ReadSSEGridRecord env st.grid hdr st.lineNo).1.fail ||
      (ReadSSEGridRecord env st.grid hdr st.lineNo).2.2.isEmpty) = false ∧
    opt.CloseStandardFile st.index = true := by
  rw [sseIteration_status] at h
  cases hcl : opt.CloseStandardFile st.index
  · rw [hcl] at h
    simp at h
  · rw [hcl] at h
    simp only [if_true] at h
    obtain ⟨e1, e2, e3⟩ := sseIteration_nStars env opt hdr st
    rw [e1, e2, e3]
    cases ho : st.grid.isOpen
    · rw [sseCreate_closed env opt hdr st hg ho] at h
      simp at h
    · rw [sseCreate_open env opt hdr st hg ho] at h ⊢
      cases hr : ((ReadSSEGridRecord env st.grid hdr st.lineNo).1.fail ||
          (ReadSSEGridRecord env st.grid hdr st.lineNo).2.2.isEmpty)
      · simp [hr]
      · simp only [hr, if_true] at h
        split at h <;> simp at h

/-- The loop of `EvolveSingleStars` ends: with fuel above the number of unread bytes of the
grid (grid mode) or at least the number of stars still to make (no grid), it returns a state
in which the loop condition is false. -/
theorem sseLoop_terminates (env : Env V) (opt : RunEnv V (StarArgs V)) (hdr : List Str) :
    ∀ (fuel : Nat) (st : SSERun V),
      (st.evolutionStatus = .CONTINUE → env.gridFilename ≠ [] →
        st.grid.content.length - st.grid.pos < fuel) →
      (st.evolutionStatus = .CONTINUE → env.gridFilename = [] →
        (st.nStars - st.index).toNat ≤ fuel) →
      (st.evolutionStatus = .CONTINUE ∨ st.evolutionStatus = .DONE ∨
        st.evolutionStatus = .STOPPED) →
      ∃ st', sseLoop env opt hdr fuel st = some st' ∧
        ¬ (st'.evolutionStatus = .CONTINUE ∧ (st'.index : Int) < st'.nStars) ∧
        (st'.evolutionStatus = .CONTINUE ∨ st'.evolutionStatus = .DONE ∨
          st'.evolutionStatus = .STOPPED) := by
  intro fuel
  induction fuel with
  | zero =>
    intro st h1 h2 h3
    unfold sseLoop
    by_cases hc : st.evolutionStatus = .CONTINUE ∧ (st.index : Int) < st.nStars
    · exfalso
      by_cases hg : env.gridFilename = []
      · have := h2 hc.1 hg
        have h4 := hc.2
        omega
      · have := h1 hc.1 hg
        omega
    · simp only [hc, if_false]
      exact ⟨st, rfl, hc, h3⟩
  | succ fuel ih =>
    intro st h1 h2 h3
    unfold sseLoop
    by_cases hc : st.evolutionStatus = .CONTINUE ∧ (st.index : Int) < st.nStars
    · simp only [hc, and_self, if_true]
      apply ih
      · intro hs hg
        obtain ⟨ho, e1, -, -, hr, -⟩ := sseIteration_grid_continue env opt hdr st hg hs
        obtain ⟨p1, -, p3⟩ := ReadSSEGridRecord_progress env hdr st.grid st.lineNo
        have hf : (ReadSSEGridRecord env st.grid hdr st.lineNo).1.failbit = false := by
          cases hfb : (ReadSSEGridRecord env st.grid hdr st.lineNo).1.failbit
          · rfl
          · simp [IfStream.fail, hfb] at hr
        rw [e1, p1]
        rcases p3 with p3 | ⟨p3, p4⟩
        · rw [hf] at p3
          exact absurd p3 (by simp)
        · have := h1 hc.1 hg
          omega
      · intro hs hg
        have := h2 hc.1 hg
        have h4 := hc.2
        rw [(sseIteration_nStars env opt hdr st).1, sseCreate_nogrid env opt hdr st hg,
          sseIteration_index]
        simp only []
        omega
      · exact sseIteration_status_mem env opt hdr st hc.1
    · simp only [hc, if_false]
      exact ⟨st, rfl, hc, h3⟩

theorem sseIteration_nogrid (env : Env V) (opt : RunEnv V (StarArgs V)) (hdr : List Str)
    (st : SSERun V) (hg : env.gridFilename = []) (hc : st.evolutionStatus = .CONTINUE)
    (hcl : opt.CloseStandardFile st.index = true) :
    sseIteration env opt hdr st =
      { st with
        index := st.index + 1
        star := some (sweepStar env opt st.index)
        events := st.events ++
          [Event.construct st.index (sweepStar env opt st.index),
           Event.evolve st.index (some (sweepStar env opt st.index))
            (opt.Evolve (some (sweepStar env opt st.index)) st.index)] } := by
  unfold sseIteration
  rw [sseCreate_nogrid env opt hdr st hg]
  unfold sseEvolve sseClose
  simp only [hc, if_true, hcl, Bool.not_true, Bool.false_eq_true, if_false, List.append_assoc,
    List.singleton_append]

/-- The loop of `EvolveSingleStars` without a grid file, while every close succeeds: it makes
the stars still to make, in order, and stops with the status still `CONTINUE`. -/
theorem sseLoop_nogrid (env : Env V) (opt : RunEnv V (StarArgs V)) (hdr : List Str)
    (hg : env.gridFilename = []) :
    ∀ (k fuel : Nat) (st : SSERun V), st.evolutionStatus = .CONTINUE →
      (st.nStars - st.index).toNat = k → k ≤ fuel →
      (∀ i, st.index ≤ i → i < st.index + k → opt.CloseStandardFile i = true) →
      sseLoop env opt hdr fuel st =
        some { st with
          index := st.index + k
          star := if k = 0 then st.star else some (sweepStar env opt (st.index + k - 1))
          events := st.events ++ sweepEvents env opt st.index k } := by
  intro k
  induction k with
  | zero =>
    intro fuel st hc hk _ _
    have hn : ¬ ((st.index : Int) < st.nStars) := by omega
    unfold sseLoop
    simp only [hn, and_false, if_false, sweepEvents, List.append_nil, Nat.add_zero, if_true]
  | succ k ih =>
    intro fuel st hc hk hf hcl
    obtain ⟨fuel, rfl⟩ : ∃ f, fuel = f + 1 := ⟨fuel - 1, by omega⟩
    have hn : (st.index : Int) < st.nStars := by omega
    have e := sseIteration_nogrid env opt hdr st hg hc (hcl st.index (le_refl _) (by omega))
    unfold sseLoop
    simp only [hc, hn, and_self, if_true]
    have h := ih fuel (sseIteration env opt hdr st) (by rw [e]; exact hc)
      (by
        rw [e]
        show (st.nStars - ((st.index + 1 : Nat) : Int)).toNat = k
        omega)
      (by omega)
      (fun i hi1 hi2 => hcl i
        (by
          rw [e] at hi1
          have : st.index + 1 ≤ i := hi1
          omega)
        (by
          rw [e] at hi2
          have : i < st.index + 1 + k := hi2
          omega))
    rw [h, e]
    simp only [sweepEvents, List.append_assoc, List.cons_append, List.nil_append,
      Option.some.injEq, SSERun.mk.injEq, true_and, Nat.succ_ne_zero, if_false]
    refine ⟨hc, by omega, ?_, trivial⟩
    by_cases hk0 : k = 0
    · subst hk0
      simp
    · have e1 : st.index + 1 + k - 1 = st.index + (k + 1) - 1 := by omega
      simp only [hk0, if_false, e1]

omit [LinearOrderedField V] in
theorem sseStart_spec (env : Env V) (opt : RunEnv V (StarArgs V)) :
    (sseStart env opt).1.evolutionStatus = .CONTINUE ∧ (sseStart env opt).1.index = 0 ∧
    (sseStart env opt).1.events = [] ∧
    (env.gridFilename = [] →
      sseStart env opt =
        (⟨.CONTINUE, 0, opt.SingleStarMassSteps, IfStream.fresh, 0, none, []⟩, [])) ∧
    (env.gridFilename ≠ [] →
      sseStart env opt =
        (⟨.CONTINUE, 0, 1, (OpenSSEGridFile env IfStream.fresh).1,
          (OpenSSEGridFile env IfStream.fresh).2.1, none, []⟩,
          (OpenSSEGridFile env IfStream.fresh).2.2)) := by
  unfold sseStart
  by_cases hg : env.gridFilename = []
  · simp [hg]
  · simp [hg, isEmpty_false_of_ne_nil hg]

/-- C27: for every configuration, grid content and behaviour of `Evolve` and of the file
close, the loop of `EvolveSingleStars` ends, and the status after it (with the `DONE` set
after the loop) is `DONE` or `STOPPED`, never `CONTINUE`; without a grid file, when no close
fails, it is `DONE`. -/
theorem C27_single_loop_terminal (env : Env V) (opt : RunEnv V (StarArgs V)) :
    ∃ r, EvolveSingleStars env opt = Outcome.finished r ∧
      r.evolutionStatus ≠ .CONTINUE ∧
      (r.evolutionStatus = .DONE ∨ r.evolutionStatus = .STOPPED) ∧
      (env.gridFilename = [] → (∀ i, opt.CloseStandardFile i = true) →
        r.evolutionStatus = .DONE ∧ (r.nStars ≤ r.index)) := by
  obtain ⟨s1, s2, -, s4, s5⟩ := sseStart_spec env opt
  obtain ⟨st', h1, h2, h3⟩ := sseLoop_terminates env opt (sseStart env opt).2
    ((sseStart env opt).1.grid.content.length + opt.SingleStarMassSteps.toNat + 2)
    (sseStart env opt).1 (fun _ _ => by omega)
    (fun _ hg => by
      rw [s4 hg]
      show (opt.SingleStarMassSteps - ((0 : Nat) : Int)).toNat ≤ _
      simp only [Nat.cast_zero, sub_zero]
      omega)
    (Or.inl s1)
  have hE : EvolveSingleStars env opt = Outcome.finished
      (if st'.evolutionStatus = .CONTINUE ∧ (st'.index : Int) ≥ st'.nStars then
        { st' with evolutionStatus := .DONE }
      else st') := by
    unfold EvolveSingleStars
    simp only [h1]
  refine ⟨_, hE, ?_, ?_, ?_⟩
  · split
    · simp
    · rename_i hn
      intro hc
      exact h2 ⟨hc, by
        by_contra hlt
        exact hn ⟨hc, by omega⟩⟩
  · split
    · exact Or.inl rfl
    · rename_i hn
      rcases h3 with h3 | h3 | h3
      · exact absurd ⟨h3, by
          by_contra hlt
          exact h2 ⟨h3, by omega⟩⟩ hn
      · exact Or.inl h3
      · exact Or.inr h3
  · intro hg hcl
    have hl := sseLoop_nogrid env opt [] hg opt.SingleStarMassSteps.toNat
      (0 + opt.SingleStarMassSteps.toNat + 2)
      ⟨.CONTINUE, 0, opt.SingleStarMassSteps, IfStream.fresh, 0, none, []⟩ rfl
      (by simp) (by omega) (fun i _ _ => hcl i)
    rw [s4 hg] at h1
    have hl' : sseLoop env opt []
        (IfStream.fresh.content.length + opt.SingleStarMassSteps.toNat + 2)
        ⟨.CONTINUE, 0, opt.SingleStarMassSteps, IfStream.fresh, 0, none, []⟩ = _ := hl
    rw [hl'] at h1
    simp only [Option.some.injEq] at h1
    subst h1
    simp only [Nat.zero_add, ge_iff_le, true_and]
    have hle : opt.SingleStarMassSteps ≤ (opt.SingleStarMassSteps.toNat : Int) :=
      Int.self_le_toNat _
    simp only [hle, if_true, and_self]

/-- C29: without a grid file, with a positive number `s` of mass steps and every close
succeeding, `EvolveSingleStars` makes exactly the stars of the sweep, in order: the star of
index `i < s` has mass `min + i * (max - min) / s`, the configured metallicity and the seed
`base + i`, and is evolved once; the status is then `DONE`. -/
theorem C29_mass_sweep (env : Env V) (opt : RunEnv V (StarArgs V))
    (hg : env.gridFilename = []) (hs : 0 < opt.SingleStarMassSteps)
    (hcl : ∀ i, opt.CloseStandardFile i = true) :
    EvolveSingleStars env opt =
      Outcome.finished ⟨.DONE, opt.SingleStarMassSteps.toNat, opt.SingleStarMassSteps,
        IfStream.fresh, 0, some (sweepStar env opt (opt.SingleStarMassSteps.toNat - 1)),
        sweepEvents env opt 0 opt.SingleStarMassSteps.toNat⟩ := by
  have hl := sseLoop_nogrid env opt [] hg opt.SingleStarMassSteps.toNat
    (0 + opt.SingleStarMassSteps.toNat + 2)
    ⟨.CONTINUE, 0, opt.SingleStarMassSteps, IfStream.fresh, 0, none, []⟩ rfl
    (by simp) (by omega) (fun i _ _ => hcl i)
  have hl' : sseLoop env opt []
      (IfStream.fresh.content.length + opt.SingleStarMassSteps.toNat + 2)
      ⟨.CONTINUE, 0, opt.SingleStarMassSteps, IfStream.fresh, 0, none, []⟩ = _ := hl
  have hle : opt.SingleStarMassSteps ≤ (opt.SingleStarMassSteps.toNat : Int) :=
    Int.self_le_toNat _
  have hne : opt.SingleStarMassSteps.toNat ≠ 0 := by omega
  unfold EvolveSingleStars
  rw [(sseStart_spec env opt).2.2.2.1 hg]
  simp only [hl', Nat.zero_add, ge_iff_le, true_and, hle, if_true, hne, if_false,
    List.nil_append]

theorem C29_mass_sweep_witness :
    (noGridEnv (71 / 5000)).gridFilename = [] ∧
    0 < (demoOptions (StarArgs ℚ)).SingleStarMassSteps ∧
    (∀ i, (demoOptions (StarArgs ℚ)).CloseStandardFile i = true) ∧
    EvolveSingleStars (noGridEnv (71 / 5000)) (demoOptions (StarArgs ℚ)) =
      Outcome.finished ⟨.DONE, 3, 3, IfStream.fresh, 0, some ⟨44, 7 / 3, 71 / 5000⟩,
        [Event.construct 0 ⟨42, 1, 71 / 5000⟩,
         Event.evolve 0 (some ⟨42, 1, 71 / 5000⟩) .DONE,
         Event.construct 1 ⟨43, 5 / 3, 71 / 5000⟩,
         Event.evolve 1 (some ⟨43, 5 / 3, 71 / 5000⟩) .ERROR,
         Event.construct 2 ⟨44, 7 / 3, 71 / 5000⟩,
         Event.evolve 2 (some ⟨44, 7 / 3, 71 / 5000⟩) .DONE]⟩ :=
  ⟨rfl, by decide, fun _ => rfl,
    (C29_mass_sweep (noGridEnv (71 / 5000)) (demoOptions (StarArgs ℚ)) rfl (by decide)
      (fun _ => rfl)).trans (by decide!)⟩

theorem C27_single_loop_terminal_witness :
    ∃ r, EvolveSingleStars (noGridEnv (71 / 5000)) (demoOptions (StarArgs ℚ)) =
        Outcome.finished r ∧ r.evolutionStatus = .DONE :=
  (C27_single_loop_terminal (noGridEnv (71 / 5000)) (demoOptions (StarArgs ℚ))).imp
    (fun _ h => ⟨h.1, (h.2.2.2 rfl (fun _ => rfl)).1⟩)

/-- One iteration in grid mode whose read fails or returns the empty vector, the close
succeeding: the grid is closed and the status set, nothing is constructed or evolved. -/
theorem sseIteration_grid_fail (env : Env V) (opt : RunEnv V (StarArgs V)) (hdr : List Str)
    (st : SSERun V) (hg : env.gridFilename ≠ []) (ho : st.grid.isOpen = true)
    (hcl : opt.CloseStandardFile st.index = true)
    (hr : ((ReadSSEGridRecord env st.grid hdr st.lineNo).1.fail ||
      (ReadSSEGridRecord env st.grid hdr st.lineNo).2.2.isEmpty) = true) :
    sseIteration env opt hdr st =
      { st with
        grid := (ReadSSEGridRecord env st.grid hdr st.lineNo).1.close
        lineNo := (ReadSSEGridRecord env st.grid hdr st.lineNo).2.1
        evolutionStatus :=
          if (ReadSSEGridRecord env st.grid hdr st.lineNo).2.2.isEmpty then
            EVOLUTION_STATUS.STOPPED
          else EVOLUTION_STATUS.DONE
        index := st.index + 1 } := by
  unfold sseIteration
  rw [sseCreate_open env opt hdr st hg ho]
  simp only [hr, if_true]
  unfold sseEvolve sseClose
  cases (ReadSSEGridRecord env st.grid hdr st.lineNo).2.2.isEmpty <;>
    simp [hcl]

/-- One iteration in grid mode whose read returns a row, the close succeeding: one star is
constructed from the row and evolved, and the bound `nStars` grows by one with the index. -/
theorem sseIteration_grid_row (env : Env V) (opt : RunEnv V (StarArgs V)) (hdr : List Str)
    (st : SSERun V) (hg : env.gridFilename ≠ []) (ho : st.grid.isOpen = true)
    (hc : st.evolutionStatus = .CONTINUE)
    (hcl : opt.CloseStandardFile st.index = true)
    (hr : ((ReadSSEGridRecord env st.grid hdr st.lineNo).1.fail ||
      (ReadSSEGridRecord env st.grid hdr st.lineNo).2.2.isEmpty) = false) :
    sseIteration env opt hdr st =
      { st with
        grid := (ReadSSEGridRecord env st.grid hdr st.lineNo).1
        lineNo := (ReadSSEGridRecord env st.grid hdr st.lineNo).2.1
        nStars := st.nStars + 1
        index := st.index + 1
        star := some (gridStar opt st.index (ReadSSEGridRecord env st.grid hdr st.lineNo).2.2)
        events := st.events ++
          [Event.construct st.index
            (gridStar opt st.index (ReadSSEGridRecord env st.grid hdr st.lineNo).2.2),
           Event.evolve st.index
            (some (gridStar opt st.index (ReadSSEGridRecord env st.grid hdr st.lineNo).2.2))
            (opt.Evolve
              (some (gridStar opt st.index (ReadSSEGridRecord env st.grid hdr st.lineNo).2.2))
              st.index)] } := by
  unfold sseIteration
  rw [sseCreate_open env opt hdr st hg ho]
  simp only [hr, Bool.false_eq_true, if_false]
  unfold sseEvolve sseClose
  simp [hc, hcl]

/-- The loop of `EvolveSingleStars` in grid mode, while every close succeeds: one star per
row returned by the successive reads, then the status given by the read that fails. -/
theorem sseLoop_grid (env : Env V) (opt : RunEnv V (StarArgs V)) (hdr : List Str)
    (hg : env.gridFilename ≠ []) (hcl : ∀ i, opt.CloseStandardFile i = true) :
    ∀ (fuelR fuel : Nat) (st : SSERun V), st.grid.isOpen = true →
      st.evolutionStatus = .CONTINUE → st.nStars = st.index + 1 →
      st.grid.content.length - st.grid.pos < fuel →
      st.grid.content.length - st.grid.pos < fuelR →
      ∃ st', sseLoop env opt hdr fuel st = some st' ∧
        st'.evolutionStatus = (sseRows env hdr fuelR st.grid st.lineNo).2 ∧
        st'.evolutionStatus ≠ .CONTINUE ∧
        st'.events = st.events ++
          gridEvents opt st.index (sseRows env hdr fuelR st.grid st.lineNo).1 ∧
        st'.index = st.index + (sseRows env hdr fuelR st.grid st.lineNo).1.length + 1 ∧
        st'.nStars = st'.index ∧ st'.grid.isOpen = false := by
  intro fuelR
  induction fuelR with
  | zero => intro fuel st _ _ _ _ h; omega
  | succ fuelR ih =>
    intro fuel st ho hc hn hf hfR
    obtain ⟨fuel, rfl⟩ : ∃ f, fuel = f + 1 := ⟨fuel - 1, by omega⟩
    have hlt : (st.index : Int) < st.nStars := by omega
    have hstep : sseLoop env opt hdr (fuel + 1) st =
        sseLoop env opt hdr fuel (sseIteration env opt hdr st) := by
      conv_lhs => unfold sseLoop
      simp only [hc, hlt, and_self, if_true]
    rw [hstep]
    unfold sseRows
    simp only []
    cases hr : ((ReadSSEGridRecord env st.grid hdr st.lineNo).1.fail ||
        (ReadSSEGridRecord env st.grid hdr st.lineNo).2.2.isEmpty)
    · have e := sseIteration_grid_row env opt hdr st hg ho hc (hcl _) hr
      obtain ⟨p1, p2, p3⟩ := ReadSSEGridRecord_progress env hdr st.grid st.lineNo
      have hfb : (ReadSSEGridRecord env st.grid hdr st.lineNo).1.failbit = false := by
        cases hfb : (ReadSSEGridRecord env st.grid hdr st.lineNo).1.failbit
        · rfl
        · simp [IfStream.fail, hfb] at hr
      have hp : st.grid.pos < (ReadSSEGridRecord env st.grid hdr st.lineNo).1.pos ∧
          (ReadSSEGridRecord env st.grid hdr st.lineNo).1.pos ≤ st.grid.content.length := by
        rcases p3 with p3 | p3
        · rw [hfb] at p3
          exact absurd p3 (by simp)
        · exact p3
      obtain ⟨st', h1, h2, h3, h4, h5, h6, h7⟩ := ih fuel (sseIteration env opt hdr st)
        (by rw [e]; exact p2.trans ho) (by rw [e]; exact hc)
        (by rw [e]; show st.nStars + 1 = ((st.index + 1 : Nat) : Int) + 1; omega)
        (by
          rw [e]
          show (ReadSSEGridRecord env st.grid hdr st.lineNo).1.content.length -
            (ReadSSEGridRecord env st.grid hdr st.lineNo).1.pos < fuel
          rw [p1]
          omega)
        (by
          rw [e]
          show (ReadSSEGridRecord env st.grid hdr st.lineNo).1.content.length -
            (ReadSSEGridRecord env st.grid hdr st.lineNo).1.pos < fuelR
          rw [p1]
          omega)
      rw [e] at h2 h4 h5
      simp only [Bool.false_eq_true, if_false]
      refine ⟨st', h1, h2, h3, ?_, ?_, h6, h7⟩
      · rw [h4]
        simp [gridEvents]
      · rw [h5]
        simp only [List.length_cons]
        omega
    · have e := sseIteration_grid_fail env opt hdr st hg ho (hcl _) hr
      have hterm : (sseIteration env opt hdr st).evolutionStatus ≠ .CONTINUE := by
        rw [e]
        simp only []
        split <;> simp
      refine ⟨sseIteration env opt hdr st, ?_, ?_, hterm, ?_, ?_, ?_, ?_⟩
      · unfold sseLoop
        simp only [hterm, false_and, if_false]
      · rw [e]
        simp
      · rw [e]
        simp [gridEvents]
      · rw [e]
        simp
      · rw [e]
        show st.nStars = ((st.index + 1 : Nat) : Int)
        omega
      · rw [e]
        rfl

end SingleStars

section SingleStarsGrid

variable {V : Type} [LinearOrderedField V]

/-- In grid mode, while every close succeeds, the state at the start of the iteration `k`
(for `k` up to the number of rows): the status is `CONTINUE`, the index is `k` more than at
the start, and the bound `nStars` is the index plus one. -/
theorem sseIterate_grid (env : Env V) (opt : RunEnv V (StarArgs V)) (hdr : List Str)
    (hg : env.gridFilename ≠ []) (hcl : ∀ i, opt.CloseStandardFile i = true) :
    ∀ (fuelR : Nat) (st : SSERun V), st.grid.isOpen = true →
      st.evolutionStatus = .CONTINUE → st.nStars = st.index + 1 →
      ∀ k, k ≤ (sseRows env hdr fuelR st.grid st.lineNo).1.length →
        ((sseIteration env opt hdr)^[k] st).evolutionStatus = .CONTINUE ∧
        ((sseIteration env opt hdr)^[k] st).index = st.index + k ∧
        ((sseIteration env opt hdr)^[k] st).nStars =
          (((sseIteration env opt hdr)^[k] st).index : Int) + 1 := by
  intro fuelR
  induction fuelR with
  | zero =>
    intro st _ hc hn k hk
    have : k = 0 := by simpa [sseRows] using hk
    subst this
    exact ⟨hc, rfl, hn⟩
  | succ fuelR ih =>
    intro st ho hc hn k hk
    cases k with
    | zero => exact ⟨hc, rfl, hn⟩
    | succ k =>
      unfold sseRows at hk
      simp only [] at hk
      cases hr : ((ReadSSEGridRecord env st.grid hdr st.lineNo).1.fail ||
          (ReadSSEGridRecord env st.grid hdr st.lineNo).2.2.isEmpty)
      · rw [hr] at hk
        simp only [Bool.false_eq_true, if_false, List.length_cons] at hk
        have e := sseIteration_grid_row env opt hdr st hg ho hc (hcl _) hr
        obtain ⟨-, p2, -⟩ := ReadSSEGridRecord_progress env hdr st.grid st.lineNo
        have h := ih (sseIteration env opt hdr st) (by rw [e]; exact p2.trans ho)
          (by rw [e]; exact hc)
          (by rw [e]; show st.nStars + 1 = ((st.index + 1 : Nat) : Int) + 1; omega)
          k (by rw [e]; exact Nat.le_of_succ_le_succ hk)
        rw [Function.iterate_succ_apply]
        refine ⟨h.1, ?_, h.2.2⟩
        rw [h.2.1, sseIteration_index]
        omega
      · rw [hr] at hk
        simp at hk

theorem sseRows_status (env : Env V) (hdr : List Str) :
    ∀ (fuel : Nat) (g : IfStream) (lineNo : Nat),
      (sseRows env hdr fuel g lineNo).2 = .STOPPED ∨
      (sseRows env hdr fuel g lineNo).2 = .DONE := by
  intro fuel
  induction fuel with
  | zero => intro g lineNo; exact Or.inr rfl
  | succ fuel ih =>
    intro g lineNo
    unfold sseRows
    simp only []
    split
    · split
      · exact Or.inl rfl
      · exact Or.inr rfl
    · exact ih _ _

/-- C28: in grid mode, when `OpenSSEGridFile` leaves the grid open and every close succeeds,
`EvolveSingleStars` constructs and evolves one star per value vector returned by the
successive reads before the first read that fails or returns the empty vector, in that
order, the row `k` at index `k` with seed `base + k`. At the start of every iteration the
bound `nStars` is the index plus one, and the loop ends with the status set by the failing
read: `STOPPED` for the empty vector, `DONE` for the end of the file. -/
theorem C28_grid_rows (env : Env V) (opt : RunEnv V (StarArgs V))
    (hg : env.gridFilename ≠ [])
    (hopen : (OpenSSEGridFile env IfStream.fresh).1.isOpen = true)
    (hcl : ∀ i, opt.CloseStandardFile i = true) :
    ∃ r, EvolveSingleStars env opt = Outcome.finished r ∧
      r.events = gridEvents opt 0
        (sseRows env (OpenSSEGridFile env IfStream.fresh).2.2
          ((OpenSSEGridFile env IfStream.fresh).1.content.length + 1)
          (OpenSSEGridFile env IfStream.fresh).1 (OpenSSEGridFile env IfStream.fresh).2.1).1 ∧
      r.evolutionStatus =
        (sseRows env (OpenSSEGridFile env IfStream.fresh).2.2
          ((OpenSSEGridFile env IfStream.fresh).1.content.length + 1)
          (OpenSSEGridFile env IfStream.fresh).1 (OpenSSEGridFile env IfStream.fresh).2.1).2 ∧
      (r.evolutionStatus = .STOPPED ∨ r.evolutionStatus = .DONE) ∧
      r.index =
        (sseRows env (OpenSSEGridFile env IfStream.fresh).2.2
          ((OpenSSEGridFile env IfStream.fresh).1.content.length + 1)
          (OpenSSEGridFile env IfStream.fresh).1
          (OpenSSEGridFile env IfStream.fresh).2.1).1.length + 1 ∧
      ∀ k, k ≤ (sseRows env (OpenSSEGridFile env IfStream.fresh).2.2
          ((OpenSSEGridFile env IfStream.fresh).1.content.length + 1)
          (OpenSSEGridFile env IfStream.fresh).1
          (OpenSSEGridFile env IfStream.fresh).2.1).1.length →
        ((sseIteration env opt (sseStart env opt).2)^[k] (sseStart env opt).1).evolutionStatus
          = .CONTINUE ∧
        ((sseIteration env opt (sseStart env opt).2)^[k] (sseStart env opt).1).index = k ∧
        ((sseIteration env opt (sseStart env opt).2)^[k] (sseStart env opt).1).nStars =
          (k : Int) + 1 := by
  have hs := (sseStart_spec env opt).2.2.2.2 hg
  obtain ⟨st', h1, h2, h3, h4, h5, -, -⟩ := sseLoop_grid env opt
    (OpenSSEGridFile env IfStream.fresh).2.2 hg hcl
    ((OpenSSEGridFile env IfStream.fresh).1.content.length + 1)
    ((OpenSSEGridFile env IfStream.fresh).1.content.length + opt.SingleStarMassSteps.toNat + 2)
    ⟨.CONTINUE, 0, 1, (OpenSSEGridFile env IfStream.fresh).1,
      (OpenSSEGridFile env IfStream.fresh).2.1, none, []⟩ hopen rfl rfl
    (by
      show (OpenSSEGridFile env IfStream.fresh).1.content.length -
        (OpenSSEGridFile env IfStream.fresh).1.pos < _
      omega)
    (by
      show (OpenSSEGridFile env IfStream.fresh).1.content.length -
        (OpenSSEGridFile env IfStream.fresh).1.pos < _
      omega)
  have hE : EvolveSingleStars env opt = Outcome.finished st' := by
    unfold EvolveSingleStars
    rw [hs]
    simp only [h1, h3, false_and, if_false]
  refine ⟨st', hE, ?_, h2, ?_, ?_, ?_⟩
  · rw [h4]
    rfl
  · rw [h2]
    exact sseRows_status env _ _ _ _
  · rw [h5]
    simp
  · intro k hk
    rw [hs]
    have h := sseIterate_grid env opt (OpenSSEGridFile env IfStream.fresh).2.2 hg hcl
      ((OpenSSEGridFile env IfStream.fresh).1.content.length + 1)
      ⟨.CONTINUE, 0, 1, (OpenSSEGridFile env IfStream.fresh).1,
        (OpenSSEGridFile env IfStream.fresh).2.1, none, []⟩ hopen rfl rfl k hk
    refine ⟨h.1, by simpa using h.2.1, ?_⟩
    rw [h.2.2, h.2.1]
    simp

theorem C28_grid_rows_witness :
    (ratEnv (some demoStarFile) (71 / 5000)).gridFilename ≠ [] ∧
    (OpenSSEGridFile (ratEnv (some demoStarFile) (71 / 5000)) IfStream.fresh).1.isOpen = true ∧
    (∀ i, (demoOptions (StarArgs ℚ)).CloseStandardFile i = true) ∧
    (∃ r, EvolveSingleStars (ratEnv (some demoStarFile) (71 / 5000))
        (demoOptions (StarArgs ℚ)) = Outcome.finished r ∧
      r.events =
        [Event.construct 0 ⟨42, 3 / 2, 1 / 50⟩,
         Event.evolve 0 (some ⟨42, 3 / 2, 1 / 50⟩) .DONE,
         Event.construct 1 ⟨43, 2, 1 / 100⟩,
         Event.evolve 1 (some ⟨43, 2, 1 / 100⟩) .ERROR] ∧
      r.evolutionStatus = .STOPPED ∧ r.index = 3) ∧
    (∃ r, EvolveSingleStars (ratEnv (some demoStarFileShort) (71 / 5000))
        (demoOptions (StarArgs ℚ)) = Outcome.finished r ∧
      r.events =
        [Event.construct 0 ⟨42, 3 / 2, 1 / 50⟩,
         Event.evolve 0 (some ⟨42, 3 / 2, 1 / 50⟩) .DONE,
         Event.construct 1 ⟨43, 2, 1 / 100⟩,
         Event.evolve 1 (some ⟨43, 2, 1 / 100⟩) .ERROR] ∧
      r.evolutionStatus = .DONE ∧ r.index = 3) :=
  ⟨by decide, by decide, fun _ => rfl,
    (C28_grid_rows (ratEnv (some demoStarFile) (71 / 5000)) (demoOptions (StarArgs ℚ))
      (by decide) (by decide) (fun _ => rfl)).imp
      (fun _ h => ⟨h.1, h.2.1.trans (by decide!), h.2.2.1.trans (by decide!),
        h.2.2.2.2.1.trans (by decide!)⟩),
    (C28_grid_rows (ratEnv (some demoStarFileShort) (71 / 5000)) (demoOptions (StarArgs ℚ))
      (by decide) (by decide) (fun _ => rfl)).imp
      (fun _ h => ⟨h.1, h.2.1.trans (by decide!), h.2.2.1.trans (by decide!),
        h.2.2.2.2.1.trans (by decide!)⟩)⟩

end SingleStarsGrid

/-! ## EvolveBinaryStars -/

section BinaryStars

variable {V : Type} [LinearOrderedField V]

omit [LinearOrderedField V] in
theorem bseAfterCreate_spec (opt : RunEnv V (BinaryCtor V)) (st1 : BSERun V) :
    (bseAfterCreate opt st1).1.grid = st1.grid ∧
    (bseAfterCreate opt st1).1.nBinaries = st1.nBinaries ∧
    (bseAfterCreate opt st1).1.lineNo = st1.lineNo ∧
    ((bseAfterCreate opt st1).2 = true →
      (bseAfterCreate opt st1).1.evolutionStatus = .CONTINUE ∧
      (bseAfterCreate opt st1).1.index = st1.index ∧
      opt.AIS_ExploratoryPhase = true ∧ opt.ShouldStopExploratoryPhase st1.index = true) ∧
    ((bseAfterCreate opt st1).2 = false →
      (bseAfterCreate opt st1).1.index = st1.index + 1 ∧
      ((bseAfterCreate opt st1).1.evolutionStatus = .CONTINUE →
        st1.evolutionStatus = .CONTINUE)) := by
  by_cases hc : st1.evolutionStatus = .CONTINUE
  · by_cases ha : (opt.AIS_ExploratoryPhase && opt.ShouldStopExploratoryPhase st1.index) = true
    · have e : bseAfterCreate opt st1 =
          ({ st1 with
            events := st1.events ++
              [Event.evolve st1.index st1.binary (opt.Evolve st1.binary st1.index)] },
            true) := by
        unfold bseAfterCreate
        simp only [hc, ha, if_true]
      have ha' := ha
      simp only [Bool.and_eq_true] at ha'
      rw [e]
      exact ⟨rfl, rfl, rfl, fun _ => ⟨hc, rfl, ha'.1, ha'.2⟩, fun h => absurd h (by simp)⟩
    · cases hcl : opt.CloseStandardFile st1.index
      · have e : bseAfterCreate opt st1 =
            ({ st1 with
              events := st1.events ++
                [Event.evolve st1.index st1.binary (opt.Evolve st1.binary st1.index)]
              evolutionStatus := .STOPPED
              index := st1.index + 1 }, false) := by
          unfold bseAfterCreate
          simp only [hc, ha, if_true, if_false, hcl, Bool.not_false, Bool.false_eq_true]
        rw [e]
        exact ⟨rfl, rfl, rfl, fun h => absurd h (by simp),
          fun _ => ⟨rfl, fun h => absurd h (by simp)⟩⟩
      · have e : bseAfterCreate opt st1 =
            ({ st1 with
              events := st1.events ++
                [Event.evolve st1.index st1.binary (opt.Evolve st1.binary st1.index)]
              index := st1.index + 1 }, false) := by
          unfold bseAfterCreate
          simp only [hc, ha, if_true, if_false, hcl, Bool.not_true, Bool.false_eq_true]
        rw [e]
        exact ⟨rfl, rfl, rfl, fun h => absurd h (by simp), fun _ => ⟨rfl, fun _ => hc⟩⟩
  · have e : bseAfterCreate opt st1 = ({ st1 with index := st1.index + 1 }, false) := by
      unfold bseAfterCreate
      simp only [hc, if_false]
    rw [e]
    exact ⟨rfl, rfl, rfl, fun h => absurd h (by simp), fun _ => ⟨rfl, fun h => absurd h hc⟩⟩

theorem bseCreate_spec (env : Env V) (opt : RunEnv V (BinaryCtor V)) (hdr : List Str)
    (st st1 : BSERun V) (h : bseCreate env opt hdr st = some st1) :
    st1.index = st.index ∧ st1.grid.content = st.grid.content ∧
    (env.gridFilename = [] → st1.nBinaries = st.nBinaries) ∧
    (env.gridFilename ≠ [] → st1.evolutionStatus = .CONTINUE →
      st.grid.pos < st1.grid.pos ∧ st1.grid.pos ≤ st.grid.content.length) := by
  unfold bseCreate at h
  by_cases hg : env.gridFilename = []
  · simp only [hg, List.isEmpty_nil, Bool.not_true, Bool.false_eq_true, if_false,
      Option.some.injEq] at h
    subst h
    exact ⟨rfl, rfl, fun _ => rfl, fun h => absurd hg h⟩
  · simp only [isEmpty_false_of_ne_nil hg, Bool.not_false, if_true] at h
    cases ho : st.grid.isOpen
    · simp only [ho, Bool.false_eq_true, if_false, Option.some.injEq] at h
      subst h
      exact ⟨rfl, rfl, fun h => absurd h hg, fun _ h => absurd h (by simp)⟩
    · simp only [ho, if_true] at h
      cases hr : ReadBSEGridRecord env st.grid hdr st.lineNo with
      | none => rw [hr] at h; exact absurd h (by simp)
      | some x =>
        obtain ⟨g, lineNo, gV⟩ := x
        obtain ⟨p1, -, p3⟩ := ReadBSEGridRecord_progress env hdr st.grid st.lineNo _ hr
        rw [hr] at h
        simp only [] at h
        cases hf : (g.fail || gV.isEmpty)
        · simp only [hf, Bool.false_eq_true, if_false, Option.some.injEq] at h
          subst h
          have hfb : g.failbit = false := by
            cases hfb : g.failbit
            · rfl
            · simp [IfStream.fail, hfb] at hf
          refine ⟨rfl, p1, fun h => absurd h hg, fun _ _ => ?_⟩
          rcases p3 with p3 | p3
          · have p3' : g.failbit = true := p3
            rw [hfb] at p3'
            exact absurd p3' (by simp)
          · exact p3
        · simp only [hf, if_true, Option.some.injEq] at h
          subst h
          refine ⟨rfl, p1, fun h => absurd h hg, fun _ hc => ?_⟩
          simp only [] at hc
          split at hc <;> simp at hc

/-- The loop of `EvolveBinaryStars` ends: with fuel above the number of unread bytes of the
grid (grid mode) or at least the number of binaries still to make (no grid), the fuel does
not run out; and a state it returns either makes the loop condition false or was left by the
`break` of the early stop. -/
theorem bseLoop_outcome (env : Env V) (opt : RunEnv V (BinaryCtor V)) (hdr : List Str) :
    ∀ (fuel : Nat) (st : BSERun V),
      (st.evolutionStatus = .CONTINUE → env.gridFilename ≠ [] →
        st.grid.content.length - st.grid.pos < fuel) →
      (st.evolutionStatus = .CONTINUE → env.gridFilename = [] →
        (st.nBinaries - st.index).toNat ≤ fuel) →
      bseLoop env opt hdr fuel st ≠ Outcome.fuelExhausted ∧
      ∀ r, bseLoop env opt hdr fuel st = Outcome.finished r →
        ¬ (r.evolutionStatus = .CONTINUE ∧ (r.index : Int) < r.nBinaries) ∨
        (opt.AIS_ExploratoryPhase = true ∧ opt.ShouldStopExploratoryPhase r.index = true) := by
  intro fuel
  induction fuel with
  | zero =>
    intro st h1 h2
    unfold bseLoop
    by_cases hc : st.evolutionStatus = .CONTINUE ∧ (st.index : Int) < st.nBinaries
    · exfalso
      by_cases hg : env.gridFilename = []
      · have := h2 hc.1 hg
        have h4 := hc.2
        omega
      · have := h1 hc.1 hg
        omega
    · simp only [hc, if_false]
      refine ⟨by simp, fun r hr => ?_⟩
      simp only [Outcome.finished.injEq] at hr
      subst hr
      exact Or.inl hc
  | succ fuel ih =>
    intro st h1 h2
    unfold bseLoop
    by_cases hc : st.evolutionStatus = .CONTINUE ∧ (st.index : Int) < st.nBinaries
    · simp only [hc, and_self, if_true]
      unfold bseIteration
      cases hcr : bseCreate env opt hdr st with
      | none =>
        simp only [Option.map_none']
        exact ⟨by simp, fun r hr => absurd hr (by simp)⟩
      | some st1 =>
        obtain ⟨c1, c2, c3, c4⟩ := bseCreate_spec env opt hdr st st1 hcr
        obtain ⟨a1, a2, -, a4, a5⟩ := bseAfterCreate_spec opt st1
        simp only [Option.map_some']
        cases hb : (bseAfterCreate opt st1).2
        · have e : bseAfterCreate opt st1 = ((bseAfterCreate opt st1).1, false) := by
            rw [← hb]
          rw [e]
          simp only []
          obtain ⟨b1, b2⟩ := a5 hb
          apply ih
          · intro hs hg
            obtain ⟨d1, d2⟩ := c4 hg (b2 hs)
            have := h1 hc.1 hg
            rw [a1, c2]
            omega
          · intro hs hg
            have := h2 hc.1 hg
            have h4 := hc.2
            rw [a2, c3 hg, b1, c1]
            omega
        · have e : bseAfterCreate opt st1 = ((bseAfterCreate opt st1).1, true) := by
            rw [← hb]
          rw [e]
          simp only []
          refine ⟨by simp, fun r hr => ?_⟩
          simp only [Outcome.finished.injEq] at hr
          subst hr
          obtain ⟨-, b2, b3, b4⟩ := a4 hb
          exact Or.inr ⟨b3, by rw [b2]; exact b4⟩
    · simp only [hc, if_false]
      refine ⟨by simp, fun r hr => ?_⟩
      simp only [Outcome.finished.injEq] at hr
      subst hr
      exact Or.inl hc

theorem bseRecordLoop_safe (env : Env V) (hdr : List Str) (hs : BSEHeaderSafe hdr)
    (gv : List V) (hgv : gv.length = bseSize hdr) :
    ∀ (fuel : Nat) (g : IfStream) (lineNo : Nat),
      bseRecordLoop env hdr fuel g lineNo gv ≠ none := by
  intro fuel
  induction fuel with
  | zero => intro g lineNo; simp [bseRecordLoop]
  | succ fuel ih =>
    intro g lineNo
    unfold bseRecordLoop
    cases hgl : g.getline with
    | mk o g1 =>
      cases o with
      | none => simp
      | some record =>
        simp only []
        split
        · exact ih _ _
        · obtain ⟨st1, h1, -⟩ := bseRowLoop_safe env hdr hs (getTokens (normRecord record))
            ⟨false, gv, 0, 0⟩ hgv
          unfold bseRecord
          rw [h1]
          simp only []
          split
          · simp
          · split <;> simp

theorem ReadBSEGridRecord_safe (env : Env V) (hdr : List Str) (hs : BSEHeaderSafe hdr)
    (g : IfStream) (lineNo : Nat) : ReadBSEGridRecord env g hdr lineNo ≠ none := by
  unfold ReadBSEGridRecord
  simp only [ne_eq, Option.map_eq_none']
  apply bseRecordLoop_safe env hdr hs
  unfold bseSize
  split <;> simp

theorem bseCreate_defined (env : Env V) (opt : RunEnv V (BinaryCtor V)) (hdr : List Str)
    (h : env.gridFilename = [] ∨ BSEHeaderSafe hdr) (st : BSERun V) :
    bseCreate env opt hdr st ≠ none := by
  unfold bseCreate
  by_cases hg : env.gridFilename = []
  · simp [hg]
  · rcases h with h | h
    · exact absurd h hg
    · simp only [isEmpty_false_of_ne_nil hg, Bool.not_false, if_true]
      split
      · have := ReadBSEGridRecord_safe env hdr h st.grid st.lineNo
        cases hr : ReadBSEGridRecord env st.grid hdr st.lineNo with
        | none => exact absurd hr this
        | some x =>
          simp only []
          split <;> simp
      · simp

theorem bseLoop_defined (env : Env V) (opt : RunEnv V (BinaryCtor V)) (hdr : List Str)
    (h : env.gridFilename = [] ∨ BSEHeaderSafe hdr) :
    ∀ (fuel : Nat) (st : BSERun V),
      bseLoop env opt hdr fuel st ≠ Outcome.undefinedBehaviour := by
  intro fuel
  induction fuel with
  | zero =>
    intro st
    unfold bseLoop
    split <;> simp
  | succ fuel ih =>
    intro st
    unfold bseLoop
    split
    · simp only []
      unfold bseIteration
      cases hcr : bseCreate env opt hdr st with
      | none => exact absurd hcr (bseCreate_defined env opt hdr h st)
      | some st1 =>
        simp only [Option.map_some']
        cases hb : (bseAfterCreate opt st1).2
        · have e : bseAfterCreate opt st1 = ((bseAfterCreate opt st1).1, false) := by
            rw [← hb]
          rw [e]
          exact ih _
        · have e : bseAfterCreate opt st1 = ((bseAfterCreate opt st1).1, true) := by
            rw [← hb]
          rw [e]
          simp
    · simp

omit [LinearOrderedField V] in
theorem bseStart_spec (env : Env V) (opt : RunEnv V (BinaryCtor V)) :
    (env.gridFilename = [] →
      bseStart env opt = (⟨.CONTINUE, 0, opt.NBinaries, IfStream.fresh, 0, none, []⟩, [])) ∧
    (bseStart env opt).1.index = 0 ∧
    (bseStart env opt).2 = (if env.gridFilename = [] then []
      else (OpenBSEGridFile env IfStream.fresh).2.2) := by
  unfold bseStart
  by_cases hg : env.gridFilename = []
  · simp [hg]
  · simp [hg, isEmpty_false_of_ne_nil hg]

/-- C26: without a grid file, with five binaries asked for, the exploratory phase on and the
early-stop predicate true at index 1, `EvolveBinaryStars` leaves its loop through the
`break` after evolving the second binary; the status is still `CONTINUE`, and the statement
after the loop does not change it because the index is below the number of binaries. -/
theorem C26_early_stop_leaves_continue :
    EvolveBinaryStars (noGridEnv (71 / 5000)) demoOptionsAIS =
      Outcome.finished ⟨.CONTINUE, 1, 5, IfStream.fresh, 0, some (BinaryCtor.random 1),
        [Event.construct 0 (BinaryCtor.random 0),
         Event.evolve 0 (some (BinaryCtor.random 0)) .DONE,
         Event.construct 1 (BinaryCtor.random 1),
         Event.evolve 1 (some (BinaryCtor.random 1)) .ERROR]⟩ := by
  decide!

/-- For every configuration, grid content and behaviour of `Evolve`, of the file close and
of the early-stop predicate, the loop of `EvolveBinaryStars` ends (the fuel of the model
does not run out), and a final status `CONTINUE` can only come from the `break` of the early
stop; without a grid file, or with a header list for which no store runs past the end of the
value vector, the function does return. -/
theorem EvolveBinaryStars_outcome (env : Env V) (opt : RunEnv V (BinaryCtor V)) :
    EvolveBinaryStars env opt ≠ Outcome.fuelExhausted ∧
    (∀ r, EvolveBinaryStars env opt = Outcome.finished r →
      (r.evolutionStatus ≠ .CONTINUE ∨
        (opt.AIS_ExploratoryPhase = true ∧
          opt.ShouldStopExploratoryPhase r.index = true)) ∧
      (opt.AIS_ExploratoryPhase = false → r.evolutionStatus ≠ .CONTINUE)) ∧
    (env.gridFilename = [] ∨ BSEHeaderSafe (OpenBSEGridFile env IfStream.fresh).2.2 →
      ∃ r, EvolveBinaryStars env opt = Outcome.finished r) := by
  obtain ⟨s1, s2, s3⟩ := bseStart_spec env opt
  obtain ⟨h1, h2⟩ := bseLoop_outcome env opt (bseStart env opt).2
    ((bseStart env opt).1.grid.content.length + opt.NBinaries.toNat + 2)
    (bseStart env opt).1 (fun _ _ => by omega)
    (fun _ hg => by
      rw [s1 hg]
      show (opt.NBinaries - ((0 : Nat) : Int)).toNat ≤ _
      simp only [Nat.cast_zero, sub_zero]
      omega)
  have key : ∀ r, EvolveBinaryStars env opt = Outcome.finished r →
      r.evolutionStatus ≠ .CONTINUE ∨
        (opt.AIS_ExploratoryPhase = true ∧
          opt.ShouldStopExploratoryPhase r.index = true) := by
    intro r hr
    unfold EvolveBinaryStars at hr
    simp only [] at hr
    cases hl : bseLoop env opt (bseStart env opt).2
        ((bseStart env opt).1.grid.content.length + opt.NBinaries.toNat + 2)
        (bseStart env opt).1 with
    | finished st =>
      rw [hl] at hr
      simp only [Outcome.finished.injEq] at hr
      subst hr
      rcases h2 st hl with h | h
      · left
        split
        · simp
        · rename_i hn
          intro hc
          exact h ⟨hc, by
            by_contra hlt
            exact hn ⟨hc, by omega⟩⟩
      · split
        · left
          simp
        · right
          exact h
    | undefinedBehaviour => rw [hl] at hr; simp at hr
    | fuelExhausted => exact absurd hl h1
  refine ⟨?_, fun r hr => ⟨key r hr, fun ha => ?_⟩, fun hsafe => ?_⟩
  · unfold EvolveBinaryStars
    simp only []
    cases hl : bseLoop env opt (bseStart env opt).2
        ((bseStart env opt).1.grid.content.length + opt.NBinaries.toNat + 2)
        (bseStart env opt).1 with
    | finished st => simp
    | undefinedBehaviour => simp
    | fuelExhausted => exact absurd hl h1
  · rcases key r hr with h | ⟨h, -⟩
    · exact h
    · rw [ha] at h
      exact absurd h (by simp)
  · have hd := bseLoop_defined env opt (bseStart env opt).2
      (by
        rcases hsafe with h | h
        · exact Or.inl h
        · by_cases hg : env.gridFilename = []
          · exact Or.inl hg
          · right
            rw [s3]
            simp only [hg, if_false]
            exact h)
      ((bseStart env opt).1.grid.content.length + opt.NBinaries.toNat + 2)
      (bseStart env opt).1
    unfold EvolveBinaryStars
    simp only []
    cases hl : bseLoop env opt (bseStart env opt).2
        ((bseStart env opt).1.grid.content.length + opt.NBinaries.toNat + 2)
        (bseStart env opt).1 with
    | finished st => exact ⟨_, rfl⟩
    | undefinedBehaviour => exact absurd hl hd
    | fuelExhausted => exact absurd hl h1

end BinaryStars

/-! ## The status returned by Evolve -/

section EvolveResults

variable {V : Type} [LinearOrderedField V]

omit [LinearOrderedField V] in
theorem SSERun.eraseResults_eq (st st' : SSERun V)
    (h : st'.eraseResults = st.eraseResults) :
    st'.evolutionStatus = st.evolutionStatus ∧ st'.index = st.index ∧
    st'.nStars = st.nStars ∧ st'.grid = st.grid ∧ st'.lineNo = st.lineNo ∧
    st'.star = st.star ∧ st'.events.map eraseResult = st.events.map eraseResult := by
  obtain ⟨a1, a2, a3, a4, a5, a6, a7⟩ := st
  obtain ⟨b1, b2, b3, b4, b5, b6, b7⟩ := st'
  simp only [SSERun.eraseResults, SSERun.mk.injEq] at h
  exact h

theorem sseCreate_erase (env : Env V) (opt : RunEnv V (StarArgs V)) (hdr : List Str)
    (f : Option (StarArgs V) → Nat → EVOLUTION_STATUS) (st st' : SSERun V)
    (h : st'.eraseResults = st.eraseResults) :
    (sseCreate env { opt with Evolve := f } hdr st').eraseResults =
      (sseCreate env opt hdr st).eraseResults := by
  obtain ⟨h1, h2, h3, h4, h5, h6, h7⟩ := SSERun.eraseResults_eq st st' h
  obtain ⟨a1, a2, a3, a4, a5, a6, a7⟩ := st
  obtain ⟨b1, b2, b3, b4, b5, b6, b7⟩ := st'
  simp only [] at h1 h2 h3 h4 h5 h6 h7
  subst h1 h2 h3 h4 h5 h6
  unfold sseCreate randomSeedFor
  simp only []
  split
  · split
    · split
      · simp only [SSERun.eraseResults, h7]
      · simp only [SSERun.eraseResults, List.map_append, h7]
    · simp only [SSERun.eraseResults, h7]
  · simp only [SSERun.eraseResults, List.map_append, h7]

omit [LinearOrderedField V] in
theorem sseEvolve_erase (opt : RunEnv V (StarArgs V))
    (f : Option (StarArgs V) → Nat → EVOLUTION_STATUS) (st st' : SSERun V)
    (h : st'.eraseResults = st.eraseResults) :
    (sseEvolve { opt with Evolve := f } st').eraseResults =
      (sseEvolve opt st).eraseResults := by
  obtain ⟨h1, h2, h3, h4, h5, h6, h7⟩ := SSERun.eraseResults_eq st st' h
  obtain ⟨a1, a2, a3, a4, a5, a6, a7⟩ := st
  obtain ⟨b1, b2, b3, b4, b5, b6, b7⟩ := st'
  simp only [] at h1 h2 h3 h4 h5 h6 h7
  subst h1 h2 h3 h4 h5 h6
  unfold sseEvolve
  simp only []
  split
  · simp only [SSERun.eraseResults, List.map_append, h7, List.map_cons, List.map_nil,
      eraseResult]
  · simp only [SSERun.eraseResults, h7]

omit [LinearOrderedField V] in
theorem sseClose_erase (opt : RunEnv V (StarArgs V))
    (f : Option (StarArgs V) → Nat → EVOLUTION_STATUS) (st st' : SSERun V)
    (h : st'.eraseResults = st.eraseResults) :
    (sseClose { opt with Evolve := f } st').eraseResults =
      (sseClose opt st).eraseResults := by
  obtain ⟨h1, h2, h3, h4, h5, h6, h7⟩ := SSERun.eraseResults_eq st st' h
  obtain ⟨a1, a2, a3, a4, a5, a6, a7⟩ := st
  obtain ⟨b1, b2, b3, b4, b5, b6, b7⟩ := st'
  simp only [] at h1 h2 h3 h4 h5 h6 h7
  subst h1 h2 h3 h4 h5 h6
  unfold sseClose
  simp only []
  split
  · simp only [SSERun.eraseResults, h7]
  · simp only [SSERun.eraseResults, h7]

theorem sseIteration_erase (env : Env V) (opt : RunEnv V (StarArgs V)) (hdr : List Str)
    (f : Option (StarArgs V) → Nat → EVOLUTION_STATUS) (st st' : SSERun V)
    (h : st'.eraseResults = st.eraseResults) :
    (sseIteration env { opt with Evolve := f } hdr st').eraseResults =
      (sseIteration env opt hdr st).eraseResults := by
  have h1 := sseClose_erase opt f _ _
    (sseEvolve_erase opt f _ _ (sseCreate_erase env opt hdr f st st' h))
  obtain ⟨e1, e2, e3, e4, e5, e6, e7⟩ := SSERun.eraseResults_eq _ _ h1
  unfold sseIteration
  simp only [SSERun.eraseResults, SSERun.mk.injEq]
  exact ⟨e1, by rw [e2], e3, e4, e5, e6, e7⟩

theorem sseLoop_erase (env : Env V) (opt : RunEnv V (StarArgs V)) (hdr : List Str)
    (f : Option (StarArgs V) → Nat → EVOLUTION_STATUS) :
    ∀ (fuel : Nat) (st st' : SSERun V), st'.eraseResults = st.eraseResults →
      (sseLoop env { opt with Evolve := f } hdr fuel st').map SSERun.eraseResults =
        (sseLoop env opt hdr fuel st).map SSERun.eraseResults := by
  intro fuel
  induction fuel with
  | zero =>
    intro st st' h
    obtain ⟨h1, h2, h3, -⟩ := SSERun.eraseResults_eq st st' h
    unfold sseLoop
    rw [h1, h2, h3]
    split
    · rfl
    · simp only [Option.map_some', h]
  | succ fuel ih =>
    intro st st' h
    obtain ⟨h1, h2, h3, -⟩ := SSERun.eraseResults_eq st st' h
    unfold sseLoop
    rw [h1, h2, h3]
    split
    · exact ih _ _ (sseIteration_erase env opt hdr f st st' h)
    · simp only [Option.map_some', h]

theorem EvolveSingleStars_erase (env : Env V) (opt : RunEnv V (StarArgs V))
    (f : Option (StarArgs V) → Nat → EVOLUTION_STATUS) :
    (EvolveSingleStars env { opt with Evolve := f }).map SSERun.eraseResults =
      (EvolveSingleStars env opt).map SSERun.eraseResults := by
  have hs : sseStart env { opt with Evolve := f } = sseStart env opt := rfl
  have hl := sseLoop_erase env opt (sseStart env opt).2 f
    ((sseStart env opt).1.grid.content.length + opt.SingleStarMassSteps.toNat + 2)
    (sseStart env opt).1 (sseStart env opt).1 rfl
  unfold EvolveSingleStars
  rw [hs]
  simp only []
  cases h1 : sseLoop env opt (sseStart env opt).2
      ((sseStart env opt).1.grid.content.length + opt.SingleStarMassSteps.toNat + 2)
      (sseStart env opt).1 with
  | none =>
    rw [h1] at hl
    cases h2 : sseLoop env { opt with Evolve := f } (sseStart env opt).2
        ((sseStart env opt).1.grid.content.length + opt.SingleStarMassSteps.toNat + 2)
        (sseStart env opt).1 with
    | none => rfl
    | some b => rw [h2] at hl; simp at hl
  | some a =>
    rw [h1] at hl
    cases h2 : sseLoop env { opt with Evolve := f } (sseStart env opt).2
        ((sseStart env opt).1.grid.content.length + opt.SingleStarMassSteps.toNat + 2)
        (sseStart env opt).1 with
    | none => rw [h2] at hl; simp at hl
    | some b =>
      rw [h2] at hl
      simp only [Option.map_some', Option.some.injEq] at hl
      obtain ⟨e1, e2, e3, e4, e5, e6, e7⟩ := SSERun.eraseResults_eq a b hl
      simp only [Outcome.map, Outcome.finished.injEq, e1, e2, e3]
      split
      · simp only [SSERun.eraseResults, SSERun.mk.injEq]
        exact ⟨trivial, trivial, trivial, e4, e5, e6, e7⟩
      · exact hl

omit [LinearOrderedField V] in
theorem BSERun.eraseResultsBinary_eq (st st' : BSERun V)
    (h : st'.eraseResults = st.eraseResults) :
    st'.evolutionStatus = st.evolutionStatus ∧ st'.index = st.index ∧
    st'.nBinaries = st.nBinaries ∧ st'.grid = st.grid ∧ st'.lineNo = st.lineNo ∧
    st'.binary = st.binary ∧ st'.events.map eraseResult = st.events.map eraseResult := by
  obtain ⟨a1, a2, a3, a4, a5, a6, a7⟩ := st
  obtain ⟨b1, b2, b3, b4, b5, b6, b7⟩ := st'
  simp only [BSERun.eraseResults, BSERun.mk.injEq] at h
  exact h

theorem bseCreate_erase (env : Env V) (opt : RunEnv V (BinaryCtor V)) (hdr : List Str)
    (f : Option (BinaryCtor V) → Nat → EVOLUTION_STATUS) (st st' : BSERun V)
    (h : st'.eraseResults = st.eraseResults) :
    (bseCreate env { opt with Evolve := f } hdr st').map BSERun.eraseResults =
      (bseCreate env opt hdr st).map BSERun.eraseResults := by
  obtain ⟨h1, h2, h3, h4, h5, h6, h7⟩ := BSERun.eraseResultsBinary_eq st st' h
  obtain ⟨a1, a2, a3, a4, a5, a6, a7⟩ := st
  obtain ⟨b1, b2, b3, b4, b5, b6, b7⟩ := st'
  simp only [] at h1 h2 h3 h4 h5 h6 h7
  subst h1 h2 h3 h4 h5 h6
  have hi : ∀ i, individualBinary env { opt with Evolve := f } i =
      individualBinary env opt i := fun _ => rfl
  unfold bseCreate
  simp only [hi]
  split
  · split
    · cases ReadBSEGridRecord env b4 hdr b5 with
      | none => rfl
      | some x =>
        simp only []
        split
        · simp only [Option.map_some', BSERun.eraseResults, h7]
        · simp only [Option.map_some', BSERun.eraseResults, List.map_append, h7]
    · simp only [Option.map_some', BSERun.eraseResults, h7]
  · simp only [Option.map_some', BSERun.eraseResults, List.map_append, h7]

omit [LinearOrderedField V] in
theorem bseAfterCreate_erase (opt : RunEnv V (BinaryCtor V))
    (f : Option (BinaryCtor V) → Nat → EVOLUTION_STATUS) (st st' : BSERun V)
    (h : st'.eraseResults = st.eraseResults) :
    (bseAfterCreate { opt with Evolve := f } st').1.eraseResults =
      (bseAfterCreate opt st).1.eraseResults ∧
    (bseAfterCreate { opt with Evolve := f } st').2 = (bseAfterCreate opt st).2 := by
  obtain ⟨h1, h2, h3, h4, h5, h6, h7⟩ := BSERun.eraseResultsBinary_eq st st' h
  obtain ⟨a1, a2, a3, a4, a5, a6, a7⟩ := st
  obtain ⟨b1, b2, b3, b4, b5, b6, b7⟩ := st'
  simp only [] at h1 h2 h3 h4 h5 h6 h7
  subst h1 h2 h3 h4 h5 h6
  unfold bseAfterCreate
  simp only []
  split
  · split
    · simp only [BSERun.eraseResults, List.map_append, h7, List.map_cons, List.map_nil,
        eraseResult, and_self]
    · split <;>
        simp only [BSERun.eraseResults, List.map_append, h7, List.map_cons, List.map_nil,
          eraseResult, and_self]
  · simp only [BSERun.eraseResults, h7, and_self]

theorem bseLoop_erase (env : Env V) (opt : RunEnv V (BinaryCtor V)) (hdr : List Str)
    (f : Option (BinaryCtor V) → Nat → EVOLUTION_STATUS) :
    ∀ (fuel : Nat) (st st' : BSERun V), st'.eraseResults = st.eraseResults →
      (bseLoop env { opt with Evolve := f } hdr fuel st').map BSERun.eraseResults =
        (bseLoop env opt hdr fuel st).map BSERun.eraseResults := by
  intro fuel
  induction fuel with
  | zero =>
    intro st st' h
    obtain ⟨h1, h2, h3, -⟩ := BSERun.eraseResultsBinary_eq st st' h
    unfold bseLoop
    rw [h1, h2, h3]
    split
    · rfl
    · simp only [Outcome.map, h]
  | succ fuel ih =>
    intro st st' h
    obtain ⟨h1, h2, h3, -⟩ := BSERun.eraseResultsBinary_eq st st' h
    unfold bseLoop
    rw [h1, h2, h3]
    split
    · simp only []
      have hc := bseCreate_erase env opt hdr f st st' h
      unfold bseIteration
      cases c1 : bseCreate env opt hdr st with
      | none =>
        rw [c1] at hc
        cases c2 : bseCreate env { opt with Evolve := f } hdr st' with
        | none => rfl
        | some y => rw [c2] at hc; simp at hc
      | some x =>
        rw [c1] at hc
        cases c2 : bseCreate env { opt with Evolve := f } hdr st' with
        | none => rw [c2] at hc; simp at hc
        | some y =>
          rw [c2] at hc
          simp only [Option.map_some', Option.some.injEq] at hc
          obtain ⟨a1, a2⟩ := bseAfterCreate_erase opt f x y hc
          simp only [Option.map_some']
          cases hb : (bseAfterCreate opt x).2
          · have e : bseAfterCreate opt x = ((bseAfterCreate opt x).1, false) := by
              rw [← hb]
            have e' : bseAfterCreate { opt with Evolve := f } y =
                ((bseAfterCreate { opt with Evolve := f } y).1, false) := by
              rw [← hb, ← a2]
            rw [e, e']
            exact ih _ _ a1
          · have e : bseAfterCreate opt x = ((bseAfterCreate opt x).1, true) := by
              rw [← hb]
            have e' : bseAfterCreate { opt with Evolve := f } y =
                ((bseAfterCreate { opt with Evolve := f } y).1, true) := by
              rw [← hb, ← a2]
            rw [e, e']
            simp only [Outcome.map, a1]
    · simp only [Outcome.map, h]

theorem EvolveBinaryStars_erase (env : Env V) (opt : RunEnv V (BinaryCtor V))
    (f : Option (BinaryCtor V) → Nat → EVOLUTION_STATUS) :
    (EvolveBinaryStars env { opt with Evolve := f }).map BSERun.eraseResults =
      (EvolveBinaryStars env opt).map BSERun.eraseResults := by
  have hs : bseStart env { opt with Evolve := f } = bseStart env opt := rfl
  have hl := bseLoop_erase env opt (bseStart env opt).2 f
    ((bseStart env opt).1.grid.content.length + opt.NBinaries.toNat + 2)
    (bseStart env opt).1 (bseStart env opt).1 rfl
  unfold EvolveBinaryStars
  rw [hs]
  simp only []
  cases h1 : bseLoop env opt (bseStart env opt).2
      ((bseStart env opt).1.grid.content.length + opt.NBinaries.toNat + 2)
      (bseStart env opt).1 <;>
    cases h2 : bseLoop env { opt with Evolve := f } (bseStart env opt).2
      ((bseStart env opt).1.grid.content.length + opt.NBinaries.toNat + 2)
      (bseStart env opt).1 <;>
    rw [h1, h2] at hl <;>
    simp only [Outcome.map, Outcome.finished.injEq] at hl ⊢ <;>
    first
      | rfl
      | exact absurd hl (by simp)
      | skip
  rename_i a b
  obtain ⟨e1, e2, e3, e4, e5, e6, e7⟩ := BSERun.eraseResultsBinary_eq a b hl
  simp only [e1, e2, e3]
  split
  · simp only [BSERun.eraseResults, BSERun.mk.injEq]
    exact ⟨trivial, trivial, trivial, e4, e5, e6, e7⟩
  · exact hl

/-- C30: the status returned by `Evolve` has no effect on the population loops. Replacing
the behaviour of `Evolve` by any other leaves the outcome of `EvolveSingleStars` and of
`EvolveBinaryStars` the same in everything but the returned statuses themselves: the same
final status, index and bound, the same grid state, and the same constructor and `Evolve`
calls in the same order. In an iteration that reaches the `Evolve` call, the status is still
`CONTINUE` and the index one higher at the end of the iteration, unless the close fails or
(for binaries) the early-stop predicate holds. -/
theorem C30_evolve_result_ignored (env : Env V) (optS : RunEnv V (StarArgs V))
    (optB : RunEnv V (BinaryCtor V))
    (fS : Option (StarArgs V) → Nat → EVOLUTION_STATUS)
    (fB : Option (BinaryCtor V) → Nat → EVOLUTION_STATUS) :
    (EvolveSingleStars env { optS with Evolve := fS }).map SSERun.eraseResults =
      (EvolveSingleStars env optS).map SSERun.eraseResults ∧
    (EvolveBinaryStars env { optB with Evolve := fB }).map BSERun.eraseResults =
      (EvolveBinaryStars env optB).map BSERun.eraseResults ∧
    (∀ hdr st, (sseCreate env optS hdr st).evolutionStatus = .CONTINUE →
      optS.CloseStandardFile st.index = true →
      (sseIteration env optS hdr st).evolutionStatus = .CONTINUE ∧
      (sseIteration env optS hdr st).index = st.index + 1) ∧
    (∀ st1 : BSERun V, st1.evolutionStatus = .CONTINUE →
      (optB.AIS_ExploratoryPhase && optB.ShouldStopExploratoryPhase st1.index) = false →
      optB.CloseStandardFile st1.index = true →
      (bseAfterCreate optB st1).2 = false ∧
      (bseAfterCreate optB st1).1.evolutionStatus = .CONTINUE ∧
      (bseAfterCreate optB st1).1.index = st1.index + 1) := by
  refine ⟨EvolveSingleStars_erase env optS fS, EvolveBinaryStars_erase env optB fB, ?_, ?_⟩
  · intro hdr st hc hcl
    refine ⟨?_, sseIteration_index env optS hdr st⟩
    rw [sseIteration_status, hcl]
    exact hc
  · intro st1 hc ha hcl
    unfold bseAfterCreate
    simp only [hc, if_true, ha, Bool.false_eq_true, if_false, hcl, Bool.not_true, and_self]

theorem C30_evolve_result_ignored_witness :
    (EvolveSingleStars (noGridEnv (71 / 5000))
        { demoOptions (StarArgs ℚ) with Evolve := fun _ _ => EVOLUTION_STATUS.STOPPED }).map
        SSERun.eraseResults =
      Outcome.finished ⟨.DONE, 3, 3, IfStream.fresh, 0, some ⟨44, 7 / 3, 71 / 5000⟩,
        [Event.construct 0 ⟨42, 1, 71 / 5000⟩,
         Event.evolve 0 (some ⟨42, 1, 71 / 5000⟩) .CONTINUE,
         Event.construct 1 ⟨43, 5 / 3, 71 / 5000⟩,
         Event.evolve 1 (some ⟨43, 5 / 3, 71 / 5000⟩) .CONTINUE,
         Event.construct 2 ⟨44, 7 / 3, 71 / 5000⟩,
         Event.evolve 2 (some ⟨44, 7 / 3, 71 / 5000⟩) .CONTINUE]⟩ ∧
    (EvolveBinaryStars (ratEnv (some demoFileBoth) 0)
        { demoOptions (BinaryCtor ℚ) with Evolve := fun _ _ => EVOLUTION_STATUS.STOPPED }).map
        BSERun.eraseResults =
      (EvolveBinaryStars (ratEnv (some demoFileBoth) 0) (demoOptions (BinaryCtor ℚ))).map
        BSERun.eraseResults :=
  ⟨(C30_evolve_result_ignored (noGridEnv (71 / 5000)) (demoOptions (StarArgs ℚ))
      (demoOptions (BinaryCtor ℚ)) (fun _ _ => EVOLUTION_STATUS.STOPPED)
      (fun _ _ => EVOLUTION_STATUS.STOPPED)).1.trans (by decide!),
    (C30_evolve_result_ignored (ratEnv (some demoFileBoth) 0) (demoOptions (StarArgs ℚ))
      (demoOptions (BinaryCtor ℚ)) (fun _ _ => EVOLUTION_STATUS.STOPPED)
      (fun _ _ => EVOLUTION_STATUS.STOPPED)).2.1⟩

end EvolveResults

/-! ## Population loops: the calls made, close failures and closed grids -/

section
variable {V : Type} [LinearOrderedField V]

theorem EvolvedWhereConstructed_mono {Obj : Type} (events : List (Event Obj)) (a b : Nat)
    (hab : a ≤ b) (h : EvolvedWhereConstructed events a) : EvolvedWhereConstructed events b := by
  obtain ⟨pairs, h1, h2, h3⟩ := h
  exact ⟨pairs, h1, h2, fun p hp => lt_of_lt_of_le (h3 p hp) hab⟩

theorem EvolvedWhereConstructed_append {Obj : Type} (events : List (Event Obj)) (i : Nat)
    (o : Obj) (r : EVOLUTION_STATUS) (h : EvolvedWhereConstructed events i) :
    EvolvedWhereConstructed
      (events ++ [Event.construct i o] ++ [Event.evolve i (some o) r]) (i + 1) := by
  obtain ⟨pairs, h1, h2, h3⟩ := h
  refine ⟨pairs ++ [(i, o, r)], ?_, ?_, ?_⟩
  · rw [h1]
    simp [iterationEvents]
  · rw [List.map_append, List.pairwise_append]
    refine ⟨h2, by simp, ?_⟩
    intro a ha b hb
    simp only [List.map_cons, List.map_nil, List.mem_singleton] at hb
    subst hb
    obtain ⟨p, hp, rfl⟩ := List.mem_map.1 ha
    exact h3 p hp
  · intro p hp
    rcases List.mem_append.1 hp with hp | hp
    · exact Nat.lt_succ_of_lt (h3 p hp)
    · simp only [List.mem_singleton] at hp
      subst hp
      exact Nat.lt_succ_self _

theorem EvolvedWhereConstructed_index {Obj : Type} (events : List (Event Obj)) (b : Nat)
    (h : EvolvedWhereConstructed events b) : ∀ e ∈ events, e.index < b := by
  obtain ⟨pairs, h1, -, h3⟩ := h
  intro e he
  rw [h1] at he
  simp only [List.mem_flatten, List.mem_map] at he
  obtain ⟨l, ⟨p, hp, rfl⟩, hm⟩ := he
  simp only [iterationEvents, List.mem_cons, List.mem_singleton, List.not_mem_nil,
    or_false] at hm
  rcases hm with rfl | rfl
  · exact h3 p hp
  · exact h3 p hp

theorem sseLoop_invariant (env : Env V) (opt : RunEnv V (StarArgs V)) (hdr : List Str)
    (P : SSERun V → Prop)
    (hstep : ∀ st, P st → st.evolutionStatus = .CONTINUE → (st.index : Int) < st.nStars →
      P (sseIteration env opt hdr st)) :
    ∀ (fuel : Nat) (st st' : SSERun V), P st → sseLoop env opt hdr fuel st = some st' →
      P st' := by
  intro fuel
  induction fuel with
  | zero =>
    intro st st' hP h
    unfold sseLoop at h
    by_cases hc : st.evolutionStatus = .CONTINUE ∧ (st.index : Int) < st.nStars
    · simp only [hc, and_self, if_true] at h
      exact absurd h (by simp)
    · simp only [hc, if_false, Option.some.injEq] at h
      exact h ▸ hP
  | succ fuel ih =>
    intro st st' hP h
    unfold sseLoop at h
    by_cases hc : st.evolutionStatus = .CONTINUE ∧ (st.index : Int) < st.nStars
    · simp only [hc, and_self, if_true] at h
      exact ih _ _ (hstep st hP hc.1 hc.2) h
    · simp only [hc, if_false, Option.some.injEq] at h
      exact h ▸ hP

theorem bseLoop_invariant (env : Env V) (opt : RunEnv V (BinaryCtor V)) (hdr : List Str)
    (P Q : BSERun V → Prop) (hexit : ∀ st, P st → Q st)
    (hstep : ∀ st st1, P st → st.evolutionStatus = .CONTINUE →
      (st.index : Int) < st.nBinaries → bseCreate env opt hdr st = some st1 →
      ((bseAfterCreate opt st1).2 = false → P (bseAfterCreate opt st1).1) ∧
      ((bseAfterCreate opt st1).2 = true → Q (bseAfterCreate opt st1).1)) :
    ∀ (fuel : Nat) (st st' : BSERun V), P st →
      bseLoop env opt hdr fuel st = Outcome.finished st' → Q st' := by
  intro fuel
  induction fuel with
  | zero =>
    intro st st' hP h
    unfold bseLoop at h
    by_cases hc : st.evolutionStatus = .CONTINUE ∧ (st.index : Int) < st.nBinaries
    · simp only [hc, and_self, if_true] at h
      exact absurd h (by simp)
    · simp only [hc, if_false, Outcome.finished.injEq] at h
      exact h ▸ hexit st hP
  | succ fuel ih =>
    intro st st' hP h
    unfold bseLoop at h
    by_cases hc : st.evolutionStatus = .CONTINUE ∧ (st.index : Int) < st.nBinaries
    · simp only [hc, and_self, if_true] at h
      unfold bseIteration at h
      cases hcr : bseCreate env opt hdr st with
      | none =>
        rw [hcr] at h
        simp only [Option.map_none'] at h
        exact absurd h (by simp)
      | some st1 =>
        rw [hcr] at h
        simp only [Option.map_some'] at h
        obtain ⟨s1, s2⟩ := hstep st st1 hP hc.1 hc.2 hcr
        cases hb : (bseAfterCreate opt st1).2
        · have e : bseAfterCreate opt st1 = ((bseAfterCreate opt st1).1, false) := by
            rw [← hb]
          rw [e] at h
          simp only [] at h
          exact ih _ _ (s1 hb) h
        · have e : bseAfterCreate opt st1 = ((bseAfterCreate opt st1).1, true) := by
            rw [← hb]
          rw [e] at h
          simp only [Outcome.finished.injEq] at h
          exact h ▸ s2 hb
    · simp only [hc, if_false, Outcome.finished.injEq] at h
      exact h ▸ hexit st hP

/-- The calls of one iteration of `EvolveSingleStars` entered with status `CONTINUE`: none,
and the status is then no longer `CONTINUE`; or a constructor call and the call of `Evolve`
on the object just made. -/
theorem sseIteration_events_cases (env : Env V) (opt : RunEnv V (StarArgs V)) (hdr : List Str)
    (st : SSERun V) (hc : st.evolutionStatus = .CONTINUE) :
    ((sseIteration env opt hdr st).events = st.events ∧
      (sseIteration env opt hdr st).evolutionStatus ≠ .CONTINUE ∧
      (env.gridFilename ≠ [] ∧ (st.grid.isOpen = false ∨
        ((ReadSSEGridRecord env st.grid hdr st.lineNo).1.fail ||
          (ReadSSEGridRecord env st.grid hdr st.lineNo).2.2.isEmpty) = true))) ∨
    (∃ o, (sseIteration env opt hdr st).events =
        st.events ++ [Event.construct st.index o] ++
          [Event.evolve st.index (some o) (opt.Evolve (some o) st.index)] ∧
      (env.gridFilename ≠ [] → st.grid.isOpen = true ∧
        ((ReadSSEGridRecord env st.grid hdr st.lineNo).1.fail ||
          (ReadSSEGridRecord env st.grid hdr st.lineNo).2.2.isEmpty) = false)) := by
  rw [sseIteration_events, sseIteration_status]
  by_cases hg : env.gridFilename = []
  · right
    rw [sseCreate_nogrid env opt hdr st hg]
    refine ⟨sweepStar env opt st.index, ?_, fun h => absurd hg h⟩
    unfold sseEvolve
    simp only [hc, if_true]
  · cases ho : st.grid.isOpen
    · left
      rw [sseCreate_closed env opt hdr st hg ho]
      refine ⟨?_, ?_, hg, Or.inl rfl⟩
      · unfold sseEvolve
        simp
      · split <;> simp
    · rw [sseCreate_open env opt hdr st hg ho]
      cases hr : ((ReadSSEGridRecord env st.grid hdr st.lineNo).1.fail ||
          (ReadSSEGridRecord env st.grid hdr st.lineNo).2.2.isEmpty)
      · right
        simp only [Bool.false_eq_true, if_false]
        refine ⟨gridStar opt st.index (ReadSSEGridRecord env st.grid hdr st.lineNo).2.2, ?_,
          fun _ => by simp⟩
        unfold sseEvolve
        simp only [hc, if_true]
      · left
        simp only [if_true]
        refine ⟨?_, ?_, hg, by simp⟩
        · unfold sseEvolve
          have : (if (ReadSSEGridRecord env st.grid hdr st.lineNo).2.2.isEmpty = true then
              EVOLUTION_STATUS.STOPPED else EVOLUTION_STATUS.DONE) ≠ .CONTINUE := by
            split <;> simp
          simp only [this, if_false]
        · split
          · split <;> simp
          · simp

/-- The calls of the loop body of `EvolveBinaryStars` entered with status `CONTINUE`. -/
theorem bseIteration_events_cases (env : Env V) (opt : RunEnv V (BinaryCtor V))
    (hdr : List Str) (st st1 : BSERun V) (hc : st.evolutionStatus = .CONTINUE)
    (h : bseCreate env opt hdr st = some st1) :
    ((bseAfterCreate opt st1).1.events = st.events ∧
      (bseAfterCreate opt st1).1.evolutionStatus ≠ .CONTINUE ∧
      (bseAfterCreate opt st1).2 = false ∧
      (bseAfterCreate opt st1).1.index = st.index + 1 ∧
      (env.gridFilename ≠ [] ∧ (st.grid.isOpen = false ∨
        ∃ x, ReadBSEGridRecord env st.grid hdr st.lineNo = some x ∧
          (x.1.fail || x.2.2.isEmpty) = true))) ∨
    (∃ o, (bseAfterCreate opt st1).1.events =
        st.events ++ [Event.construct st.index o] ++
          [Event.evolve st.index (some o) (opt.Evolve (some o) st.index)] ∧
      (env.gridFilename ≠ [] → st.grid.isOpen = true ∧
        ∃ x, ReadBSEGridRecord env st.grid hdr st.lineNo = some x ∧
          (x.1.fail || x.2.2.isEmpty) = false) ∧
      (((bseAfterCreate opt st1).2 = true ∧ (bseAfterCreate opt st1).1.index = st.index ∧
          (bseAfterCreate opt st1).1.evolutionStatus = .CONTINUE ∧
          opt.AIS_ExploratoryPhase = true ∧ opt.ShouldStopExploratoryPhase st.index = true) ∨
        ((bseAfterCreate opt st1).2 = false ∧
          (bseAfterCreate opt st1).1.index = st.index + 1 ∧
          (opt.AIS_ExploratoryPhase && opt.ShouldStopExploratoryPhase st.index) = false ∧
          (bseAfterCreate opt st1).1.evolutionStatus =
            (if opt.CloseStandardFile st.index then EVOLUTION_STATUS.CONTINUE
             else EVOLUTION_STATUS.STOPPED)))) := by
  -- the part after the creation, for a state whose status is `CONTINUE`
  have hafter : ∀ (s : BSERun V) (o : BinaryCtor V), s.evolutionStatus = .CONTINUE →
      s.index = st.index → s.binary = some o →
      s.events = st.events ++ [Event.construct st.index o] →
      (bseAfterCreate opt s).1.events =
        st.events ++ [Event.construct st.index o] ++
          [Event.evolve st.index (some o) (opt.Evolve (some o) st.index)] ∧
      (((bseAfterCreate opt s).2 = true ∧ (bseAfterCreate opt s).1.index = st.index ∧
          (bseAfterCreate opt s).1.evolutionStatus = .CONTINUE ∧
          opt.AIS_ExploratoryPhase = true ∧ opt.ShouldStopExploratoryPhase st.index = true) ∨
        ((bseAfterCreate opt s).2 = false ∧
          (bseAfterCreate opt s).1.index = st.index + 1 ∧
          (opt.AIS_ExploratoryPhase && opt.ShouldStopExploratoryPhase st.index) = false ∧
          (bseAfterCreate opt s).1.evolutionStatus =
            (if opt.CloseStandardFile st.index then EVOLUTION_STATUS.CONTINUE
             else EVOLUTION_STATUS.STOPPED))) := by
    intro s o hs hi hb he
    cases ha : (opt.AIS_ExploratoryPhase && opt.ShouldStopExploratoryPhase st.index)
    · cases hcl : opt.CloseStandardFile st.index
      · have e : bseAfterCreate opt s =
            ({ s with
              events := s.events ++ [Event.evolve s.index s.binary (opt.Evolve s.binary s.index)]
              evolutionStatus := .STOPPED
              index := s.index + 1 }, false) := by
          unfold bseAfterCreate
          simp only [hs, hi, ha, if_true, if_false, hcl, Bool.not_false, Bool.false_eq_true]
        rw [e]
        refine ⟨by simp [he, hi, hb], Or.inr ⟨rfl, by simp [hi], rfl, by simp⟩⟩
      · have e : bseAfterCreate opt s =
            ({ s with
              events := s.events ++ [Event.evolve s.index s.binary (opt.Evolve s.binary s.index)]
              index := s.index + 1 }, false) := by
          unfold bseAfterCreate
          simp only [hs, hi, ha, if_true, if_false, hcl, Bool.not_true, Bool.false_eq_true]
        rw [e]
        refine ⟨by simp [he, hi, hb], Or.inr ⟨rfl, by simp [hi], rfl, by simp [hs]⟩⟩
    · have e : bseAfterCreate opt s =
          ({ s with
            events := s.events ++ [Event.evolve s.index s.binary (opt.Evolve s.binary s.index)] },
            true) := by
        unfold bseAfterCreate
        simp only [hs, hi, ha, if_true]
      have ha' := ha
      simp only [Bool.and_eq_true] at ha'
      rw [e]
      refine ⟨by simp [he, hi, hb], Or.inl ⟨rfl, by simp [hi], hs, ha'.1, ha'.2⟩⟩
  have hstop : ∀ (s : BSERun V), s.evolutionStatus ≠ .CONTINUE → s.index = st.index →
      s.events = st.events →
      (bseAfterCreate opt s).1.events = st.events ∧
      (bseAfterCreate opt s).1.evolutionStatus ≠ .CONTINUE ∧
      (bseAfterCreate opt s).2 = false ∧ (bseAfterCreate opt s).1.index = st.index + 1 := by
    intro s hs hi he
    have e : bseAfterCreate opt s = ({ s with index := s.index + 1 }, false) := by
      unfold bseAfterCreate
      simp only [hs, if_false]
    rw [e]
    exact ⟨he, hs, rfl, by simp [hi]⟩
  unfold bseCreate at h
  by_cases hg : env.gridFilename = []
  · simp only [hg, List.isEmpty_nil, Bool.not_true, Bool.false_eq_true, if_false,
      Option.some.injEq] at h
    subst h
    right
    obtain ⟨a1, a2⟩ := hafter
      { st with
        binary := some (if opt.IndividualSystem then individualBinary env opt st.index
          else BinaryCtor.random st.index)
        events := st.events ++ [Event.construct st.index
          (if opt.IndividualSystem then individualBinary env opt st.index
            else BinaryCtor.random st.index)] }
      _ hc rfl rfl rfl
    exact ⟨_, a1, fun h => absurd hg h, a2⟩
  · simp only [isEmpty_false_of_ne_nil hg, Bool.not_false, if_true] at h
    cases ho : st.grid.isOpen
    · simp only [ho, Bool.false_eq_true, if_false, Option.some.injEq] at h
      subst h
      left
      obtain ⟨a1, a2, a3, a4⟩ := hstop { st with evolutionStatus := .STOPPED } (by simp) rfl rfl
      exact ⟨a1, a2, a3, a4, hg, Or.inl rfl⟩
    · simp only [ho, if_true] at h
      cases hr : ReadBSEGridRecord env st.grid hdr st.lineNo with
      | none => rw [hr] at h; exact absurd h (by simp)
      | some x =>
        obtain ⟨g, lineNo, gV⟩ := x
        rw [hr] at h
        simp only [] at h
        cases hf : (g.fail || gV.isEmpty)
        · simp only [hf, Bool.false_eq_true, if_false, Option.some.injEq] at h
          subst h
          right
          obtain ⟨a1, a2⟩ := hafter
            { st with
              grid := g
              lineNo := lineNo
              nBinaries := st.nBinaries + 1
              binary := some (BinaryCtor.specified (gridBinaryArgs hdr gV) st.index)
              events := st.events ++
                [Event.construct st.index (BinaryCtor.specified (gridBinaryArgs hdr gV) st.index)] }
            _ hc rfl rfl rfl
          exact ⟨_, a1, fun _ => ⟨rfl, _, rfl, hf⟩, a2⟩
        · simp only [hf, if_true, Option.some.injEq] at h
          subst h
          left
          obtain ⟨a1, a2, a3, a4⟩ := hstop
            { st with
              grid := g.close
              lineNo := lineNo
              evolutionStatus :=
                if gV.isEmpty then EVOLUTION_STATUS.STOPPED else EVOLUTION_STATUS.DONE }
            (by simp only []; split <;> simp) rfl rfl
          exact ⟨a1, a2, a3, a4, hg, Or.inr ⟨_, rfl, hf⟩⟩

/-- What holds of every run of `EvolveSingleStars`: it returns; the calls are those of
iterations of increasing index, each constructing a star and evolving that star; and an
iteration whose close failed was the last one and left the status `STOPPED`. -/
theorem EvolveSingleStars_invariant (env : Env V) (opt : RunEnv V (StarArgs V)) :
    ∃ r, EvolveSingleStars env opt = Outcome.finished r ∧
      EvolvedWhereConstructed r.events r.index ∧
      (∀ j, j < r.index → opt.CloseStandardFile j = false →
        r.evolutionStatus = .STOPPED ∧ r.index = j + 1) := by
  obtain ⟨s1, s2, s3, s4, -⟩ := sseStart_spec env opt
  obtain ⟨st', h1, -, -⟩ := sseLoop_terminates env opt (sseStart env opt).2
    ((sseStart env opt).1.grid.content.length + opt.SingleStarMassSteps.toNat + 2)
    (sseStart env opt).1 (fun _ _ => by omega)
    (fun _ hg => by
      rw [s4 hg]
      show (opt.SingleStarMassSteps - ((0 : Nat) : Int)).toNat ≤ _
      simp only [Nat.cast_zero, sub_zero]
      omega)
    (Or.inl s1)
  have hinv := sseLoop_invariant env opt (sseStart env opt).2
    (fun st => EvolvedWhereConstructed st.events st.index ∧
      (∀ j, j < st.index → opt.CloseStandardFile j = false →
        st.evolutionStatus = .STOPPED ∧ st.index = j + 1))
    (fun st hP hc _ => by
      obtain ⟨p1, p2⟩ := hP
      refine ⟨?_, ?_⟩
      · rw [sseIteration_index]
        rcases sseIteration_events_cases env opt (sseStart env opt).2 st hc with
          ⟨e, -, -⟩ | ⟨o, e, -⟩
        · rw [e]
          exact EvolvedWhereConstructed_mono _ _ _ (Nat.le_succ _) p1
        · rw [e]
          exact EvolvedWhereConstructed_append _ _ _ _ p1
      · intro j hj hcl
        rw [sseIteration_index] at hj ⊢
        by_cases hlt : j < st.index
        · have := (p2 j hlt hcl).1
          rw [hc] at this
          exact absurd this (by simp)
        · have hje : j = st.index := by omega
          subst hje
          rw [sseIteration_status, hcl]
          exact ⟨by simp, rfl⟩)
    _ _ st'
    ⟨by rw [s3, s2]; exact ⟨[], rfl, List.Pairwise.nil, fun p hp => absurd hp (by simp)⟩,
      fun j hj => by rw [s2] at hj; exact absurd hj (by omega)⟩ h1
  obtain ⟨q1, q2⟩ := hinv
  have hE : EvolveSingleStars env opt = Outcome.finished
      (if st'.evolutionStatus = .CONTINUE ∧ (st'.index : Int) ≥ st'.nStars then
        { st' with evolutionStatus := .DONE }
      else st') := by
    unfold EvolveSingleStars
    simp only [h1]
  refine ⟨_, hE, ?_, ?_⟩
  · split
    · exact q1
    · exact q1
  · intro j hj hcl
    have hj' : j < st'.index := by
      split at hj
      · exact hj
      · exact hj
    obtain ⟨a, b⟩ := q2 j hj' hcl
    have hn : ¬ (st'.evolutionStatus = .CONTINUE ∧ (st'.index : Int) ≥ st'.nStars) := by
      rw [a]
      simp
    simp only [hn, if_false]
    exact ⟨a, b⟩

/-- What holds of every run of `EvolveBinaryStars` that returns: the calls are those of
iterations of increasing index, each constructing a binary and evolving that binary; and an
iteration that evolved its binary and whose close failed was the last one and left the
status `STOPPED`. -/
theorem EvolveBinaryStars_invariant (env : Env V) (opt : RunEnv V (BinaryCtor V))
    (r : BSERun V) (h : EvolveBinaryStars env opt = Outcome.finished r) :
    EvolvedWhereConstructed r.events (r.index + 1) ∧
    (∀ j, j < r.index → (∃ o res, Event.evolve j o res ∈ r.events) →
      opt.CloseStandardFile j = false →
      r.evolutionStatus = .STOPPED ∧ r.index = j + 1 ∧
      EvolvedWhereConstructed r.events r.index) := by
  have hinv := bseLoop_invariant env opt (bseStart env opt).2
    (fun st => EvolvedWhereConstructed st.events st.index ∧
      (∀ j, j < st.index → (∃ o res, Event.evolve j o res ∈ st.events) →
        opt.CloseStandardFile j = false →
        st.evolutionStatus = .STOPPED ∧ st.index = j + 1))
    (fun st => EvolvedWhereConstructed st.events (st.index + 1) ∧
      (st.evolutionStatus ≠ .CONTINUE → EvolvedWhereConstructed st.events st.index) ∧
      (∀ j, j < st.index → (∃ o res, Event.evolve j o res ∈ st.events) →
        opt.CloseStandardFile j = false →
        st.evolutionStatus = .STOPPED ∧ st.index = j + 1))
    (fun st hP => ⟨EvolvedWhereConstructed_mono _ _ _ (Nat.le_succ _) hP.1, fun _ => hP.1,
      hP.2⟩)
    (fun st st1 hP hc _ hcr => by
      obtain ⟨p1, p2⟩ := hP
      have hold : ∀ j, j < st.index → (∃ o res, Event.evolve j o res ∈ st.events) →
          opt.CloseStandardFile j = false → False := by
        intro j hj he hcl
        have := (p2 j hj he hcl).1
        rw [hc] at this
        exact absurd this (by simp)
      have hnew : ∀ (o : BinaryCtor V) (j : Nat), j < st.index →
          (∃ o' res, Event.evolve j o' res ∈ st.events ++ [Event.construct st.index o] ++
            [Event.evolve st.index (some o) (opt.Evolve (some o) st.index)]) →
          ∃ o' res, Event.evolve j o' res ∈ st.events := by
        intro o j hj ⟨o', res, hm⟩
        simp only [List.mem_append, List.mem_singleton] at hm
        rcases hm with (hm | hm) | hm
        · exact ⟨o', res, hm⟩
        · exact absurd hm (by simp)
        · simp only [Event.evolve.injEq] at hm
          omega
      rcases bseIteration_events_cases env opt (bseStart env opt).2 st st1 hc hcr with
        ⟨e, hs, hb, hi, -⟩ | ⟨o, e, -, ⟨hb, hi, hs, -, -⟩ | ⟨hb, hi, -, hs⟩⟩
      · refine ⟨fun _ => ⟨?_, ?_⟩, fun h => absurd h (by simp [hb])⟩
        · rw [e, hi]
          exact EvolvedWhereConstructed_mono _ _ _ (Nat.le_succ _) p1
        · intro j hj he hcl
          rw [e] at he
          rw [hi] at hj
          by_cases hlt : j < st.index
          · exact absurd (hold j hlt he hcl) id
          · have hje : j = st.index := by omega
            subst hje
            obtain ⟨o', res, hm⟩ := he
            have := EvolvedWhereConstructed_index _ _ p1 _ hm
            simp only [Event.index] at this
            omega
      · refine ⟨fun h => absurd h (by simp [hb]), fun _ => ⟨?_, ?_, ?_⟩⟩
        · rw [e, hi]
          exact EvolvedWhereConstructed_append _ _ _ _ p1
        · intro h
          exact absurd hs h
        · intro j hj he hcl
          rw [e] at he
          rw [hi] at hj
          exact absurd (hold j hj (hnew o j hj he) hcl) id
      · refine ⟨fun _ => ⟨?_, ?_⟩, fun h => absurd h (by simp [hb])⟩
        · rw [e, hi]
          exact EvolvedWhereConstructed_append _ _ _ _ p1
        · intro j hj he hcl
          rw [e] at he
          rw [hi] at hj ⊢
          by_cases hlt : j < st.index
          · exact absurd (hold j hlt (hnew o j hlt he) hcl) id
          · have hje : j = st.index := by omega
            subst hje
            rw [hs, hcl]
            exact ⟨by simp, rfl⟩)
  obtain ⟨s1, s2, s3⟩ : (bseStart env opt).1.index = 0 ∧ (bseStart env opt).1.events = [] ∧
      True := by
    unfold bseStart
    split <;> exact ⟨rfl, rfl, trivial⟩
  have hstart : EvolvedWhereConstructed (bseStart env opt).1.events (bseStart env opt).1.index ∧
      (∀ j, j < (bseStart env opt).1.index →
        (∃ o res, Event.evolve j o res ∈ (bseStart env opt).1.events) →
        opt.CloseStandardFile j = false →
        (bseStart env opt).1.evolutionStatus = .STOPPED ∧
          (bseStart env opt).1.index = j + 1) :=
    ⟨by rw [s2, s1]; exact ⟨[], rfl, List.Pairwise.nil, fun p hp => absurd hp (by simp)⟩,
      fun j hj => by rw [s1] at hj; exact absurd hj (by omega)⟩
  unfold EvolveBinaryStars at h
  simp only [] at h
  cases hl : bseLoop env opt (bseStart env opt).2
      ((bseStart env opt).1.grid.content.length + opt.NBinaries.toNat + 2)
      (bseStart env opt).1 with
  | undefinedBehaviour => rw [hl] at h; exact absurd h (by simp)
  | fuelExhausted => rw [hl] at h; exact absurd h (by simp)
  | finished st' =>
    rw [hl] at h
    simp only [Outcome.finished.injEq] at h
    obtain ⟨q1, q2, q3⟩ := hinv _ _ st' hstart hl
    subst h
    refine ⟨?_, ?_⟩
    · split
      · exact q1
      · exact q1
    · intro j hj he hcl
      have hj' : j < st'.index := by
        split at hj
        · exact hj
        · exact hj
      have he' : ∃ o res, Event.evolve j o res ∈ st'.events := by
        split at he
        · exact he
        · exact he
      obtain ⟨a, b⟩ := q3 j hj' he' hcl
      have hn : ¬ (st'.evolutionStatus = .CONTINUE ∧ (st'.index : Int) ≥ st'.nBinaries) := by
        rw [a]
        simp
      simp only [hn, if_false]
      exact ⟨a, b, q2 (by rw [a]; simp)⟩
end

section
variable {V : Type} [LinearOrderedField V]

/-- With a grid file named and the grid closed after `OpenSSEGridFile`, `EvolveSingleStars`
makes one iteration, which finds the grid closed and sets `STOPPED`. -/
theorem EvolveSingleStars_closed (env : Env V) (opt : RunEnv V (StarArgs V))
    (hg : env.gridFilename ≠ []) (ho : (OpenSSEGridFile env IfStream.fresh).1.isOpen = false) :
    EvolveSingleStars env opt =
      Outcome.finished ⟨.STOPPED, 1, 1, (OpenSSEGridFile env IfStream.fresh).1,
        (OpenSSEGridFile env IfStream.fresh).2.1, none, []⟩ := by
  obtain ⟨-, -, -, -, s5⟩ := sseStart_spec env opt
  have e1 : sseIteration env opt (OpenSSEGridFile env IfStream.fresh).2.2
      ⟨.CONTINUE, 0, 1, (OpenSSEGridFile env IfStream.fresh).1,
        (OpenSSEGridFile env IfStream.fresh).2.1, none, []⟩ =
      ⟨.STOPPED, 1, 1, (OpenSSEGridFile env IfStream.fresh).1,
        (OpenSSEGridFile env IfStream.fresh).2.1, none, []⟩ := by
    unfold sseIteration
    rw [sseCreate_closed env opt _ _ hg ho]
    unfold sseEvolve sseClose
    simp only [reduceCtorEq, if_false]
    split <;> rfl
  unfold EvolveSingleStars
  rw [s5 hg]
  simp only []
  rw [show (OpenSSEGridFile env IfStream.fresh).1.content.length +
      opt.SingleStarMassSteps.toNat + 2 =
      ((OpenSSEGridFile env IfStream.fresh).1.content.length +
        opt.SingleStarMassSteps.toNat + 1) + 1 from rfl]
  unfold sseLoop
  simp only [Nat.cast_zero, zero_lt_one, and_self, if_true, e1]
  unfold sseLoop
  simp

/-- With a grid file named and the grid closed after `OpenBSEGridFile`, `EvolveBinaryStars`
sets `ERROR` and makes no iteration. -/
theorem EvolveBinaryStars_closed (env : Env V) (opt : RunEnv V (BinaryCtor V))
    (hg : env.gridFilename ≠ []) (ho : (OpenBSEGridFile env IfStream.fresh).1.isOpen = false) :
    EvolveBinaryStars env opt =
      Outcome.finished ⟨.ERROR, 0, opt.NBinaries, (OpenBSEGridFile env IfStream.fresh).1,
        (OpenBSEGridFile env IfStream.fresh).2.1, none, []⟩ := by
  have hs : bseStart env opt =
      (⟨.ERROR, 0, opt.NBinaries, (OpenBSEGridFile env IfStream.fresh).1,
        (OpenBSEGridFile env IfStream.fresh).2.1, none, []⟩,
        (OpenBSEGridFile env IfStream.fresh).2.2) := by
    unfold bseStart
    simp [isEmpty_false_of_ne_nil hg, ho]
  unfold EvolveBinaryStars
  rw [hs]
  simp only []
  unfold bseLoop
  simp
end

section
variable {V : Type} [LinearOrderedField V]

/-- C31: in every run of `EvolveSingleStars` (which always returns) and in every run of
`EvolveBinaryStars` that returns, an iteration `i` in which the close of the output file
was called and failed is the last one: the final status is `STOPPED`, the loop index is
`i + 1`, and no constructor call or call of `Evolve` has an index above `i`.
`EvolveSingleStars` calls the close in every iteration; `EvolveBinaryStars` calls it in
the iterations that evolved their binary and were not left by the early stop, which are
the `i` below the final index with a call of `Evolve`. -/
theorem C31_close_failure_stops (env : Env V) (optS : RunEnv V (StarArgs V))
    (optB : RunEnv V (BinaryCtor V)) :
    (∃ r, EvolveSingleStars env optS = Outcome.finished r ∧
      ∀ i, i < r.index → optS.CloseStandardFile i = false →
        r.evolutionStatus = .STOPPED ∧ r.index = i + 1 ∧ ∀ e ∈ r.events, e.index ≤ i) ∧
    (∀ r, EvolveBinaryStars env optB = Outcome.finished r →
      ∀ i, i < r.index → (∃ o res, Event.evolve i o res ∈ r.events) →
        optB.CloseStandardFile i = false →
        r.evolutionStatus = .STOPPED ∧ r.index = i + 1 ∧ ∀ e ∈ r.events, e.index ≤ i) := by
  refine ⟨?_, ?_⟩
  · obtain ⟨r, hr, h1, h2⟩ := EvolveSingleStars_invariant env optS
    refine ⟨r, hr, fun i hi hcl => ?_⟩
    obtain ⟨a, b⟩ := h2 i hi hcl
    refine ⟨a, b, fun e he => ?_⟩
    have := EvolvedWhereConstructed_index _ _ h1 e he
    omega
  · intro r hr i hi he hcl
    obtain ⟨a, b, c⟩ := (EvolveBinaryStars_invariant env optB r hr).2 i hi he hcl
    refine ⟨a, b, fun e he => ?_⟩
    have := EvolvedWhereConstructed_index _ _ c e he
    omega

theorem C31_close_failure_stops_witness :
    (∃ r, EvolveSingleStars (noGridEnv (71 / 5000)) (demoOptionsCloseFails (StarArgs ℚ)) =
        Outcome.finished r ∧ r.evolutionStatus = .STOPPED ∧ r.index = 2) ∧
    (∃ r, EvolveBinaryStars (noGridEnv (71 / 5000)) (demoOptionsCloseFails (BinaryCtor ℚ)) =
        Outcome.finished r ∧ r.evolutionStatus = .STOPPED ∧ r.index = 2) :=
  ⟨(C31_close_failure_stops (noGridEnv (71 / 5000)) (demoOptionsCloseFails (StarArgs ℚ))
      (demoOptionsCloseFails (BinaryCtor ℚ))).1.imp
      (fun r h =>
        have hi : 1 < r.index := by
          have e := h.1.symm.trans (show EvolveSingleStars (noGridEnv (71 / 5000))
            (demoOptionsCloseFails (StarArgs ℚ)) = Outcome.finished ⟨.STOPPED, 2, 3,
              IfStream.fresh, 0, some ⟨43, 5 / 3, 71 / 5000⟩,
              [Event.construct 0 ⟨42, 1, 71 / 5000⟩,
               Event.evolve 0 (some ⟨42, 1, 71 / 5000⟩) .DONE,
               Event.construct 1 ⟨43, 5 / 3, 71 / 5000⟩,
               Event.evolve 1 (some ⟨43, 5 / 3, 71 / 5000⟩) .ERROR]⟩ by decide!)
          simp only [Outcome.finished.injEq] at e
          rw [e]
          decide
        ⟨h.1, (h.2 1 hi rfl).1, (h.2 1 hi rfl).2.1⟩),
    ⟨_, (show EvolveBinaryStars (noGridEnv (71 / 5000))
        (demoOptionsCloseFails (BinaryCtor ℚ)) = Outcome.finished ⟨.STOPPED, 2, 2,
          IfStream.fresh, 0, some (BinaryCtor.random 1),
          [Event.construct 0 (BinaryCtor.random 0),
           Event.evolve 0 (some (BinaryCtor.random 0)) .DONE,
           Event.construct 1 (BinaryCtor.random 1),
           Event.evolve 1 (some (BinaryCtor.random 1)) .ERROR]⟩ by decide!),
      ((C31_close_failure_stops (noGridEnv (71 / 5000)) (demoOptionsCloseFails (StarArgs ℚ))
        (demoOptionsCloseFails (BinaryCtor ℚ))).2 _ (by decide!) 1 (by decide)
        ⟨some (BinaryCtor.random 1), .ERROR, by simp⟩ rfl).1,
      rfl⟩⟩

/-- C38: with a grid file that cannot be opened, and with one whose header line is rejected,
`EvolveSingleStars` ends with status `STOPPED` after one iteration that constructs and
evolves nothing, whereas `EvolveBinaryStars` ends with status `ERROR` without making an
iteration. -/
theorem C38_closed_grid_single_stars_stopped :
    EvolveSingleStars (ratEnv none 0) (demoOptions (StarArgs ℚ)) =
      Outcome.finished ⟨.STOPPED, 1, 1, ⟨[], 0, false, false, true⟩, 1, none, []⟩ ∧
    EvolveBinaryStars (ratEnv none 0) (demoOptions (BinaryCtor ℚ)) =
      Outcome.finished ⟨.ERROR, 0, 2, ⟨[], 0, false, false, true⟩, 1, none, []⟩ ∧
    EvolveSingleStars (ratEnv (some demoStarFileRejected) 0) (demoOptions (StarArgs ℚ)) =
      Outcome.finished ⟨.STOPPED, 1, 1, ⟨demoStarFileRejected, 12, false, false, false⟩, 2,
        none, []⟩ ∧
    EvolveBinaryStars (ratEnv (some demoStarFileRejected) 0) (demoOptions (BinaryCtor ℚ)) =
      Outcome.finished ⟨.ERROR, 0, 2, ⟨demoStarFileRejected, 12, false, false, false⟩, 2,
        none, []⟩ := by
  refine ⟨?_, ?_, ?_, ?_⟩
  · rw [EvolveSingleStars_closed _ _ (by decide) (by decide)]
    decide
  · rw [EvolveBinaryStars_closed _ _ (by decide) (by decide)]
    decide
  · rw [EvolveSingleStars_closed _ _ (by decide) (by decide)]
    decide
  · rw [EvolveBinaryStars_closed _ _ (by decide) (by decide)]
    decide

/-- C40: in every run of `EvolveSingleStars` (which always returns) and in every run of
`EvolveBinaryStars` that returns, the calls are those of iterations of increasing index,
each of which constructs an object and then calls `Evolve` through the pointer to that
object: `Evolve` is never called on a null pointer or on an object of an earlier iteration.
An iteration that finds the grid closed, or whose read fails or returns no values, makes no
call, and with the grid closed after the header is read the run makes no call at all. -/
theorem C40_evolve_on_constructed (env : Env V) (optS : RunEnv V (StarArgs V))
    (optB : RunEnv V (BinaryCtor V)) :
    (∃ r, EvolveSingleStars env optS = Outcome.finished r ∧
      EvolvedWhereConstructed r.events r.index ∧
      (env.gridFilename ≠ [] → (OpenSSEGridFile env IfStream.fresh).1.isOpen = false →
        r.events = [])) ∧
    (∀ r, EvolveBinaryStars env optB = Outcome.finished r →
      EvolvedWhereConstructed r.events (r.index + 1) ∧
      (env.gridFilename ≠ [] → (OpenBSEGridFile env IfStream.fresh).1.isOpen = false →
        r.events = [])) ∧
    (∀ (hdr : List Str) (st : SSERun V), st.evolutionStatus = .CONTINUE →
      env.gridFilename ≠ [] →
      (st.grid.isOpen = false ∨
        ((ReadSSEGridRecord env st.grid hdr st.lineNo).1.fail ||
          (ReadSSEGridRecord env st.grid hdr st.lineNo).2.2.isEmpty) = true) →
      (sseIteration env optS hdr st).events = st.events) ∧
    (∀ (hdr : List Str) (st st1 : BSERun V) (b : Bool), st.evolutionStatus = .CONTINUE →
      env.gridFilename ≠ [] → bseIteration env optB hdr st = some (st1, b) →
      (st.grid.isOpen = false ∨
        ∃ x, ReadBSEGridRecord env st.grid hdr st.lineNo = some x ∧
          (x.1.fail || x.2.2.isEmpty) = true) →
      st1.events = st.events) := by
  refine ⟨?_, ?_, ?_, ?_⟩
  · obtain ⟨r, hr, h1, -⟩ := EvolveSingleStars_invariant env optS
    refine ⟨r, hr, h1, fun hg ho => ?_⟩
    rw [EvolveSingleStars_closed env optS hg ho] at hr
    simp only [Outcome.finished.injEq] at hr
    rw [← hr]
  · intro r hr
    refine ⟨(EvolveBinaryStars_invariant env optB r hr).1, fun hg ho => ?_⟩
    rw [EvolveBinaryStars_closed env optB hg ho] at hr
    simp only [Outcome.finished.injEq] at hr
    rw [← hr]
  · intro hdr st hc hg hbad
    rcases sseIteration_events_cases env optS hdr st hc with ⟨e, -, -⟩ | ⟨o, -, h⟩
    · exact e
    · obtain ⟨h1, h2⟩ := h hg
      rcases hbad with hbad | hbad
      · rw [h1] at hbad
        exact absurd hbad (by simp)
      · rw [h2] at hbad
        exact absurd hbad (by simp)
  · intro hdr st st1 b hc hg hit hbad
    unfold bseIteration at hit
    cases hcr : bseCreate env optB hdr st with
    | none => rw [hcr] at hit; exact absurd hit (by simp)
    | some s =>
      rw [hcr] at hit
      simp only [Option.map_some', Option.some.injEq] at hit
      have e1 : st1 = (bseAfterCreate optB s).1 := by rw [hit]
      rw [e1]
      rcases bseIteration_events_cases env optB hdr st s hc hcr with
        ⟨e, -, -, -, -⟩ | ⟨o, -, h, -⟩
      · exact e
      · obtain ⟨h1, x, h2, h3⟩ := h hg
        rcases hbad with hbad | ⟨y, hy, hbad⟩
        · rw [h1] at hbad
          exact absurd hbad (by simp)
        · rw [h2] at hy
          simp only [Option.some.injEq] at hy
          subst hy
          rw [h3] at hbad
          exact absurd hbad (by simp)

theorem C40_evolve_on_constructed_witness :
    (∃ r, EvolveBinaryStars (ratEnv (some demoFileBoth) 0) (demoOptions (BinaryCtor ℚ)) =
        Outcome.finished r ∧ EvolvedWhereConstructed r.events (r.index + 1)) ∧
    (∃ r, EvolveBinaryStars (ratEnv none 0) (demoOptions (BinaryCtor ℚ)) =
        Outcome.finished r ∧ r.events = []) :=
  ⟨(show ∃ r, EvolveBinaryStars (ratEnv (some demoFileBoth) 0) (demoOptions (BinaryCtor ℚ)) =
        Outcome.finished r from by
      cases h : EvolveBinaryStars (ratEnv (some demoFileBoth) 0) (demoOptions (BinaryCtor ℚ)) with
      | finished r => exact ⟨r, rfl⟩
      | undefinedBehaviour => exact absurd h (by decide!)
      | fuelExhausted => exact absurd h (by decide!)).imp
      (fun r h => ⟨h, ((C40_evolve_on_constructed (ratEnv (some demoFileBoth) 0)
        (demoOptions (StarArgs ℚ)) (demoOptions (BinaryCtor ℚ))).2.1 r h).1⟩),
    ⟨_, EvolveBinaryStars_closed _ _ (by decide) (by decide),
      ((C40_evolve_on_constructed (ratEnv none 0)
        (demoOptions (StarArgs ℚ)) (demoOptions (BinaryCtor ℚ))).2.1 _
        (EvolveBinaryStars_closed _ _ (by decide) (by decide))).2 (by decide) (by decide)⟩⟩
end

/-! ## Header lines: letter case -/

/-- Upper-casing neither makes nor unmakes a character below the letters of ASCII (the comma,
the comment sign, the blank, the line ends). -/
theorem toUpper_eq_iff (c x : Char) (hx : x.toNat < 65) : c.toUpper = x ↔ c = x := by
  constructor
  · intro heq
    unfold Char.toUpper at heq
    by_cases hr : c.toNat ≥ 97 ∧ c.toNat ≤ 122
    · simp only [hr, and_self, if_true] at heq
      obtain ⟨h1, h2⟩ := hr
      subst heq
      generalize c.toNat = n at h1 h2 hx
      exfalso
      revert hx
      interval_cases n <;> decide
    · simp only [hr, if_false] at heq
      exact heq
  · intro heq
    subst heq
    unfold Char.toUpper
    have : ¬ (c.toNat ≥ 97 ∧ c.toNat ≤ 122) := by omega
    simp only [this, if_false]

theorem ToUpper_pruneComment (l : Str) : ToUpper (pruneComment l) = pruneComment (ToUpper l) := by
  unfold ToUpper pruneComment
  rw [List.takeWhile_map]
  congr 2
  funext c
  have := toUpper_eq_iff c '#' (by decide)
  rw [Bool.eq_iff_iff]
  simp only [Function.comp_apply, bne_iff_ne, ne_eq, this]

theorem ToUpper_stripLeading (l : Str) : ToUpper (stripLeading l) = stripLeading (ToUpper l) := by
  unfold ToUpper stripLeading
  rw [List.dropWhile_map]
  congr 2
  funext c
  have := toUpper_eq_iff c ' ' (by decide)
  rw [Bool.eq_iff_iff]
  simp only [Function.comp_apply, beq_iff_eq, this]

theorem ToUpper_stripTrailing (l : Str) :
    ToUpper (stripTrailing l) = stripTrailing (ToUpper l) := by
  unfold ToUpper stripTrailing List.rdropWhile
  conv_lhs => rw [List.map_reverse]
  conv_rhs => rw [← List.map_reverse, List.dropWhile_map]
  congr 3
  funext c
  have h1 := toUpper_eq_iff c ' ' (by decide)
  have h2 := toUpper_eq_iff c '\r' (by decide)
  have h3 := toUpper_eq_iff c '\n' (by decide)
  rw [Bool.eq_iff_iff]
  simp only [Function.comp_apply, Bool.or_eq_true, beq_iff_eq, h1, h2, h3]

theorem ToUpper_normHeader (l : Str) : ToUpper (normHeader l) = normHeader (ToUpper l) := by
  unfold normHeader trimToken
  rw [ToUpper_stripTrailing, ToUpper_stripLeading, ToUpper_pruneComment]

/-- Lines that differ in letter case only give the same header tokens. -/
theorem headerTokens_case (line line' : Str) (h : ToUpper line' = ToUpper line) :
    headerTokens line' = headerTokens line := by
  unfold headerTokens
  rw [ToUpper_normHeader, ToUpper_normHeader, h]

theorem case_newline (line line' : Str) (h : ToUpper line' = ToUpper line)
    (hl : '\n' ∉ line) : '\n' ∉ line' := by
  intro hm
  have : '\n' ∈ ToUpper line' := by
    unfold ToUpper
    exact List.mem_map.2 ⟨'\n', hm, rfl⟩
  rw [h] at this
  unfold ToUpper at this
  obtain ⟨c, hc, he⟩ := List.mem_map.1 this
  rw [(toUpper_eq_iff c '\n' (by decide)).1 he] at hc
  exact hl hc

theorem case_normHeader_ne_nil (line line' : Str) (h : ToUpper line' = ToUpper line)
    (hne : normHeader line ≠ []) : normHeader line' ≠ [] := by
  intro he
  have h1 : ToUpper (normHeader line') = ToUpper (normHeader line) := by
    rw [ToUpper_normHeader, ToUpper_normHeader, h]
  rw [he] at h1
  exact ToUpper_ne_nil _ hne h1.symm

theorem vocabulary_upper :
    (∀ t ∈ sseVocabulary, ToUpper t = t) ∧ (∀ t ∈ bseVocabulary, ToUpper t = t) := by
  decide

/-- C32: header recognition does not depend on letter case. For two grid files that differ
only in the letter case of characters of the header line (the first line left non-empty by
the normalisation), `OpenSSEGridFile` and `OpenBSEGridFile` agree on whether the grid is left
open, on the returned line number and on the returned header list; and every string of the
returned list is a member of the vocabulary of the schema, in upper case. -/
theorem C32_header_case_insensitive {V : Type} (env env' : Env V) (blanks : List Str)
    (line line' : Str) (tail : Option Str)
    (hname : env.gridFilename ≠ []) (hname' : env'.gridFilename ≠ [])
    (hfile : env.gridFile = some (fileText blanks line tail))
    (hfile' : env'.gridFile = some (fileText blanks line' tail))
    (hb : ∀ b ∈ blanks, '\n' ∉ b ∧ normHeader b = [])
    (hl : '\n' ∉ line) (hne : normHeader line ≠ [])
    (hcase : ToUpper line' = ToUpper line) :
    ((OpenSSEGridFile env' IfStream.fresh).1.isOpen =
        (OpenSSEGridFile env IfStream.fresh).1.isOpen ∧
      (OpenSSEGridFile env' IfStream.fresh).2 = (OpenSSEGridFile env IfStream.fresh).2 ∧
      ∀ t ∈ (OpenSSEGridFile env IfStream.fresh).2.2, t ∈ sseVocabulary ∧ ToUpper t = t) ∧
    ((OpenBSEGridFile env' IfStream.fresh).1.isOpen =
        (OpenBSEGridFile env IfStream.fresh).1.isOpen ∧
      (OpenBSEGridFile env' IfStream.fresh).2 = (OpenBSEGridFile env IfStream.fresh).2 ∧
      ∀ t ∈ (OpenBSEGridFile env IfStream.fresh).2.2, t ∈ bseVocabulary ∧ ToUpper t = t) := by
  have hl' := case_newline line line' hcase hl
  have hne' := case_normHeader_ne_nil line line' hcase hne
  have ht := headerTokens_case line line' hcase
  rw [OpenSSEGridFile_fileText env blanks line tail hname hfile hb hl hne,
    OpenSSEGridFile_fileText env' blanks line' tail hname' hfile' hb hl' hne',
    OpenBSEGridFile_fileText env blanks line tail hname hfile hb hl hne,
    OpenBSEGridFile_fileText env' blanks line' tail hname' hfile' hb hl' hne', ht]
  have hmemS : ∀ t ∈ (headerTokens line).filter (fun t => decide (t ∈ sseVocabulary)),
      t ∈ sseVocabulary ∧ ToUpper t = t := by
    intro t h
    have := (List.mem_filter.1 h).2
    simp only [decide_eq_true_eq] at this
    exact ⟨this, vocabulary_upper.1 t this⟩
  have hmemB : ∀ t ∈ (headerTokens line).filter (fun t => decide (t ∈ bseVocabulary)),
      t ∈ bseVocabulary ∧ ToUpper t = t := by
    intro t h
    have := (List.mem_filter.1 h).2
    simp only [decide_eq_true_eq] at this
    exact ⟨this, vocabulary_upper.2 t this⟩
  refine ⟨?_, ?_⟩
  · split
    · split
      · exact ⟨rfl, rfl, hmemS⟩
      · refine ⟨by simp only [seekg_isOpen, afterLine_isOpen], rfl, ?_⟩
        intro t h
        simp only [List.mem_singleton] at h
        subst h
        exact ⟨by decide, by decide⟩
    · exact ⟨by simp only [afterLine_isOpen], rfl, hmemS⟩
  · split
    · exact ⟨rfl, rfl, hmemB⟩
    · exact ⟨by simp only [afterLine_isOpen], rfl, hmemB⟩

theorem C32_header_case_insensitive_witness :
    (OpenBSEGridFile (ratEnv (some (fileText demoBlanks
        "mass_1,Mass_2,metallicity_1,METALLICITY_2,Period,eccentricity".toList none)) 0)
      IfStream.fresh).2 =
    (OpenBSEGridFile (ratEnv (some (fileText demoBlanks
        "Mass_1,Mass_2,Metallicity_1,Metallicity_2,Period,Eccentricity".toList none)) 0)
      IfStream.fresh).2 :=
  (C32_header_case_insensitive
    (ratEnv (some (fileText demoBlanks
      "Mass_1,Mass_2,Metallicity_1,Metallicity_2,Period,Eccentricity".toList none)) 0)
    (ratEnv (some (fileText demoBlanks
      "mass_1,Mass_2,metallicity_1,METALLICITY_2,Period,eccentricity".toList none)) 0)
    demoBlanks "Mass_1,Mass_2,Metallicity_1,Metallicity_2,Period,Eccentricity".toList
    "mass_1,Mass_2,metallicity_1,METALLICITY_2,Period,eccentricity".toList none
    (by decide) (by decide) rfl rfl (by decide) (by decide) (by decide) (by decide)).2.2.1

/-! ## Header lines: tabs, line numbers and column positions -/

/-- C33: the header parsers do not replace tabs. With a tab after the comma of the header
line `Mass,\tMetallicity`, `OpenSSEGridFile` does not recognise the second token and returns
the header list `MASS`; with a space in its place it returns `MASS, METALLICITY`. With a
line that holds only a tab before the header line, that line is taken for the first data row
of a file without header; with a space it is skipped. With a tab before the first comma of a
valid paired-object header line, `OpenBSEGridFile` closes the grid; with a space it leaves
it open with the six columns. -/
theorem C33_tabs_in_header_lines :
    ((OpenSSEGridFile (ratEnv (some demoStarFileTab) 0) IfStream.fresh).2 = (2, [sMASS]) ∧
      (OpenSSEGridFile (ratEnv (some demoStarFileSpace) 0) IfStream.fresh).2 =
        (2, [sMASS, sMETALLICITY])) ∧
    ((OpenSSEGridFile (ratEnv (some demoStarFileTabLine) 0) IfStream.fresh).2 = (2, [sMASS]) ∧
      (OpenSSEGridFile (ratEnv (some demoStarFileTabLine) 0) IfStream.fresh).1.pos = 0 ∧
      (OpenSSEGridFile (ratEnv (some demoStarFileSpaceLine) 0) IfStream.fresh).2 =
        (3, [sMASS, sMETALLICITY]) ∧
      (OpenSSEGridFile (ratEnv (some demoStarFileSpaceLine) 0) IfStream.fresh).1.pos = 19) ∧
    ((OpenBSEGridFile (ratEnv (some demoBinaryFileTab) 0) IfStream.fresh).1.isOpen = false ∧
      (OpenBSEGridFile (ratEnv (some demoBinaryFileSpace) 0) IfStream.fresh).1.isOpen = true ∧
      (OpenBSEGridFile (ratEnv (some demoBinaryFileSpace) 0) IfStream.fresh).2.2 =
        [sMASS_1, sMASS_2, sMETALLICITY_1, sMETALLICITY_2, sSEPARATION, sECCENTRICITY]) := by
  decide

/-- C35: on the file without header `1.5`, `2.5` (one value per line) `OpenSSEGridFile`
returns the line number 2 with the stream rewound to position 0, which lies in the physical
line 1: the following `ReadSSEGridRecord` reads the line 1 (mass 1.5) and returns the line
number 3 with the stream at the start of line 2. On the same rows after a header line `Mass`
the returned line number 2 is that of the line at the get position. -/
theorem C35_headerless_line_number :
    ((OpenSSEGridFile (ratEnv (some demoStarFileHeaderless) 0) IfStream.fresh).2 =
        (2, [sMASS]) ∧
      (OpenSSEGridFile (ratEnv (some demoStarFileHeaderless) 0) IfStream.fresh).1.pos = 0 ∧
      lineNumberAt demoStarFileHeaderless 0 = 1 ∧
      (ReadSSEGridRecord (ratEnv (some demoStarFileHeaderless) 0)
        (OpenSSEGridFile (ratEnv (some demoStarFileHeaderless) 0) IfStream.fresh).1
        [sMASS] 2).2 = (3, [3 / 2, 0]) ∧
      (ReadSSEGridRecord (ratEnv (some demoStarFileHeaderless) 0)
        (OpenSSEGridFile (ratEnv (some demoStarFileHeaderless) 0) IfStream.fresh).1
        [sMASS] 2).1.pos = 4 ∧
      lineNumberAt demoStarFileHeaderless 4 = 2) ∧
    ((OpenSSEGridFile (ratEnv (some demoStarFileMass) 0) IfStream.fresh).2 = (2, [sMASS]) ∧
      (OpenSSEGridFile (ratEnv (some demoStarFileMass) 0) IfStream.fresh).1.pos = 5 ∧
      lineNumberAt demoStarFileMass 5 = 2) := by
  decide!

/-- C37: the header line `Mass,Foo,Metallicity` is accepted, the grid is left open, and the
returned header list has the two entries `MASS, METALLICITY` for the three tokens of the
line; for the row `1,2,0.02` the metallicity stored is `2`, the field at position 1, not the
field `0.02` at the position 2 of the token `Metallicity`. -/
theorem C37_unknown_column_shifts_fields :
    (OpenSSEGridFile (ratEnv (some demoStarFileUnknown) 0) IfStream.fresh).1.isOpen = true ∧
    (headerTokens "Mass,Foo,Metallicity".toList).length = 3 ∧
    (OpenSSEGridFile (ratEnv (some demoStarFileUnknown) 0) IfStream.fresh).2 =
      (2, [sMASS, sMETALLICITY]) ∧
    (ReadSSEGridRecord (ratEnv (some demoStarFileUnknown) 0)
      (OpenSSEGridFile (ratEnv (some demoStarFileUnknown) 0) IfStream.fresh).1
      [sMASS, sMETALLICITY] 2).2 = (3, [1, 2]) := by
  decide!

/-! ## White dwarf: the mass brackets of CalculateetaPTY -/

/-- C36 (as stated, refuted): with a comparison `utils::Compare` of tolerance `5e-7` (and the
sample constants), the mass 0.6000002 lies in the bracket `0.6 < m ≤ 0.7` but gets the cubic
of the bracket `m ≤ 0.6`, whose value at the rate `-7` is above 0.006; and the mass 0.7000002
lies in the bracket `0.7 < m ≤ 0.81` but gets the final cubic with constant term -0.323,
whose value is below -0.32, although the mass is not above 0.92. With the plain comparison
the same two masses get the cubics of their brackets. -/
theorem C36_tolerance_bracket_counterexample :
    ((0.6 : ℝ) < 0.6000002 ∧ (0.6000002 : ℝ) ≤ 0.7 ∧
      0.006 < CalculateetaPTY { sampleWD ℝ with Compare := toleranceCompare 5e-7 }
        ⟨0.6000002, 0, 0, .HELIUM_FLASHES⟩ (-7) ∧
      CalculateetaPTY (sampleWD ℝ) ⟨0.6000002, 0, 0, .HELIUM_FLASHES⟩ (-7) < -0.03) ∧
    ((0.7 : ℝ) < 0.7000002 ∧ (0.7000002 : ℝ) ≤ 0.81 ∧ ¬ ((0.92 : ℝ) < 0.7000002) ∧
      CalculateetaPTY { sampleWD ℝ with Compare := toleranceCompare 5e-7 }
        ⟨0.7000002, 0, 0, .HELIUM_FLASHES⟩ (-7) < -0.32 ∧
      0.09 < CalculateetaPTY (sampleWD ℝ) ⟨0.7000002, 0, 0, .HELIUM_FLASHES⟩ (-7)) := by
  refine ⟨⟨by norm_num, by norm_num, ?_, ?_⟩, ⟨by norm_num, by norm_num, by norm_num, ?_, ?_⟩⟩
  · simp only [CalculateetaPTY, sampleWD, toleranceCompare, abs_le]
    norm_num
  · simp only [CalculateetaPTY, sampleWD, exactCompare]
    norm_num
  · simp only [CalculateetaPTY, sampleWD, toleranceCompare, abs_le]
    norm_num
  · simp only [CalculateetaPTY, sampleWD, exactCompare]
    norm_num

/-- C36 (amended): when `utils::Compare(x, y) <= 0` holds exactly for `x ≤ y + t`, with a
tolerance `t ≥ 0`, `CalculateetaPTY` evaluates the first cubic for `m ≤ 0.6 + t`, the
second for `0.6 + t < m ≤ 0.7`, the third for `0.7 + t < m ≤ 0.81 + t`, the fourth for
`0.81 + t < m ≤ 0.92 + t` and the final cubic with constant term -0.323 for `m > 0.92 + t`.
For `t = 0` these are the brackets `m ≤ 0.6`, `0.6 < m ≤ 0.7`, `0.7 < m ≤ 0.81`,
`0.81 < m ≤ 0.92` and `m > 0.92`, which are mutually exclusive and exhaustive. -/
theorem C36_etaPTY_brackets_amended {R : Type} [LinearOrderedField R] (env : WDEnv R)
    (wd : WhiteDwarf R) (r t : R) (ht : 0 ≤ t)
    (hcmp : ∀ x y, env.Compare x y ≤ 0 ↔ x ≤ y + t) :
    (wd.m_Mass ≤ 0.6 + t →
      CalculateetaPTY env wd r =
        6e-3 + 5.1e-2 * env.PPOW 10 r + 8.3e-3 * env.PPOW (env.PPOW 10 r) 2 -
          3.317e-4 * env.PPOW (env.PPOW 10 r) 3) ∧
    (0.6 + t < wd.m_Mass → wd.m_Mass ≤ 0.7 →
      CalculateetaPTY env wd r =
        -3.5e-2 + 7.5e-2 * env.PPOW 10 r - 1.8e-3 * env.PPOW (env.PPOW 10 r) 2 +
          3.266e-5 * env.PPOW (env.PPOW 10 r) 3) ∧
    (0.7 + t < wd.m_Mass → wd.m_Mass ≤ 0.81 + t →
      CalculateetaPTY env wd r =
        9.3e-2 + 1.8e-2 * env.PPOW 10 r + 1.6e-3 * env.PPOW (env.PPOW 10 r) 2 -
          4.111e-5 * env.PPOW (env.PPOW 10 r) 3) ∧
    (0.81 + t < wd.m_Mass → wd.m_Mass ≤ 0.92 + t →
      CalculateetaPTY env wd r =
        -7.59e-2 + 1.54e-2 * env.PPOW 10 r + 4e-4 * env.PPOW (env.PPOW 10 r) 2 -
          5.905e-6 * env.PPOW (env.PPOW 10 r) 3) ∧
    (0.92 + t < wd.m_Mass →
      CalculateetaPTY env wd r =
        -0.323 + 4.1e-2 * env.PPOW 10 r - 7e-4 * env.PPOW (env.PPOW 10 r) 2 +
          4.733e-6 * env.PPOW (env.PPOW 10 r) 3) ∧
    (t = 0 →
      (wd.m_Mass ≤ 0.6 ∨ (0.6 < wd.m_Mass ∧ wd.m_Mass ≤ 0.7) ∨
        (0.7 < wd.m_Mass ∧ wd.m_Mass ≤ 0.81) ∨ (0.81 < wd.m_Mass ∧ wd.m_Mass ≤ 0.92) ∨
        0.92 < wd.m_Mass)) := by
  have hgt : ∀ x y, env.Compare x y > 0 ↔ y + t < x := by
    intro x y
    rw [gt_iff_lt, ← not_le, hcmp, not_le]
  refine ⟨?_, ?_, ?_, ?_, ?_, ?_⟩
  · intro h
    unfold CalculateetaPTY
    simp only [hcmp, h, if_true]
  · intro h1 h2
    unfold CalculateetaPTY
    have a1 : ¬ wd.m_Mass ≤ 0.6 + t := not_le.2 h1
    have a2 : wd.m_Mass > 0.6 := by linarith
    simp only [hcmp, a1, if_false, h2, a2, and_self, if_true]
  · intro h1 h2
    unfold CalculateetaPTY
    have a1 : ¬ wd.m_Mass ≤ 0.6 + t := by
      rw [not_le]
      linarith
    have a2 : ¬ wd.m_Mass ≤ 0.7 := by
      rw [not_le]
      linarith
    simp only [hcmp, hgt, a1, if_false, a2, false_and, h2, h1, and_self, if_true]
  · intro h1 h2
    unfold CalculateetaPTY
    have a1 : ¬ wd.m_Mass ≤ 0.6 + t := by
      rw [not_le]
      linarith
    have a2 : ¬ wd.m_Mass ≤ 0.7 := by
      rw [not_le]
      linarith
    have a3 : ¬ wd.m_Mass ≤ 0.81 + t := not_le.2 h1
    simp only [hcmp, hgt, a1, if_false, a2, false_and, a3, h2, h1, and_self, if_true]
  · intro h1
    unfold CalculateetaPTY
    have a1 : ¬ wd.m_Mass ≤ 0.6 + t := by
      rw [not_le]
      linarith
    have a2 : ¬ wd.m_Mass ≤ 0.7 := by
      rw [not_le]
      linarith
    have a3 : ¬ wd.m_Mass ≤ 0.81 + t := by
      rw [not_le]
      linarith
    have a4 : ¬ wd.m_Mass ≤ 0.92 + t := not_le.2 h1
    simp only [hcmp, hgt, a1, if_false, a2, false_and, a3, a4]
  · intro _
    by_cases b1 : wd.m_Mass ≤ 0.6
    · exact Or.inl b1
    · by_cases b2 : wd.m_Mass ≤ 0.7
      · exact Or.inr (Or.inl ⟨not_le.1 b1, b2⟩)
      · by_cases b3 : wd.m_Mass ≤ 0.81
        · exact Or.inr (Or.inr (Or.inl ⟨not_le.1 b2, b3⟩))
        · by_cases b4 : wd.m_Mass ≤ 0.92
          · exact Or.inr (Or.inr (Or.inr (Or.inl ⟨not_le.1 b3, b4⟩)))
          · exact Or.inr (Or.inr (Or.inr (Or.inr (not_le.1 b4))))

theorem C36_etaPTY_brackets_amended_witness :
    CalculateetaPTY (sampleWD ℝ) ⟨1, 0, 0, .HELIUM_FLASHES⟩ (-7) =
        -0.323 + 4.1e-2 * (sampleWD ℝ).PPOW 10 (-7) -
          7e-4 * (sampleWD ℝ).PPOW ((sampleWD ℝ).PPOW 10 (-7)) 2 +
          4.733e-6 * (sampleWD ℝ).PPOW ((sampleWD ℝ).PPOW 10 (-7)) 3 ∧
    CalculateetaPTY { sampleWD ℝ with Compare := toleranceCompare 5e-7 }
        ⟨0.75, 0, 0, .HELIUM_FLASHES⟩ (-7) =
      9.3e-2 + 1.8e-2 * (sampleWD ℝ).PPOW 10 (-7) +
        1.6e-3 * (sampleWD ℝ).PPOW ((sampleWD ℝ).PPOW 10 (-7)) 2 -
        4.111e-5 * (sampleWD ℝ).PPOW ((sampleWD ℝ).PPOW 10 (-7)) 3 :=
  ⟨(C36_etaPTY_brackets_amended (sampleWD ℝ) ⟨1, 0, 0, .HELIUM_FLASHES⟩ (-7) 0 (le_refl 0)
      (fun x y => by rw [add_zero]; exact exactCompare_le x y)).2.2.2.2.1 (by norm_num),
    (C36_etaPTY_brackets_amended { sampleWD ℝ with Compare := toleranceCompare 5e-7 }
      ⟨0.75, 0, 0, .HELIUM_FLASHES⟩ (-7) 5e-7 (by norm_num)
      (fun x y => toleranceCompare_le 5e-7 x y (by norm_num))).2.2.1
      (by norm_num) (by norm_num)⟩

/-! ## Fields with trailing characters -/

section TrailingCharacters

variable {V : Type} [LinearOrder V] [Zero V]

theorem zip_getElem?_of_mem (hdr toks : List Str) (p : Str × Str) (hp : p ∈ hdr.zip toks) :
    ∃ j : Nat, hdr[j]? = some p.1 ∧ toks[j]? = some p.2 := by
  obtain ⟨j, hj⟩ := List.mem_iff_getElem?.1 hp
  exact ⟨j, List.getElem?_zip_eq_some.1 hj⟩

theorem takeDigits_append (junk : Str) (hj : ∀ c, junk.head? = some c → c.isDigit = false)
    (s : Str) (acc n : Nat) :
    takeDigits (s ++ junk) acc n =
      ((takeDigits s acc n).1, (takeDigits s acc n).2.1, (takeDigits s acc n).2.2 ++ junk) := by
  induction s generalizing acc n with
  | nil =>
    cases junk with
    | nil => rfl
    | cons c cs =>
      have := hj c rfl
      simp [takeDigits, this]
  | cons c cs ih =>
    simp only [List.cons_append, takeDigits]
    split
    · exact ih _ _
    · rfl

theorem takeSign_append (junk : Str) (c : Char) (r : Str) :
    takeSign (c :: r ++ junk) = ((takeSign (c :: r)).1, (takeSign (c :: r)).2 ++ junk) := by
  by_cases h1 : c = '-'
  · subst h1
    rfl
  · by_cases h2 : c = '+'
    · subst h2
      rfl
    · have e : ∀ t : Str, takeSign (c :: t) = (false, c :: t) := by
        intro t
        unfold takeSign
        split
        · rename_i heq
          exact absurd (List.cons.inj heq).1 h1
        · rename_i heq
          exact absurd (List.cons.inj heq).1 h2
        · rfl
      rw [List.cons_append, e, e]
      rfl

theorem takeFraction_append (junk : Str)
    (hj : ∀ c, junk.head? = some c → c.isDigit = false ∧ c ≠ '.') (s : Str) :
    takeFraction (s ++ junk) =
      ((takeFraction s).1, (takeFraction s).2.1, (takeFraction s).2.2 ++ junk) := by
  have hd : ∀ c, junk.head? = some c → c.isDigit = false := fun c h => (hj c h).1
  have e : ∀ (c : Char) (t : Str), c ≠ '.' → takeFraction (c :: t) = (0, 0, c :: t) := by
    intro c t hc
    unfold takeFraction
    split
    · rename_i heq
      exact absurd (List.cons.inj heq).1 hc
    · rfl
  cases s with
  | nil =>
    cases junk with
    | nil => rfl
    | cons c cs =>
      rw [List.nil_append, e c cs (hj c rfl).2]
      rfl
  | cons c r =>
    by_cases h1 : c = '.'
    · subst h1
      exact takeDigits_append junk hd r 0 0
    · rw [List.cons_append, e c _ h1, e c _ h1]
      rfl

theorem parseExponent_append (junk : Str) (hj : ∀ c, junk.head? = some c → c.isDigit = false)
    (m : ℚ) (r : Str) (v : ℚ) (h : parseExponent m r = some v) :
    parseExponent m (r ++ junk) = some v := by
  cases r with
  | nil => simp [parseExponent, takeSign, takeDigits] at h
  | cons c r =>
    unfold parseExponent at h ⊢
    rw [takeSign_append]
    simp only [takeDigits_append junk hj]
    exact h

theorem parseTail_append (junk : Str)
    (hj : ∀ c, junk.head? = some c → c.isDigit = false ∧ c ≠ 'e' ∧ c ≠ 'E')
    (m : ℚ) (s : Str) (v : ℚ) (h : parseTail m s = some v) :
    parseTail m (s ++ junk) = some v := by
  have hd : ∀ c, junk.head? = some c → c.isDigit = false := fun c h => (hj c h).1
  have e : ∀ (c : Char) (t : Str), c ≠ 'e' → c ≠ 'E' → parseTail m (c :: t) = some m := by
    intro c t h1 h2
    unfold parseTail
    split
    · rename_i heq
      exact absurd (List.cons.inj heq).1 h1
    · rename_i heq
      exact absurd (List.cons.inj heq).1 h2
    · rfl
  cases s with
  | nil =>
    have hv : some m = some v := h
    cases junk with
    | nil => exact h
    | cons c cs =>
      rw [List.nil_append, e c cs (hj c rfl).2.1 (hj c rfl).2.2]
      exact hv
  | cons c r =>
    by_cases h1 : c = 'e'
    · subst h1
      exact parseExponent_append junk hd m r v h
    · by_cases h2 : c = 'E'
      · subst h2
        exact parseExponent_append junk hd m r v h
      · rw [List.cons_append, e c _ h1 h2]
        rw [e c _ h1 h2] at h
        exact h

/-- The characters after a numeral are left alone by the decimal reader: when `num` reads
as `v` and the first of the following characters is not a digit, a decimal point, `e` or
`E`, then `num` followed by them reads as `v` too. -/
theorem parseDecimal_append (num junk : Str) (v : ℚ)
    (hj : ∀ c, junk.head? = some c → c.isDigit = false ∧ c ≠ '.' ∧ c ≠ 'e' ∧ c ≠ 'E')
    (h : parseDecimal num = some v) : parseDecimal (num ++ junk) = some v := by
  have hd : ∀ c, junk.head? = some c → c.isDigit = false := fun c h => (hj c h).1
  cases num with
  | nil => simp [parseDecimal, takeSign, takeDigits, takeFraction] at h
  | cons c r =>
    unfold parseDecimal at h ⊢
    rw [takeSign_append]
    simp only [takeDigits_append junk hd,
      takeFraction_append junk (fun c hc => ⟨(hj c hc).1, (hj c hc).2.1⟩)]
    simp only at h
    split
    · rename_i h0
      rw [if_pos h0] at h
      exact absurd h (by simp)
    · rename_i h0
      rw [if_neg h0] at h
      exact parseTail_append junk (fun c hc => ⟨(hj c hc).1, (hj c hc).2.2⟩) _ _ v h

theorem zip_mem_of_getElem?_pair (hdr toks : List Str) (j : Nat) (name t : Str)
    (h1 : hdr[j]? = some name) (h2 : toks[j]? = some t) : (name, t) ∈ hdr.zip toks :=
  List.mem_iff_getElem?.2 ⟨j, List.getElem?_zip_eq_some.2 ⟨h1, h2⟩⟩

end TrailingCharacters

/-! ## Skipped lines and comments -/

section
variable {V : Type} [LinearOrder V] [Zero V]

theorem afterLine_standsAt (g : IfStream) (blanks : List Str) (line : Str) (tail : Option Str)
    (hg : g.good) (hu : g.unread = fileText blanks line tail) :
    (g.afterLine (blanksLength blanks) line.length tail.isNone).standsAt tail := by
  cases tail with
  | none => rfl
  | some t =>
    obtain ⟨h1, h2, h3⟩ := hg
    refine ⟨⟨h1, h2, h3⟩, ?_⟩
    show g.content.drop (g.pos + blanksLength blanks + line.length + 1) = t
    unfold IfStream.unread at hu
    have e : g.pos + blanksLength blanks + line.length + 1 =
        g.pos + (blanksLength blanks + (line.length + 1)) := by omega
    rw [e, ← List.drop_drop, hu, ← List.drop_drop, fileText_drop]
    simp [fileText]

theorem afterLine_fail (g : IfStream) (off len : Nat) (e : Bool) (hg : g.good) :
    (g.afterLine off len e).fail = false := by
  obtain ⟨-, -, h3⟩ := hg
  unfold IfStream.afterLine IfStream.fail
  cases e <;> exact h3

theorem getline_eof (g : IfStream) (h : g.eofbit = true) :
    g.getline = (none, { g with failbit := true }) := by
  unfold IfStream.getline
  simp [h]

theorem getline_empty (g : IfStream) (hg : g.good) (hu : g.unread = []) :
    g.getline = (none, { g with eofbit := true, failbit := true }) := by
  obtain ⟨h1, h2, h3⟩ := hg
  unfold IfStream.unread at hu
  unfold IfStream.getline
  simp [h1, h2, h3, hu]

/-- The record loop of `ReadSSEGridRecord` on a stream with nothing but skipped lines left:
the read fails, the values are untouched, and the line number has advanced by the number of
lines read. -/
theorem sseRecordLoop_exhausted (env : Env V) (hdr : List Str) (bs : List Str) (b : Str)
    (hb : ∀ x ∈ bs, SkippedLine x) (hb2 : SkippedLine b) :
    ∀ (fuel : Nat) (g : IfStream) (lineNo : Nat) (gv : List V), g.good →
      g.unread = fileText bs b none → bs.length + 1 < fuel →
      (sseRecordLoop env hdr fuel g lineNo gv).1.fail = true ∧
      (sseRecordLoop env hdr fuel g lineNo gv).2 =
        (lineNo + bs.length + (if b = [] then 0 else 1), false, gv) := by
  induction bs with
  | nil =>
    intro fuel g lineNo gv hg hu hf
    obtain ⟨fuel, rfl⟩ : ∃ k, fuel = k + 2 := ⟨fuel - 2, by simp at hf; omega⟩
    have hu1 : g.unread = b := by simpa [fileText] using hu
    by_cases hbe : b = []
    · subst hbe
      have h1 := getline_empty g hg hu1
      simp only [sseRecordLoop, h1]
      exact ⟨rfl, by simp⟩
    · have h1 := getline_last g hg b hu1 hb2.1 hbe
      have h2 : (g.afterLine 0 b.length true).getline =
          (none, { g.afterLine 0 b.length true with failbit := true }) :=
        getline_eof _ (by simp [IfStream.afterLine])
      simp only [sseRecordLoop, h1, hb2.2, List.isEmpty_nil, if_true, h2]
      exact ⟨rfl, by simp [hbe]⟩
  | cons b0 bs ih =>
    intro fuel g lineNo gv hg hu hf
    obtain ⟨fuel, rfl⟩ : ∃ k, fuel = k + 1 := ⟨fuel - 1, by simp at hf; omega⟩
    have hb0 := hb b0 (by simp)
    have hu1 : g.unread = b0 ++ '\n' :: fileText bs b none := by simpa [fileText] using hu
    obtain ⟨h1, h2, h3⟩ := getline_newline g hg b0 _ hu1 hb0.1
    obtain ⟨i1, i2⟩ := ih (fun x hx => hb x (by simp [hx])) fuel (g.afterLine 0 b0.length false)
      (lineNo + 1) gv h2 h3 (by simp at hf; omega)
    simp only [sseRecordLoop, h1, hb0.2, List.isEmpty_nil, if_true]
    refine ⟨i1, ?_⟩
    rw [i2]
    simp only [List.length_cons, Prod.mk.injEq, and_true]
    omega

theorem bseRecordLoop_exhausted (env : Env V) (hdr : List Str) (bs : List Str) (b : Str)
    (hb : ∀ x ∈ bs, SkippedLine x) (hb2 : SkippedLine b) :
    ∀ (fuel : Nat) (g : IfStream) (lineNo : Nat) (gv : List V), g.good →
      g.unread = fileText bs b none → bs.length + 1 < fuel →
      ∃ g1, g1.fail = true ∧
        bseRecordLoop env hdr fuel g lineNo gv =
          some (g1, lineNo + bs.length + (if b = [] then 0 else 1), false, gv) := by
  induction bs with
  | nil =>
    intro fuel g lineNo gv hg hu hf
    obtain ⟨fuel, rfl⟩ : ∃ k, fuel = k + 2 := ⟨fuel - 2, by simp at hf; omega⟩
    have hu1 : g.unread = b := by simpa [fileText] using hu
    by_cases hbe : b = []
    · subst hbe
      have h1 := getline_empty g hg hu1
      simp only [bseRecordLoop, h1]
      exact ⟨{ g with eofbit := true, failbit := true }, rfl, by simp⟩
    · have h1 := getline_last g hg b hu1 hb2.1 hbe
      have h2 : (g.afterLine 0 b.length true).getline =
          (none, { g.afterLine 0 b.length true with failbit := true }) :=
        getline_eof _ (by simp [IfStream.afterLine])
      simp only [bseRecordLoop, h1, hb2.2, List.isEmpty_nil, if_true, h2]
      exact ⟨{ g.afterLine 0 b.length true with failbit := true }, rfl, by simp [hbe]⟩
  | cons b0 bs ih =>
    intro fuel g lineNo gv hg hu hf
    obtain ⟨fuel, rfl⟩ : ∃ k, fuel = k + 1 := ⟨fuel - 1, by simp at hf; omega⟩
    have hb0 := hb b0 (by simp)
    have hu1 : g.unread = b0 ++ '\n' :: fileText bs b none := by simpa [fileText] using hu
    obtain ⟨h1, h2, h3⟩ := getline_newline g hg b0 _ hu1 hb0.1
    obtain ⟨g1, i1, i2⟩ := ih (fun x hx => hb x (by simp [hx])) fuel
      (g.afterLine 0 b0.length false) (lineNo + 1) gv h2 h3 (by simp at hf; omega)
    simp only [bseRecordLoop, h1, hb0.2, List.isEmpty_nil, if_true]
    refine ⟨g1, i1, ?_⟩
    rw [i2]
    simp only [List.length_cons, Option.some.injEq, Prod.mk.injEq, true_and, and_true]
    omega

/-- `ReadSSEGridRecord` on a stream that stands after the last row: the read fails and the
vector returned is not empty. -/
theorem ReadSSEGridRecord_exhausted (env : Env V) (hdr : List Str)
    (t : Option (List Str × Str)) (g : IfStream) (lineNo : Nat)
    (ht : ∀ p, t = some p → (∀ b ∈ p.1, SkippedLine b) ∧ SkippedLine p.2)
    (hg : g.standsAt (trailingText t)) :
    (ReadSSEGridRecord env g hdr lineNo).1.fail = true ∧
    (ReadSSEGridRecord env g hdr lineNo).2.2 = [0, 0] ∧
    (ReadSSEGridRecord env g hdr lineNo).2.1 =
      lineNo + trailingLines t := by
  cases t with
  | none =>
    have he : g.eofbit = true := hg
    have h1 := getline_eof g he
    unfold ReadSSEGridRecord
    simp only [sseRecordLoop, h1]
    exact ⟨rfl, rfl, rfl⟩
  | some p =>
    obtain ⟨hg1, hu⟩ : g.good ∧ g.unread = fileText p.1 p.2 none := hg
    obtain ⟨hb, hb2⟩ := ht p rfl
    have hf : p.1.length + 1 < g.content.length + 2 := by
      have h1 := blanks_le_fileText p.1 p.2 none
      have h2 := unread_length_le g
      rw [hu] at h2
      omega
    obtain ⟨i1, i2⟩ := sseRecordLoop_exhausted env hdr p.1 p.2 hb hb2 _ g lineNo [0, 0] hg1 hu hf
    unfold ReadSSEGridRecord
    generalize sseRecordLoop env hdr (g.content.length + 2) g lineNo [0, 0] = r at i1 i2
    obtain ⟨r1, r2, r3, r4⟩ := r
    simp only [Prod.mk.injEq] at i2
    obtain ⟨e2, e3, e4⟩ := i2
    subst e2 e3 e4
    exact ⟨i1, rfl, Nat.add_assoc _ _ _⟩

theorem ReadBSEGridRecord_exhausted (env : Env V) (hdr : List Str)
    (t : Option (List Str × Str)) (g : IfStream) (lineNo : Nat)
    (ht : ∀ p, t = some p → (∀ b ∈ p.1, SkippedLine b) ∧ SkippedLine p.2)
    (hg : g.standsAt (trailingText t)) :
    ∃ g1, g1.fail = true ∧
      ReadBSEGridRecord env g hdr lineNo =
        some (g1, lineNo + trailingLines t,
          if hdr.length = 6 then List.replicate 6 0 else List.replicate 14 0) := by
  cases t with
  | none =>
    have he : g.eofbit = true := hg
    have h1 := getline_eof g he
    unfold ReadBSEGridRecord
    simp only [bseRecordLoop, h1]
    exact ⟨{ g with failbit := true }, rfl, rfl⟩
  | some p =>
    obtain ⟨hg1, hu⟩ : g.good ∧ g.unread = fileText p.1 p.2 none := hg
    obtain ⟨hb, hb2⟩ := ht p rfl
    have hf : p.1.length + 1 < g.content.length + 2 := by
      have h1 := blanks_le_fileText p.1 p.2 none
      have h2 := unread_length_le g
      rw [hu] at h2
      omega
    obtain ⟨g1, i1, i2⟩ := bseRecordLoop_exhausted env hdr p.1 p.2 hb hb2 _ g lineNo
      (if hdr.length = 6 then List.replicate 6 0 else List.replicate 14 0) hg1 hu hf
    unfold ReadBSEGridRecord
    simp only []
    rw [i2]
    exact ⟨g1, i1, by simp [trailingLines, Nat.add_assoc]⟩
end

section
variable {V : Type} [LinearOrderedField V]

/-- The successive reads of `ReadSSEGridRecord` over the data part of a grid file return
what the normalised data lines determine: the lines skipped do not matter. -/
theorem sseRows_rowsText (env : Env V) (hdr : List Str) (t : Option (List Str × Str))
    (ht : ∀ p, t = some p → (∀ b ∈ p.1, SkippedLine b) ∧ SkippedLine p.2) :
    ∀ (rows : List (List Str × Str)) (fuel : Nat) (g : IfStream) (lineNo : Nat),
      rows.length < fuel →
      (∀ r ∈ rows, (∀ b ∈ r.1, SkippedLine b) ∧ DataLine r.2) →
      g.standsAt (rowsText rows (trailingText t)) →
      sseRows env hdr fuel g lineNo =
        sseRowsOf env hdr (rows.map (fun r => normRecord r.2)) := by
  intro rows
  induction rows with
  | nil =>
    intro fuel g lineNo hf _ hg
    obtain ⟨fuel, rfl⟩ : ∃ k, fuel = k + 1 := ⟨fuel - 1, by simp at hf; omega⟩
    obtain ⟨e1, e2, -⟩ := ReadSSEGridRecord_exhausted env hdr t g lineNo ht hg
    unfold sseRows
    simp only [e1, e2, Bool.true_or, if_true]
    rfl
  | cons r rows ih =>
    intro fuel g lineNo hf hr hg
    obtain ⟨fuel, rfl⟩ : ∃ k, fuel = k + 1 := ⟨fuel - 1, by simp at hf; omega⟩
    obtain ⟨hg1, hu⟩ : g.good ∧ g.unread = fileText r.1 r.2 (rowsText rows (trailingText t)) :=
      hg
    obtain ⟨hb, hl, hne⟩ := hr r (by simp)
    have e := ReadSSEGridRecord_fileText env hdr r.1 r.2 _ g lineNo hg1 hu hb hl hne
    have hst := afterLine_standsAt g r.1 r.2 _ hg1 hu
    have hfl := afterLine_fail g (blanksLength r.1) r.2.length
      (rowsText rows (trailingText t)).isNone hg1
    have ih1 := ih fuel _ (lineNo + r.1.length + 1) (by simp at hf; omega)
      (fun x hx => hr x (by simp [hx])) hst
    unfold sseRows
    simp only [e, hfl, Bool.false_or, ih1, List.map_cons, sseRowsOf]
    generalize (if (sseRecord env hdr (normRecord r.2) [0, 0]).1 = true then []
      else (sseRecord env hdr (normRecord r.2) [0, 0]).2) = gV
    cases h : gV.isEmpty <;> simp [h]

theorem bseRows_rowsText (env : Env V) (hdr : List Str) (t : Option (List Str × Str))
    (ht : ∀ p, t = some p → (∀ b ∈ p.1, SkippedLine b) ∧ SkippedLine p.2) :
    ∀ (rows : List (List Str × Str)) (fuel : Nat) (g : IfStream) (lineNo : Nat),
      rows.length < fuel →
      (∀ r ∈ rows, (∀ b ∈ r.1, SkippedLine b) ∧ DataLine r.2) →
      g.standsAt (rowsText rows (trailingText t)) →
      bseRows env hdr fuel g lineNo =
        bseRowsOf env hdr (rows.map (fun r => normRecord r.2)) := by
  intro rows
  induction rows with
  | nil =>
    intro fuel g lineNo hf _ hg
    obtain ⟨fuel, rfl⟩ : ∃ k, fuel = k + 1 := ⟨fuel - 1, by simp at hf; omega⟩
    obtain ⟨g1, e1, e2⟩ := ReadBSEGridRecord_exhausted env hdr t g lineNo ht hg
    unfold bseRows
    simp only [e2, e1, Bool.true_or, if_true]
    have hn : (if hdr.length = 6 then List.replicate 6 (0 : V)
        else List.replicate 14 0).isEmpty = false := by
      split <;> rfl
    simp only [hn, Bool.false_eq_true, if_false]
    rfl
  | cons r rows ih =>
    intro fuel g lineNo hf hr hg
    obtain ⟨fuel, rfl⟩ : ∃ k, fuel = k + 1 := ⟨fuel - 1, by simp at hf; omega⟩
    obtain ⟨hg1, hu⟩ : g.good ∧ g.unread = fileText r.1 r.2 (rowsText rows (trailingText t)) :=
      hg
    obtain ⟨hb, hl, hne⟩ := hr r (by simp)
    have e := ReadBSEGridRecord_fileText env hdr r.1 r.2 _ g lineNo hg1 hu hb hl hne
    have hst := afterLine_standsAt g r.1 r.2 _ hg1 hu
    have hfl := afterLine_fail g (blanksLength r.1) r.2.length
      (rowsText rows (trailingText t)).isNone hg1
    have ih1 := ih fuel _ (lineNo + r.1.length + 1) (by simp at hf; omega)
      (fun x hx => hr x (by simp [hx])) hst
    unfold bseRows
    rw [e]
    simp only [List.map_cons, bseRowsOf]
    cases hx : bseRecord env hdr (normRecord r.2)
        (if hdr.length = 6 then List.replicate 6 0 else List.replicate 14 0) with
    | none => simp
    | some x =>
      simp only [Option.map_some', hfl, Bool.false_or, ih1]
      generalize (if x.1 = true then [] else x.2) = gV
      cases h : gV.isEmpty <;> simp [h]
end
theorem pruneComment_append_comment (line c : Str) :
    pruneComment (line ++ '#' :: c) = pruneComment line := by
  unfold pruneComment
  induction line with
  | nil => simp [List.takeWhile]
  | cons a l ih =>
    by_cases ha : a = '#'
    · subst ha
      simp [List.takeWhile]
    · have hb : (a != '#') = true := by simp [ha]
      simp only [List.cons_append, List.takeWhile_cons, hb, if_true, ih]

theorem normRecord_append_comment (line c : Str) :
    normRecord (line ++ '#' :: c) = normRecord line := by
  unfold normRecord
  rw [pruneComment_append_comment]

theorem normHeader_append_comment (line c : Str) :
    normHeader (line ++ '#' :: c) = normHeader line := by
  unfold normHeader
  rw [pruneComment_append_comment]

theorem pruneComment_spaces (k : Nat) :
    pruneComment (List.replicate k ' ') = List.replicate k ' ' := by
  unfold pruneComment
  rw [List.takeWhile_eq_self_iff]
  intro x hx
  rw [List.eq_of_mem_replicate hx]
  decide

theorem trimToken_spaces (k : Nat) : trimToken (List.replicate k ' ') = [] := by
  unfold trimToken stripLeading
  have : List.dropWhile (fun c => c == ' ') (List.replicate k ' ') = [] := by
    rw [List.dropWhile_eq_nil_iff]
    intro x hx
    rw [List.eq_of_mem_replicate hx]
    decide
  rw [this]
  rfl

theorem normRecord_spaces (k : Nat) : normRecord (List.replicate k ' ') = [] := by
  unfold normRecord
  rw [pruneComment_spaces]
  have : tabsToSpaces (List.replicate k ' ') = List.replicate k ' ' := by
    unfold tabsToSpaces
    rw [List.map_replicate]
    rfl
  rw [this, trimToken_spaces]

theorem normHeader_spaces (k : Nat) : normHeader (List.replicate k ' ') = [] := by
  unfold normHeader
  rw [pruneComment_spaces, trimToken_spaces]

theorem newline_not_mem_spaces (k : Nat) : '\n' ∉ List.replicate k ' ' := by
  intro h
  have := List.eq_of_mem_replicate h
  exact absurd this (by decide)

/-- Header tokens depend on the normalised header line only. -/
theorem headerTokens_normHeader (line line' : Str) (h : normHeader line' = normHeader line) :
    headerTokens line' = headerTokens line := by
  unfold headerTokens
  rw [h]
section
variable {V : Type} [LinearOrderedField V]

/-- C34: lines that are empty, hold only spaces or hold only a comment are skipped by the
readers, and a comment appended to a line does not change what is left of the line. For two
grid files whose first line left non-empty by the header parsers is the same up to a
comment, `OpenSSEGridFile` and `OpenBSEGridFile` agree on the open state and on the header
list, and the line number returned is two more than the number of lines skipped. For two
data parts whose data lines are the same after the normalisation, whatever lines are skipped
before, between and after them, the successive calls of `ReadSSEGridRecord` and of
`ReadBSEGridRecord` return the same value vectors and end with the same status. A record
read that finds a data line returns `p_LineNo` plus the number of lines skipped plus one, and
one that finds none returns `p_LineNo` plus the number of lines read. -/
theorem C34_skipped_lines_and_comments (env env' : Env V) (hdrS hdrB : List Str) :
    ((∀ (k : Nat) (c : Str), '\n' ∉ c →
        SkippedLine (List.replicate k ' ') ∧ SkippedLine (List.replicate k ' ' ++ '#' :: c) ∧
        normHeader (List.replicate k ' ') = [] ∧
        normHeader (List.replicate k ' ' ++ '#' :: c) = []) ∧
      (∀ (line c : Str), normRecord (line ++ '#' :: c) = normRecord line ∧
        normHeader (line ++ '#' :: c) = normHeader line)) ∧
    (∀ (blanks blanks' : List Str) (line line' : Str) (tail tail' : Option Str),
      env.gridFilename ≠ [] → env'.gridFilename ≠ [] →
      env.gridFile = some (fileText blanks line tail) →
      env'.gridFile = some (fileText blanks' line' tail') →
      (∀ b ∈ blanks, '\n' ∉ b ∧ normHeader b = []) →
      (∀ b ∈ blanks', '\n' ∉ b ∧ normHeader b = []) →
      '\n' ∉ line → '\n' ∉ line' → normHeader line ≠ [] →
      normHeader line' = normHeader line →
      ((OpenSSEGridFile env' IfStream.fresh).1.isOpen =
          (OpenSSEGridFile env IfStream.fresh).1.isOpen ∧
        (OpenSSEGridFile env' IfStream.fresh).2.2 = (OpenSSEGridFile env IfStream.fresh).2.2 ∧
        (OpenSSEGridFile env IfStream.fresh).2.1 = blanks.length + 2 ∧
        (OpenSSEGridFile env' IfStream.fresh).2.1 = blanks'.length + 2) ∧
      ((OpenBSEGridFile env' IfStream.fresh).1.isOpen =
          (OpenBSEGridFile env IfStream.fresh).1.isOpen ∧
        (OpenBSEGridFile env' IfStream.fresh).2.2 = (OpenBSEGridFile env IfStream.fresh).2.2 ∧
        (OpenBSEGridFile env IfStream.fresh).2.1 = blanks.length + 2 ∧
        (OpenBSEGridFile env' IfStream.fresh).2.1 = blanks'.length + 2)) ∧
    (∀ (rows rows' : List (List Str × Str)) (t t' : Option (List Str × Str))
      (g g' : IfStream) (lineNo lineNo' fuel fuel' : Nat),
      GridBody rows t → GridBody rows' t' →
      g.standsAt (rowsText rows (trailingText t)) →
      g'.standsAt (rowsText rows' (trailingText t')) →
      rows.length < fuel → rows'.length < fuel' →
      rows'.map (fun r => normRecord r.2) = rows.map (fun r => normRecord r.2) →
      sseRows env hdrS fuel' g' lineNo' = sseRows env hdrS fuel g lineNo ∧
      bseRows env hdrB fuel' g' lineNo' = bseRows env hdrB fuel g lineNo) ∧
    (∀ (blanks : List Str) (line : Str) (tail : Option Str) (g : IfStream) (lineNo : Nat),
      g.good → g.unread = fileText blanks line tail →
      (∀ b ∈ blanks, SkippedLine b) → DataLine line →
      (ReadSSEGridRecord env g hdrS lineNo).2.1 = lineNo + blanks.length + 1 ∧
      ∀ r, ReadBSEGridRecord env g hdrB lineNo = some r →
        r.2.1 = lineNo + blanks.length + 1) ∧
    (∀ (t : Option (List Str × Str)) (g : IfStream) (lineNo : Nat),
      GridBody [] t → g.standsAt (trailingText t) →
      (ReadSSEGridRecord env g hdrS lineNo).2.1 = lineNo + trailingLines t ∧
      ∀ r, ReadBSEGridRecord env g hdrB lineNo = some r →
        r.2.1 = lineNo + trailingLines t) := by
  refine ⟨⟨?_, fun line c => ⟨normRecord_append_comment line c,
    normHeader_append_comment line c⟩⟩, ?_, ?_, ?_, ?_⟩
  · intro k c hc
    refine ⟨⟨newline_not_mem_spaces k, normRecord_spaces k⟩, ⟨?_, ?_⟩, normHeader_spaces k, ?_⟩
    · intro h
      rcases List.mem_append.1 h with h | h
      · exact newline_not_mem_spaces k h
      · rcases List.mem_cons.1 h with h | h
        · exact absurd h (by decide)
        · exact hc h
    · rw [normRecord_append_comment, normRecord_spaces]
    · rw [normHeader_append_comment, normHeader_spaces]
  · intro blanks blanks' line line' tail tail' hname hname' hfile hfile' hb hb' hl hl' hne hsame
    have hne' : normHeader line' ≠ [] := by rw [hsame]; exact hne
    have ht := headerTokens_normHeader line line' hsame
    rw [OpenSSEGridFile_fileText env blanks line tail hname hfile hb hl hne,
      OpenSSEGridFile_fileText env' blanks' line' tail' hname' hfile' hb' hl' hne',
      OpenBSEGridFile_fileText env blanks line tail hname hfile hb hl hne,
      OpenBSEGridFile_fileText env' blanks' line' tail' hname' hfile' hb' hl' hne', ht]
    refine ⟨?_, ?_⟩
    · split
      · split
        · exact ⟨rfl, rfl, rfl, rfl⟩
        · exact ⟨by simp only [seekg_isOpen, afterLine_isOpen], rfl, rfl, rfl⟩
      · exact ⟨by simp only [afterLine_isOpen], rfl, rfl, rfl⟩
    · have hc : (bseCounts (headerTokens line) (blanks'.length + 2)).requiredOk =
          (bseCounts (headerTokens line) (blanks.length + 2)).requiredOk ∧
          (bseCounts (headerTokens line) (blanks'.length + 2)).kicksOk =
          (bseCounts (headerTokens line) (blanks.length + 2)).kicksOk := ⟨rfl, rfl⟩
      rw [hc.1, hc.2]
      split
      · exact ⟨rfl, rfl, rfl, rfl⟩
      · exact ⟨by simp only [afterLine_isOpen], rfl, rfl, rfl⟩
  · intro rows rows' t t' g g' lineNo lineNo' fuel fuel' hbody hbody' hg hg' hf hf' hsame
    rw [sseRows_rowsText env hdrS t hbody.2 rows fuel g lineNo hf hbody.1 hg,
      sseRows_rowsText env hdrS t' hbody'.2 rows' fuel' g' lineNo' hf' hbody'.1 hg',
      bseRows_rowsText env hdrB t hbody.2 rows fuel g lineNo hf hbody.1 hg,
      bseRows_rowsText env hdrB t' hbody'.2 rows' fuel' g' lineNo' hf' hbody'.1 hg', hsame]
    exact ⟨rfl, rfl⟩
  · intro blanks line tail g lineNo hg hu hb hl
    refine ⟨?_, ?_⟩
    · rw [ReadSSEGridRecord_fileText env hdrS blanks line tail g lineNo hg hu hb hl.1 hl.2]
    · intro r hr
      rw [ReadBSEGridRecord_fileText env hdrB blanks line tail g lineNo hg hu hb hl.1 hl.2]
        at hr
      cases hx : bseRecord env hdrB (normRecord line)
          (if hdrB.length = 6 then List.replicate 6 0 else List.replicate 14 0) with
      | none => rw [hx] at hr; exact absurd hr (by simp)
      | some x =>
        rw [hx] at hr
        simp only [Option.map_some', Option.some.injEq] at hr
        rw [← hr]
  · intro t g lineNo hbody hg
    refine ⟨(ReadSSEGridRecord_exhausted env hdrS t g lineNo hbody.2 hg).2.2, ?_⟩
    intro r hr
    obtain ⟨g1, -, e⟩ := ReadBSEGridRecord_exhausted env hdrB t g lineNo hbody.2 hg
    rw [e] at hr
    simp only [Option.some.injEq] at hr
    rw [← hr]
end
theorem C34_skipped_lines_and_comments_witness :
    sseRows (ratEnv none 0) [sMASS, sMETALLICITY] 3
        (streamOn ((rowsText demoBodyRowsSpaced
          (trailingText (some (["  ".toList], [])))).getD [])) 7 =
      ([[3 / 2, 1 / 50], [2, 1 / 100]], EVOLUTION_STATUS.DONE) :=
  ((C34_skipped_lines_and_comments (ratEnv none 0) (ratEnv none 0) [sMASS, sMETALLICITY]
      demoBSEHeaders).2.2.1 demoBodyRows demoBodyRowsSpaced (some ([], []))
      (some (["  ".toList], []))
      (streamOn ((rowsText demoBodyRows (trailingText (some ([], [])))).getD []))
      (streamOn ((rowsText demoBodyRowsSpaced
        (trailingText (some (["  ".toList], [])))).getD []))
      2 7 3 3
      ⟨by decide, fun p hp => by cases hp; exact ⟨by decide, by decide⟩⟩
      ⟨by decide, fun p hp => by cases hp; exact ⟨by decide, by decide⟩⟩
      (show (streamOn _).good ∧ (streamOn _).unread = _ from ⟨streamOn_good _, rfl⟩)
      (show (streamOn _).good ∧ (streamOn _).unread = _ from ⟨streamOn_good _, rfl⟩)
      (by decide) (by decide) (by decide)).1.trans (by decide!)

end COMPAS
